import Mathlib

/-!
# mdarray: the trajectory engine of `mdarray/trajectory.c`

A shallow embedding of the `Trajectory` type of the `mdarray` Python extension
(`Trajectory_new`, `Trajectory_init`, `Trajectory_read`, `Trajectory_write` and the
per-format helpers they call) together with theorems about it.

Conventions of the embedding.

* A stream (`FILE *`) is the byte content of the file together with a cursor.  Output
  written through a stream is appended to its content.
* The type `ARRAY_REAL` of mdarray.h (that header is not among the sources) is idealised: a
  value is an exact fraction `num / den`, arithmetic on it is exact, `printf` rounds the exact
  value it is handed and `atof` parses a decimal numeral exactly.  A denominator 0 stands for
  an infinity or a NaN.
* Where the source declares a variable `float` (the unit factor of `read_frame_from_xyz`, the
  coordinates, velocities and box of `write_frame_to_gro`) the value is rounded to IEEE 754
  binary32 (`toFloat`), and a `double` operation on such a value to binary64 (`toDouble`).
  The conversion `(double)` of an `ARRAY_REAL` in `write_frame_to_xyz`, exact in C for either
  floating type the header may name, leaves the value as it is.
* The C type `int` of the session fields is idealised as an unbounded integer; the
  conversions `sscanf("%d")` and `atoi` deliver the 32-bit `int` the C library stores.
* A dereference the C standard leaves undefined (a NULL stream, an uninitialised pointer,
  an index before the start of a buffer) is the distinguished result `fault`.
* `malloc` succeeds for every non-negative element count and fails for a negative one (the
  byte count then wraps around to a huge unsigned value).
-/

namespace MDArray

/-! ## Real numbers -/

/-- The element type of the coordinate arrays, an exact fraction `num / den`. -/
structure ARRAY_REAL where
  num : Int
  den : Nat
deriving DecidableEq, Repr

namespace ARRAY_REAL

/-- The rational number a value stands for. -/
def toRat (x : ARRAY_REAL) : ℚ := (x.num : ℚ) / (x.den : ℚ)

def ofInt (n : Int) : ARRAY_REAL := ⟨n, 1⟩

def zero : ARRAY_REAL := ⟨0, 1⟩

def mul (x y : ARRAY_REAL) : ARRAY_REAL := ⟨x.num * y.num, x.den * y.den⟩

def div (x y : ARRAY_REAL) : ARRAY_REAL :=
  ⟨x.num * Int.sign y.num * (y.den : Int), x.den * y.num.natAbs⟩

def sub (x y : ARRAY_REAL) : ARRAY_REAL :=
  ⟨x.num * (y.den : Int) - y.num * (x.den : Int), x.den * y.den⟩

/-- The C function `fabs`. -/
def fabs (x : ARRAY_REAL) : ARRAY_REAL := ⟨(x.num.natAbs : Int), x.den⟩

/-- The C function `floor`, as an integer. -/
def floor (x : ARRAY_REAL) : Int := x.num / (x.den : Int)

/-- The comparison `x > y` of C. -/
def gt (x y : ARRAY_REAL) : Bool := decide (y.num * (x.den : Int) < x.num * (y.den : Int))

/-- The literal `10.0`. -/
def ten : ARRAY_REAL := ⟨10, 1⟩

end ARRAY_REAL

/-! ## The C library: characters, strings, conversions -/

/-- The terminator of a C string. -/
def NUL : Char := Char.ofNat 0

/-- The C function `isspace` in the C locale. -/
def isspace (c : Char) : Bool :=
  c == ' ' || c == '\t' || c == '\n' || c == Char.ofNat 11 || c == Char.ofNat 12 || c == '\r'

/-- The C function `isdigit`. -/
def isdigit (c : Char) : Bool := decide (48 ≤ c.toNat) && decide (c.toNat ≤ 57)

/-- The C string held in a buffer: the bytes before the first NUL. -/
def cstr (buf : List Char) : List Char := buf.takeWhile (fun c => c != NUL)

/-- The effect of `buffer[strlen(buffer)-1] = 0`: the C string loses its last character.  On
an empty string the store lands before the buffer, which is undefined: `none`. -/
def chopLast (s : List Char) : Option (List Char) :=
  if s = [] then none else some s.dropLast

/-- The value of a decimal digit string. -/
def digitsToNat (ds : List Char) : Nat :=
  ds.foldl (fun a c => 10 * a + (c.toNat - 48)) 0

/-- An optional sign in front of a numeral: whether it is negative, and the rest. -/
def takeSign (s : List Char) : Bool × List Char :=
  match s with
  | '-' :: r => (true, r)
  | '+' :: r => (false, r)
  | _ => (false, s)

/-- The integer a decimal numeral at the head of a C string stands for (leading white space,
optional sign, digits); `none` when there is no digit. -/
def scanInt (buf : List Char) : Option Int :=
  let s := (cstr buf).dropWhile isspace
  let (neg, r) := takeSign s
  let ds := r.takeWhile isdigit
  if ds = [] then none
  else some (if neg then -((digitsToNat ds : Nat) : Int) else ((digitsToNat ds : Nat) : Int))

/-- The value `strtol` delivers for an integer: the integer itself, `LONG_MAX` or `LONG_MIN`
when it lies outside the 64 bits of a `long`. -/
def clampLong (n : Int) : Int := max (-9223372036854775808) (min n 9223372036854775807)

/-- The conversion of a `long` to the 32-bit `int`: the low 32 bits in two's complement. -/
def toInt32 (n : Int) : Int := (n + 2147483648) % 4294967296 - 2147483648

/-- The C conversion `sscanf(buffer, "%d", &n)` into an `int n`: `none` when no integer was
converted (the call does not return 1).  The C library reads the numeral as a `long` and
stores its low 32 bits, so a numeral outside the range of `int` is stored as another number
(`4294967297` as 1). -/
def sscanf_d (buf : List Char) : Option Int :=
  (scanInt buf).map (fun n => toInt32 (clampLong n))

/-- The C function `atoi`. -/
def atoi (s : List Char) : Int :=
  match sscanf_d s with
  | some n => n
  | none => 0

/-- The exponent part of a decimal floating numeral (`e`, optional sign, digits); 0 when
there is none. -/
def takeExponent (s : List Char) : Int :=
  match s with
  | c :: r =>
    if c == 'e' || c == 'E' then
      let (neg, r1) := takeSign r
      let ds := r1.takeWhile isdigit
      if ds = [] then 0
      else if neg then -((digitsToNat ds : Nat) : Int) else ((digitsToNat ds : Nat) : Int)
    else 0
  | [] => 0

/-- The C function `atof` on decimal numerals: leading white space, optional sign, digits
with an optional radix point, optional exponent.  A string with no digits converts to 0.
(Hexadecimal numerals, `inf` and `nan` are not represented.) -/
def atof (buf : List Char) : ARRAY_REAL :=
  let s := (cstr buf).dropWhile isspace
  let (neg, r) := takeSign s
  let ip := r.takeWhile isdigit
  let r1 := r.dropWhile isdigit
  let fp := match r1 with
    | '.' :: r2 => r2.takeWhile isdigit
    | _ => []
  let r3 := match r1 with
    | '.' :: r2 => r2.dropWhile isdigit
    | _ => r1
  if ip = [] ∧ fp = [] then ARRAY_REAL.zero
  else
    let m : Int := ((digitsToNat (ip ++ fp) : Nat) : Int)
    let sm : Int := if neg then -m else m
    let e := takeExponent r3
    if 0 ≤ e then ⟨sm * 10 ^ e.toNat, 10 ^ fp.length⟩
    else ⟨sm, 10 ^ fp.length * 10 ^ (-e).toNat⟩

/-- A delimiter of the calls `strtok(.., " \t")`. -/
def isDelim (c : Char) : Bool := c == ' ' || c == '\t'

/-- The successive non-NULL results of `strtok(s, " \t")`, `strtok(NULL, " \t")`, ...;
`cur` is the token being collected, reversed. -/
def strtokAux : List Char → List Char → List (List Char)
  | [], cur => if cur = [] then [] else [cur.reverse]
  | c :: cs, cur =>
    if isDelim c then
      (if cur = [] then strtokAux cs [] else cur.reverse :: strtokAux cs [])
    else strtokAux cs (c :: cur)

/-- All tokens of a C string for the delimiters blank and tab; a call of `strtok` past the
last token returns NULL. -/
def strtok (s : List Char) : List (List Char) := strtokAux s []

/-- The character of a decimal digit. -/
def digitChar (d : Nat) : Char :=
  match d with
  | 0 => '0' | 1 => '1' | 2 => '2' | 3 => '3' | 4 => '4'
  | 5 => '5' | 6 => '6' | 7 => '7' | 8 => '8' | _ => '9'

/-- The decimal digits of `n`, most significant first, in front of `acc`. -/
def natDigitsAux : Nat → Nat → List Char → List Char
  | 0, _, acc => acc
  | fuel + 1, n, acc =>
    if n < 10 then digitChar n :: acc
    else natDigitsAux fuel (n / 10) (digitChar (n % 10) :: acc)

/-- The decimal numeral of a natural number. -/
def natToDec (n : Nat) : List Char := natDigitsAux (n + 1) n []

/-- Padding on the left up to a field width. -/
def padLeft (c : Char) (width : Nat) (s : List Char) : List Char :=
  List.replicate (width - s.length) c ++ s

/-- Padding on the right up to a field width. -/
def padRight (c : Char) (width : Nat) (s : List Char) : List Char :=
  s ++ List.replicate (width - s.length) c

/-- The conversion `%d` of `printf`. -/
def fmt_d (n : Int) : List Char :=
  if n < 0 then '-' :: natToDec n.natAbs else natToDec n.natAbs

/-- The conversion `%5d` (and other widths) of `printf`. -/
def fmt_wd (width : Nat) (n : Int) : List Char := padLeft ' ' width (fmt_d n)

/-- Rounding of the quotient `N / d` to the nearest integer, ties to even. -/
def roundHalfEven (N d : Nat) : Nat :=
  let q := N / d
  let r := N % d
  if 2 * r < d then q
  else if d < 2 * r then q + 1
  else if q % 2 = 0 then q else q + 1

/-! ## Binary floating point -/

/-- The number of binary digits of `n`, 0 for 0; `fuel` bounds the recursion. -/
def bitLengthAux : Nat → Nat → Nat
  | 0, _ => 0
  | fuel + 1, n => if n = 0 then 0 else bitLengthAux fuel (n / 2) + 1

/-- The number of binary digits of `n`: `2 ^ (bitLength n - 1) ≤ n < 2 ^ bitLength n` for
a positive `n`. -/
def bitLength (n : Nat) : Nat := bitLengthAux n n

/-- The binary exponent of the positive fraction `n / d`: the integer `e` with
`2 ^ e ≤ n / d < 2 ^ (e + 1)`. -/
def binaryExponent (n d : Nat) : Int :=
  let e0 : Int := (bitLength n : Int) - (bitLength d : Int)
  if d * 2 ^ e0.toNat ≤ n * 2 ^ (-e0).toNat then e0 else e0 - 1

/-- The conversion of a number to a binary floating-point format with `prec` significant
bits, least normal exponent `emin` and greatest exponent `emax`, rounding to nearest with ties
to even (the IEEE 754 default): the number is scaled by the weight `2 ^ s` of the last
place it can keep, rounded to an integer and scaled back.  A result of `2 ^ (emax + 1)` or
more (its integer `m` has `emax + 2 - s` binary digits or more) is infinity (denominator 0); zero, infinity and NaN are kept. -/
def roundBinary (prec : Nat) (emin emax : Int) (x : ARRAY_REAL) : ARRAY_REAL :=
  if x.den = 0 ∨ x.num = 0 then x
  else
    let s : Int := max (binaryExponent x.num.natAbs x.den) emin - ((prec : Int) - 1)
    let m := roundHalfEven (x.num.natAbs * 2 ^ (-s).toNat) (x.den * 2 ^ s.toNat)
    if emax + 2 ≤ (bitLength m : Int) + s then ⟨Int.sign x.num, 0⟩
    else ⟨Int.sign x.num * ((m * 2 ^ s.toNat : Nat) : Int), 2 ^ (-s).toNat⟩

/-- The conversion to the C type `float` (IEEE 754 binary32). -/
def toFloat (x : ARRAY_REAL) : ARRAY_REAL := roundBinary 24 (-126) 127 x

/-- The conversion to the C type `double` (IEEE 754 binary64). -/
def toDouble (x : ARRAY_REAL) : ARRAY_REAL := roundBinary 53 (-1022) 1023 x

/-- The value of the C statement `x = (float)v / 10.0;` for a `float x`: the element is
converted to `float`, the quotient by the `double` 10.0 is a `double`, and the store into `x`
converts it to `float`. -/
def groCoord (v : ARRAY_REAL) : ARRAY_REAL :=
  toFloat (toDouble (ARRAY_REAL.div (toFloat v) ARRAY_REAL.ten))

/-- The conversions `%W.Pf` and `% W.Pf` of `printf`: sign (a blank for a non-negative
value under the space flag), integer part, radix point, `prec` digits, padded with blanks on
the left to `width`.  A value with denominator 0 prints as `inf` or `nan`. -/
def fmt_f (space : Bool) (width prec : Nat) (x : ARRAY_REAL) : List Char :=
  let sign : List Char := if x.num < 0 then ['-'] else if space then [' '] else []
  if x.den = 0 then
    padLeft ' ' width (sign ++ (if x.num = 0 then "nan".toList else "inf".toList))
  else
    let S := roundHalfEven (x.num.natAbs * 10 ^ prec) x.den
    let ip := natToDec (S / 10 ^ prec)
    let fp := padLeft '0' prec (natToDec (S % 10 ^ prec))
    padLeft ' ' width (sign ++ ip ++ (if prec = 0 then [] else '.' :: fp))

/-! ## Helpers of `utils.h`, `measure.h`, `periodic_table.h` and `mdarray.h` -/

/-- Modelled from the spec: `stripline` of utils.c (only its tests are among the sources)
removes the white space at both ends of a C string; the tests pin the length of the
result (`"  ab\nd  "` becomes 4 characters long). -/
def stripline (s : List Char) : List Char :=
  ((s.dropWhile isspace).reverse.dropWhile isspace).reverse

/-- The C function `tolower` in the C locale. -/
def tolower (c : Char) : Char :=
  if 65 ≤ c.toNat ∧ c.toNat ≤ 90 then Char.ofNat (c.toNat + 32) else c

/-- Modelled from the spec: `make_lowercase` of utils.c (only its tests are among the
sources) turns every upper-case letter of a C string into lower case. -/
def make_lowercase (s : List Char) : List Char := s.map tolower

/-- Modelled from the spec: `strPartFloat(buffer, start, len)` of utils.c (only its tests
are among the sources) converts the `len` characters of the C string that begin at byte
`start` to a number.  Bytes past the end of the string are not represented: a field that
lies past the end converts as the empty string. -/
def strPartFloat (buffer : List Char) (start len : Nat) : ARRAY_REAL :=
  atof (((cstr buffer).drop start).take len)

/-- Modelled from the spec: `wrapPBCsingle` of measure.h folds each axis of one coordinate
triple into the box by a modulo operation, `x - floor(x / b) * b`. -/
def wrapAxis (x b : ARRAY_REAL) : ARRAY_REAL :=
  ARRAY_REAL.sub x (ARRAY_REAL.mul (ARRAY_REAL.ofInt (ARRAY_REAL.floor (ARRAY_REAL.div x b))) b)

/-- Modelled from the spec: `wrapPBCsingle(xyz, box)` of measure.h on the three
coordinates `xyz[0..2]` of one atom and the three box lengths `box[0..2]`. -/
def wrapPBCsingle (xyz box : List ARRAY_REAL) : List ARRAY_REAL :=
  [ wrapAxis (xyz.getD 0 ARRAY_REAL.zero) (box.getD 0 ARRAY_REAL.zero),
    wrapAxis (xyz.getD 1 ARRAY_REAL.zero) (box.getD 1 ARRAY_REAL.zero),
    wrapAxis (xyz.getD 2 ARRAY_REAL.zero) (box.getD 2 ARRAY_REAL.zero) ]

/-- Modelled from the spec: `wrapPBC(xyz, nAtoms, box)` of measure.h wraps every atom of a
flat coordinate buffer. -/
def wrapPBC : Nat → List ARRAY_REAL → List ARRAY_REAL → List ARRAY_REAL
  | 0, _, _ => []
  | n + 1, xyz, box => wrapPBCsingle (xyz.take 3) box ++ wrapPBC n (xyz.drop 3) box

/-- What the build and the headers that are not among the sources supply: the `HAVE_GROMACS`
switch, the constant `BOHRTOANGS` of mdarray.h, the element table of periodic_table.h (index
of a symbol, then atomic number and mass of an index), and the content of the
uninitialised `wrapBox` of `read_frame_from_xtc`. -/
structure Env where
  HAVE_GROMACS : Bool
  BOHRTOANGS : ARRAY_REAL
  getElementIndexBySymbol : List Char → Option Nat
  element_number : Nat → Int
  element_mass : Nat → ARRAY_REAL
  stackGarbage : List ARRAY_REAL

/-! ## Python objects -/

/-- The exceptions the module raises. -/
inductive PyExc
  | TypeError | ValueError | RuntimeError | IOError | FileExistsError
  | NotImplementedError | SystemError | MemoryError
deriving DecidableEq, Repr

/-- A numpy array of real numbers: its shape and its elements in row-major order. -/
structure NDArray where
  dims : List Int
  data : List ARRAY_REAL
deriving DecidableEq, Repr

/-- The Python values the module handles.  `Null` is the C pointer NULL.  An item of a list is
`some s` for the string `s` and `none` for anything else (an unset slot of `PyList_New`, or
an object that is not a string).  `IntArray` is a one-dimensional numpy array of C ints. -/
inductive PyObject
  | Null
  | None
  | Str (s : List Char)
  | PList (items : List (Option (List Char)))
  | Array (a : NDArray)
  | IntArray (a : List Int)
  | Other
deriving DecidableEq, Repr

namespace PyObject

/-- The check `PyArray_Type` of the argument format `O!`. -/
def isArray : PyObject → Bool
  | Array _ => true
  | IntArray _ => true
  | _ => false

/-- The check `PyList_Type` of the argument format `O!`. -/
def isList : PyObject → Bool
  | PList _ => true
  | _ => false

/-- The argument format `s`: a string without an embedded NUL. -/
def isStr : PyObject → Bool
  | Str _ => true
  | _ => false

/-- The macro `PyArray_NDIM`. -/
def ndim : PyObject → Nat
  | Array a => a.dims.length
  | IntArray _ => 1
  | _ => 0

/-- The macro `PyArray_DIMS`. -/
def shape : PyObject → List Int
  | Array a => a.dims
  | IntArray a => [(a.length : Int)]
  | _ => []

end PyObject

/-- Modelled from the spec: `getFromArray2D(array, type, i, j)` of utils.h reads element
`(i, j)` of a two-dimensional array as a real number; an element outside the array is
undefined (`none`). -/
def getFromArray2D (o : PyObject) (i j : Nat) : Option ARRAY_REAL :=
  match o with
  | PyObject.Array a =>
    match a.dims with
    | [_, d1] => if (j : Int) < d1 then a.data.get? (i * d1.toNat + j) else none
    | _ => none
  | _ => none

/-- Modelled from the spec: `getFromVector(array, type, i)` of utils.h reads element `i` of
a vector as a real number; an element outside the array is undefined (`none`). -/
def getFromVector (o : PyObject) (i : Nat) : Option ARRAY_REAL :=
  match o with
  | PyObject.Array a => a.data.get? i
  | PyObject.IntArray a => (a.get? i).map ARRAY_REAL.ofInt
  | _ => none

/-- The result of a C function of the module: a value, a failure with the Python exception
that was set (`none` when the function reports failure without setting one), or undefined
behaviour. -/
inductive Res (α : Type)
  | ok (a : α)
  | error (e : Option PyExc)
  | fault
deriving DecidableEq, Repr

/-! ## Streams and the file system -/

/-- An open stream: the bytes of the file and the cursor. -/
structure FILE where
  content : List Char
  pos : Nat
deriving DecidableEq, Repr

namespace FILE

/-- The C function `ftell`. -/
def ftell (f : FILE) : Nat := f.pos

/-- The C function `rewind`. -/
def rewind (f : FILE) : FILE := { f with pos := 0 }

/-- The C function `fseek(fd, offset, SEEK_SET)`; a negative offset is refused and leaves
the cursor where it is. -/
def fseek (f : FILE) (offset : Int) : FILE :=
  if offset < 0 then f else { f with pos := offset.toNat }

/-- The bytes from the cursor to the end of the file. -/
def rest (f : FILE) : List Char := f.content.drop f.pos

/-- The line at the front of a byte sequence, its newline included when there is one. -/
def firstLine : List Char → List Char
  | [] => []
  | c :: cs => if c = '\n' then [c] else c :: firstLine cs

/-- The POSIX function `getline`: `none` (the return value -1) at the end of the file,
otherwise the next line, terminator included, and the stream behind it. -/
def getline (f : FILE) : Option (List Char × FILE) :=
  if f.rest = [] then none
  else some (firstLine f.rest, { f with pos := f.pos + (firstLine f.rest).length })

/-- Output through `fprintf`: the bytes are appended to the file. -/
def fprintf (f : FILE) (s : List Char) : FILE := { f with content := f.content ++ s }

end FILE

/-- Modelled from the spec: `_getline` of utils.h is `getline` for the callers that report a
failed read as their own failure; the exception it leaves is IOError. -/
def _getline (f : FILE) : Option (List Char × FILE) := f.getline

/-- One result of the external codec call `read_next_xtc`: its return value, the `bOK` flag
and the frame data it delivered. -/
structure XtcRecord where
  ret : Bool
  bOK : Bool
  step : Int
  time : ARRAY_REAL
  box : List ARRAY_REAL
  x : List ARRAY_REAL
deriving DecidableEq, Repr

/-- What the external codec finds in a compressed file: the atom count and the result
of `read_first_xtc`, then the results of the successive `read_next_xtc` calls. -/
structure XtcFile where
  natoms : Int
  first_ret : Bool
  first_bOK : Bool
  records : List XtcRecord
deriving DecidableEq, Repr

/-- The file system: the content of each existing path, whether a path can be opened for
writing, and what the external codec makes of a path. -/
structure FileSystem where
  files : List Char → Option (List Char)
  writable : List Char → Bool
  xtc : List Char → Option XtcFile

namespace FileSystem

/-- The call `access(filename, F_OK) == 0`. -/
def exists_ (fs : FileSystem) (name : List Char) : Bool := (fs.files name).isSome

/-- The file system after the content of one path was replaced. -/
def store (fs : FileSystem) (name content : List Char) : FileSystem :=
  { fs with files := fun p => if p = name then some content else fs.files p }

end FileSystem

/-- The C call `fopen(filename, "r")`. -/
def fopen_r (fs : FileSystem) (name : List Char) : Option FILE :=
  match fs.files name with
  | some c => some ⟨c, 0⟩
  | none => none

/-- The C call `fopen(filename, mode)` for a mode string that begins with `w` (create or
truncate) or `a` (create or append): the stream and the file system afterwards. -/
def fopen_w (fs : FileSystem) (name : List Char) (mode : Char) : Option (FILE × FileSystem) :=
  if fs.writable name then
    match fs.files name with
    | some c =>
      if mode = 'w' then some (⟨[], 0⟩, fs.store name [])
      else some (⟨c, c.length⟩, fs)
    | none => some (⟨[], 0⟩, fs.store name [])
  else none

/-! ## The session object (`trajectory.h`) -/

/-- The anonymous enum of the field `type`. -/
inductive FileType
  | GUESS | XYZ | MOLDEN | GRO | XTC
deriving DecidableEq, Repr

/-- The anonymous enum of the field `units`. -/
inductive Units
  | ANGS | BOHR | NM
deriving DecidableEq, Repr

inductive MoldenStyle
  | MLATOMS | MLGEOM | MLFREQ | MLUNK
deriving DecidableEq, Repr

structure MoldenSection where
  offset : Int
  name : List Char
deriving DecidableEq, Repr

def MAX_MOLDEN_SECTIONS : Nat := 50

/-- The C struct `Trajectory`.  `fd` and `xd` are `none` for the NULL pointer; `xd` holds
the results the codec has still to deliver. -/
structure Trajectory where
  type : FileType
  units : Units
  mode : Char
  fileName : Option (List Char)
  fd : Option FILE
  xd : Option (List XtcRecord)
  filePosition1 : Int
  filePosition2 : Int
  moldenStyle : MoldenStyle
  nAtoms : Int
  lastFrame : Int
  symbols : PyObject
  aNumbers : PyObject
  resids : PyObject
  resNames : PyObject
  masses : PyObject
  moldenSect : List MoldenSection
deriving DecidableEq, Repr

/-- The function `Trajectory_new`; `tp_alloc` hands out zeroed memory, so the section table
starts with offset 0 and an empty name in each of its slots. -/
def Trajectory_new : Trajectory :=
  { type := FileType.GUESS
    units := Units.ANGS
    mode := 'r'
    fileName := none
    fd := none
    xd := none
    filePosition1 := -1
    filePosition2 := -1
    moldenStyle := MoldenStyle.MLUNK
    nAtoms := 0
    lastFrame := -1
    symbols := PyObject.None
    aNumbers := PyObject.None
    masses := PyObject.None
    resids := PyObject.None
    resNames := PyObject.None
    moldenSect := List.replicate MAX_MOLDEN_SECTIONS ⟨0, []⟩ }

/-- The call `PyList_New(n)`: a list of `n` unset slots, NULL for a negative `n`. -/
def PyList_New (n : Int) : PyObject :=
  if n < 0 then PyObject.Null else PyObject.PList (List.replicate n.toNat none)

/-- The call `PyList_SetItem(list, pos, val)`. -/
def PyList_SetItem (l : PyObject) (pos : Nat) (val : Option (List Char)) : PyObject :=
  match l with
  | PyObject.PList items => PyObject.PList (items.set pos val)
  | o => o

/-- The call `PyList_Size(list)`; -1 when the object is not a list. -/
def PyList_Size (l : PyObject) : Int :=
  match l with
  | PyObject.PList items => (items.length : Int)
  | _ => -1

/-- The C string of `PyUnicode_AsUTF8(PyList_GetItem(list, i))`; `none` (a NULL pointer
handed to `fprintf`) when there is no such item or it is not a string. -/
def listString (l : PyObject) (i : Nat) : Option (List Char) :=
  match l with
  | PyObject.PList items =>
    match items.get? i with
    | some (some s) => some (cstr s)
    | _ => none
  | _ => none

/-! ## Topology readers -/

/-- The atom loop of `read_topo_from_xyz`: `k` atoms are still to be read, `pos` is the
index of the next one. -/
def read_topo_from_xyz_loop (env : Env) :
    Nat → Nat → FILE → PyObject → List Int → List ARRAY_REAL →
    Res (FILE × PyObject × List Int × List ARRAY_REAL) × FILE × PyObject
  | 0, _, f, syms, anum, masses => (Res.ok (f, syms, anum, masses), f, syms)
  | k + 1, pos, f, syms, anum, masses =>
    match _getline f with
    | none => (Res.error (some PyExc.IOError), f, syms)
    | some (buffer, f1) =>
      match chopLast (cstr buffer) with
      | none => (Res.fault, f1, syms)
      | some line =>
        match (strtok line).head? with
        | none => (Res.fault, f1, syms)
        | some token =>
          let syms1 := PyList_SetItem syms pos (some token)
          match env.getElementIndexBySymbol token with
          | none =>
            read_topo_from_xyz_loop env k (pos + 1) f1 syms1 (anum ++ [-1])
              (masses ++ [ARRAY_REAL.zero])
          | some idx =>
            read_topo_from_xyz_loop env k (pos + 1) f1 syms1 (anum ++ [env.element_number idx])
              (masses ++ [env.element_mass idx])

/-- The function `read_topo_from_xyz`, on the open stream `f` of the session. -/
def read_topo_from_xyz (env : Env) (self : Trajectory) (f : FILE) : Res Unit × Trajectory :=
  match _getline f with
  | none => (Res.error (some PyExc.IOError), { self with fd := some f })
  | some (buffer, f1) =>
    match sscanf_d buffer with
    | none => (Res.error (some PyExc.IOError), { self with fd := some f1 })
    | some nofatoms =>
      match _getline f1 with
      | none => (Res.error (some PyExc.IOError), { self with fd := some f1 })
      | some (_, f2) =>
        let self1 := { self with fd := some f2, symbols := PyList_New nofatoms }
        if nofatoms < 0 then (Res.error (some PyExc.MemoryError), self1)
        else
          match read_topo_from_xyz_loop env nofatoms.toNat 0 f2 self1.symbols [] [] with
          | (Res.ok (f3, syms, anum, masses), _, _) =>
            (Res.ok (),
              { self1 with
                fd := some f3
                symbols := syms
                aNumbers := PyObject.IntArray anum
                masses := PyObject.Array ⟨[nofatoms], masses⟩
                nAtoms := nofatoms })
          | (Res.error e, f3, syms) => (Res.error e, { self1 with fd := some f3, symbols := syms })
          | (Res.fault, f3, syms) => (Res.fault, { self1 with fd := some f3, symbols := syms })

/-- The index of the first `]` of a string (`strchr(line, ']') - line`). -/
def indexOfBracket : List Char → Option Nat
  | [] => none
  | c :: cs => if c = ']' then some 0 else (indexOfBracket cs).map (fun i => i + 1)

/-- The body of the scanning loop of `read_molden_sections` for one line that begins a
section: the name is stored in slot `nsec` of the table, the style and the units follow
the order of preference GEOMETRIES, ATOMS, FR-COORD.  `none` is undefined behaviour: no
closing bracket, a name that overflows its buffer, or a slot outside the table. -/
def molden_section_header (self : Trajectory) (line : List Char) (filepos : Nat) (nsec : Nat) :
    Option Trajectory :=
  match indexOfBracket line with
  | none => none
  | some i =>
    let len := i - 1
    let buffer := (line.drop 1).take len
    if 256 ≤ len ∨ 20 ≤ len ∨ MAX_MOLDEN_SECTIONS ≤ nsec then none
    else
      let self1 := { self with moldenSect := self.moldenSect.set nsec ⟨(filepos : Int), buffer⟩ }
      if buffer = "geometries".toList then
        some { self1 with moldenStyle := MoldenStyle.MLGEOM }
      else if self1.moldenStyle ≠ MoldenStyle.MLGEOM ∧ buffer = "atoms".toList then
        some { self1 with moldenStyle := MoldenStyle.MLATOMS }
      else if self1.moldenStyle ≠ MoldenStyle.MLGEOM ∧ self1.moldenStyle ≠ MoldenStyle.MLATOMS
          ∧ buffer = "fr-coord".toList then
        some { self1 with moldenStyle := MoldenStyle.MLFREQ, units := Units.BOHR }
      else some self1

/-- The scanning loop of `read_molden_sections`; `fuel` bounds the number of lines. -/
def read_molden_sections_loop :
    Nat → Trajectory → FILE → Nat → Nat → Res Nat × Trajectory × FILE
  | 0, self, f, _, nsec => (Res.ok nsec, self, f)
  | fuel + 1, self, f, filepos, nsec =>
    match f.getline with
    | none => (Res.ok nsec, self, f)
    | some (raw, f1) =>
      let line := make_lowercase (stripline (cstr raw))
      if line.head? = some '[' then
        match molden_section_header self line filepos nsec with
        | none => (Res.fault, self, f1)
        | some self1 =>
          if MAX_MOLDEN_SECTIONS < nsec + 1 then (Res.error none, self1, f1)
          else read_molden_sections_loop fuel self1 f1 f1.ftell (nsec + 1)
      else read_molden_sections_loop fuel self f1 f1.ftell nsec

/-- The function `read_molden_sections`: the number of sections, or failure (-1). -/
def read_molden_sections (self : Trajectory) (f : FILE) : Res Nat × Trajectory :=
  let self0 := { self with moldenSect := List.replicate MAX_MOLDEN_SECTIONS ⟨-1, []⟩ }
  let f0 := f.rewind
  match read_molden_sections_loop (f0.content.length + 1) self0 f0 f0.ftell 0 with
  | (Res.ok n, self1, f1) => (Res.ok n, { self1 with fd := some f1.rewind })
  | (r, self1, f1) => (r, { self1 with fd := some f1 })

/-- The body of the scanning loop of `read_molden_sections` for one header line, as the
compiled code runs it: the store into slot `nsec` is carried out without a test of `nsec`.
The table is the last member of the session object, so a store into a slot behind its 50
slots falls into the bytes behind the object and leaves the session as it is.  `none` is
left for a line without a closing bracket and for a name that overflows its buffer. -/
def molden_section_header_unchecked (self : Trajectory) (line : List Char) (filepos : Nat)
    (nsec : Nat) : Option Trajectory :=
  match indexOfBracket line with
  | none => none
  | some i =>
    let len := i - 1
    let buffer := (line.drop 1).take len
    if 256 ≤ len ∨ 20 ≤ len then none
    else
      let self1 := { self with moldenSect := self.moldenSect.set nsec ⟨(filepos : Int), buffer⟩ }
      if buffer = "geometries".toList then
        some { self1 with moldenStyle := MoldenStyle.MLGEOM }
      else if self1.moldenStyle ≠ MoldenStyle.MLGEOM ∧ buffer = "atoms".toList then
        some { self1 with moldenStyle := MoldenStyle.MLATOMS }
      else if self1.moldenStyle ≠ MoldenStyle.MLGEOM ∧ self1.moldenStyle ≠ MoldenStyle.MLATOMS
          ∧ buffer = "fr-coord".toList then
        some { self1 with moldenStyle := MoldenStyle.MLFREQ, units := Units.BOHR }
      else some self1

/-- The scanning loop of `read_molden_sections` with the unchecked store: after the store
the count is incremented and compared with the maximum (`return -1`). -/
def read_molden_sections_loop_unchecked :
    Nat → Trajectory → FILE → Nat → Nat → Res Nat × Trajectory × FILE
  | 0, self, f, _, nsec => (Res.ok nsec, self, f)
  | fuel + 1, self, f, filepos, nsec =>
    match f.getline with
    | none => (Res.ok nsec, self, f)
    | some (raw, f1) =>
      let line := make_lowercase (stripline (cstr raw))
      if line.head? = some '[' then
        match molden_section_header_unchecked self line filepos nsec with
        | none => (Res.fault, self, f1)
        | some self1 =>
          if MAX_MOLDEN_SECTIONS < nsec + 1 then (Res.error none, self1, f1)
          else read_molden_sections_loop_unchecked fuel self1 f1 f1.ftell (nsec + 1)
      else read_molden_sections_loop_unchecked fuel self f1 f1.ftell nsec

/-- The function `read_molden_sections` with the unchecked store: the value it returns when
the store behind the table does not stop the program, the number of sections or the failure
-1 (`Res.error none`, no exception is set). -/
def read_molden_sections_unchecked (self : Trajectory) (f : FILE) : Res Nat × Trajectory :=
  let self0 := { self with moldenSect := List.replicate MAX_MOLDEN_SECTIONS ⟨-1, []⟩ }
  let f0 := f.rewind
  match read_molden_sections_loop_unchecked (f0.content.length + 1) self0 f0 f0.ftell 0 with
  | (Res.ok n, self1, f1) => (Res.ok n, { self1 with fd := some f1.rewind })
  | (r, self1, f1) => (r, { self1 with fd := some f1 })

/-- The function `get_section_idx`: the first slot with the given name, `none` for -1. -/
def get_section_idx (self : Trajectory) (name : List Char) : Option Nat :=
  let idx := (self.moldenSect.take MAX_MOLDEN_SECTIONS).findIdx (fun sec => sec.name = name)
  if idx < (self.moldenSect.take MAX_MOLDEN_SECTIONS).length then some idx else none

/-- The counting loop of `read_topo_from_molden`: lines up to the next section header or
the end of the file. -/
def molden_count_atoms : Nat → FILE → Nat → Nat × FILE
  | 0, f, nat => (nat, f)
  | fuel + 1, f, nat =>
    match f.getline with
    | none => (nat, f)
    | some (raw, f1) =>
      if (stripline (cstr raw)).head? = some '[' then (nat, f1)
      else molden_count_atoms fuel f1 (nat + 1)

/-- The atom loop of `read_topo_from_molden` for the styles ATOMS and FR-COORD. -/
def read_topo_from_molden_loop (env : Env) (style : MoldenStyle) :
    Nat → Nat → FILE → PyObject → List Int → Res (FILE × PyObject × List Int) × FILE × PyObject
  | 0, _, f, syms, anum => (Res.ok (f, syms, anum), f, syms)
  | k + 1, i, f, syms, anum =>
    match _getline f with
    | none => (Res.error (some PyExc.IOError), f, syms)
    | some (line, f1) =>
      if 1000 ≤ (cstr line).length then (Res.fault, f1, syms)
      else
        let ts := strtok (cstr line)
        let syms1 := PyList_SetItem syms i ts.head?
        if style = MoldenStyle.MLATOMS then
          match ts.get? 2 with
          | none => (Res.fault, f1, syms1)
          | some token =>
            read_topo_from_molden_loop env style k (i + 1) f1 syms1 (anum ++ [atoi token])
        else
          match ts.head? with
          | none => (Res.fault, f1, syms1)
          | some token =>
            match env.getElementIndexBySymbol token with
            | none => read_topo_from_molden_loop env style k (i + 1) f1 syms1 (anum ++ [-1])
            | some idx =>
              read_topo_from_molden_loop env style k (i + 1) f1 syms1
                (anum ++ [env.element_number idx])

/-- The C call `strstr(line, pat) != NULL`. -/
def strstr (line pat : List Char) : Bool := line.tails.any (fun t => pat.isPrefixOf t)

/-- The tail of `read_topo_from_molden` shared by the styles ATOMS and FR-COORD. -/
def read_topo_from_molden_atoms (env : Env) (self : Trajectory) (f : FILE) (nat : Nat) :
    Res Unit × Trajectory :=
  let self1 := { self with fd := some f, symbols := PyList_New nat }
  match read_topo_from_molden_loop env self.moldenStyle nat 0 f self1.symbols [] with
  | (Res.ok (f1, syms, anum), _, _) =>
    (Res.ok (), { self1 with fd := some f1, symbols := syms, aNumbers := PyObject.IntArray anum })
  | (Res.error e, f1, syms) => (Res.error e, { self1 with fd := some f1, symbols := syms })
  | (Res.fault, f1, syms) => (Res.fault, { self1 with fd := some f1, symbols := syms })

/-- The function `read_topo_from_molden`, on the open stream `f` of the session. -/
def read_topo_from_molden (env : Env) (self : Trajectory) (f : FILE) : Res Unit × Trajectory :=
  if self.moldenStyle = MoldenStyle.MLUNK then (Res.error (some PyExc.RuntimeError), self)
  else
    let name : List Char :=
      match self.moldenStyle with
      | MoldenStyle.MLGEOM => "geometries".toList
      | MoldenStyle.MLATOMS => "atoms".toList
      | _ => "fr-coord".toList
    match get_section_idx self name with
    | none => (Res.error (some PyExc.RuntimeError), self)
    | some idx =>
      let offset : Int := ((self.moldenSect.get? idx).map (fun sec => sec.offset)).getD 0
      -- the atoms are counted first in the styles that do not announce their number
      let counted : Option (Nat × Trajectory) :=
        if self.moldenStyle = MoldenStyle.MLATOMS ∨ self.moldenStyle = MoldenStyle.MLFREQ then
          match _getline (f.fseek offset) with
          | none => none
          | some (_, f1) =>
            let c := molden_count_atoms (f1.content.length + 1) f1 0
            some (c.1, { self with nAtoms := (c.1 : Int) })
        else some (0, self)
      match counted with
      | none => (Res.error (some PyExc.IOError), { self with fd := some (f.fseek offset) })
      | some (nat, self1) =>
        match _getline (f.fseek offset) with
        | none => (Res.error (some PyExc.IOError), { self1 with fd := some (f.fseek offset) })
        | some (raw, f2) =>
          let line := make_lowercase (stripline (cstr raw))
          let self2 := { self1 with fd := some f2, filePosition1 := (f2.ftell : Int) }
          match self2.moldenStyle with
          | MoldenStyle.MLGEOM =>
            if strstr line "zmat".toList then (Res.error (some PyExc.RuntimeError), self2)
            else
              -- the result of the call is not looked at
              match read_topo_from_xyz env self2 f2 with
              | (Res.fault, self3) => (Res.fault, self3)
              | (_, self3) => (Res.ok (), self3)
          | MoldenStyle.MLATOMS =>
            if line = "[atoms] angs".toList then
              read_topo_from_molden_atoms env { self2 with units := Units.ANGS } f2 nat
            else if line = "[atoms] au".toList then
              read_topo_from_molden_atoms env { self2 with units := Units.BOHR } f2 nat
            else (Res.error (some PyExc.RuntimeError), self2)
          | MoldenStyle.MLFREQ => read_topo_from_molden_atoms env self2 f2 nat
          | MoldenStyle.MLUNK => (Res.error (some PyExc.RuntimeError), self2)

/-- The atom loop of `read_topo_from_gro`. -/
def read_topo_from_gro_loop :
    Nat → Nat → FILE → PyObject → PyObject → List Int →
    Res (FILE × PyObject × PyObject × List Int) × FILE × PyObject × PyObject
  | 0, _, f, syms, resn, resid => (Res.ok (f, syms, resn, resid), f, syms, resn)
  | k + 1, pos, f, syms, resn, resid =>
    match _getline f with
    | none => (Res.error (some PyExc.IOError), f, syms, resn)
    | some (raw, f1) =>
      let buffer := cstr raw
      let id := atoi (stripline (buffer.take 5))
      let rn := stripline ((buffer.drop 5).take 5)
      let sy := stripline ((buffer.drop 10).take 5)
      read_topo_from_gro_loop k (pos + 1) f1 (PyList_SetItem syms pos (some sy))
        (PyList_SetItem resn pos (some rn)) (resid ++ [id])

/-- The function `read_topo_from_gro`, on the open stream `f` of the session. -/
def read_topo_from_gro (self : Trajectory) (f : FILE) : Res Unit × Trajectory :=
  match _getline f with
  | none => (Res.error (some PyExc.IOError), { self with fd := some f })
  | some (comment, f1) =>
    match chopLast (cstr comment) with
    | none => (Res.fault, { self with fd := some f1 })
    | some _ =>
      match _getline f1 with
      | none => (Res.error (some PyExc.IOError), { self with fd := some f1 })
      | some (buffer, f2) =>
        match sscanf_d buffer with
        | none => (Res.error (some PyExc.IOError), { self with fd := some f2 })
        | some nofatoms =>
          let self1 :=
            { self with
              fd := some f2
              nAtoms := nofatoms
              symbols := PyList_New nofatoms
              resNames := PyList_New nofatoms }
          if nofatoms < 0 then (Res.error (some PyExc.MemoryError), self1)
          else
            match read_topo_from_gro_loop nofatoms.toNat 0 f2 self1.symbols self1.resNames [] with
            | (Res.ok (f3, syms, resn, resid), _, _, _) =>
              (Res.ok (),
                { self1 with
                  fd := some f3
                  symbols := syms
                  resNames := resn
                  resids := PyObject.IntArray resid })
            | (Res.error e, f3, syms, resn) =>
              (Res.error e, { self1 with fd := some f3, symbols := syms, resNames := resn })
            | (Res.fault, f3, syms, resn) =>
              (Res.fault, { self1 with fd := some f3, symbols := syms, resNames := resn })

/-! ## Opening a session: `Trajectory_init` -/

/-- The arguments of the call as Python hands them over; `none` is an argument that was not
given. -/
structure InitArgs where
  filename : Option PyObject
  mode : Option PyObject
  symbols : Option PyObject
  resids : Option PyObject
  resnames : Option PyObject
  format : Option PyObject
  units : Option PyObject
deriving DecidableEq

/-- The C variables `PyArg_ParseTupleAndKeywords` fills in `Trajectory_init`. -/
structure InitVars where
  filename : List Char
  mode : Option (List Char)
  py_sym : Option PyObject
  py_resid : Option PyObject
  py_resn : Option PyObject
  str_type : Option (List Char)
  units : Option (List Char)
deriving DecidableEq

/-- The argument format `s` for an optional argument: a Python string without an embedded
NUL character. -/
def parse_s : Option PyObject → Res (Option (List Char))
  | none => Res.ok none
  | some (PyObject.Str s) => if NUL ∈ s then Res.error (some PyExc.ValueError) else Res.ok (some s)
  | some _ => Res.error (some PyExc.TypeError)

/-- The argument format `O!` for an optional argument, with its type check. -/
def parse_O (check : PyObject → Bool) : Option PyObject → Res (Option PyObject)
  | none => Res.ok none
  | some o => if check o then Res.ok (some o) else Res.error (some PyExc.TypeError)

/-- The call `PyArg_ParseTupleAndKeywords(args, kwds, "s|sO!O!O!ss", ...)`. -/
def Trajectory_init_args (a : InitArgs) : Res InitVars :=
  match parse_s a.filename with
  | Res.ok (some filename) =>
    match parse_s a.mode with
    | Res.ok mode =>
      match parse_O PyObject.isList a.symbols with
      | Res.ok py_sym =>
        match parse_O PyObject.isArray a.resids with
        | Res.ok py_resid =>
          match parse_O PyObject.isList a.resnames with
          | Res.ok py_resn =>
            match parse_s a.format with
            | Res.ok str_type =>
              match parse_s a.units with
              | Res.ok units => Res.ok ⟨filename, mode, py_sym, py_resid, py_resn, str_type, units⟩
              | Res.error e => Res.error e
              | Res.fault => Res.fault
            | Res.error e => Res.error e
            | Res.fault => Res.fault
          | Res.error e => Res.error e
          | Res.fault => Res.fault
        | Res.error e => Res.error e
        | Res.fault => Res.fault
      | Res.error e => Res.error e
      | Res.fault => Res.fault
    | Res.error e => Res.error e
    | Res.fault => Res.fault
  | Res.ok none => Res.error (some PyExc.TypeError)
  | Res.error e => Res.error e
  | Res.fault => Res.fault

/-- The router at the end of `Trajectory_init`: the topology is read from the stream that
was just opened for reading. -/
def Trajectory_init_router (env : Env) (fs : FileSystem) (self : Trajectory) (v : InitVars) :
    Res Unit × Trajectory :=
  match self.type with
  | FileType.XYZ =>
    match self.fd with
    | none => (Res.fault, self)
    | some f =>
      match read_topo_from_xyz env self f with
      | (Res.ok _, self1) => (Res.ok (), { self1 with fd := self1.fd.map FILE.rewind })
      | r => r
  | FileType.MOLDEN =>
    match self.fd with
    | none => (Res.fault, self)
    | some f =>
      match read_topo_from_molden env self f with
      | (Res.ok _, self1) =>
        (Res.ok (), { self1 with fd := self1.fd.map (fun g => g.fseek self1.filePosition1) })
      | r => r
  | FileType.GRO =>
    match self.fd with
    | none => (Res.fault, self)
    | some f =>
      match read_topo_from_gro self f with
      | (Res.ok _, self1) => (Res.ok (), { self1 with fd := self1.fd.map FILE.rewind })
      | r => r
  | FileType.XTC =>
    if env.HAVE_GROMACS then
      match fs.xtc v.filename with
      | none => (Res.fault, self)
      | some x =>
        let self1 := { self with nAtoms := x.natoms }
        if !x.first_ret && x.first_bOK then (Res.error (some PyExc.IOError), self1)
        else (Res.ok (), { self1 with xd := some x.records })
    else (Res.ok (), self)
  | FileType.GUESS => (Res.error (some PyExc.RuntimeError), self)

/-- The part of `Trajectory_init` that opens the coordinate file, for writing or appending
in the modes `w` and `a` and for reading otherwise. -/
def Trajectory_init_open (env : Env) (fs : FileSystem) (self : Trajectory) (v : InitVars) :
    Res Unit × Trajectory × FileSystem :=
  if self.mode = 'w' ∨ self.mode = 'a' then
    if self.mode = 'w' ∧ fs.exists_ v.filename then
      (Res.error (some PyExc.FileExistsError), self, fs)
    else if self.symbols = PyObject.None then (Res.error (some PyExc.ValueError), self, fs)
    else if self.symbols = PyObject.Null then (Res.fault, self, fs)
    else
      let self1 := { self with nAtoms := PyList_Size self.symbols }
      match self1.type with
      | FileType.XYZ | FileType.GRO =>
        match fopen_w fs v.filename self1.mode with
        | none => (Res.error (some PyExc.IOError), self1, fs)
        | some (f, fs1) => (Res.ok (), { self1 with fd := some f }, fs1)
      | _ => (Res.error (some PyExc.NotImplementedError), self1, fs)
  else
    match self.type with
    | FileType.XYZ | FileType.GRO =>
      match fopen_r fs v.filename with
      | none => (Res.error (some PyExc.IOError), self, fs)
      | some f =>
        let r := Trajectory_init_router env fs { self with fd := some f } v
        (r.1, r.2, fs)
    | FileType.MOLDEN =>
      match fopen_r fs v.filename with
      | none => (Res.error (some PyExc.IOError), self, fs)
      | some f =>
        match read_molden_sections { self with fd := some f } f with
        | (Res.ok _, self1) =>
          if self1.moldenStyle = MoldenStyle.MLUNK then
            (Res.error (some PyExc.SystemError), self1, fs)
          else
            let r := Trajectory_init_router env fs self1 v
            (r.1, r.2, fs)
        | (Res.error _, self1) => (Res.error (some PyExc.SystemError), self1, fs)
        | (Res.fault, self1) => (Res.fault, self1, fs)
    | FileType.XTC =>
      if env.HAVE_GROMACS then
        match fs.xtc v.filename with
        | none => (Res.error (some PyExc.IOError), self, fs)
        | some x =>
          let r := Trajectory_init_router env fs { self with xd := some x.records } v
          (r.1, r.2, fs)
      else (Res.error (some PyExc.SystemError), self, fs)
    | FileType.GUESS => (Res.error (some PyExc.RuntimeError), self, fs)

/-- The part of `Trajectory_init` that stores the lists the caller supplied. -/
def Trajectory_init_lists (env : Env) (fs : FileSystem) (self : Trajectory) (v : InitVars) :
    Res Unit × Trajectory × FileSystem :=
  if v.py_sym.isSome ∧ self.mode = 'r' then (Res.error (some PyExc.ValueError), self, fs)
  else
    let self1 := { self with symbols := v.py_sym.getD self.symbols }
    let self2 := { self1 with resids := v.py_resid.getD self1.resids }
    let self3 := { self2 with resNames := v.py_resn.getD self2.resNames }
    Trajectory_init_open env fs self3 v

/-- The part of `Trajectory_init` that sets the units. -/
def Trajectory_init_units (env : Env) (fs : FileSystem) (self : Trajectory) (v : InitVars) :
    Res Unit × Trajectory × FileSystem :=
  match v.units with
  | none =>
    match self.type with
    | FileType.XYZ | FileType.MOLDEN =>
      Trajectory_init_lists env fs { self with units := Units.ANGS } v
    | FileType.GRO | FileType.XTC =>
      Trajectory_init_lists env fs { self with units := Units.NM } v
    | FileType.GUESS => (Res.error (some PyExc.RuntimeError), self, fs)
  | some u =>
    if u = "angs".toList then Trajectory_init_lists env fs { self with units := Units.ANGS } v
    else if u = "bohr".toList then Trajectory_init_lists env fs { self with units := Units.BOHR } v
    else if u = "nm".toList then Trajectory_init_lists env fs { self with units := Units.NM } v
    else (Res.error (some PyExc.ValueError), self, fs)

/-- The last four characters of the file name, `filename + strlen(filename) - 4`; for a
shorter name the pointer lies before the string, which is undefined. -/
def extension (filename : List Char) : Option (List Char) :=
  if filename.length < 4 then none else some (filename.drop (filename.length - 4))

/-- The part of `Trajectory_init` that guesses the format when none was given. -/
def Trajectory_init_guess (env : Env) (fs : FileSystem) (self : Trajectory) (v : InitVars) :
    Res Unit × Trajectory × FileSystem :=
  let finish (self1 : Trajectory) : Res Unit × Trajectory × FileSystem :=
    if self1.type = FileType.GUESS then (Res.error (some PyExc.RuntimeError), self1, fs)
    else Trajectory_init_units env fs self1 v
  if self.type = FileType.GUESS then
    match extension v.filename with
    | none => (Res.fault, self, fs)
    | some ext =>
      if ext = ".xyz".toList then finish { self with type := FileType.XYZ }
      else if ext = ".gro".toList then finish { self with type := FileType.GRO }
      else if ext = ".xtc".toList then finish { self with type := FileType.XTC }
      else if self.mode = 'r' ∨ self.mode = 'a' then
        match fopen_r fs v.filename with
        | none => (Res.error (some PyExc.IOError), self, fs)
        | some test =>
          match _getline test with
          | none => (Res.error (some PyExc.IOError), self, fs)
          | some (raw, _) =>
            let line := stripline (make_lowercase (cstr raw))
            if line = "[molden format]".toList then finish { self with type := FileType.MOLDEN }
            else finish self
      else finish self
  else finish self

/-- The function `Trajectory_init`: the status it returns (0, or -1 with an
exception), the session and the file system afterwards. -/
def Trajectory_init (env : Env) (fs : FileSystem) (self : Trajectory) (a : InitArgs) :
    Res Unit × Trajectory × FileSystem :=
  match Trajectory_init_args a with
  | Res.error e => (Res.error e, self, fs)
  | Res.fault => (Res.fault, self, fs)
  | Res.ok v =>
    let self1 := { self with fileName := some v.filename }
    -- the mode: absent or beginning with r, w or a
    let mode0 : Char := ((v.mode.getD []).head?).getD NUL
    if v.mode.isSome ∧ mode0 ≠ 'r' ∧ mode0 ≠ 'w' ∧ mode0 ≠ 'a' then
      (Res.error (some PyExc.ValueError), self1, fs)
    else
      let self2 := { self1 with mode := if v.mode.isNone then 'r' else mode0 }
      -- the enum symbol of the file format
      match v.str_type with
      | none => Trajectory_init_guess env fs self2 v
      | some t =>
        if t = "XYZ".toList then Trajectory_init_guess env fs { self2 with type := FileType.XYZ } v
        else if t = "MOLDEN".toList then
          Trajectory_init_guess env fs { self2 with type := FileType.MOLDEN } v
        else if t = "GRO".toList then
          Trajectory_init_guess env fs { self2 with type := FileType.GRO } v
        else if t = "XTC".toList then
          Trajectory_init_guess env fs { self2 with type := FileType.XTC } v
        else if t = "GUESS".toList then
          Trajectory_init_guess env fs { self2 with type := FileType.GUESS } v
        else (Res.error (some PyExc.ValueError), self2, fs)

/-! ## Reading frames -/

/-- The dictionary `Trajectory.read` returns: each key is present or absent. -/
structure Frame where
  comment : Option (List Char)
  coordinates : Option NDArray
  extra : Option NDArray
  velocities : Option NDArray
  box : Option NDArray
  step : Option Int
  time : Option ARRAY_REAL
deriving DecidableEq, Repr

/-- The call `PyDict_New()`. -/
def PyDict_New : Frame := ⟨none, none, none, none, none, none, none⟩

/-- The `float factor` of `read_frame_from_xyz`: 1.0, 10.0, or the constant `BOHRTOANGS`
converted to `float`. -/
def unitFactor (env : Env) (u : Units) : ARRAY_REAL :=
  match u with
  | Units.ANGS => ARRAY_REAL.ofInt 1
  | Units.NM => ARRAY_REAL.ten
  | Units.BOHR => toFloat env.BOHRTOANGS

/-- The number of tokens `read_frame_from_xyz` skips after the symbol: two in the ATOMS
style of the sectioned format, none otherwise. -/
def skippedTokens (self : Trajectory) : Nat :=
  if self.type = FileType.MOLDEN ∧ self.moldenStyle = MoldenStyle.MLATOMS then 2 else 0

/-- The atom loop of `read_frame_from_xyz`: `k` atoms are still to be read, `pos` is the
index of the next one; the state is the flag `extra_present` and the buffers `xyz` and
`extra` filled so far. -/
def read_frame_from_xyz_loop (self : Trajectory) (factor : ARRAY_REAL) (doWrap : Bool)
    (box : List ARRAY_REAL) :
    Nat → Nat → FILE → Bool → List ARRAY_REAL → List ARRAY_REAL →
    Res (Bool × List ARRAY_REAL × List ARRAY_REAL) × FILE
  | 0, _, f, extra_present, xyz, extra => (Res.ok (extra_present, xyz, extra), f)
  | k + 1, pos, f, extra_present, xyz, extra =>
    match _getline f with
    | none => (Res.error (some PyExc.IOError), f)
    | some (raw, f1) =>
      match chopLast (cstr raw) with
      | none => (Res.fault, f1)
      | some line =>
        let ts := strtok line
        let o := skippedTokens self
        match ts.get? (1 + o), ts.get? (2 + o), ts.get? (3 + o) with
        | some tx, some ty, some tz =>
          let c := [ARRAY_REAL.mul (atof tx) factor, ARRAY_REAL.mul (atof ty) factor,
            ARRAY_REAL.mul (atof tz) factor]
          let c1 := if doWrap then wrapPBCsingle c box else c
          match ts.get? (4 + o) with
          | some te =>
            if 0 < pos ∧ extra_present = false then (Res.error (some PyExc.IOError), f1)
            else
              read_frame_from_xyz_loop self factor doWrap box k (pos + 1) f1 true (xyz ++ c1)
                (extra ++ [atof te])
          | none =>
            if 0 < pos ∧ extra_present = true then (Res.error (some PyExc.IOError), f1)
            else
              read_frame_from_xyz_loop self factor doWrap box k (pos + 1) f1 extra_present
                (xyz ++ c1) extra
        | _, _, _ => (Res.error (some PyExc.IOError), f1)

/-- The part of `read_frame_from_xyz` behind the header lines: buffers, atom loop and the
arrays of the result. -/
def read_frame_from_xyz_atoms (env : Env) (self : Trajectory) (f : FILE) (doWrap : Bool)
    (box : List ARRAY_REAL) (py_result : Frame) : Res Frame × FILE :=
  if self.nAtoms < 0 then (Res.error (some PyExc.MemoryError), f)
  else
    match read_frame_from_xyz_loop self (unitFactor env self.units) doWrap box
        self.nAtoms.toNat 0 f false [] [] with
    | (Res.ok (extra_present, xyz, extra), f1) =>
      let r := { py_result with coordinates := some ⟨[self.nAtoms, 3], xyz⟩ }
      (Res.ok (if extra_present then { r with extra := some ⟨[self.nAtoms], extra⟩ } else r), f1)
    | (Res.error e, f1) => (Res.error e, f1)
    | (Res.fault, f1) => (Res.fault, f1)

/-- The function `read_frame_from_xyz`, on the open stream `f` of the session; `box` is
`none` for a NULL pointer.  With `doWrap` set and no box the function drops a reference
through the still uninitialised `py_result`, which is undefined. -/
def read_frame_from_xyz (env : Env) (self : Trajectory) (f : FILE) (doWrap : Bool)
    (box : Option (List ARRAY_REAL)) : Res Frame × FILE :=
  if doWrap ∧ box.isNone then (Res.fault, f)
  else if self.type = FileType.XYZ ∨
      (self.type = FileType.MOLDEN ∧ self.moldenStyle = MoldenStyle.MLGEOM) then
    match _getline f with
    | none => (Res.error (some PyExc.IOError), f)
    | some (buffer, f1) =>
      match sscanf_d buffer with
      | none => (Res.error (some PyExc.IOError), f1)
      | some nat =>
        if nat ≠ self.nAtoms then (Res.error (some PyExc.RuntimeError), f1)
        else
          match _getline f1 with
          | none => (Res.error (some PyExc.IOError), f1)
          | some (raw, f2) =>
            match chopLast (cstr raw) with
            | none => (Res.fault, f2)
            | some comment =>
              read_frame_from_xyz_atoms env self f2 doWrap (box.getD [])
                { PyDict_New with comment := some comment }
  else read_frame_from_xyz_atoms env self f doWrap (box.getD []) PyDict_New

/-- The atom loop of `read_frame_from_gro`; the flag `velocities_present` is set by the
length of the first atom line. -/
def read_frame_from_gro_loop :
    Nat → Nat → FILE → Bool → List ARRAY_REAL → List ARRAY_REAL →
    Res (Bool × List ARRAY_REAL × List ARRAY_REAL) × FILE
  | 0, _, f, velocities_present, xyz, vel => (Res.ok (velocities_present, xyz, vel), f)
  | k + 1, pos, f, velocities_present, xyz, vel =>
    match _getline f with
    | none => (Res.error (some PyExc.IOError), f)
    | some (buffer, f1) =>
      let vp : Bool := if pos = 0 ∧ 50 < (cstr buffer).length then true else velocities_present
      let c := [ARRAY_REAL.mul (strPartFloat buffer 20 8) ARRAY_REAL.ten,
        ARRAY_REAL.mul (strPartFloat buffer 28 8) ARRAY_REAL.ten,
        ARRAY_REAL.mul (strPartFloat buffer 36 8) ARRAY_REAL.ten]
      let v := if vp then
          [strPartFloat buffer 44 8, strPartFloat buffer 52 8, strPartFloat buffer 60 8]
        else []
      read_frame_from_gro_loop k (pos + 1) f1 vp (xyz ++ c) (vel ++ v)

/-- One off-diagonal field of the cell line of `read_frame_from_gro`: read when the line is
long enough, 0 otherwise. -/
def groBoxField (buffer : List Char) (minlen start : Nat) : ARRAY_REAL :=
  if minlen < (cstr buffer).length then ARRAY_REAL.mul (strPartFloat buffer start 10) ARRAY_REAL.ten
  else ARRAY_REAL.zero

/-- The nine elements `box[0..8]` that `read_frame_from_gro` takes from the cell line. -/
def groBox (buffer : List Char) : List ARRAY_REAL :=
  [ ARRAY_REAL.mul (strPartFloat buffer 0 10) ARRAY_REAL.ten,
    groBoxField buffer 31 30,
    groBoxField buffer 41 40,
    groBoxField buffer 51 50,
    ARRAY_REAL.mul (strPartFloat buffer 10 10) ARRAY_REAL.ten,
    groBoxField buffer 61 60,
    groBoxField buffer 71 70,
    groBoxField buffer 81 80,
    ARRAY_REAL.mul (strPartFloat buffer 20 10) ARRAY_REAL.ten ]

/-- The function `read_frame_from_gro`, on the open stream `f` of the session; `newbox` is
`none` for a NULL pointer. -/
def read_frame_from_gro (self : Trajectory) (f : FILE) (doWrap : Bool)
    (newbox : Option (List ARRAY_REAL)) : Res Frame × FILE :=
  match _getline f with
  | none => (Res.error (some PyExc.IOError), f)
  | some (raw, f1) =>
    match chopLast (cstr raw) with
    | none => (Res.error none, f1)
    | some chopped =>
      let py_result := { PyDict_New with comment := some (stripline chopped) }
      match _getline f1 with
      | none => (Res.error (some PyExc.IOError), f1)
      | some (buffer, f2) =>
        if sscanf_d buffer ≠ some self.nAtoms then (Res.error (some PyExc.IOError), f2)
        else if self.nAtoms < 0 then (Res.error (some PyExc.MemoryError), f2)
        else
          match read_frame_from_gro_loop self.nAtoms.toNat 0 f2 false [] [] with
          | (Res.ok (velocities_present, xyz, vel), f3) =>
            match _getline f3 with
            | none => (Res.error (some PyExc.IOError), f3)
            | some (cell, f4) =>
              let box := groBox cell
              let wrapBox := [box.getD 0 ARRAY_REAL.zero, box.getD 4 ARRAY_REAL.zero,
                box.getD 8 ARRAY_REAL.zero]
              let xyz1 :=
                if doWrap then wrapPBC self.nAtoms.toNat xyz (newbox.getD wrapBox) else xyz
              let r := { py_result with coordinates := some ⟨[self.nAtoms, 3], xyz1⟩ }
              let r1 :=
                if velocities_present then { r with velocities := some ⟨[self.nAtoms, 3], vel⟩ }
                else r
              (Res.ok { r1 with box := some ⟨[3, 3], box⟩ }, f4)
          | (Res.error e, f3) => (Res.error e, f3)
          | (Res.fault, f3) => (Res.fault, f3)

/-- The coordinate loop of `read_frame_from_xtc`: the three coordinates of every atom are
scaled by 10 and handed to `wrapPBCsingle`. -/
def read_frame_from_xtc_loop : Nat → List ARRAY_REAL → List ARRAY_REAL → List ARRAY_REAL
  | 0, _, _ => []
  | n + 1, x, wrapBox =>
    wrapPBCsingle
        [ ARRAY_REAL.mul (x.getD 0 ARRAY_REAL.zero) ARRAY_REAL.ten,
          ARRAY_REAL.mul (x.getD 1 ARRAY_REAL.zero) ARRAY_REAL.ten,
          ARRAY_REAL.mul (x.getD 2 ARRAY_REAL.zero) ARRAY_REAL.ten ] wrapBox
      ++ read_frame_from_xtc_loop n (x.drop 3) wrapBox

/-- The function `read_frame_from_xtc` (present under `HAVE_GROMACS`), on the codec handle
of the session: end of stream is `ok none`. -/
def read_frame_from_xtc (env : Env) (self : Trajectory) (xd : List XtcRecord) (doWrap : Bool)
    (newbox : Option (List ARRAY_REAL)) : Res (Option Frame) × List XtcRecord :=
  match xd with
  | [] => (Res.ok none, [])
  | r :: rest =>
    if r.ret = false then (Res.ok none, rest)
    else if r.bOK = false then (Res.error (some PyExc.IOError), rest)
    else
      let box := r.box.map (fun c => ARRAY_REAL.mul c ARRAY_REAL.ten)
      let wrapBox : List ARRAY_REAL :=
        if doWrap then
          match newbox with
          | none => [box.getD 0 ARRAY_REAL.zero, box.getD 4 ARRAY_REAL.zero,
              box.getD 8 ARRAY_REAL.zero]
          | some b => b
        else env.stackGarbage
      let xyz := read_frame_from_xtc_loop self.nAtoms.toNat r.x wrapBox
      if self.nAtoms < 0 then (Res.error (some PyExc.MemoryError), rest)
      else
        (Res.ok (some { PyDict_New with
          step := some r.step
          time := some r.time
          box := some ⟨[3, 3], box⟩
          coordinates := some ⟨[self.nAtoms, 3], xyz⟩ }), rest)

/-- The arguments of `Trajectory.read`: `wrap` after its conversion to a truth value, and
the object given for `box`, if any. -/
structure ReadArgs where
  wrap : Bool
  box : Option PyObject
deriving DecidableEq

/-- The box lengths `Trajectory_read` takes out of the `box` argument. -/
def readBox (py_box : PyObject) : Option (List ARRAY_REAL) :=
  match getFromVector py_box 0, getFromVector py_box 1, getFromVector py_box 2 with
  | some a, some b, some c => some [a, b, c]
  | _, _, _ => none

/-- The dispatch of `Trajectory_read` on the format, with the increment of `lastFrame`
behind it. -/
def Trajectory_read_frame (env : Env) (self : Trajectory) (doWrap : Bool)
    (boxptr : Option (List ARRAY_REAL)) : Res (Option Frame) × Trajectory :=
  match self.type with
  | FileType.MOLDEN | FileType.XYZ =>
    match self.fd with
    | none => (Res.fault, self)
    | some f =>
      match read_frame_from_xyz env self f doWrap boxptr with
      | (Res.ok fr, f1) =>
        (Res.ok (some fr), { self with fd := some f1, lastFrame := self.lastFrame + 1 })
      | (Res.error e, f1) => (Res.error e, { self with fd := some f1 })
      | (Res.fault, f1) => (Res.fault, { self with fd := some f1 })
  | FileType.GRO =>
    match self.fd with
    | none => (Res.fault, self)
    | some f =>
      match read_frame_from_gro self f doWrap boxptr with
      | (Res.ok fr, f1) =>
        (Res.ok (some fr), { self with fd := some f1, lastFrame := self.lastFrame + 1 })
      | (Res.error e, f1) => (Res.error e, { self with fd := some f1 })
      | (Res.fault, f1) => (Res.fault, { self with fd := some f1 })
  | FileType.XTC =>
    if env.HAVE_GROMACS then
      match self.xd with
      | none => (Res.fault, self)
      | some xd =>
        match read_frame_from_xtc env self xd doWrap boxptr with
        | (Res.ok (some fr), xd1) =>
          (Res.ok (some fr), { self with xd := some xd1, lastFrame := self.lastFrame + 1 })
        | (Res.ok none, xd1) => (Res.ok none, { self with xd := some xd1 })
        | (Res.error e, xd1) => (Res.error e, { self with xd := some xd1 })
        | (Res.fault, xd1) => (Res.fault, { self with xd := some xd1 })
    else (Res.error none, self)
  | FileType.GUESS => (Res.error none, self)

/-- The head of `Trajectory_read`: the call `PyArg_ParseTupleAndKeywords(args, kwds, "|pO!",
...)` and, when wrapping is requested and a box was given, the three box lengths (an
element outside the array is undefined).  The result is the pointer `boxptr`, `none` for
NULL. -/
def Trajectory_read_args (a : ReadArgs) : Res (Option (List ARRAY_REAL)) :=
  match parse_O PyObject.isArray a.box with
  | Res.error e => Res.error e
  | Res.fault => Res.fault
  | Res.ok py_box =>
    if a.wrap then
      match py_box with
      | some b =>
        match readBox b with
        | some box => Res.ok (some box)
        | none => Res.fault
      | none => Res.ok none
    else Res.ok none

/-- The body of `Trajectory_read` behind the arguments: for every format but the
compressed one the next line is read to see whether there is something left, and the
cursor is set back before the frame is read. -/
def Trajectory_read_peek (env : Env) (self : Trajectory) (doWrap : Bool)
    (boxptr : Option (List ARRAY_REAL)) : Res (Option Frame) × Trajectory :=
  if self.type ≠ FileType.XTC then
    match self.fd with
    | none => (Res.fault, self)
    | some f =>
      match f.getline with
      | none => (Res.ok none, self)
      | some (buffer, f1) =>
        if self.type = FileType.MOLDEN ∧ (stripline (cstr buffer)).head? = some '[' then
          (Res.ok none, { self with fd := some f1 })
        else Trajectory_read_frame env { self with fd := some (f1.fseek f.ftell) } doWrap boxptr
  else Trajectory_read_frame env self doWrap boxptr

/-- The function `Trajectory_read`: a frame (`ok (some _)`), the end of the stream
(`ok none`, Python's `None`), or a failure; and the session afterwards. -/
def Trajectory_read (env : Env) (self : Trajectory) (a : ReadArgs) :
    Res (Option Frame) × Trajectory :=
  if self.mode ≠ 'r' then (Res.error (some PyExc.RuntimeError), self)
  else
    match Trajectory_read_args a with
    | Res.error e => (Res.error e, self)
    | Res.fault => (Res.fault, self)
    | Res.ok boxptr => Trajectory_read_peek env self a.wrap boxptr

/-! ## Writing frames -/

/-- The line `fprintf(fd, "%s\n", comment)`, or the empty line for a NULL comment. -/
def commentLine (comment : Option (List Char)) : List Char :=
  match comment with
  | some c => cstr c ++ ['\n']
  | none => ['\n']

/-- The atom line `"%s % 12.8f % 12.8f % 12.8f\n"` of `write_frame_to_xyz`. -/
def xyzAtomLine (sym : List Char) (x y z : ARRAY_REAL) : List Char :=
  sym ++ [' '] ++ fmt_f true 12 8 x ++ [' '] ++ fmt_f true 12 8 y ++ [' ']
    ++ fmt_f true 12 8 z ++ ['\n']

/-- The atom loop of `write_frame_to_xyz`: `k` atoms are still to be written, `at` is the
index of the next one.  A symbol that is not a string of the list, or a coordinate outside
the array, is undefined. -/
def write_frame_to_xyz_loop (self : Trajectory) (py_coords : PyObject) :
    Nat → Nat → FILE → Res Unit × FILE
  | 0, _, f => (Res.ok (), f)
  | k + 1, i, f =>
    match listString self.symbols i, getFromArray2D py_coords i 0, getFromArray2D py_coords i 1,
      getFromArray2D py_coords i 2 with
    | some sym, some x, some y, some z =>
      write_frame_to_xyz_loop self py_coords k (i + 1) (f.fprintf (xyzAtomLine sym x y z))
    | _, _, _, _ => (Res.fault, f)

/-- The function `write_frame_to_xyz`, on the open stream `f` of the session. -/
def write_frame_to_xyz (self : Trajectory) (f : FILE) (py_coords : PyObject)
    (comment : Option (List Char)) : Res Unit × FILE :=
  let f1 := f.fprintf (fmt_d self.nAtoms ++ ['\n'])
  let f2 := f1.fprintf (commentLine comment)
  write_frame_to_xyz_loop self py_coords self.nAtoms.toNat 0 f2

/-- The residue number `write_frame_to_gro` prints for atom `i`: 1 without a `resids`
array; an element outside the array, or of an array that does not hold C ints, is
undefined. -/
def groResid (resids : PyObject) (i : Nat) : Option Int :=
  match resids with
  | PyObject.None => some 1
  | PyObject.IntArray a => a.get? i
  | _ => none

/-- The residue name `write_frame_to_gro` prints for atom `i`: empty without a list of
names. -/
def groResName (resNames : PyObject) (i : Nat) : Option (List Char) :=
  match resNames with
  | PyObject.None => some []
  | l => listString l i

/-- The head `"%5d%-5s%5s%5d%8.3f%8.3f%8.3f"` of an atom line of `write_frame_to_gro`; the
coordinates are printed from the `float` variables `x`, `y`, `z`, each holding
`(float)element / 10.0`. -/
def groAtomHead (resid : Int) (resnam sym : List Char) (i : Nat) (x y z : ARRAY_REAL) :
    List Char :=
  fmt_wd 5 resid ++ padRight ' ' 5 resnam ++ padLeft ' ' 5 sym ++ fmt_wd 5 ((i : Int) + 1)
    ++ fmt_f false 8 3 (groCoord x)
    ++ fmt_f false 8 3 (groCoord y)
    ++ fmt_f false 8 3 (groCoord z)

/-- The velocity fields `"%8.4f%8.4f%8.4f"` of an atom line of `write_frame_to_gro`, printed
from the `float` variables `vx`, `vy`, `vz`. -/
def groVelFields (py_vel : PyObject) (i : Nat) : Option (List Char) :=
  match getFromArray2D py_vel i 0, getFromArray2D py_vel i 1, getFromArray2D py_vel i 2 with
  | some vx, some vy, some vz =>
    some (fmt_f false 8 4 (toFloat vx) ++ fmt_f false 8 4 (toFloat vy)
      ++ fmt_f false 8 4 (toFloat vz))
  | _, _, _ => none

/-- The atom loop of `write_frame_to_gro`. -/
def write_frame_to_gro_loop (self : Trajectory) (py_coords : PyObject) (py_vel : Option PyObject) :
    Nat → Nat → FILE → Res Unit × FILE
  | 0, _, f => (Res.ok (), f)
  | k + 1, i, f =>
    match groResid self.resids i, groResName self.resNames i, listString self.symbols i,
      getFromArray2D py_coords i 0, getFromArray2D py_coords i 1, getFromArray2D py_coords i 2 with
    | some resid, some resnam, some sym, some x, some y, some z =>
      match py_vel with
      | some v =>
        match groVelFields v i with
        | some vs =>
          write_frame_to_gro_loop self py_coords py_vel k (i + 1)
            (f.fprintf (groAtomHead resid resnam sym i x y z ++ vs ++ ['\n']))
        | none => (Res.fault, f)
      | none =>
        write_frame_to_gro_loop self py_coords py_vel k (i + 1)
          (f.fprintf (groAtomHead resid resnam sym i x y z ++ ['\n']))
    | _, _, _, _, _, _ => (Res.fault, f)

/-- The table `box_order` of `write_frame_to_gro`. -/
def box_order : List (Nat × Nat) :=
  [(0, 0), (1, 1), (2, 2), (0, 1), (0, 2), (1, 0), (1, 2), (2, 0), (2, 1)]

/-- The constant `1e-6`, a `double`. -/
def boxEpsilon : ARRAY_REAL := toDouble ⟨1, 1000000⟩

/-- The array `float box[9]` of `write_frame_to_gro`: `box[k]` holds `(float)element / 10.0`
for the element of the box that `box_order` lists at `k`; `none` when an element lies outside
the array. -/
def groWriteBox (py_box : PyObject) : Option (List ARRAY_REAL) :=
  (box_order.map (fun ij => (getFromArray2D py_box ij.1 ij.2).map
    groCoord)).allSome

/-- The cell line of `write_frame_to_gro` for the array `box[9]`. -/
def groCellLine (box : List ARRAY_REAL) : List Char :=
  let fields (l : List ARRAY_REAL) : List Char := (l.map (fmt_f false 10 5)).flatten
  let diag := fields (box.take 3)
  if (box.drop 3).any (fun b => ARRAY_REAL.gt (ARRAY_REAL.fabs b) boxEpsilon) then
    diag ++ fields (box.drop 3) ++ ['\n']
  else diag ++ ['\n']

/-- The function `write_frame_to_gro`, on the open stream `f` of the session. -/
def write_frame_to_gro (self : Trajectory) (f : FILE) (py_coords : PyObject)
    (py_vel py_box : Option PyObject) (comment : Option (List Char)) : Res Unit × FILE :=
  let f1 := f.fprintf (commentLine comment)
  let f2 := f1.fprintf (fmt_wd 5 self.nAtoms ++ ['\n'])
  match write_frame_to_gro_loop self py_coords py_vel self.nAtoms.toNat 0 f2 with
  | (Res.ok _, f3) =>
    match py_box with
    | some b =>
      match groWriteBox b with
      | some box => (Res.ok (), f3.fprintf (groCellLine box))
      | none => (Res.fault, f3)
    | none =>
      (Res.ok (), f3.fprintf (fmt_f false 10 5 ARRAY_REAL.zero ++ fmt_f false 10 5 ARRAY_REAL.zero
        ++ fmt_f false 10 5 ARRAY_REAL.zero ++ ['\n']))
  | r => r

/-- The arguments of `Trajectory.write` as Python hands them over; `none` is an argument
that was not given. -/
structure WriteArgs where
  coordinates : Option PyObject
  velocities : Option PyObject
  box : Option PyObject
  comment : Option PyObject
deriving DecidableEq

/-- The C variables `PyArg_ParseTupleAndKeywords` fills in `Trajectory_write`. -/
structure WriteVars where
  py_coords : PyObject
  py_vel : Option PyObject
  py_box : Option PyObject
  comment : Option (List Char)
deriving DecidableEq

/-- The call `PyArg_ParseTupleAndKeywords(args, kwds, "O!|O!O!s", ...)`. -/
def Trajectory_write_args (a : WriteArgs) : Res WriteVars :=
  match parse_O PyObject.isArray a.coordinates with
  | Res.ok (some py_coords) =>
    match parse_O PyObject.isArray a.velocities with
    | Res.ok py_vel =>
      match parse_O PyObject.isArray a.box with
      | Res.ok py_box =>
        match parse_s a.comment with
        | Res.ok comment => Res.ok ⟨py_coords, py_vel, py_box, comment⟩
        | Res.error e => Res.error e
        | Res.fault => Res.fault
      | Res.error e => Res.error e
      | Res.fault => Res.fault
    | Res.error e => Res.error e
    | Res.fault => Res.fault
  | Res.ok none => Res.error (some PyExc.TypeError)
  | Res.error e => Res.error e
  | Res.fault => Res.fault

/-- The checks of `Trajectory_write` on the arrays: each is two-dimensional, the
coordinates and the velocities have the shape (nAtoms, 3) and the box the shape (3, 3).
Each failing check raises the same RuntimeError and leaves the session as it is, so the
checks are gathered in one conjunction. -/
def Trajectory_write_checks (self : Trajectory) (v : WriteVars) : Bool :=
  v.py_coords.ndim = 2
    ∧ (∀ o ∈ v.py_vel, o.ndim = 2)
    ∧ (∀ o ∈ v.py_box, o.ndim = 2)
    ∧ v.py_coords.shape = [self.nAtoms, 3]
    ∧ (∀ o ∈ v.py_vel, o.shape = [self.nAtoms, 3])
    ∧ (∀ o ∈ v.py_box, o.shape = [3, 3])

/-- The function `Trajectory_write`: success (Python's `None`) or a failure, and the session
afterwards. -/
def Trajectory_write (self : Trajectory) (a : WriteArgs) : Res Unit × Trajectory :=
  match Trajectory_write_args a with
  | Res.error e => (Res.error e, self)
  | Res.fault => (Res.fault, self)
  | Res.ok v =>
    -- mode must be w/a
    if self.mode ≠ 'a' ∧ self.mode ≠ 'w' then (Res.error (some PyExc.RuntimeError), self)
    else if Trajectory_write_checks self v = false then
      (Res.error (some PyExc.RuntimeError), self)
    else if self.symbols = PyObject.Null then (Res.fault, self)
    else if self.symbols.isList = false then (Res.error (some PyExc.RuntimeError), self)
    else
      match self.type with
      | FileType.XYZ =>
        match self.fd with
        | none => (Res.fault, self)
        | some f =>
          match write_frame_to_xyz self f v.py_coords v.comment with
          | (Res.ok _, f1) =>
            (Res.ok (), { self with fd := some f1, lastFrame := self.lastFrame + 1 })
          | (r, f1) => (r, { self with fd := some f1 })
      | FileType.GRO =>
        match self.fd with
        | none => (Res.fault, self)
        | some f =>
          match write_frame_to_gro self f v.py_coords v.py_vel v.py_box v.comment with
          | (Res.ok _, f1) =>
            (Res.ok (), { self with fd := some f1, lastFrame := self.lastFrame + 1 })
          | (r, f1) => (r, { self with fd := some f1 })
      | _ => (Res.ok (), { self with lastFrame := self.lastFrame + 1 })

/-! ## Sequences of calls on a session -/

/-- One call of a method of the session. -/
inductive Call
  | read (a : ReadArgs)
  | write (a : WriteArgs)
deriving DecidableEq

/-- The effect of one call: whether it was a successful read (a frame was returned) or a
successful write, and the session afterwards. -/
def Call.run (env : Env) (s : Trajectory) : Call → Bool × Trajectory
  | Call.read a =>
    match Trajectory_read env s a with
    | (Res.ok (some _), s1) => (true, s1)
    | (_, s1) => (false, s1)
  | Call.write a =>
    match Trajectory_write s a with
    | (Res.ok _, s1) => (true, s1)
    | (_, s1) => (false, s1)

/-- The effect of a sequence of calls: the number of successful reads and writes, and the
session afterwards. -/
def runCalls (env : Env) : Trajectory → List Call → Nat × Trajectory
  | s, [] => (0, s)
  | s, c :: cs =>
    ((if (Call.run env s c).1 then 1 else 0) + (runCalls env (Call.run env s c).2 cs).1,
      (runCalls env (Call.run env s c).2 cs).2)

/-! ## Concrete inputs -/

/-- A build without the codec and a four-element table (indices as in the unit test of
`getElementIndexBySymbol`). -/
def exampleEnv : Env :=
  { HAVE_GROMACS := false
    BOHRTOANGS := ⟨529177249, 1000000000⟩
    getElementIndexBySymbol := fun s =>
      if s = "H".toList then some 0 else if s = "He".toList then some 1
      else if s = "C".toList then some 5 else if s = "O".toList then some 7 else none
    element_number := fun i => (i : Int) + 1
    element_mass := fun i => ⟨(i : Int) + 1, 1⟩
    stackGarbage := [] }

/-- The generic-format file of the concrete scenario: three atoms, comment `frame0`. -/
def exampleXyzFile : List Char :=
  "3\nframe0\nO 0.0 0.0 0.1\nH 0.0 0.7 -0.4\nH 0.0 -0.7 -0.4\n".toList

/-- A generic-format file whose one frame has no atoms. -/
def exampleEmptyXyzFile : List Char := "0\n\n".toList

/-- A generic-format file whose second frame announces two atoms where the first had one. -/
def exampleMismatchXyzFile : List Char := "1\nfirst\nH 0 0 0\n2\nsecond\nH 0 0 0\nH 1 1 1\n".toList

/-- A file system that holds the files `water.xyz`, `empty.xyz` and `mismatch.xyz`. -/
def exampleFs : FileSystem :=
  { files := fun p =>
      if p = "water.xyz".toList then some exampleXyzFile
      else if p = "empty.xyz".toList then some exampleEmptyXyzFile
      else if p = "mismatch.xyz".toList then some exampleMismatchXyzFile
      else none
    writable := fun _ => true
    xtc := fun _ => none }

/-- The arguments of `Trajectory(name)`. -/
def openForReading (name : List Char) : InitArgs :=
  ⟨some (PyObject.Str name), none, none, none, none, none, none⟩

/-- The arguments of `Trajectory(name, mode, symbols=syms)`. -/
def openForWriting (name mode : List Char) (syms : List (List Char)) : InitArgs :=
  ⟨some (PyObject.Str name), some (PyObject.Str mode), some (PyObject.PList (syms.map some)),
    none, none, none, none⟩

/-- The session `Trajectory('water.xyz')`. -/
def exampleReadSession : Trajectory :=
  (Trajectory_init exampleEnv exampleFs Trajectory_new (openForReading "water.xyz".toList)).2.1

/-- The session `Trajectory('out.xyz', 'w', symbols=['O', 'H', 'H'])`. -/
def exampleWriteSession : Trajectory :=
  (Trajectory_init exampleEnv exampleFs Trajectory_new
    (openForWriting "out.xyz".toList "w".toList ["O".toList, "H".toList, "H".toList])).2.1

/-- The session `Trajectory('empty.xyz')`. -/
def exampleEmptySession : Trajectory :=
  (Trajectory_init exampleEnv exampleFs Trajectory_new (openForReading "empty.xyz".toList)).2.1

/-- The session `Trajectory('mismatch.xyz')` after one `read()`. -/
def exampleMismatchSession : Trajectory :=
  (Trajectory_read exampleEnv
    (Trajectory_init exampleEnv exampleFs Trajectory_new
      (openForReading "mismatch.xyz".toList)).2.1 ⟨false, none⟩).2

/-! ## Shapes of arrays -/

/-- An array of `n` rows and `cols` columns: the shape it announces and the number of
elements it holds. -/
def NDArray.hasShape2 (arr : NDArray) (n : Int) (cols : Nat) : Prop :=
  0 ≤ n ∧ arr.dims = [n, (cols : Int)] ∧ arr.data.length = cols * n.toNat

/-- A one-dimensional array of `n` elements. -/
def NDArray.hasShape1 (arr : NDArray) (n : Int) : Prop :=
  0 ≤ n ∧ arr.dims = [n] ∧ arr.data.length = n.toNat

/-! ## The text of one written frame -/

/-- The real number `getFromArray2D` delivers, 0 where it is undefined. -/
def arrayElem (o : PyObject) (i j : Nat) : ARRAY_REAL :=
  (getFromArray2D o i j).getD ARRAY_REAL.zero

/-- Everything the generic-format writer dereferences for atom `i` exists: the symbol is a
string of the list and the three coordinates lie inside the array. -/
def xyzDefined (s : Trajectory) (v : WriteVars) (i : Nat) : Bool :=
  (listString s.symbols i).isSome && (getFromArray2D v.py_coords i 0).isSome
    && (getFromArray2D v.py_coords i 1).isSome && (getFromArray2D v.py_coords i 2).isSome

/-- The line the fixed-column writer emits for atom `i`. -/
def groWrittenLine (s : Trajectory) (v : WriteVars) (i : Nat) : List Char :=
  groAtomHead ((groResid s.resids i).getD 0) ((groResName s.resNames i).getD [])
      ((listString s.symbols i).getD []) i (arrayElem v.py_coords i 0)
      (arrayElem v.py_coords i 1) (arrayElem v.py_coords i 2)
    ++ (match v.py_vel with
        | some vel => (groVelFields vel i).getD []
        | none => [])
    ++ ['\n']

/-- Everything the fixed-column writer dereferences for atom `i` exists. -/
def groDefined (s : Trajectory) (v : WriteVars) (i : Nat) : Bool :=
  xyzDefined s v i && (groResid s.resids i).isSome && (groResName s.resNames i).isSome
    && (match v.py_vel with
        | some vel => (groVelFields vel i).isSome
        | none => true)

/-- The cell line the fixed-column writer emits. -/
def groWrittenCell (v : WriteVars) : List Char :=
  match v.py_box with
  | some b => groCellLine ((groWriteBox b).getD [])
  | none =>
    fmt_f false 10 5 ARRAY_REAL.zero ++ fmt_f false 10 5 ARRAY_REAL.zero
      ++ fmt_f false 10 5 ARRAY_REAL.zero ++ ['\n']

/-- A line of text without its terminator: it holds neither a newline nor a NUL. -/
def isLine (l : List Char) : Bool := !l.contains '\n' && !l.contains NUL

/-- The bytes of a sequence of lines, each followed by its newline. -/
def linesText (ls : List (List Char)) : List Char := (ls.map (fun l => l ++ ['\n'])).flatten

/-- The lines of one frame of a generic-format file, without their terminators: the count
line, the comment line and the atom lines. -/
structure XyzFrameLines where
  count : List Char
  comment : List Char
  atoms : List (List Char)
deriving DecidableEq, Repr

/-- The bytes of a frame. -/
def XyzFrameLines.text (fr : XyzFrameLines) : List Char :=
  linesText (fr.count :: fr.comment :: fr.atoms)

/-- An atom line carries the optional fourth number after x, y, z. -/
def hasExtra (l : List Char) : Bool := decide (5 ≤ (strtok l).length)

/-- An atom line carries a symbol and at least three more tokens. -/
def isAtomLine (l : List Char) : Bool := isLine l && decide (4 ≤ (strtok l).length)

/-- A well-formed frame of `n` atoms: the count line reads as `n`, there are `n` atom lines,
each with a symbol and three coordinates, and either all of them or none of them carries the
optional fourth number. -/
def XyzFrameLines.wellFormed (n : Nat) (fr : XyzFrameLines) : Bool :=
  isLine fr.count && (sscanf_d (fr.count ++ ['\n']) == some (n : Int)) && isLine fr.comment
    && (fr.atoms.length == n) && fr.atoms.all isAtomLine
    && fr.atoms.all (fun l => hasExtra l == hasExtra (fr.atoms.headD []))

/-- Successive reads on a session: the results in order, and the session afterwards. -/
def readMany (env : Env) (a : ReadArgs) : Nat → Trajectory → List (Res (Option Frame)) × Trajectory
  | 0, s => ([], s)
  | k + 1, s =>
    ((Trajectory_read env s a).1 :: (readMany env a k (Trajectory_read env s a).2).1,
      (readMany env a k (Trajectory_read env s a).2).2)

/-- The three coordinates `read_frame_from_xyz` takes from an atom line of the generic
format: the tokens behind the symbol, scaled by the unit factor. -/
def xyzLineCoords (factor : ARRAY_REAL) (l : List Char) : List ARRAY_REAL :=
  [ ARRAY_REAL.mul (atof ((strtok l).getD 1 [])) factor,
    ARRAY_REAL.mul (atof ((strtok l).getD 2 [])) factor,
    ARRAY_REAL.mul (atof ((strtok l).getD 3 [])) factor ]

/-- The optional fourth number of an atom line of the generic format. -/
def xyzLineExtra (l : List Char) : ARRAY_REAL := atof ((strtok l).getD 4 [])

/-- The three numbers the generic-format reader stores for an atom line: its coordinates,
wrapped into the box when wrapping is requested. -/
def xyzLineStored (factor : ARRAY_REAL) (w : Bool) (box : List ARRAY_REAL) (l : List Char) :
    List ARRAY_REAL :=
  if w = true then wrapPBCsingle (xyzLineCoords factor l) box else xyzLineCoords factor l

/-- The dictionary the generic-format reader builds from the lines of a frame of `n` atoms:
the comment, the coordinates of every atom line and, when the first atom line carries the
optional fourth number, the numbers of all lines as `extra`. -/
def xyzFrameOf (factor : ARRAY_REAL) (w : Bool) (box : List ARRAY_REAL) (n : Int)
    (fr : XyzFrameLines) : Frame :=
  { comment := some fr.comment
    coordinates := some ⟨[n, 3], (fr.atoms.map (xyzLineStored factor w box)).flatten⟩
    extra :=
      if (!fr.atoms.isEmpty && hasExtra (fr.atoms.headD [])) = true then
        some ⟨[n], fr.atoms.map xyzLineExtra⟩
      else none
    velocities := none
    box := none
    step := none
    time := none }

/-- The arguments of `Trajectory(name, format=fmt)`: a read-mode open with at most a format
hint. -/
def openArgs (name : List Char) (fmt : Option PyObject) : InitArgs :=
  ⟨some (PyObject.Str name), none, none, none, none, fmt, none⟩

/-- The lines of the one frame of `exampleXyzFile`. -/
def exampleXyzFrame : XyzFrameLines :=
  { count := "3".toList
    comment := "frame0".toList
    atoms := ["O 0.0 0.0 0.1".toList, "H 0.0 0.7 -0.4".toList, "H 0.0 -0.7 -0.4".toList] }

/-- The lines of a three-atom frame whose atom lines all carry a fourth number. -/
def exampleChargesFrame : XyzFrameLines :=
  { count := "3".toList
    comment := "charges".toList
    atoms := ["O 0.0 0.0 0.1 -0.8".toList, "H 0.0 0.7 -0.4 0.4".toList,
      "H 0.0 -0.7 -0.4 0.4".toList] }

/-- The lines of the one frame of `exampleEmptyXyzFile`: no atom line at all. -/
def exampleEmptyFrame : XyzFrameLines :=
  { count := "0".toList, comment := [], atoms := [] }

/-- The arguments of `Trajectory(name, 'w', symbols=syms, format=fmt, units=units)`. -/
def writeArgsFor (name : List Char) (syms : List (List Char)) (fmt units : Option PyObject) :
    InitArgs :=
  ⟨some (PyObject.Str name), some (PyObject.Str "w".toList),
    some (PyObject.PList (syms.map some)), none, none, fmt, units⟩

/-- The arguments of `Trajectory(name, format=fmt, units=units)`. -/
def readArgsFor (name : List Char) (fmt units : Option PyObject) : InitArgs :=
  ⟨some (PyObject.Str name), none, none, none, none, fmt, units⟩

/-- The digits `%.Pf` prints for `x`, as a natural number: the magnitude of `x` scaled by
`10 ^ prec` and rounded. -/
def printedDigits (prec : Nat) (x : ARRAY_REAL) : Nat :=
  roundHalfEven (x.num.natAbs * 10 ^ prec) x.den

/-- The numeral `%.Pf` prints for `x`, without padding: a minus sign for a negative value,
the integer part, the radix point and `prec` digits. -/
def printedNumeral (prec : Nat) (x : ARRAY_REAL) : List Char :=
  (if x.num < 0 then ['-'] else [])
    ++ natToDec (printedDigits prec x / 10 ^ prec)
    ++ '.' :: padLeft '0' prec (natToDec (printedDigits prec x % 10 ^ prec))

/-- The number the numeral `%.Pf` of `x` stands for. -/
def printedValue (prec : Nat) (x : ARRAY_REAL) : ARRAY_REAL :=
  ⟨if x.num < 0 then -((printedDigits prec x : Nat) : Int) else ((printedDigits prec x : Nat) : Int),
    10 ^ prec⟩

/-! ## The lines of a written generic-format frame -/

/-- The symbols of the write session of the examples. -/
def exampleSyms : List (List Char) := ["O".toList, "H".toList, "H".toList]

/-- A number fits the field `%W.Pf`: it is finite and its numeral is at most `W` characters
long. -/
def fitsField (width prec : Nat) (x : ARRAY_REAL) : Bool :=
  decide (x.den ≠ 0) && decide ((printedNumeral prec x).length ≤ width)

/-- The topology of atom `i` fits the head of its fixed-column line: residue number, residue
name and symbol exist, each is at most 5 characters long in print, and the names hold neither
a newline nor a NUL. -/
def groHeadFits (s : Trajectory) (i : Nat) : Bool :=
  match groResid s.resids i, groResName s.resNames i, listString s.symbols i with
  | some r, some rn, some sym =>
    decide ((fmt_d r).length ≤ 5) && decide (rn.length ≤ 5) && isLine rn
      && decide (sym.length ≤ 5) && isLine sym
  | _, _, _ => false

/-- The three coordinates `read_frame_from_gro` takes from the buffer of an atom line. -/
def groLineCoords (buffer : List Char) : List ARRAY_REAL :=
  [ARRAY_REAL.mul (strPartFloat buffer 20 8) ARRAY_REAL.ten,
    ARRAY_REAL.mul (strPartFloat buffer 28 8) ARRAY_REAL.ten,
    ARRAY_REAL.mul (strPartFloat buffer 36 8) ARRAY_REAL.ten]

/-- The three velocities `read_frame_from_gro` takes from the buffer of an atom line. -/
def groLineVel (buffer : List Char) : List ARRAY_REAL :=
  [strPartFloat buffer 44 8, strPartFloat buffer 52 8, strPartFloat buffer 60 8]

/-- The flag `velocities_present` of `read_frame_from_gro` after the atom loop over the given
lines (without their newlines): the first line, newline included, is longer than 50. -/
def groVelPresent (ls : List (List Char)) : Bool :=
  match ls with
  | [] => false
  | l :: _ => decide (50 < l.length + 1)

/-- The atom line of `write_frame_to_gro` for atom `i`, without its newline. -/
def groWrittenText (s : Trajectory) (v : WriteVars) (i : Nat) : List Char :=
  groAtomHead ((groResid s.resids i).getD 0) ((groResName s.resNames i).getD [])
      ((listString s.symbols i).getD []) i (arrayElem v.py_coords i 0)
      (arrayElem v.py_coords i 1) (arrayElem v.py_coords i 2)
    ++ (match v.py_vel with
        | some vel => (groVelFields vel i).getD []
        | none => [])

/-- The comment line of a written frame, without its newline. -/
def commentText (comment : Option (List Char)) : List Char :=
  match comment with
  | some c => cstr c
  | none => []

/-! ## The fixed-column examples -/

/-- The session `Trajectory('out.gro', 'w', symbols=['O', 'H', 'H'])`. -/
def exampleGroSession : Trajectory :=
  (Trajectory_init exampleEnv exampleFs Trajectory_new
    (writeArgsFor "out.gro".toList exampleSyms none none)).2.1

/-- A 3 x 3 coordinate array whose values are not multiples of 0.01. -/
def exampleGroCoords : NDArray :=
  ⟨[3, 3],
    [⟨1, 3⟩, ⟨-2, 3⟩, ⟨0, 1⟩, ⟨1, 7⟩, ⟨7, 10⟩, ⟨-4, 10⟩, ⟨12345, 100⟩, ⟨-7, 10⟩, ⟨5, 1000⟩]⟩

/-- A 3 x 3 velocity array. -/
def exampleVelocities : NDArray :=
  ⟨[3, 3],
    [⟨1, 3⟩, ⟨-1, 7⟩, ⟨0, 1⟩, ⟨1, 100⟩, ⟨-25, 10⟩, ⟨3, 100000⟩, ⟨99, 1⟩, ⟨-7, 10⟩, ⟨5, 1000⟩]⟩

/-- The stream after `exampleGroCoords` and `exampleVelocities` were written through
`exampleGroSession` with the comment `frame0`. -/
def exampleGroWritten : Res Unit × FILE :=
  write_frame_to_gro exampleGroSession ⟨[], 0⟩ (PyObject.Array exampleGroCoords)
    (some (PyObject.Array exampleVelocities)) none (some "frame0".toList)

/-- The session `Trajectory('out.gro')` on the file written in `exampleGroWritten`. -/
def exampleGroReadSession : Trajectory :=
  (Trajectory_init exampleEnv (exampleFs.store "out.gro".toList exampleGroWritten.2.content)
    Trajectory_new (readArgsFor "out.gro".toList none none)).2.1

/-- The session `Trajectory('big.gro', 'w', symbols=['H'])`. -/
def exampleGroOne : Trajectory :=
  (Trajectory_init exampleEnv exampleFs Trajectory_new
    (writeArgsFor "big.gro".toList ["H".toList] none none)).2.1

/-- A 1 x 3 coordinate array: one atom at (100000, 5, 5). -/
def exampleBig : NDArray := ⟨[1, 3], [⟨100000, 1⟩, ⟨5, 1⟩, ⟨5, 1⟩]⟩

/-- The stream after `exampleBig` was written through `exampleGroOne` with the comment
`c`. -/
def exampleBigWritten : Res Unit × FILE :=
  write_frame_to_gro exampleGroOne ⟨[], 0⟩ (PyObject.Array exampleBig) none none
    (some "c".toList)

/-- A 1 x 3 coordinate array: one atom at (86657.2774, 0, 0). -/
def exampleSingle : NDArray := ⟨[1, 3], [⟨433286387, 5000⟩, ⟨0, 1⟩, ⟨0, 1⟩]⟩

/-- The stream after `exampleSingle` was written through `exampleGroOne` with the comment
`c`. -/
def exampleSingleWritten : Res Unit × FILE :=
  write_frame_to_gro exampleGroOne ⟨[], 0⟩ (PyObject.Array exampleSingle) none none
    (some "c".toList)

/-! ## The stages of the open -/

/-- The mode `Trajectory_init` stores for the parsed arguments: `r` when no mode was given,
the first character of the mode string otherwise (NUL for the empty string). -/
def initMode (v : InitVars) : Char :=
  if v.mode.isNone then 'r' else ((v.mode.getD []).head?).getD NUL

/-- A file that begins with the marker line of the sectioned format and holds one ATOMS
section of two atoms. -/
def exampleMoldenFile : List Char :=
  "[Molden Format]\n[Atoms] Angs\nH 1 1 0.0 0.0 0.0\nO 2 8 0.0 0.0 1.0\n".toList

/-- A file system with the sectioned file `water.molden`, the file `notes.txt` that is no
trajectory, and the files of `exampleFs`. -/
def exampleMoldenFs : FileSystem :=
  (exampleFs.store "water.molden".toList exampleMoldenFile).store "notes.txt".toList
    "hello\n".toList

/-! ## The sections of a sectioned file -/

/-- The line the section scan looks at: the C string of the raw line, stripped, then
lowercased. -/
def moldenLine (raw : List Char) : List Char := make_lowercase (stripline (cstr raw))

/-- The raw lines `getline` delivers from the cursor on, each with the offset it begins at;
`fuel` bounds their number. -/
def rawLines : Nat → FILE → List (Nat × List Char)
  | 0, _ => []
  | fuel + 1, f =>
    match f.getline with
    | none => []
    | some (raw, f1) => (f.ftell, raw) :: rawLines fuel f1

/-- A raw line is a section header for the scan: stripped and lowercased it begins with `[`.
-/
def isHeader (raw : List Char) : Bool := decide ((moldenLine raw).head? = some '[')

/-- The section headers among the raw lines from the cursor on, in file order: the offset
each line begins at and the raw line. -/
def headersFrom (fuel : Nat) (f : FILE) : List (Nat × List Char) :=
  (rawLines fuel f).filter (fun p => isHeader p.2)

/-- The section headers of a file, in file order. -/
def moldenHeaders (f : FILE) : List (Nat × List Char) :=
  headersFrom (f.content.length + 1) f.rewind

/-- The text between the first character of a line and its first `]`. -/
def bracketText (line : List Char) : List Char :=
  (line.drop 1).take ((indexOfBracket line).getD 0 - 1)

/-- The name the scan records for a raw header line. -/
def sectionName (raw : List Char) : List Char := bracketText (moldenLine raw)

/-- A header the scan can record: it has a closing bracket and its name is shorter than the
20 bytes of `MoldenSection.name`. -/
def headerOk (raw : List Char) : Bool :=
  match indexOfBracket (moldenLine raw) with
  | none => false
  | some i => decide (i - 1 < 20)

/-- The style after one more section name, by the order of preference of the scan. -/
def styleStep (st : MoldenStyle) (name : List Char) : MoldenStyle :=
  if name = "geometries".toList then MoldenStyle.MLGEOM
  else if st ≠ MoldenStyle.MLGEOM ∧ name = "atoms".toList then MoldenStyle.MLATOMS
  else if st ≠ MoldenStyle.MLGEOM ∧ st ≠ MoldenStyle.MLATOMS ∧ name = "fr-coord".toList then
    MoldenStyle.MLFREQ
  else st

/-- The style the order of preference GEOMETRIES, ATOMS, FR-COORD assigns to a set of
section names. -/
def resolvedStyle (names : List (List Char)) : MoldenStyle :=
  if "geometries".toList ∈ names then MoldenStyle.MLGEOM
  else if "atoms".toList ∈ names then MoldenStyle.MLATOMS
  else if "fr-coord".toList ∈ names then MoldenStyle.MLFREQ
  else MoldenStyle.MLUNK

/-- A sectioned file with an ATOMS section in front of a GEOMETRIES section. -/
def exampleBothFile : List Char :=
  ("[Molden Format]\n[Atoms] Angs\nH 1 1 0.0 0.0 0.0\n[GEOMETRIES] XYZ\n1\n\n" ++
    "H 0.0 0.0 0.0\n").toList

/-- A file of `k` section headers `[s]`. -/
def exampleSections (k : Nat) : List Char := (List.replicate k "[s]\n".toList).flatten

/-- A sectioned file whose ATOMS header has blanks inside the brackets. -/
def exampleSpacedFile : List Char :=
  "[Molden Format]\n[ ATOMS ] Angs\nH 1 1 0.0 0.0 0.0\n".toList

/-- A sectioned file with an FR-COORD section only. -/
def exampleFreqFile : List Char :=
  "[Molden Format]\n[FR-COORD]\nH 0.0 0.0 0.0\nO 0.0 0.0 1.0\n".toList

/-- A sectioned file whose ATOMS header carries no unit token. -/
def exampleNoUnitFile : List Char :=
  "[Molden Format]\n[Atoms]\nH 1 1 0.0 0.0 0.0\n".toList

/-- A sectioned file whose ATOMS header carries the unit token `AU`. -/
def exampleAuFile : List Char :=
  "[Molden Format]\n[Atoms] AU\nH 1 1 0.0 0.0 0.0\nO 2 8 0.0 0.0 1.0\n".toList

/-- A file system with the sectioned files of the examples. -/
def exampleSectionedFs : FileSystem :=
  (((exampleMoldenFs.store "freq.molden".toList exampleFreqFile).store
    "nounit.molden".toList exampleNoUnitFile).store "au.molden".toList exampleAuFile)

/-- The session after the section scan of the file `au.molden`, its unit NM beforehand. -/
def exampleAuSession : Trajectory :=
  (read_molden_sections { Trajectory_new with units := Units.NM } ⟨exampleAuFile, 0⟩).2

/-- The session after the section scan of the file `nounit.molden`, its unit NM beforehand. -/
def exampleNoUnitSession : Trajectory :=
  (read_molden_sections { Trajectory_new with units := Units.NM } ⟨exampleNoUnitFile, 0⟩).2

/-! ## The atoms of a section -/

/-- The atom lines of a section, in the words of the specification: the raw lines from the
cursor on, up to (not including) the first line that begins with `[` once it is stripped,
or up to the end of the file. -/
def sectionBody (f : FILE) : List (List Char) :=
  ((rawLines (f.content.length + 1) f).map (fun p => p.2)).takeWhile
    (fun raw => !decide ((stripline (cstr raw)).head? = some '['))

/-- The symbol of an atom line of a section: its first token for the delimiters blank and
tab (none on a line without a token). -/
def moldenSymbol (raw : List Char) : Option (List Char) := (strtok (cstr raw)).head?

/-- The atomic number the element table gives for a symbol, -1 for a symbol it does not
hold. -/
def tableNumber (env : Env) (sym : List Char) : Int :=
  match env.getElementIndexBySymbol sym with
  | none => -1
  | some idx => env.element_number idx

/-- The mass the element table gives for a symbol, zero for a symbol it does not hold. -/
def tableMass (env : Env) (sym : List Char) : ARRAY_REAL :=
  match env.getElementIndexBySymbol sym with
  | none => ARRAY_REAL.zero
  | some idx => env.element_mass idx

/-- The atomic number of an atom line of a section: in the style ATOMS the integer in the
second token after the symbol, otherwise the number the table gives for the symbol. -/
def moldenNumber (env : Env) (style : MoldenStyle) (raw : List Char) : Int :=
  if style = MoldenStyle.MLATOMS then atoi (((strtok (cstr raw)).get? 2).getD [])
  else tableNumber env ((moldenSymbol raw).getD [])

/-- An atom line the loop of the sectioned topology reader can take: it fits the line
buffer of 1000 bytes and has the tokens the style looks at (three in the style ATOMS, one
otherwise). -/
def moldenAtomLineOk (style : MoldenStyle) (raw : List Char) : Bool :=
  decide ((cstr raw).length < 1000) &&
    (if style = MoldenStyle.MLATOMS then ((strtok (cstr raw)).get? 2).isSome
     else (moldenSymbol raw).isSome)

/-- The name of the coordinate section of a style. -/
def styleSection (style : MoldenStyle) : List Char :=
  match style with
  | MoldenStyle.MLGEOM => "geometries".toList
  | MoldenStyle.MLATOMS => "atoms".toList
  | _ => "fr-coord".toList

/-- The session after the section scan of the file `freq.molden`. -/
def exampleFreqSession : Trajectory :=
  (read_molden_sections Trajectory_new ⟨exampleFreqFile, 0⟩).2

/-- A sectioned file whose section GEOMETRIES does not begin with an atom count. -/
def exampleBadGeomFile : List Char := "[Molden Format]\n[GEOMETRIES] XYZ\nabc\n".toList

/-- A sectioned file whose section GEOMETRIES announces two atoms and holds one. -/
def examplePartGeomFile : List Char :=
  "[Molden Format]\n[GEOMETRIES] XYZ\n2\n\nH 0.0 0.0 0.0\n".toList

/-- A generic-format file that announces two atoms and holds one. -/
def examplePartXyzFile : List Char := "2\n\nH 0.0 0.0 0.0\n".toList

/-- A file system with the broken files of the examples. -/
def exampleBrokenFs : FileSystem :=
  (((exampleSectionedFs.store "bad.molden".toList exampleBadGeomFile).store
    "part.molden".toList examplePartGeomFile).store "part.xyz".toList examplePartXyzFile)

/-- The session after the section scan of the file `part.molden`. -/
def examplePartGeomSession : Trajectory :=
  (read_molden_sections Trajectory_new ⟨examplePartGeomFile, 0⟩).2

/-- An atom line of a generic-format topology: a line of text with at least one token, its
symbol. -/
def hasSymbol (l : List Char) : Bool := isLine l && ((strtok l).head?).isSome

/-- The symbol of an atom line of a generic-format file: its first token for the delimiters
blank and tab. -/
def xyzSymbol (l : List Char) : List Char := ((strtok l).head?).getD []

/-- A sectioned file whose section GEOMETRIES holds one frame and is followed by another
section. -/
def exampleTwoSectionFile : List Char :=
  "[Molden Format]\n[GEOMETRIES] XYZ\n1\n\nH 0.0 0.0 0.0\n[FREQ]\n1\n\nH 9.0 9.0 9.0\n".toList

/-- The session `Trajectory('two.molden')` on that file. -/
def exampleTwoSectionSession : Trajectory :=
  (Trajectory_init exampleEnv (exampleFs.store "two.molden".toList exampleTwoSectionFile)
    Trajectory_new (readArgsFor "two.molden".toList none none)).2.1

/-- The session after `k` calls of `read()` without arguments. -/
def afterReads (env : Env) (s : Trajectory) (k : Nat) : Trajectory :=
  (readMany env ⟨false, none⟩ k s).2

/-! ## The byte columns of a fixed-column atom line -/

/-- The byte columns the specification gives for the head and the coordinates of an atom
line: [0,5), [5,10), [10,15), [15,20), [20,28), [28,36), [36,44). -/
def groColumns (line : List Char) : List (List Char) :=
  [line.take 5, (line.drop 5).take 5, (line.drop 10).take 5, (line.drop 15).take 5,
    (line.drop 20).take 8, (line.drop 28).take 8, (line.drop 36).take 8]

/-- The byte columns the specification gives for the velocities of an atom line: [44,52),
[52,60), [60,68). -/
def groVelColumns (line : List Char) : List (List Char) :=
  [(line.drop 44).take 8, (line.drop 52).take 8, (line.drop 60).take 8]

/-- The residue number, the residue name, the symbol and the index of atom `i` exist and
each prints in at most the 5 characters of its field. -/
def groTopologyFits (s : Trajectory) (i : Nat) : Bool :=
  match groResid s.resids i, groResName s.resNames i, listString s.symbols i with
  | some r, some rn, some sym =>
    decide ((fmt_d r).length ≤ 5) && decide (rn.length ≤ 5) && decide (sym.length ≤ 5)
      && decide ((fmt_d ((i : Int) + 1)).length ≤ 5)
  | _, _, _ => false

/-- The session `Trajectory('long.gro', 'w', symbols=['CARBON'])`. -/
def exampleLongSymbol : Trajectory :=
  (Trajectory_init exampleEnv exampleFs Trajectory_new
    (writeArgsFor "long.gro".toList ["CARBON".toList] none none)).2.1

/-- A 1 x 3 coordinate array: one atom at (1, 2, 3). -/
def exampleSmall : NDArray := ⟨[1, 3], [⟨1, 1⟩, ⟨2, 1⟩, ⟨3, 1⟩]⟩

/-! ## The cell line of a fixed-column frame -/

/-- The three diagonal lengths of a box array, each divided by 10 and held as a `float`. -/
def boxDiagonal (b : PyObject) : List ARRAY_REAL :=
  [groCoord (arrayElem b 0 0), groCoord (arrayElem b 1 1),
    groCoord (arrayElem b 2 2)]

/-- The six off-diagonal components of a box array, each divided by 10 and held as a `float`,
in the order in which the fixed-column format lists them. -/
def boxOffDiagonal (b : PyObject) : List ARRAY_REAL :=
  [groCoord (arrayElem b 0 1), groCoord (arrayElem b 0 2),
    groCoord (arrayElem b 1 0), groCoord (arrayElem b 1 2),
    groCoord (arrayElem b 2 0), groCoord (arrayElem b 2 1)]

/-- The numbers of the cell line, in the words of the specification: without a box three
times 0.0; with a box the three diagonal lengths, followed by all six off-diagonal
components when at least one of them has an absolute value above 1e-6. -/
def boxLineFields (py_box : Option PyObject) : List ARRAY_REAL :=
  match py_box with
  | none => [ARRAY_REAL.zero, ARRAY_REAL.zero, ARRAY_REAL.zero]
  | some b =>
    if (boxOffDiagonal b).any (fun x => ARRAY_REAL.gt (ARRAY_REAL.fabs x) boxEpsilon) then
      boxDiagonal b ++ boxOffDiagonal b
    else boxDiagonal b

/-- Two atom lines of a fixed-column file: the first with velocities, 68 characters, the
second without, 44 characters. -/
def exampleMixedAtoms : List (List Char) :=
  ["    1         O    1   0.033  -0.067   0.000  0.3333 -0.1429  0.0000".toList,
    "    1         H    2   0.014   0.070  -0.040".toList]

/-- A fixed-column frame of these two atoms. -/
def exampleMixedGro : List Char :=
  linesText ("c".toList :: "    2".toList :: exampleMixedAtoms)
    ++ "   0.00000   0.00000   0.00000\n".toList

/-- The same frame with the two atom lines in the other order. -/
def exampleMixedGroSwapped : List Char :=
  linesText ("c".toList :: "    2".toList :: exampleMixedAtoms.reverse)
    ++ "   0.00000   0.00000   0.00000\n".toList

/-! ## Examples: wrapping on request, section order, short names, the last line -/

/-- The environment of the concrete scenario with the compressed-format codec compiled in;
the three floats of the uninitialised array `wrapBox` of `read_frame_from_xtc` happen to
hold 10, 10, 10. -/
def exampleXtcEnv : Env :=
  { exampleEnv with HAVE_GROMACS := true, stackGarbage := [⟨10, 1⟩, ⟨10, 1⟩, ⟨10, 1⟩] }

/-- The same environment with 7, 7, 7 left in the uninitialised array. -/
def exampleXtcEnvSeven : Env :=
  { exampleEnv with HAVE_GROMACS := true, stackGarbage := [⟨7, 1⟩, ⟨7, 1⟩, ⟨7, 1⟩] }

/-- A compressed file as the codec sees it: one atom, one frame with a cubic cell of 5 nm
and the atom at (2.5, 0.5, -0.5) nm. -/
def exampleXtcFile : XtcFile :=
  { natoms := 1
    first_ret := true
    first_bOK := true
    records := [ { ret := true, bOK := true, step := 0, time := ⟨0, 1⟩,
                   box := [⟨5, 1⟩, ⟨0, 1⟩, ⟨0, 1⟩, ⟨0, 1⟩, ⟨5, 1⟩, ⟨0, 1⟩, ⟨0, 1⟩, ⟨0, 1⟩, ⟨5, 1⟩],
                   x := [⟨25, 10⟩, ⟨5, 10⟩, ⟨-5, 10⟩] } ] }

/-- A file system that holds the compressed file `t.xtc` beside the files of `exampleFs`. -/
def exampleXtcFs : FileSystem :=
  { exampleFs with xtc := fun p => if p = "t.xtc".toList then some exampleXtcFile else none }

/-- The session `Trajectory('t.xtc')`. -/
def exampleXtcSession : Trajectory :=
  (Trajectory_init exampleXtcEnv exampleXtcFs Trajectory_new (openForReading "t.xtc".toList)).2.1

/-- The coordinates of a returned frame, `none` when the call returned no frame. -/
def frameCoordinates (r : Res (Option Frame)) : Option (List ARRAY_REAL) :=
  match r with
  | Res.ok (some fr) => fr.coordinates.map (fun c => c.data)
  | _ => none

/-- A sectioned file whose section FR-COORD stands in front of its section GEOMETRIES. -/
def exampleFrBeforeFile : List Char :=
  ("[Molden Format]\n[FR-COORD]\nH 0.0 0.0 1.0\n[GEOMETRIES] XYZ\n1\n\n"
    ++ "H 0.0 0.0 1.0\n").toList

/-- The same two sections in the other order. -/
def exampleFrAfterFile : List Char :=
  ("[Molden Format]\n[GEOMETRIES] XYZ\n1\n\nH 0.0 0.0 1.0\n[FR-COORD]\n"
    ++ "H 0.0 0.0 1.0\n").toList

/-- A sectioned file whose section FR-COORD stands in front of its section ATOMS. -/
def exampleFrBeforeAtomsFile : List Char :=
  "[Molden Format]\n[FR-COORD]\nH 0.0 0.0 1.0\n[Atoms] Angs\nH 1 1 0.0 0.0 1.0\n".toList

/-- The same two sections in the other order. -/
def exampleFrAfterAtomsFile : List Char :=
  "[Molden Format]\n[Atoms] Angs\nH 1 1 0.0 0.0 1.0\n[FR-COORD]\nH 0.0 0.0 1.0\n".toList

/-- A file system that holds the four files. -/
def exampleOrderFs : FileSystem :=
  (((exampleFs.store "before.molden".toList exampleFrBeforeFile).store
    "after.molden".toList exampleFrAfterFile).store
    "before_atoms.molden".toList exampleFrBeforeAtomsFile).store
    "after_atoms.molden".toList exampleFrAfterAtomsFile

/-- The session `Trajectory(name)` on that file system. -/
def exampleOrderSession (name : List Char) : Trajectory :=
  (Trajectory_init exampleEnv exampleOrderFs Trajectory_new (openForReading name)).2.1

/-- The result of `Trajectory(name)` on a file system that holds the given bytes as the
file `f.xyz`. -/
def openOn (content : List Char) : Res Unit × Trajectory × FileSystem :=
  Trajectory_init exampleEnv (exampleFs.store "f.xyz".toList content) Trajectory_new
    (openForReading "f.xyz".toList)

/-- The result of the first `read()` on that session. -/
def firstReadOn (content : List Char) : Res (Option Frame) :=
  (Trajectory_read exampleEnv (openOn content).2.1 ⟨false, none⟩).1

/-- The extra values of a returned frame, `none` when the call returned no frame or the
frame has none. -/
def frameExtra (r : Res (Option Frame)) : Option (List ARRAY_REAL) :=
  match r with
  | Res.ok (some fr) => fr.extra.map (fun c => c.data)
  | _ => none

/-- What a read returned: `some true` for a frame, `some false` for the end of the stream,
`none` for a failure. -/
def readOutcome (r : Res (Option Frame)) : Option Bool :=
  match r with
  | Res.ok (some _) => some true
  | Res.ok none => some false
  | _ => none

/-- A sectioned file with two sections ATOMS, the first in Angstrom with the atom at
z = 1.0, the second in atomic units with the atom at z = 2.0. -/
def exampleTwiceFile : List Char :=
  ("[Molden Format]\n[Atoms] Angs\nH 1 1 0.0 0.0 1.0\n[Atoms] AU\n"
    ++ "H 1 1 0.0 0.0 2.0\n").toList

end MDArray

namespace MDArray

/-! ## Theorems -/

/-! ### The frame counter -/

theorem read_topo_from_xyz_lastFrame (env : Env) (s : Trajectory) (f : FILE) :
    (read_topo_from_xyz env s f).2.lastFrame = s.lastFrame := by
  unfold read_topo_from_xyz
  split
  · rfl
  · split
    · rfl
    · split
      · rfl
      · dsimp only
        split
        · rfl
        · generalize read_topo_from_xyz_loop env _ 0 _ _ [] [] = L
          obtain ⟨r, f3, syms⟩ := L
          rcases r with ⟨f3', syms', anum, masses⟩ | e | _ <;> rfl

theorem molden_section_header_lastFrame (s s1 : Trajectory) (line : List Char) (p n : Nat)
    (h : molden_section_header s line p n = some s1) : s1.lastFrame = s.lastFrame := by
  unfold molden_section_header at h
  split at h
  · simp at h
  · dsimp only at h
    split_ifs at h <;> simp only [Option.some.injEq] at h <;> subst h <;> rfl

theorem read_molden_sections_loop_lastFrame (fuel : Nat) :
    ∀ (s : Trajectory) (f : FILE) (p n : Nat),
      (read_molden_sections_loop fuel s f p n).2.1.lastFrame = s.lastFrame := by
  induction fuel with
  | zero => intro s f p n; rfl
  | succ k ih =>
    intro s f p n
    unfold read_molden_sections_loop
    split
    · rfl
    · dsimp only
      split
      · split
        · rfl
        · rename_i s1 hs
          have := molden_section_header_lastFrame _ _ _ _ _ hs
          split
          · exact this
          · rw [ih]; exact this
      · exact ih _ _ _ _

theorem read_molden_sections_lastFrame (s : Trajectory) (f : FILE) :
    (read_molden_sections s f).2.lastFrame = s.lastFrame := by
  unfold read_molden_sections
  dsimp only
  have h := read_molden_sections_loop_lastFrame (f.rewind.content.length + 1)
    { s with moldenSect := List.replicate MAX_MOLDEN_SECTIONS ⟨-1, []⟩ } f.rewind f.rewind.ftell 0
  generalize read_molden_sections_loop _ _ _ _ _ = L at h ⊢
  obtain ⟨r, s1, f1⟩ := L
  cases r <;> exact h

theorem read_topo_from_molden_atoms_lastFrame (env : Env) (s : Trajectory) (f : FILE) (nat : Nat) :
    (read_topo_from_molden_atoms env s f nat).2.lastFrame = s.lastFrame := by
  unfold read_topo_from_molden_atoms
  dsimp only
  generalize read_topo_from_molden_loop env _ nat 0 f _ [] = L
  obtain ⟨r, f3, syms⟩ := L
  rcases r with ⟨f3', syms', anum⟩ | e | _ <;> rfl

theorem read_topo_from_molden_lastFrame (env : Env) (s : Trajectory) (f : FILE) :
    (read_topo_from_molden env s f).2.lastFrame = s.lastFrame := by
  unfold read_topo_from_molden
  split
  · rfl
  · dsimp only
    split
    · rfl
    · split
      · rfl
      · rename_i nat self1 hc
        have hs1 : self1.lastFrame = s.lastFrame := by
          split at hc
          · split at hc
            · simp at hc
            · simp only [Option.some.injEq, Prod.mk.injEq] at hc
              rw [← hc.2]
          · simp only [Option.some.injEq, Prod.mk.injEq] at hc
            rw [← hc.2]
        split
        · exact hs1
        · split
          · split
            · exact hs1
            · generalize hL : read_topo_from_xyz env _ _ = L
              have h2 := congrArg (fun L => L.2.lastFrame) hL
              simp only [read_topo_from_xyz_lastFrame] at h2
              obtain ⟨r, s3⟩ := L
              rcases r with u | e | _ <;> simpa [hs1] using h2.symm
          · split
            · rw [read_topo_from_molden_atoms_lastFrame]; exact hs1
            · split
              · rw [read_topo_from_molden_atoms_lastFrame]; exact hs1
              · exact hs1
          · rw [read_topo_from_molden_atoms_lastFrame]; exact hs1
          · exact hs1

theorem read_topo_from_gro_lastFrame (s : Trajectory) (f : FILE) :
    (read_topo_from_gro s f).2.lastFrame = s.lastFrame := by
  unfold read_topo_from_gro
  split
  · rfl
  · split
    · rfl
    · split
      · rfl
      · split
        · rfl
        · dsimp only
          split
          · rfl
          · generalize read_topo_from_gro_loop _ 0 _ _ _ [] = L
            obtain ⟨r, f3, syms, resn⟩ := L
            rcases r with ⟨f3', syms', resn', resid⟩ | e | _ <;> rfl

theorem Trajectory_init_router_lastFrame (env : Env) (fs : FileSystem) (s : Trajectory)
    (v : InitVars) : (Trajectory_init_router env fs s v).2.lastFrame = s.lastFrame := by
  unfold Trajectory_init_router
  split
  · split
    · rfl
    · rename_i f _
      have := read_topo_from_xyz_lastFrame env s f
      generalize read_topo_from_xyz env s f = L at this ⊢
      obtain ⟨r, s3⟩ := L
      rcases r with u | e | _ <;> simpa using this
  · split
    · rfl
    · rename_i f _
      have := read_topo_from_molden_lastFrame env s f
      generalize read_topo_from_molden env s f = L at this ⊢
      obtain ⟨r, s3⟩ := L
      rcases r with u | e | _ <;> simpa using this
  · split
    · rfl
    · rename_i f _
      have := read_topo_from_gro_lastFrame s f
      generalize read_topo_from_gro s f = L at this ⊢
      obtain ⟨r, s3⟩ := L
      rcases r with u | e | _ <;> simpa using this
  · split
    · split
      · rfl
      · dsimp only
        split <;> rfl
    · rfl
  · rfl

theorem Trajectory_init_open_lastFrame (env : Env) (fs : FileSystem) (s : Trajectory)
    (v : InitVars) : (Trajectory_init_open env fs s v).2.1.lastFrame = s.lastFrame := by
  unfold Trajectory_init_open
  split
  · split
    · rfl
    · split
      · rfl
      · split
        · rfl
        · dsimp only
          split
          · split <;> rfl
          · split <;> rfl
          · rfl
  · split
    · split
      · rfl
      · dsimp only; rw [Trajectory_init_router_lastFrame]
    · split
      · rfl
      · dsimp only; rw [Trajectory_init_router_lastFrame]
    · split
      · rfl
      · rename_i f _
        have := read_molden_sections_lastFrame { s with fd := some f } f
        generalize read_molden_sections _ f = L at this ⊢
        obtain ⟨r, s3⟩ := L
        rcases r with u | e | _
        · dsimp only at this ⊢
          split
          · exact this
          · dsimp only; rw [Trajectory_init_router_lastFrame]; exact this
        · exact this
        · exact this
    · split
      · split
        · rfl
        · dsimp only; rw [Trajectory_init_router_lastFrame]
      · rfl
    · rfl

theorem Trajectory_init_lists_lastFrame (env : Env) (fs : FileSystem) (s : Trajectory)
    (v : InitVars) : (Trajectory_init_lists env fs s v).2.1.lastFrame = s.lastFrame := by
  unfold Trajectory_init_lists
  split
  · rfl
  · dsimp only; rw [Trajectory_init_open_lastFrame]

theorem Trajectory_init_units_lastFrame (env : Env) (fs : FileSystem) (s : Trajectory)
    (v : InitVars) : (Trajectory_init_units env fs s v).2.1.lastFrame = s.lastFrame := by
  unfold Trajectory_init_units
  repeat' split
  all_goals first | rfl | rw [Trajectory_init_lists_lastFrame]

theorem Trajectory_init_guess_lastFrame (env : Env) (fs : FileSystem) (s : Trajectory)
    (v : InitVars) : (Trajectory_init_guess env fs s v).2.1.lastFrame = s.lastFrame := by
  unfold Trajectory_init_guess
  dsimp only
  repeat' split
  all_goals first | rfl | rw [Trajectory_init_units_lastFrame]

theorem Trajectory_init_lastFrame (env : Env) (fs : FileSystem) (s : Trajectory)
    (a : InitArgs) : (Trajectory_init env fs s a).2.1.lastFrame = s.lastFrame := by
  unfold Trajectory_init
  split
  · rfl
  · rfl
  · dsimp only
    split
    · rfl
    · split
      · rw [Trajectory_init_guess_lastFrame]
      · repeat' split
        all_goals first | rfl | rw [Trajectory_init_guess_lastFrame]

end MDArray

namespace MDArray

theorem Trajectory_read_frame_lastFrame (env : Env) (s : Trajectory) (w : Bool)
    (b : Option (List ARRAY_REAL)) :
    (∀ fr, (Trajectory_read_frame env s w b).1 = Res.ok (some fr) →
        (Trajectory_read_frame env s w b).2.lastFrame = s.lastFrame + 1) ∧
    ((∀ fr, (Trajectory_read_frame env s w b).1 ≠ Res.ok (some fr)) →
        (Trajectory_read_frame env s w b).2.lastFrame = s.lastFrame) := by
  unfold Trajectory_read_frame
  constructor
  · intro fr
    split <;> (try split) <;> (try split) <;> (try split) <;> simp_all
  · split <;> (try split) <;> (try split) <;> (try split) <;> simp_all

theorem Trajectory_read_peek_lastFrame (env : Env) (s : Trajectory) (w : Bool)
    (b : Option (List ARRAY_REAL)) :
    (∀ fr, (Trajectory_read_peek env s w b).1 = Res.ok (some fr) →
        (Trajectory_read_peek env s w b).2.lastFrame = s.lastFrame + 1) ∧
    ((∀ fr, (Trajectory_read_peek env s w b).1 ≠ Res.ok (some fr)) →
        (Trajectory_read_peek env s w b).2.lastFrame = s.lastFrame) := by
  unfold Trajectory_read_peek
  split
  · split
    · simp
    · split
      · simp
      · split
        · simp
        · exact Trajectory_read_frame_lastFrame env _ _ _
  · exact Trajectory_read_frame_lastFrame env _ _ _

theorem Trajectory_read_lastFrame (env : Env) (s : Trajectory) (a : ReadArgs) :
    (∀ fr, (Trajectory_read env s a).1 = Res.ok (some fr) →
        (Trajectory_read env s a).2.lastFrame = s.lastFrame + 1) ∧
    ((∀ fr, (Trajectory_read env s a).1 ≠ Res.ok (some fr)) →
        (Trajectory_read env s a).2.lastFrame = s.lastFrame) := by
  unfold Trajectory_read
  split
  · simp
  · split
    · simp
    · simp
    · exact Trajectory_read_peek_lastFrame env _ _ _

theorem Trajectory_write_lastFrame (s : Trajectory) (a : WriteArgs) :
    ((Trajectory_write s a).1 = Res.ok () →
        (Trajectory_write s a).2.lastFrame = s.lastFrame + 1) ∧
    ((Trajectory_write s a).1 ≠ Res.ok () →
        (Trajectory_write s a).2.lastFrame = s.lastFrame) := by
  unfold Trajectory_write
  split
  · simp
  · simp
  · split
    · simp
    · split
      · simp
      · split
        · simp
        · split
          · simp
          · split
            · split
              · simp
              · split
                · simp
                · rename_i r f1 h1 h2
                  have : r ≠ Res.ok () := h1 ()
                  simp [this]
            · split
              · simp
              · split
                · simp
                · rename_i r f1 h1 h2
                  have : r ≠ Res.ok () := h1 ()
                  simp [this]
            · simp

theorem Call.run_lastFrame (env : Env) (s : Trajectory) (c : Call) :
    (Call.run env s c).2.lastFrame = s.lastFrame + (if (Call.run env s c).1 then 1 else 0) := by
  cases c with
  | read a =>
    have h := Trajectory_read_lastFrame env s a
    unfold Call.run
    rcases hL : Trajectory_read env s a with ⟨r, s1⟩
    rw [hL] at h
    rcases r with (_ | fr) | e | _
    · simpa [hL] using h.2
    · simpa [hL] using h.1
    · simpa [hL] using h.2
    · simpa [hL] using h.2
  | write a =>
    have h := Trajectory_write_lastFrame s a
    unfold Call.run
    rcases hL : Trajectory_write s a with ⟨r, s1⟩
    rw [hL] at h
    rcases r with u | e | _
    · simpa [hL] using h.1
    · simpa [hL] using h.2
    · simpa [hL] using h.2

theorem runCalls_lastFrame (env : Env) (calls : List Call) :
    ∀ s : Trajectory,
      (runCalls env s calls).2.lastFrame = s.lastFrame + ((runCalls env s calls).1 : Int) := by
  induction calls with
  | nil => intro s; simp [runCalls]
  | cons c cs ih =>
    intro s
    simp only [runCalls]
    rw [ih, Call.run_lastFrame]
    split <;> (push_cast; ring)

/-- C1. The frame counter: it is -1 right after creation and opening a file leaves it
alone; a read that returns a frame and a write that succeeds add exactly 1, every other
read (end of stream, failure) and every failed write leave it unchanged; hence after any
sequence of calls on a freshly opened session it is the number of successful reads and
writes minus 1, and over any sequence of calls on any session it never decreases. -/
theorem C1_lastFrame_counts_successes (env : Env) :
    Trajectory_new.lastFrame = -1 ∧
    (∀ (s : Trajectory) (a : ReadArgs),
      (∀ fr, (Trajectory_read env s a).1 = Res.ok (some fr) →
        (Trajectory_read env s a).2.lastFrame = s.lastFrame + 1) ∧
      ((∀ fr, (Trajectory_read env s a).1 ≠ Res.ok (some fr)) →
        (Trajectory_read env s a).2.lastFrame = s.lastFrame)) ∧
    (∀ (s : Trajectory) (a : WriteArgs),
      ((Trajectory_write s a).1 = Res.ok () →
        (Trajectory_write s a).2.lastFrame = s.lastFrame + 1) ∧
      ((Trajectory_write s a).1 ≠ Res.ok () →
        (Trajectory_write s a).2.lastFrame = s.lastFrame)) ∧
    (∀ (fs : FileSystem) (a : InitArgs) (calls : List Call),
      (runCalls env (Trajectory_init env fs Trajectory_new a).2.1 calls).2.lastFrame
        = ((runCalls env (Trajectory_init env fs Trajectory_new a).2.1 calls).1 : Int) - 1) ∧
    (∀ (s : Trajectory) (calls : List Call),
      s.lastFrame ≤ (runCalls env s calls).2.lastFrame) := by
  refine ⟨rfl, Trajectory_read_lastFrame env, Trajectory_write_lastFrame, ?_, ?_⟩
  · intro fs a calls
    rw [runCalls_lastFrame, Trajectory_init_lastFrame]
    show (-1 : Int) + _ = _ - 1
    ring
  · intro s calls
    rw [runCalls_lastFrame]
    omega

end MDArray

namespace MDArray

/-! ### Mode checks -/

theorem parse_O_ne_fault (check : PyObject → Bool) (o : Option PyObject) :
    parse_O check o ≠ Res.fault := by
  unfold parse_O
  split
  · simp
  · split <;> simp

theorem parse_s_ne_fault (o : Option PyObject) : parse_s o ≠ Res.fault := by
  unfold parse_s
  split
  · simp
  · split <;> simp
  · simp

theorem Trajectory_write_args_ne_fault (a : WriteArgs) :
    Trajectory_write_args a ≠ Res.fault := by
  unfold Trajectory_write_args
  have h1 := parse_O_ne_fault PyObject.isArray a.coordinates
  have h2 := parse_O_ne_fault PyObject.isArray a.velocities
  have h3 := parse_O_ne_fault PyObject.isArray a.box
  have h4 := parse_s_ne_fault a.comment
  repeat' split
  all_goals simp_all

/-- C2 (as amended). A read on a session whose mode is not `r` fails with the state
error (RuntimeError) whatever the arguments and leaves the whole session, cursor and frame
counter included, as it was.  A write on a session in mode `r` fails whatever the arguments
and leaves the whole session as it was; the failure is the state error when the arguments
pass the argument parser, and the parser's own error (which comes first in the code)
when they do not. -/
theorem C2_wrong_mode_is_refused (env : Env) (s : Trajectory) :
    (s.mode ≠ 'r' → ∀ a : ReadArgs,
      Trajectory_read env s a = (Res.error (some PyExc.RuntimeError), s)) ∧
    (s.mode = 'r' → ∀ a : WriteArgs,
      (∃ e, Trajectory_write s a = (Res.error e, s)) ∧
      (∀ v, Trajectory_write_args a = Res.ok v →
        Trajectory_write s a = (Res.error (some PyExc.RuntimeError), s)) ∧
      (∀ e, Trajectory_write_args a = Res.error e → Trajectory_write s a = (Res.error e, s))) := by
  constructor
  · intro h a
    unfold Trajectory_read
    rw [if_pos h]
  · intro h a
    have hnf := Trajectory_write_args_ne_fault a
    have hmode : s.mode ≠ 'a' ∧ s.mode ≠ 'w' := by rw [h]; decide
    refine ⟨?_, ?_, ?_⟩
    · unfold Trajectory_write
      rcases hv : Trajectory_write_args a with v | e | _
      · exact ⟨some PyExc.RuntimeError, by simp only [if_pos hmode]⟩
      · exact ⟨e, rfl⟩
      · exact absurd hv hnf
    · intro v hv
      unfold Trajectory_write
      simp only [hv, if_pos hmode]
    · intro e hv
      unfold Trajectory_write
      simp only [hv]

end MDArray

namespace MDArray

/-- C2, witness: on the write-mode session `Trajectory('out.xyz', 'w', symbols=...)` a read
is refused with the state error, and on the read-mode session `Trajectory('water.xyz')` a
well-typed write is refused with the state error; neither call changes the session. -/
theorem C2_wrong_mode_is_refused_witness :
    Trajectory_read exampleEnv exampleWriteSession ⟨false, none⟩
      = (Res.error (some PyExc.RuntimeError), exampleWriteSession) ∧
    Trajectory_write exampleReadSession
        ⟨some (PyObject.Array ⟨[3, 3], List.replicate 9 ARRAY_REAL.zero⟩), none, none, none⟩
      = (Res.error (some PyExc.RuntimeError), exampleReadSession) :=
  ⟨(C2_wrong_mode_is_refused exampleEnv exampleWriteSession).1 (by decide) _,
    ((C2_wrong_mode_is_refused exampleEnv exampleReadSession).2 (by decide) _).2.1 _ rfl⟩

/-- C2, counterexample: on the read-mode session `Trajectory('water.xyz')` the call
`write()` without coordinates, and the call `write(x)` with a list instead of an array, fail
with the argument parser's TypeError, not with the state error. -/
theorem C2_counterexample :
    exampleReadSession.mode = 'r' ∧
    (Trajectory_write exampleReadSession ⟨none, none, none, none⟩).1
      = Res.error (some PyExc.TypeError) ∧
    (Trajectory_write exampleReadSession ⟨some (PyObject.PList []), none, none, none⟩).1
      = Res.error (some PyExc.TypeError) ∧
    (Trajectory_write exampleReadSession ⟨none, none, none, none⟩).1
      ≠ Res.error (some PyExc.RuntimeError) := by
  decide

/-! ### Opening for writing over an existing file -/

/-- C3. An open in mode `w` on a path that exists, with a format that resolves (given
explicitly, or guessed from the extension) and a unit hint that is absent or valid, fails
with FileExistsError whatever the format and the symbols; the file system is unchanged and
no stream was opened. -/
theorem C3_write_mode_on_existing_file (env : Env) (fs : FileSystem) (a : InitArgs)
    (v : InitVars) (m : List Char)
    (hv : Trajectory_init_args a = Res.ok v)
    (hmode : v.mode = some ('w' :: m))
    (hex : fs.exists_ v.filename = true)
    (hfmt : v.str_type = some "XYZ".toList ∨ v.str_type = some "MOLDEN".toList ∨
      v.str_type = some "GRO".toList ∨ v.str_type = some "XTC".toList ∨
      ((v.str_type = none ∨ v.str_type = some "GUESS".toList) ∧
        (extension v.filename = some ".xyz".toList ∨ extension v.filename = some ".gro".toList ∨
          extension v.filename = some ".xtc".toList)))
    (hunits : v.units = none ∨ v.units = some "angs".toList ∨ v.units = some "bohr".toList ∨
      v.units = some "nm".toList) :
    (Trajectory_init env fs Trajectory_new a).1 = Res.error (some PyExc.FileExistsError) ∧
    (Trajectory_init env fs Trajectory_new a).2.2 = fs ∧
    (Trajectory_init env fs Trajectory_new a).2.1.fd = none := by
  have hopen : ∀ s : Trajectory, s.mode = 'w' → s.fd = none →
      Trajectory_init_lists env fs s v
        = (Res.error (some PyExc.FileExistsError),
            { s with symbols := v.py_sym.getD s.symbols, resids := v.py_resid.getD s.resids,
                     resNames := v.py_resn.getD s.resNames }, fs) := by
    intro s hs _
    have hr : ¬ (v.py_sym.isSome = true ∧ s.mode = 'r') := by rw [hs]; simp
    unfold Trajectory_init_lists Trajectory_init_open
    simp [hr, hs, hex]
  have hunit : ∀ s : Trajectory, s.mode = 'w' → s.fd = none → s.type ≠ FileType.GUESS →
      (Trajectory_init_units env fs s v).1 = Res.error (some PyExc.FileExistsError) ∧
      (Trajectory_init_units env fs s v).2.2 = fs ∧
      (Trajectory_init_units env fs s v).2.1.fd = none := by
    intro s hs hfd hty
    unfold Trajectory_init_units
    rcases hunits with hu | hu | hu | hu <;> rw [hu]
    · cases hT : s.type <;> simp_all
    · simp [hopen, hs, hfd]
    · simp [hopen, hs, hfd]
    · simp [hopen, hs, hfd]
  unfold Trajectory_init
  simp only [hv, hmode]
  rcases hfmt with h | h | h | h | ⟨h, hext⟩
  · simp [h, Trajectory_init_guess, Trajectory_new, hunit]
  · simp [h, Trajectory_init_guess, Trajectory_new, hunit]
  · simp [h, Trajectory_init_guess, Trajectory_new, hunit]
  · simp [h, Trajectory_init_guess, Trajectory_new, hunit]
  · rcases h with h | h <;> rcases hext with he | he | he <;>
      simp [h, he, Trajectory_init_guess, Trajectory_new, hunit]

end MDArray

namespace MDArray

/-- C3, witness: `Trajectory('water.xyz', 'w', symbols=['O', 'H', 'H'])` on the file system
that holds `water.xyz`. -/
theorem C3_write_mode_on_existing_file_witness :
    (Trajectory_init exampleEnv exampleFs Trajectory_new
      (openForWriting "water.xyz".toList "w".toList ["O".toList, "H".toList, "H".toList])).1
        = Res.error (some PyExc.FileExistsError) ∧
    (Trajectory_init exampleEnv exampleFs Trajectory_new
      (openForWriting "water.xyz".toList "w".toList ["O".toList, "H".toList, "H".toList])).2.2
        = exampleFs ∧
    (Trajectory_init exampleEnv exampleFs Trajectory_new
      (openForWriting "water.xyz".toList "w".toList ["O".toList, "H".toList, "H".toList])).2.1.fd
        = none :=
  C3_write_mode_on_existing_file exampleEnv exampleFs
    (openForWriting "water.xyz".toList "w".toList ["O".toList, "H".toList, "H".toList])
    ⟨"water.xyz".toList, some "w".toList,
      some (PyObject.PList [some "O".toList, some "H".toList, some "H".toList]),
      none, none, none, none⟩
    [] (by decide) rfl (by decide) (by decide) (by decide)

end MDArray

namespace MDArray

/-! ### Atom-count mismatch -/

theorem dropWhile_append_singleton (p : Char → Bool) (c : Char) (hc : p c = false) :
    ∀ l : List Char, ∃ u, (l ++ [c]).dropWhile p = u ++ [c] := by
  intro l
  induction l with
  | nil => exact ⟨[], by simp [List.dropWhile, hc]⟩
  | cons a l ih =>
    by_cases ha : p a = true
    · obtain ⟨u, hu⟩ := ih
      exact ⟨u, by simp [List.dropWhile, ha, hu]⟩
    · exact ⟨a :: l, by simp [List.dropWhile, ha]⟩

/-- A string that begins with a character that is not white space keeps it under
`stripline`. -/
theorem stripline_head (c : Char) (t : List Char) (hc : isspace c = false) :
    (stripline (c :: t)).head? = some c := by
  unfold stripline
  have h1 : (c :: t).dropWhile isspace = c :: t := by simp [List.dropWhile, hc]
  rw [h1, List.reverse_cons]
  obtain ⟨u, hu⟩ := dropWhile_append_singleton isspace c hc t.reverse
  rw [hu]
  simp

theorem dropWhile_dropWhile (p : Char → Bool) (s : List Char) :
    (s.dropWhile p).dropWhile p = s.dropWhile p := by
  induction s with
  | nil => rfl
  | cons a l ih =>
    by_cases ha : p a = true
    · simp [List.dropWhile, ha, ih]
    · simp [List.dropWhile, ha]

theorem stripline_dropWhile (s : List Char) :
    stripline s = stripline (s.dropWhile isspace) := by
  unfold stripline
  rw [dropWhile_dropWhile]

/-- What `sscanf` converts is the numeral at the head of the string. -/
theorem sscanf_d_scanInt (line : List Char) (m : Int) (h : sscanf_d line = some m) :
    ∃ k, scanInt line = some k ∧ m = toInt32 (clampLong k) := by
  unfold sscanf_d at h
  cases hk : scanInt line with
  | none => rw [hk] at h; simp at h
  | some k =>
    rw [hk] at h
    simp only [Option.map_some', Option.some.injEq] at h
    exact ⟨k, rfl, h.symm⟩

/-- An integer inside the range of `int` is stored as it is. -/
theorem toInt32_clampLong (k : Int) (h1 : -2147483648 ≤ k) (h2 : k < 2147483648) :
    toInt32 (clampLong k) = k := by
  have hc : clampLong k = k := by
    unfold clampLong
    rw [min_eq_left (by omega), max_eq_right (by omega)]
  rw [hc]
  unfold toInt32
  omega

/-- A line on which `sscanf` finds an integer does not begin a section. -/
theorem sscanf_d_not_section (line : List Char) (m : Int) (h : sscanf_d line = some m) :
    (stripline (cstr line)).head? ≠ some '[' := by
  obtain ⟨k, h, _⟩ := sscanf_d_scanInt line m h
  unfold scanInt at h
  rw [stripline_dropWhile]
  generalize hs : (cstr line).dropWhile isspace = s at h
  have hsp : ∀ c t, s = c :: t → isspace c = false := by
    intro c t hct
    have := List.head_dropWhile_not isspace (cstr line) (by rw [hs, hct]; simp)
    simp only [hs, hct, List.head_cons] at this
    simpa using this
  match s, h, hsp with
  | [], h, _ => simp [takeSign] at h
  | c :: t, h, hsp =>
    rw [stripline_head c t (hsp c t rfl)]
    intro hc
    simp only [Option.some.injEq] at hc
    subst hc
    simp [takeSign, List.takeWhile, isdigit] at h

/-- The conversion `%d` stores a 32-bit `int`: the numeral `4294967297` is stored as 1 and
`2147483648` as -2147483648, a numeral beyond the range of `long` as -1. -/
theorem sscanf_d_wraps :
    sscanf_d "4294967297\n".toList = some 1 ∧
    sscanf_d "2147483648\n".toList = some (-2147483648) ∧
    sscanf_d "99999999999999999999\n".toList = some (-1) ∧
    sscanf_d "-17\n".toList = some (-17) := by
  decide

end MDArray

namespace MDArray

/-- Seeking back to the offset taken before a `getline` restores the stream. -/
theorem getline_fseek_back (f f1 : FILE) (l : List Char) (h : f.getline = some (l, f1)) :
    f1.fseek f.ftell = f := by
  unfold FILE.getline at h
  split at h
  · simp at h
  · simp only [Option.some.injEq, Prod.mk.injEq] at h
    obtain ⟨_, rfl⟩ := h
    simp [FILE.fseek, FILE.ftell]

theorem with_fd_self (s : Trajectory) (f : FILE) (h : s.fd = some f) :
    { s with fd := some f } = s := by
  cases s
  simp only at h
  subst h
  rfl

/-- Without wrapping the arguments of a read never run into undefined behaviour. -/
theorem Trajectory_read_args_no_wrap (a : ReadArgs) (h : a.wrap = false) :
    Trajectory_read_args a = Res.ok none ∨ ∃ e, Trajectory_read_args a = Res.error e := by
  unfold Trajectory_read_args
  rcases hp : parse_O PyObject.isArray a.box with py_box | e | _
  · left; simp [h]
  · right; exact ⟨e, rfl⟩
  · exact absurd hp (parse_O_ne_fault _ _)

/-- When a line is there and does not begin a section, the read goes on to the frame with
the cursor where it was. -/
theorem Trajectory_read_peek_line (env : Env) (s : Trajectory) (w : Bool)
    (b : Option (List ARRAY_REAL)) (f f1 : FILE) (line : List Char)
    (hx : s.type ≠ FileType.XTC) (hfd : s.fd = some f) (hl : f.getline = some (line, f1))
    (hsec : ¬ (s.type = FileType.MOLDEN ∧ (stripline (cstr line)).head? = some '[')) :
    Trajectory_read_peek env s w b = Trajectory_read_frame env s w b := by
  unfold Trajectory_read_peek
  simp only [ne_eq, hx, not_false_eq_true, if_true, hfd, hl, hsec, if_false,
    getline_fseek_back f f1 line hl]
  rw [with_fd_self s f hfd]

/-- The dispatch of a read for the formats that `read_frame_from_xyz` serves. -/
theorem Trajectory_read_frame_xyz (env : Env) (s : Trajectory) (w : Bool)
    (b : Option (List ARRAY_REAL)) (f : FILE)
    (hty : s.type = FileType.XYZ ∨ s.type = FileType.MOLDEN) (hfd : s.fd = some f) :
    Trajectory_read_frame env s w b =
      match read_frame_from_xyz env s f w b with
      | (Res.ok fr, f1) =>
        (Res.ok (some fr), { s with fd := some f1, lastFrame := s.lastFrame + 1 })
      | (Res.error e, f1) => (Res.error e, { s with fd := some f1 })
      | (Res.fault, f1) => (Res.fault, { s with fd := some f1 }) := by
  unfold Trajectory_read_frame
  rcases hty with h | h <;> simp only [h, hfd]

/-- The dispatch of a read for the fixed-column format. -/
theorem Trajectory_read_frame_gro (env : Env) (s : Trajectory) (w : Bool)
    (b : Option (List ARRAY_REAL)) (f : FILE)
    (hty : s.type = FileType.GRO) (hfd : s.fd = some f) :
    Trajectory_read_frame env s w b =
      match read_frame_from_gro s f w b with
      | (Res.ok fr, f1) =>
        (Res.ok (some fr), { s with fd := some f1, lastFrame := s.lastFrame + 1 })
      | (Res.error e, f1) => (Res.error e, { s with fd := some f1 })
      | (Res.fault, f1) => (Res.fault, { s with fd := some f1 }) := by
  unfold Trajectory_read_frame
  simp only [hty, hfd]

theorem read_frame_from_xyz_mismatch (env : Env) (s : Trajectory) (f f1 : FILE)
    (w : Bool) (b : Option (List ARRAY_REAL)) (line : List Char) (m : Int)
    (hty : s.type = FileType.XYZ ∨ (s.type = FileType.MOLDEN ∧ s.moldenStyle = MoldenStyle.MLGEOM))
    (hl : f.getline = some (line, f1)) (hparse : sscanf_d line = some m) (hne : m ≠ s.nAtoms) :
    read_frame_from_xyz env s f w b =
      if w = true ∧ b.isNone = true then (Res.fault, f)
      else (Res.error (some PyExc.RuntimeError), f1) := by
  unfold read_frame_from_xyz
  by_cases hw : (w = true ∧ b.isNone = true)
  · simp [hw]
  · simp only [hw, if_false, hty, if_true, _getline, hl, hparse, if_pos hne]

theorem read_frame_from_gro_mismatch (s : Trajectory) (f f1 f2 : FILE)
    (w : Bool) (b : Option (List ARRAY_REAL)) (c line : List Char) (m : Int)
    (hc : f.getline = some (c, f1)) (hl : f1.getline = some (line, f2))
    (hparse : sscanf_d line = some m) (hne : m ≠ s.nAtoms) :
    ∃ e g, read_frame_from_gro s f w b = (Res.error e, g) := by
  unfold read_frame_from_gro
  simp only [_getline, hc]
  cases hch : chopLast (cstr c) with
  | none => exact ⟨none, f1, rfl⟩
  | some chopped =>
    refine ⟨some PyExc.IOError, f2, ?_⟩
    have : sscanf_d line ≠ some s.nAtoms := by
      rw [hparse]; intro h; exact hne (Option.some.inj h)
    simp [hl, this]

/-- C5. In a generic, sectioned-GEOMETRIES or fixed-column session, when the atom-count
line of the next frame parses to an integer other than the session's `nAtoms`, the read
returns neither a frame nor the end of the stream, and `lastFrame` is unchanged; unless
wrapping was requested (where the read can run into undefined behaviour before it looks at
the line) the outcome is an error with an exception. -/
theorem C5_atom_count_mismatch (env : Env) (s : Trajectory) (a : ReadArgs) (f : FILE)
    (line : List Char) (m : Int)
    (hmode : s.mode = 'r') (hfd : s.fd = some f)
    (hline :
      ((s.type = FileType.XYZ ∨
          (s.type = FileType.MOLDEN ∧ s.moldenStyle = MoldenStyle.MLGEOM)) ∧
        ∃ f1, f.getline = some (line, f1)) ∨
      (s.type = FileType.GRO ∧
        ∃ c f1 f2, f.getline = some (c, f1) ∧ f1.getline = some (line, f2)))
    (hparse : sscanf_d line = some m) (hne : m ≠ s.nAtoms) :
    (∀ o, (Trajectory_read env s a).1 ≠ Res.ok o) ∧
    (Trajectory_read env s a).2.lastFrame = s.lastFrame ∧
    (a.wrap = false → ∃ e, (Trajectory_read env s a).1 = Res.error e) := by
  have hpeek : ∀ b : Option (List ARRAY_REAL),
      (Trajectory_read_peek env s a.wrap b).1 = Res.fault ∧ a.wrap = true ∨
      ∃ e, (Trajectory_read_peek env s a.wrap b).1 = Res.error e := by
    intro b
    rcases hline with ⟨hty, f1, hl⟩ | ⟨hty, c, f1, f2, hc, hl⟩
    · have hx : s.type ≠ FileType.XTC := by rcases hty with h | ⟨h, _⟩ <;> rw [h] <;> decide
      rw [Trajectory_read_peek_line env s a.wrap b f f1 line hx hfd hl
          (fun h => sscanf_d_not_section line m hparse h.2),
        Trajectory_read_frame_xyz env s a.wrap b f (by tauto) hfd,
        read_frame_from_xyz_mismatch env s f f1 a.wrap b line m hty hl hparse hne]
      by_cases hw : (a.wrap = true ∧ b.isNone = true)
      · left; simp [hw]
      · right; simp only [hw, if_false]; exact ⟨_, rfl⟩
    · have hx : s.type ≠ FileType.XTC := by rw [hty]; decide
      rw [Trajectory_read_peek_line env s a.wrap b f f1 c hx hfd hc (by rw [hty]; simp),
        Trajectory_read_frame_gro env s a.wrap b f hty hfd]
      obtain ⟨e, g, he⟩ := read_frame_from_gro_mismatch s f f1 f2 a.wrap b c line m hc hl
        hparse hne
      right; rw [he]; exact ⟨e, rfl⟩
  have hmain : (∀ o, (Trajectory_read env s a).1 ≠ Res.ok o) ∧
      (a.wrap = false → ∃ e, (Trajectory_read env s a).1 = Res.error e) := by
    unfold Trajectory_read
    rw [if_neg (by rw [hmode]; decide)]
    rcases hp : Trajectory_read_args a with b | e | _
    · dsimp only
      rcases hpeek b with ⟨h, hw⟩ | ⟨e, h⟩
      · rw [h]; exact ⟨by simp, fun hw2 => by simp [hw] at hw2⟩
      · rw [h]; exact ⟨by simp, fun _ => ⟨e, rfl⟩⟩
    · exact ⟨by simp, fun _ => ⟨e, rfl⟩⟩
    · refine ⟨by simp, fun hw => ?_⟩
      rcases Trajectory_read_args_no_wrap a hw with h | ⟨e, h⟩ <;> simp [h] at hp
  refine ⟨hmain.1, ?_, hmain.2⟩
  exact (Trajectory_read_lastFrame env s a).2 (fun fr => hmain.1 (some fr))

end MDArray

namespace MDArray

/-! ### The atom count and the shapes of the arrays of a frame -/

theorem Trajectory_read_frame_nAtoms (env : Env) (s : Trajectory) (w : Bool)
    (b : Option (List ARRAY_REAL)) :
    (Trajectory_read_frame env s w b).2.nAtoms = s.nAtoms := by
  unfold Trajectory_read_frame
  split
  · split
    · rfl
    · split <;> rfl
  · split
    · rfl
    · split <;> rfl
  · split
    · rfl
    · split <;> rfl
  · split
    · split
      · rfl
      · split <;> rfl
    · rfl
  · rfl

theorem Trajectory_read_nAtoms (env : Env) (s : Trajectory) (a : ReadArgs) :
    (Trajectory_read env s a).2.nAtoms = s.nAtoms := by
  unfold Trajectory_read
  split
  · rfl
  · split
    · rfl
    · rfl
    · unfold Trajectory_read_peek
      split
      · split
        · rfl
        · split
          · rfl
          · split
            · rfl
            · rw [Trajectory_read_frame_nAtoms]
      · rw [Trajectory_read_frame_nAtoms]

theorem Trajectory_write_nAtoms (s : Trajectory) (a : WriteArgs) :
    (Trajectory_write s a).2.nAtoms = s.nAtoms := by
  unfold Trajectory_write
  split
  · rfl
  · rfl
  · split
    · rfl
    · split
      · rfl
      · split
        · rfl
        · split
          · rfl
          · split
            · split
              · rfl
              · split <;> rfl
            · split
              · rfl
              · split <;> rfl
            · rfl

theorem wrapPBC_length (box : List ARRAY_REAL) :
    ∀ (n : Nat) (xyz : List ARRAY_REAL), (wrapPBC n xyz box).length = 3 * n := by
  intro n
  induction n with
  | zero => intro xyz; rfl
  | succ k ih =>
    intro xyz
    simp only [wrapPBC, List.length_append, ih]
    simp only [wrapPBCsingle, List.length_cons, List.length_nil]
    omega

theorem read_frame_from_xtc_loop_length (wrapBox : List ARRAY_REAL) :
    ∀ (n : Nat) (x : List ARRAY_REAL), (read_frame_from_xtc_loop n x wrapBox).length = 3 * n := by
  intro n
  induction n with
  | zero => intro x; rfl
  | succ k ih =>
    intro x
    simp only [read_frame_from_xtc_loop, List.length_append, ih]
    simp only [wrapPBCsingle, List.length_cons, List.length_nil]
    omega

theorem read_frame_from_xyz_loop_shape (s : Trajectory) (factor : ARRAY_REAL) (w : Bool)
    (box : List ARRAY_REAL) :
    ∀ (k pos : Nat) (f : FILE) (ep : Bool) (xyz extra : List ARRAY_REAL)
      (ep1 : Bool) (xyz1 extra1 : List ARRAY_REAL) (f1 : FILE),
      read_frame_from_xyz_loop s factor w box k pos f ep xyz extra
        = (Res.ok (ep1, xyz1, extra1), f1) →
      ((ep = true → 0 < pos ∧ extra.length = pos) ∧ (ep = false → extra = [])) →
      xyz1.length = xyz.length + 3 * k ∧ (ep1 = true → extra1.length = pos + k) := by
  intro k
  induction k with
  | zero =>
    intro pos f ep xyz extra ep1 xyz1 extra1 f1 h hinv
    simp only [read_frame_from_xyz_loop, Prod.mk.injEq, Res.ok.injEq] at h
    obtain ⟨⟨rfl, rfl, rfl⟩, _⟩ := h
    exact ⟨by simp, fun h => by simpa using (hinv.1 h).2⟩
  | succ k ih =>
    intro pos f ep xyz extra ep1 xyz1 extra1 f1 h hinv
    unfold read_frame_from_xyz_loop at h
    split at h
    · simp at h
    · split at h
      · simp at h
      · dsimp only at h
        split at h
        · have hc3 : ∀ a b c : ARRAY_REAL,
              (if w = true then wrapPBCsingle [a, b, c] box else [a, b, c]).length = 3 := by
            intro a b c
            split
            · simp [wrapPBCsingle]
            · rfl
          split at h
          · split at h
            · simp at h
            · rename_i hcond
              have := ih _ _ _ _ _ _ _ _ _ h (by
                constructor
                · intro _
                  refine ⟨by omega, ?_⟩
                  simp only [List.length_append, List.length_cons, List.length_nil]
                  by_cases hp : 0 < pos
                  · have hep : ep = true := by
                      cases ep
                      · exact absurd ⟨hp, rfl⟩ hcond
                      · rfl
                    rw [(hinv.1 hep).2]
                  · have hp0 : pos = 0 := by omega
                    cases ep
                    · rw [hinv.2 rfl, hp0]; rfl
                    · exact absurd (hinv.1 rfl).1 hp
                · intro hf; simp at hf)
              simp only [List.length_append, hc3] at this
              exact ⟨by omega, fun h1 => by rw [this.2 h1]; omega⟩
          · split at h
            · simp at h
            · rename_i hcond
              have := ih _ _ _ _ _ _ _ _ _ h (by
                constructor
                · intro hep
                  exfalso
                  have := (hinv.1 hep).1
                  exact hcond ⟨this, hep⟩
                · intro hep
                  exact hinv.2 hep)
              simp only [List.length_append, hc3] at this
              exact ⟨by omega, fun h1 => by rw [this.2 h1]; omega⟩
        · simp at h

end MDArray

namespace MDArray

theorem read_frame_from_gro_loop_shape :
    ∀ (k pos : Nat) (f : FILE) (vp : Bool) (xyz vel : List ARRAY_REAL)
      (vp1 : Bool) (xyz1 vel1 : List ARRAY_REAL) (f1 : FILE),
      read_frame_from_gro_loop k pos f vp xyz vel = (Res.ok (vp1, xyz1, vel1), f1) →
      ((vp = true → 0 < pos ∧ vel.length = 3 * pos) ∧ (vp = false → vel = [])) →
      xyz1.length = xyz.length + 3 * k ∧ (vp1 = true → vel1.length = 3 * (pos + k)) := by
  intro k
  induction k with
  | zero =>
    intro pos f vp xyz vel vp1 xyz1 vel1 f1 h hinv
    simp only [read_frame_from_gro_loop, Prod.mk.injEq, Res.ok.injEq] at h
    obtain ⟨⟨rfl, rfl, rfl⟩, _⟩ := h
    exact ⟨by simp, fun h => by simpa using (hinv.1 h).2⟩
  | succ k ih =>
    intro pos f vp xyz vel vp1 xyz1 vel1 f1 h hinv
    unfold read_frame_from_gro_loop at h
    split at h
    · simp at h
    · rename_i buffer f2 _
      dsimp only at h
      have := ih _ _ _ _ _ _ _ _ _ h (by
        constructor
        · intro hvp
          refine ⟨by omega, ?_⟩
          simp only [hvp, if_true, List.length_append, List.length_cons, List.length_nil]
          by_cases hp : pos = 0
          · subst hp
            cases vp
            · rw [hinv.2 rfl]; rfl
            · exact absurd (hinv.1 rfl).1 (by omega)
          · have hv : vp = true := by simpa [hp] using hvp
            rw [(hinv.1 hv).2]; omega
        · intro hvp
          simp only [hvp, List.append_nil]
          have hv : vp = false := by
            by_cases hp : pos = 0 ∧ 50 < (cstr buffer).length
            · simp [hp] at hvp
            · simpa [hp] using hvp
          simpa using hinv.2 hv)
      simp only [List.length_append, List.length_cons, List.length_nil] at this
      exact ⟨by omega, fun h1 => by rw [this.2 h1]; ring⟩

theorem read_frame_from_xyz_atoms_shape (env : Env) (s : Trajectory) (f f1 : FILE) (w : Bool)
    (box : List ARRAY_REAL) (r fr : Frame)
    (hr : r.coordinates = none ∧ r.extra = none ∧ r.velocities = none)
    (h : read_frame_from_xyz_atoms env s f w box r = (Res.ok fr, f1)) :
    (∃ arr, fr.coordinates = some arr ∧ arr.hasShape2 s.nAtoms 3) ∧
    (∀ arr, fr.velocities = some arr → arr.hasShape2 s.nAtoms 3) ∧
    (∀ arr, fr.extra = some arr → arr.hasShape1 s.nAtoms) := by
  unfold read_frame_from_xyz_atoms at h
  split at h
  · simp at h
  · rename_i hn
    have hn0 : 0 ≤ s.nAtoms := by omega
    split at h
    · rename_i ep xyz extra f2 hloop
      have hs := read_frame_from_xyz_loop_shape s _ w box _ _ _ _ _ _ _ _ _ _ hloop
        ⟨fun h => by simp at h, fun _ => rfl⟩
      simp only [List.length_nil, zero_add] at hs
      simp only [Prod.mk.injEq, Res.ok.injEq] at h
      obtain ⟨rfl, _⟩ := h
      cases ep
      · simp only [Bool.false_eq_true, if_false]
        exact ⟨⟨_, rfl, hn0, rfl, hs.1⟩, by simp [hr.2.2], by simp [hr.2.1]⟩
      · simp only [if_true]
        refine ⟨⟨_, rfl, hn0, rfl, hs.1⟩, by simp [hr.2.2], ?_⟩
        intro arr harr
        simp only [Option.some.injEq] at harr
        subst harr
        exact ⟨hn0, rfl, hs.2 rfl⟩
    · simp at h
    · simp at h

theorem read_frame_from_xyz_shape (env : Env) (s : Trajectory) (f f1 : FILE) (w : Bool)
    (b : Option (List ARRAY_REAL)) (fr : Frame)
    (h : read_frame_from_xyz env s f w b = (Res.ok fr, f1)) :
    (∃ arr, fr.coordinates = some arr ∧ arr.hasShape2 s.nAtoms 3) ∧
    (∀ arr, fr.velocities = some arr → arr.hasShape2 s.nAtoms 3) ∧
    (∀ arr, fr.extra = some arr → arr.hasShape1 s.nAtoms) := by
  unfold read_frame_from_xyz at h
  split at h
  · simp at h
  · split at h
    · split at h
      · simp at h
      · split at h
        · simp at h
        · split at h
          · simp at h
          · split at h
            · simp at h
            · split at h
              · simp at h
              · exact read_frame_from_xyz_atoms_shape env s _ _ w _ _ fr ⟨rfl, rfl, rfl⟩ h
    · exact read_frame_from_xyz_atoms_shape env s _ _ w _ _ fr ⟨rfl, rfl, rfl⟩ h

theorem read_frame_from_gro_shape (s : Trajectory) (f f1 : FILE) (w : Bool)
    (b : Option (List ARRAY_REAL)) (fr : Frame)
    (h : read_frame_from_gro s f w b = (Res.ok fr, f1)) :
    (∃ arr, fr.coordinates = some arr ∧ arr.hasShape2 s.nAtoms 3) ∧
    (∀ arr, fr.velocities = some arr → arr.hasShape2 s.nAtoms 3) ∧
    (∀ arr, fr.extra = some arr → arr.hasShape1 s.nAtoms) := by
  unfold read_frame_from_gro at h
  split at h
  · simp at h
  · split at h
    · simp at h
    · dsimp only at h
      split at h
      · simp at h
      · split at h
        · simp at h
        · split at h
          · simp at h
          · rename_i hn
            have hn0 : 0 ≤ s.nAtoms := by omega
            split at h
            · rename_i vp xyz vel f3 hloop
              have hs := read_frame_from_gro_loop_shape _ _ _ _ _ _ _ _ _ _ hloop
                ⟨fun h => by simp at h, fun _ => rfl⟩
              simp only [List.length_nil, zero_add] at hs
              split at h
              · simp at h
              · simp only [Prod.mk.injEq, Res.ok.injEq] at h
                obtain ⟨rfl, _⟩ := h
                have hx : ∀ bx : List ARRAY_REAL, (if w = true then
                    wrapPBC s.nAtoms.toNat xyz bx else xyz).length
                    = 3 * s.nAtoms.toNat := by
                  intro bx
                  split
                  · exact wrapPBC_length _ _ _
                  · exact hs.1
                cases vp
                · simp only [Bool.false_eq_true, if_false]
                  exact ⟨⟨_, rfl, hn0, rfl, hx _⟩, by simp [PyDict_New], by simp [PyDict_New]⟩
                · simp only [if_true]
                  refine ⟨⟨_, rfl, hn0, rfl, hx _⟩, ?_, by simp [PyDict_New]⟩
                  intro arr harr
                  simp only [Option.some.injEq] at harr
                  subst harr
                  exact ⟨hn0, rfl, hs.2 rfl⟩
            · simp at h
            · simp at h

theorem read_frame_from_xtc_shape (env : Env) (s : Trajectory) (xd xd1 : List XtcRecord)
    (w : Bool) (b : Option (List ARRAY_REAL)) (fr : Frame)
    (h : read_frame_from_xtc env s xd w b = (Res.ok (some fr), xd1)) :
    (∃ arr, fr.coordinates = some arr ∧ arr.hasShape2 s.nAtoms 3) ∧
    (∀ arr, fr.velocities = some arr → arr.hasShape2 s.nAtoms 3) ∧
    (∀ arr, fr.extra = some arr → arr.hasShape1 s.nAtoms) := by
  unfold read_frame_from_xtc at h
  split at h
  · simp at h
  · split at h
    · simp at h
    · split at h
      · simp at h
      · dsimp only at h
        split at h
        · simp at h
        · rename_i hn
          have hn0 : 0 ≤ s.nAtoms := by omega
          simp only [Prod.mk.injEq, Res.ok.injEq, Option.some.injEq] at h
          obtain ⟨rfl, _⟩ := h
          exact ⟨⟨_, rfl, hn0, rfl, read_frame_from_xtc_loop_length _ _ _⟩,
            by simp [PyDict_New], by simp [PyDict_New]⟩

theorem Trajectory_read_frame_shape (env : Env) (s : Trajectory) (w : Bool)
    (b : Option (List ARRAY_REAL)) (fr : Frame)
    (h : (Trajectory_read_frame env s w b).1 = Res.ok (some fr)) :
    (∃ arr, fr.coordinates = some arr ∧ arr.hasShape2 s.nAtoms 3) ∧
    (∀ arr, fr.velocities = some arr → arr.hasShape2 s.nAtoms 3) ∧
    (∀ arr, fr.extra = some arr → arr.hasShape1 s.nAtoms) := by
  unfold Trajectory_read_frame at h
  split at h
  · split at h
    · simp at h
    · split at h
      · rename_i hr
        simp only [Res.ok.injEq, Option.some.injEq] at h
        subst h
        exact read_frame_from_xyz_shape env s _ _ w b _ hr
      · simp at h
      · simp at h
  · split at h
    · simp at h
    · split at h
      · rename_i hr
        simp only [Res.ok.injEq, Option.some.injEq] at h
        subst h
        exact read_frame_from_xyz_shape env s _ _ w b _ hr
      · simp at h
      · simp at h
  · split at h
    · simp at h
    · split at h
      · rename_i hr
        simp only [Res.ok.injEq, Option.some.injEq] at h
        subst h
        exact read_frame_from_gro_shape s _ _ w b _ hr
      · simp at h
      · simp at h
  · split at h
    · split at h
      · simp at h
      · split at h
        · rename_i hr
          simp only [Res.ok.injEq, Option.some.injEq] at h
          subst h
          exact read_frame_from_xtc_shape env s _ _ w b _ hr
        · simp at h
        · simp at h
        · simp at h
    · simp at h
  · simp at h

/-- C6. Neither `Trajectory_read` nor `Trajectory_write` changes `nAtoms`, whatever the
outcome of the call; and every frame a read returns holds a `coordinates` array of
`nAtoms` rows and 3 columns, and its `velocities` (nAtoms x 3) and `extra` (nAtoms) arrays
have `nAtoms` rows whenever they are present. -/
theorem C6_atom_count_fixed_and_shapes (env : Env) (s : Trajectory) :
    (∀ a : ReadArgs, (Trajectory_read env s a).2.nAtoms = s.nAtoms) ∧
    (∀ a : WriteArgs, (Trajectory_write s a).2.nAtoms = s.nAtoms) ∧
    (∀ (a : ReadArgs) (fr : Frame), (Trajectory_read env s a).1 = Res.ok (some fr) →
      (∃ arr, fr.coordinates = some arr ∧ arr.hasShape2 s.nAtoms 3) ∧
      (∀ arr, fr.velocities = some arr → arr.hasShape2 s.nAtoms 3) ∧
      (∀ arr, fr.extra = some arr → arr.hasShape1 s.nAtoms)) := by
  refine ⟨Trajectory_read_nAtoms env s, Trajectory_write_nAtoms s, ?_⟩
  intro a fr h
  unfold Trajectory_read at h
  split at h
  · simp at h
  · split at h
    · simp at h
    · simp at h
    · unfold Trajectory_read_peek at h
      split at h
      · split at h
        · simp at h
        · split at h
          · simp at h
          · split at h
            · simp at h
            · have h2 := Trajectory_read_frame_shape env _ _ _ fr h
              exact h2
      · exact Trajectory_read_frame_shape env _ _ _ fr h

end MDArray

namespace MDArray

/-! ### The checks of a write and the frame it writes -/

theorem fprintf_fprintf (f : FILE) (a b : List Char) :
    (f.fprintf a).fprintf b = f.fprintf (a ++ b) := by
  simp [FILE.fprintf, List.append_assoc]

theorem fprintf_nil (f : FILE) : f.fprintf [] = f := by
  simp [FILE.fprintf]

theorem write_frame_to_gro_loop_ok (s : Trajectory) (v : WriteVars) :
    ∀ (k i : Nat) (f : FILE),
      (∀ j, i ≤ j → j < i + k → groDefined s v j = true) →
      write_frame_to_gro_loop s v.py_coords v.py_vel k i f
        = (Res.ok (), f.fprintf (((List.range' i k).map (groWrittenLine s v)).flatten)) := by
  intro k
  induction k with
  | zero => intro i f _; simp [write_frame_to_gro_loop, fprintf_nil]
  | succ k ih =>
    intro i f h
    have hi := h i (le_refl _) (by omega)
    simp only [groDefined, xyzDefined, Bool.and_eq_true, Option.isSome_iff_exists] at hi
    obtain ⟨⟨⟨⟨⟨⟨⟨sym, hs⟩, ⟨x, hx⟩⟩, ⟨y, hy⟩⟩, ⟨z, hz⟩⟩, ⟨rid, hrid⟩⟩, ⟨rn, hrn⟩⟩, hvel⟩ := hi
    unfold write_frame_to_gro_loop
    simp only [hs, hx, hy, hz, hrid, hrn]
    cases hv : v.py_vel with
    | none =>
      simp only []
      have := ih (i + 1) (f.fprintf (groAtomHead rid rn sym i x y z ++ ['\n']))
        (fun j h1 h2 => h j (by omega) (by omega))
      rw [hv] at this
      rw [this, fprintf_fprintf]
      simp [List.range'_succ, groWrittenLine, arrayElem, hs, hx, hy, hz, hrid, hrn, hv]
    | some vel =>
      rw [hv] at hvel
      simp only [Option.isSome_iff_exists] at hvel
      obtain ⟨vs, hvs⟩ := hvel
      simp only [hvs]
      have := ih (i + 1) (f.fprintf (groAtomHead rid rn sym i x y z ++ vs ++ ['\n']))
        (fun j h1 h2 => h j (by omega) (by omega))
      rw [hv] at this
      rw [this, fprintf_fprintf]
      simp [List.range'_succ, groWrittenLine, arrayElem, hs, hx, hy, hz, hrid, hrn, hv, hvs]

end MDArray

namespace MDArray

end MDArray

namespace MDArray

/-! ### Reading lines -/

theorem firstLine_line (l tail : List Char) (hl : '\n' ∉ l) :
    FILE.firstLine (l ++ '\n' :: tail) = l ++ ['\n'] := by
  induction l with
  | nil => simp [FILE.firstLine]
  | cons c cs ih =>
    have hc : c ≠ '\n' := fun h => hl (by simp [h])
    have hcs : '\n' ∉ cs := fun h => hl (by simp [h])
    simp [FILE.firstLine, hc, ih hcs]

/-- Reading a line that is there: `getline` returns it with its terminator and leaves the
cursor behind it. -/
theorem getline_line (f : FILE) (l tail : List Char) (hl : '\n' ∉ l)
    (hrest : f.rest = l ++ '\n' :: tail) :
    ∃ f1, f.getline = some (l ++ ['\n'], f1) ∧ f1.rest = tail ∧ f1.content = f.content := by
  refine ⟨{ f with pos := f.pos + (l ++ ['\n']).length }, ?_, ?_, rfl⟩
  · unfold FILE.getline
    rw [hrest, firstLine_line l tail hl]
    simp
  · unfold FILE.rest at hrest ⊢
    show f.content.drop (f.pos + (l ++ ['\n']).length) = tail
    rw [← List.drop_drop, hrest]
    simp

theorem getline_eof (f : FILE) (h : f.rest = []) : f.getline = none := by
  unfold FILE.getline
  simp [h]

theorem isLine_iff (l : List Char) : isLine l = true ↔ '\n' ∉ l ∧ NUL ∉ l := by
  unfold isLine
  simp

theorem cstr_of_no_nul (l : List Char) (h : NUL ∉ l) : cstr l = l := by
  unfold cstr
  rw [List.takeWhile_eq_self_iff]
  intro c hc
  simp only [bne_iff_ne, ne_eq]
  intro hcn
  exact h (hcn ▸ hc)

theorem cstr_line (l : List Char) (h : isLine l = true) : cstr (l ++ ['\n']) = l ++ ['\n'] := by
  apply cstr_of_no_nul
  rw [isLine_iff] at h
  intro hmem
  rcases List.mem_append.1 hmem with h1 | h1
  · exact h.2 h1
  · simp only [List.mem_singleton] at h1
    exact absurd h1 (by decide)

theorem chopLast_line (l : List Char) : chopLast (l ++ ['\n']) = some l := by
  unfold chopLast
  simp

theorem linesText_cons (l : List Char) (ls : List (List Char)) :
    linesText (l :: ls) = l ++ '\n' :: linesText ls := by
  simp [linesText]

end MDArray

namespace MDArray

/-! ### The atom loop of the generic-format reader on well-formed lines -/

theorem get?_of_lt {α : Type} (l : List α) (i : Nat) (d : α) (h : i < l.length) :
    l.get? i = some (l.getD i d) := by
  simp [List.getD, List.getElem?_eq_getElem h]

theorem get?_of_ge {α : Type} (l : List α) (i : Nat) (h : l.length ≤ i) :
    l.get? i = none := by
  simp [List.getElem?_eq_none h]

/-- One turn of the atom loop on a line that carries a symbol and three coordinates. -/
theorem read_frame_from_xyz_loop_step (s : Trajectory) (factor : ARRAY_REAL) (w : Bool)
    (box : List ARRAY_REAL) (hsk : skippedTokens s = 0) (k pos : Nat) (f : FILE) (ep : Bool)
    (xyz extra : List ARRAY_REAL) (l tail : List Char) (hl : isAtomLine l = true)
    (hrest : f.rest = l ++ '\n' :: tail) :
    ∃ f1, f1.rest = tail ∧ f1.content = f.content ∧
      read_frame_from_xyz_loop s factor w box (k + 1) pos f ep xyz extra =
        if hasExtra l = true then
          (if 0 < pos ∧ ep = false then (Res.error (some PyExc.IOError), f1)
           else read_frame_from_xyz_loop s factor w box k (pos + 1) f1 true
              (xyz ++ (if w = true then wrapPBCsingle (xyzLineCoords factor l) box
                else xyzLineCoords factor l))
              (extra ++ [xyzLineExtra l]))
        else
          (if 0 < pos ∧ ep = true then (Res.error (some PyExc.IOError), f1)
           else read_frame_from_xyz_loop s factor w box k (pos + 1) f1 ep
              (xyz ++ (if w = true then wrapPBCsingle (xyzLineCoords factor l) box
                else xyzLineCoords factor l))
              extra) := by
  unfold isAtomLine at hl
  simp only [Bool.and_eq_true, decide_eq_true_eq] at hl
  obtain ⟨hline, h4⟩ := hl
  obtain ⟨f1, hg, hr1, hc1⟩ := getline_line f l tail ((isLine_iff l).1 hline).1 hrest
  refine ⟨f1, hr1, hc1, ?_⟩
  rw [read_frame_from_xyz_loop]
  simp only [_getline, hg, cstr_line l hline, chopLast_line, hsk, Nat.add_zero,
    get?_of_lt (strtok l) 1 [] (by omega), get?_of_lt (strtok l) 2 [] (by omega),
    get?_of_lt (strtok l) 3 [] (by omega)]
  by_cases he : hasExtra l = true
  · have h5 : 4 < (strtok l).length := by
      unfold hasExtra at he; simp only [decide_eq_true_eq] at he; omega
    simp only [he, if_true, get?_of_lt (strtok l) 4 [] h5, xyzLineCoords, xyzLineExtra]
  · have h5 : (strtok l).length ≤ 4 := by
      unfold hasExtra at he; simp only [decide_eq_true_eq] at he; omega
    simp only [he, if_false, get?_of_ge (strtok l) 4 h5, xyzLineCoords, Bool.false_eq_true]

/-- The atom loop behind the first atom: it succeeds and keeps the expectation when every
further line agrees with it, and fails with the parse error as soon as one does not. -/
theorem read_frame_from_xyz_loop_rest (s : Trajectory) (factor : ARRAY_REAL) (w : Bool)
    (box : List ARRAY_REAL) (hsk : skippedTokens s = 0) :
    ∀ (ls : List (List Char)) (pos : Nat) (f : FILE) (ep : Bool)
      (xyz extra : List ARRAY_REAL) (tail : List Char),
      0 < pos → (∀ l ∈ ls, isAtomLine l = true) → f.rest = linesText ls ++ tail →
      (ls.all (fun l => hasExtra l == ep) = true →
        ∃ f1,
          read_frame_from_xyz_loop s factor w box ls.length pos f ep xyz extra
            = (Res.ok (ep, xyz ++ (ls.map (xyzLineStored factor w box)).flatten,
                extra ++ (if ep = true then ls.map xyzLineExtra else [])), f1)
            ∧ f1.rest = tail ∧ f1.content = f.content) ∧
      (ls.all (fun l => hasExtra l == ep) = false →
        ∃ f1, read_frame_from_xyz_loop s factor w box ls.length pos f ep xyz extra
            = (Res.error (some PyExc.IOError), f1)) := by
  intro ls
  induction ls with
  | nil =>
    intro pos f ep xyz extra tail _ _ hrest
    refine ⟨fun _ => ⟨f, by simp [read_frame_from_xyz_loop], by simpa [linesText] using hrest,
      rfl⟩, ?_⟩
    intro h; simp at h
  | cons l ls ih =>
    intro pos f ep xyz extra tail hpos hl hrest
    rw [linesText_cons, List.append_assoc, List.cons_append] at hrest
    obtain ⟨f1, hr1, hc1, hstep⟩ := read_frame_from_xyz_loop_step s factor w box hsk ls.length
      pos f ep xyz extra l (linesText ls ++ tail) (hl l (by simp)) hrest
    simp only [List.length_cons, List.all_cons, Bool.and_eq_true, Bool.and_eq_false_iff]
    rw [hstep]
    have hls : ∀ l ∈ ls, isAtomLine l = true := fun x hx => hl x (by simp [hx])
    cases ep <;> cases he : hasExtra l
    · simp only [Bool.false_eq_true, if_false, and_false, beq_self_eq_true, true_and]
      have ih1 := fun X E => ih (pos + 1) f1 false X E tail (by omega) hls hr1
      exact ⟨fun h => by
          obtain ⟨c, h1, h2, h3⟩ := (ih1 _ _).1 h
          exact ⟨c, by rw [h1]; simp [xyzLineStored, List.append_assoc], h2, h3.trans hc1⟩,
        fun h => by
          rcases h with h | h
          · simp at h
          · exact (ih1 _ _).2 h⟩
    · simp only [if_true, hpos, and_self]
      exact ⟨fun h => by simp at h, fun _ => ⟨f1, rfl⟩⟩
    · simp only [Bool.false_eq_true, if_false, hpos, and_self, if_true]
      exact ⟨fun h => by simp at h, fun _ => ⟨f1, rfl⟩⟩
    · simp only [if_true, Bool.true_eq_false, and_false, if_false, beq_self_eq_true, true_and]
      have ih1 := fun X E => ih (pos + 1) f1 true X E tail (by omega) hls hr1
      exact ⟨fun h => by
          obtain ⟨c, h1, h2, h3⟩ := (ih1 _ _).1 h
          exact ⟨c, by rw [h1]; simp [xyzLineStored, List.append_assoc], h2, h3.trans hc1⟩,
        fun h => by
          rcases h with h | h
          · simp at h
          · exact (ih1 _ _).2 h⟩

/-- The whole atom loop of the generic-format reader on lines that each carry a symbol and
three coordinates: it succeeds when all lines agree with the first one on the optional
fourth number, and fails with the parse error otherwise. -/
theorem read_frame_from_xyz_loop_all (s : Trajectory) (factor : ARRAY_REAL) (w : Bool)
    (box : List ARRAY_REAL) (hsk : skippedTokens s = 0) (ls : List (List Char)) (f : FILE)
    (tail : List Char) (hl : ∀ l ∈ ls, isAtomLine l = true)
    (hrest : f.rest = linesText ls ++ tail) :
    (ls.all (fun l => hasExtra l == hasExtra (ls.headD [])) = true →
      ∃ f1,
        read_frame_from_xyz_loop s factor w box ls.length 0 f false [] []
          = (Res.ok (!ls.isEmpty && hasExtra (ls.headD []),
              (ls.map (xyzLineStored factor w box)).flatten,
              (if hasExtra (ls.headD []) = true then ls.map xyzLineExtra else [])), f1)
          ∧ f1.rest = tail ∧ f1.content = f.content) ∧
    (ls.all (fun l => hasExtra l == hasExtra (ls.headD [])) = false →
      ∃ f1, read_frame_from_xyz_loop s factor w box ls.length 0 f false [] []
          = (Res.error (some PyExc.IOError), f1)) := by
  cases ls with
  | nil =>
    refine ⟨fun _ => ⟨f, ?_, by simpa [linesText] using hrest, rfl⟩, fun h => by simp at h⟩
    simp [read_frame_from_xyz_loop]
  | cons l ls =>
    rw [linesText_cons, List.append_assoc, List.cons_append] at hrest
    obtain ⟨f1, hr1, hc1, hstep⟩ := read_frame_from_xyz_loop_step s factor w box hsk ls.length
      0 f false [] [] l (linesText ls ++ tail) (hl l (by simp)) hrest
    have hls : ∀ l ∈ ls, isAtomLine l = true := fun x hx => hl x (by simp [hx])
    simp only [List.length_cons, List.all_cons, List.headD_cons, beq_self_eq_true, Bool.true_and,
      List.isEmpty_cons, Bool.not_false]
    rw [hstep]
    have ih1 := fun ep X E =>
      read_frame_from_xyz_loop_rest s factor w box hsk ls 1 f1 ep X E tail (by omega) hls hr1
    by_cases he : hasExtra l = true
    · simp only [he, if_true, lt_self_iff_false, false_and, if_false]
      exact ⟨fun h => by
          obtain ⟨c, h1, h2, h3⟩ := (ih1 true _ _).1 h
          exact ⟨c, by rw [h1]; simp [xyzLineStored], h2, h3.trans hc1⟩,
        fun h => (ih1 true _ _).2 h⟩
    · have he1 : hasExtra l = false := by simpa using he
      simp only [he1, Bool.false_eq_true, if_false, lt_self_iff_false, false_and]
      exact ⟨fun h => by
          obtain ⟨c, h1, h2, h3⟩ := (ih1 false _ _).1 h
          exact ⟨c, by rw [h1]; simp [xyzLineStored], h2, h3.trans hc1⟩,
        fun h => (ih1 false _ _).2 h⟩

end MDArray

namespace MDArray

/-! ### One frame of a generic-format file -/

/-- The generic-format reader on a frame whose header is in order and whose atom lines each
carry a symbol and three coordinates: with consistent optional numbers it returns the frame
and leaves the cursor behind it, otherwise it fails with the parse error. -/
theorem read_frame_from_xyz_frame (env : Env) (s : Trajectory) (f : FILE) (w : Bool)
    (b : Option (List ARRAY_REAL)) (fr : XyzFrameLines) (tail : List Char)
    (hty : s.type = FileType.XYZ) (hwb : ¬ (w = true ∧ b.isNone = true))
    (hn0 : 0 ≤ s.nAtoms)
    (hcount : isLine fr.count = true) (hparse : sscanf_d (fr.count ++ ['\n']) = some s.nAtoms)
    (hcomment : isLine fr.comment = true) (hlen : (fr.atoms.length : Int) = s.nAtoms)
    (hl : ∀ l ∈ fr.atoms, isAtomLine l = true) (hrest : f.rest = fr.text ++ tail) :
    (fr.atoms.all (fun l => hasExtra l == hasExtra (fr.atoms.headD [])) = true →
      ∃ f1, read_frame_from_xyz env s f w b
          = (Res.ok (xyzFrameOf (unitFactor env s.units) w (b.getD []) s.nAtoms fr), f1)
        ∧ f1.rest = tail ∧ f1.content = f.content) ∧
    (fr.atoms.all (fun l => hasExtra l == hasExtra (fr.atoms.headD [])) = false →
      ∃ f1, read_frame_from_xyz env s f w b = (Res.error (some PyExc.IOError), f1)) := by
  have hsk : skippedTokens s = 0 := by simp [skippedTokens, hty]
  unfold XyzFrameLines.text at hrest
  rw [linesText_cons, linesText_cons, List.append_assoc, List.cons_append, List.append_assoc,
    List.cons_append] at hrest
  obtain ⟨f1, hg1, hr1, hc1⟩ := getline_line f fr.count _ ((isLine_iff _).1 hcount).1 hrest
  obtain ⟨f2, hg2, hr2, hc2⟩ := getline_line f1 fr.comment _ ((isLine_iff _).1 hcomment).1 hr1
  have hnat : s.nAtoms.toNat = fr.atoms.length := by omega
  have hloop := read_frame_from_xyz_loop_all s (unitFactor env s.units) w (b.getD []) hsk
    fr.atoms f2 tail hl hr2
  have hhead : read_frame_from_xyz env s f w b
      = read_frame_from_xyz_atoms env s f2 w (b.getD [])
          { PyDict_New with comment := some fr.comment } := by
    unfold read_frame_from_xyz
    simp only [hwb, if_false, hty, true_or, if_true, _getline, hg1, hparse, ne_eq,
      not_true_eq_false, hg2, cstr_line _ hcomment, chopLast_line]
  rw [hhead]
  unfold read_frame_from_xyz_atoms
  rw [if_neg (by omega), hnat]
  constructor
  · intro hu
    obtain ⟨f3, h3, hr3, hc3⟩ := hloop.1 hu
    refine ⟨f3, ?_, hr3, by rw [hc3, hc2, hc1]⟩
    rw [h3]
    unfold xyzFrameOf
    by_cases he : (!fr.atoms.isEmpty && hasExtra (fr.atoms.headD [])) = true
    · have he2 : hasExtra (fr.atoms.headD []) = true := by
        simp only [Bool.and_eq_true] at he; exact he.2
      have he3 : (!fr.atoms.isEmpty) = true := by
        simp only [Bool.and_eq_true] at he; exact he.1
      simp only [he2, he3, Bool.and_self, if_true, PyDict_New]
    · have he1 : (!fr.atoms.isEmpty && hasExtra (fr.atoms.headD [])) = false := by simpa using he
      simp only [he1, Bool.false_eq_true, if_false, PyDict_New]
  · intro hu
    obtain ⟨f3, h3⟩ := hloop.2 hu
    exact ⟨f3, by rw [h3]⟩

/-- A read on a generic-format session whose stream stands in front of a frame in good
order returns the frame, moves the cursor behind it and counts it. -/
theorem Trajectory_read_xyz_frame (env : Env) (s : Trajectory) (a : ReadArgs) (f : FILE)
    (boxptr : Option (List ARRAY_REAL)) (fr : XyzFrameLines) (tail : List Char)
    (hmode : s.mode = 'r') (hty : s.type = FileType.XYZ) (hfd : s.fd = some f)
    (hargs : Trajectory_read_args a = Res.ok boxptr)
    (hwb : ¬ (a.wrap = true ∧ boxptr.isNone = true)) (hn0 : 0 ≤ s.nAtoms)
    (hcount : isLine fr.count = true) (hparse : sscanf_d (fr.count ++ ['\n']) = some s.nAtoms)
    (hcomment : isLine fr.comment = true) (hlen : (fr.atoms.length : Int) = s.nAtoms)
    (hl : ∀ l ∈ fr.atoms, isAtomLine l = true) (hrest : f.rest = fr.text ++ tail) :
    (fr.atoms.all (fun l => hasExtra l == hasExtra (fr.atoms.headD [])) = true →
      ∃ f1, Trajectory_read env s a
          = (Res.ok (some (xyzFrameOf (unitFactor env s.units) a.wrap (boxptr.getD [])
                s.nAtoms fr)),
              { s with fd := some f1, lastFrame := s.lastFrame + 1 })
        ∧ f1.rest = tail ∧ f1.content = f.content) ∧
    (fr.atoms.all (fun l => hasExtra l == hasExtra (fr.atoms.headD [])) = false →
      ∃ f1, Trajectory_read env s a = (Res.error (some PyExc.IOError), { s with fd := some f1 })) := by
  have hrest0 := hrest
  unfold XyzFrameLines.text at hrest0
  rw [linesText_cons, List.append_assoc, List.cons_append] at hrest0
  obtain ⟨f1, hg1, _, _⟩ := getline_line f fr.count _ ((isLine_iff _).1 hcount).1 hrest0
  have hread : Trajectory_read env s a =
      match read_frame_from_xyz env s f a.wrap boxptr with
      | (Res.ok fr, f1) =>
        (Res.ok (some fr), { s with fd := some f1, lastFrame := s.lastFrame + 1 })
      | (Res.error e, f1) => (Res.error e, { s with fd := some f1 })
      | (Res.fault, f1) => (Res.fault, { s with fd := some f1 }) := by
    unfold Trajectory_read
    rw [if_neg (by rw [hmode]; decide)]
    simp only [hargs]
    rw [Trajectory_read_peek_line env s a.wrap boxptr f f1 _ (by rw [hty]; decide) hfd hg1
        (by rw [hty]; simp),
      Trajectory_read_frame_xyz env s a.wrap boxptr f (Or.inl hty) hfd]
  have hframe := read_frame_from_xyz_frame env s f a.wrap boxptr fr tail hty hwb hn0 hcount
    hparse hcomment hlen hl hrest
  rw [hread]
  constructor
  · intro hu
    obtain ⟨f2, h2, hr2, hc2⟩ := hframe.1 hu
    exact ⟨f2, by rw [h2], hr2, hc2⟩
  · intro hu
    obtain ⟨f2, h2⟩ := hframe.2 hu
    exact ⟨f2, by rw [h2]⟩

/-- A read at the end of a text file returns the end of the stream and changes nothing. -/
theorem Trajectory_read_eof (env : Env) (s : Trajectory) (a : ReadArgs) (f : FILE)
    (boxptr : Option (List ARRAY_REAL))
    (hmode : s.mode = 'r') (hty : s.type ≠ FileType.XTC) (hfd : s.fd = some f)
    (hargs : Trajectory_read_args a = Res.ok boxptr) (hrest : f.rest = []) :
    Trajectory_read env s a = (Res.ok none, s) := by
  unfold Trajectory_read
  rw [if_neg (by rw [hmode]; decide)]
  simp only [hargs]
  unfold Trajectory_read_peek
  simp only [ne_eq, hty, not_false_eq_true, if_true, hfd, getline_eof f hrest]

end MDArray

namespace MDArray

/-! ### Opening a generic-format file for reading -/

theorem set_append_replicate {α : Type} (A : List α) (k : Nat) (d v : α) :
    (A ++ List.replicate (k + 1) d).set A.length v = A ++ v :: List.replicate k d := by
  induction A with
  | nil => simp [List.replicate_succ]
  | cons a A ih => simp [ih]

theorem strtok_head_of_atomLine (l : List Char) (h : isAtomLine l = true) :
    ∃ t, (strtok l).head? = some t := by
  unfold isAtomLine at h
  simp only [Bool.and_eq_true, decide_eq_true_eq] at h
  cases hs : strtok l with
  | nil => rw [hs] at h; simp at h
  | cons t ts => exact ⟨t, rfl⟩

/-- The atom loop of the generic-format topology reader on lines that each carry a symbol:
it stores the first token of every line as the symbol of its atom. -/
theorem read_topo_from_xyz_loop_ok (env : Env) :
    ∀ (ls : List (List Char)) (A : List (Option (List Char))) (f : FILE) (anum : List Int)
      (masses : List ARRAY_REAL) (tail : List Char),
      (∀ l ∈ ls, isAtomLine l = true) → f.rest = linesText ls ++ tail →
      ∃ f1 anum1 masses1,
        read_topo_from_xyz_loop env ls.length A.length f
            (PyObject.PList (A ++ List.replicate ls.length none)) anum masses
          = (Res.ok (f1, PyObject.PList (A ++ ls.map (fun l => (strtok l).head?)), anum1, masses1),
              f1, PyObject.PList (A ++ ls.map (fun l => (strtok l).head?)))
        ∧ f1.rest = tail ∧ f1.content = f.content := by
  intro ls
  induction ls with
  | nil =>
    intro A f anum masses tail _ hrest
    exact ⟨f, anum, masses, by simp [read_topo_from_xyz_loop], by simpa [linesText] using hrest,
      rfl⟩
  | cons l ls ih =>
    intro A f anum masses tail hl hrest
    rw [linesText_cons, List.append_assoc, List.cons_append] at hrest
    have hal := hl l (by simp)
    have hline : isLine l = true := by
      unfold isAtomLine at hal
      simp only [Bool.and_eq_true] at hal
      exact hal.1
    obtain ⟨f1, hg, hr1, hc1⟩ := getline_line f l _ ((isLine_iff l).1 hline).1 hrest
    obtain ⟨t, ht⟩ := strtok_head_of_atomLine l hal
    have hls : ∀ x ∈ ls, isAtomLine x = true := fun x hx => hl x (by simp [hx])
    have hset : PyList_SetItem (PyObject.PList (A ++ List.replicate (ls.length + 1) none))
        A.length (some t) = PyObject.PList ((A ++ [some t]) ++ List.replicate ls.length none) := by
      show PyObject.PList _ = _
      rw [set_append_replicate, List.append_assoc, List.singleton_append]
    have hlen : (A ++ [some t]).length = A.length + 1 := by simp
    simp only [List.length_cons]
    rw [read_topo_from_xyz_loop]
    simp only [_getline, hg, cstr_line l hline, chopLast_line, ht, hset]
    cases hidx : env.getElementIndexBySymbol t with
    | none =>
      obtain ⟨f2, a2, m2, h2, hr2, hc2⟩ := ih (A ++ [some t]) f1 (anum ++ [-1])
        (masses ++ [ARRAY_REAL.zero]) tail hls hr1
      rw [hlen] at h2
      refine ⟨f2, a2, m2, ?_, hr2, hc2.trans hc1⟩
      dsimp only
      rw [h2]
      simp only [List.map_cons, ht, List.append_assoc, List.singleton_append]
    | some idx =>
      obtain ⟨f2, a2, m2, h2, hr2, hc2⟩ := ih (A ++ [some t]) f1
        (anum ++ [env.element_number idx]) (masses ++ [env.element_mass idx]) tail hls hr1
      rw [hlen] at h2
      refine ⟨f2, a2, m2, ?_, hr2, hc2.trans hc1⟩
      dsimp only
      rw [h2]
      simp only [List.map_cons, ht, List.append_assoc, List.singleton_append]

/-- The generic-format topology reader on a file that begins with a frame in good order:
it succeeds, sets `nAtoms` to the count and `symbols` to the first tokens of the atom lines,
and leaves every other field but the stream, the atomic numbers and the masses alone. -/
theorem read_topo_from_xyz_ok (env : Env) (s : Trajectory) (f : FILE) (fr : XyzFrameLines)
    (tail : List Char) (n : Nat)
    (hcount : isLine fr.count = true) (hparse : sscanf_d (fr.count ++ ['\n']) = some (n : Int))
    (hcomment : isLine fr.comment = true) (hlen : fr.atoms.length = n)
    (hl : ∀ l ∈ fr.atoms, isAtomLine l = true) (hrest : f.rest = fr.text ++ tail) :
    ∃ f1 anum masses,
      read_topo_from_xyz env s f
        = (Res.ok (),
            { s with
              fd := some f1
              symbols := PyObject.PList (fr.atoms.map (fun l => (strtok l).head?))
              aNumbers := PyObject.IntArray anum
              masses := PyObject.Array ⟨[(n : Int)], masses⟩
              nAtoms := (n : Int) })
      ∧ f1.content = f.content := by
  unfold XyzFrameLines.text at hrest
  rw [linesText_cons, linesText_cons, List.append_assoc, List.cons_append, List.append_assoc,
    List.cons_append] at hrest
  obtain ⟨f1, hg1, hr1, hc1⟩ := getline_line f fr.count _ ((isLine_iff _).1 hcount).1 hrest
  obtain ⟨f2, hg2, hr2, hc2⟩ := getline_line f1 fr.comment _ ((isLine_iff _).1 hcomment).1 hr1
  obtain ⟨f3, anum, masses, h3, _, hc3⟩ := read_topo_from_xyz_loop_ok env fr.atoms [] f2 [] []
    tail hl hr2
  refine ⟨f3, anum, masses, ?_, by rw [hc3, hc2, hc1]⟩
  unfold read_topo_from_xyz
  simp only [_getline, hg1, hparse, hg2]
  have hnn : ¬ ((n : Int) < 0) := by omega
  simp only [hnn, if_false, PyList_New, Int.toNat_ofNat]
  simp only [List.nil_append, List.length_nil] at h3
  rw [← hlen, h3]

end MDArray

namespace MDArray

/-- Opening a generic-format file that begins with a frame in good order, with the format
given as `XYZ` or guessed from the extension `.xyz` and no other hint: the open succeeds, the
session is in read mode with unit ANGS, `nAtoms` is the count of the first frame, the symbols
are the first tokens of its atom lines, the frame counter is -1 and the cursor is at the
start of the file. -/
theorem Trajectory_init_read_xyz (env : Env) (fs : FileSystem) (name : List Char)
    (fmt : Option PyObject) (content : List Char) (fr : XyzFrameLines) (tail : List Char)
    (n : Nat) (hname : NUL ∉ name)
    (hfmt : fmt = some (PyObject.Str "XYZ".toList) ∨
      (fmt = none ∧ extension name = some ".xyz".toList))
    (hfile : fs.files name = some content) (hcontent : content = fr.text ++ tail)
    (hcount : isLine fr.count = true) (hparse : sscanf_d (fr.count ++ ['\n']) = some (n : Int))
    (hcomment : isLine fr.comment = true) (hlen : fr.atoms.length = n)
    (hl : ∀ l ∈ fr.atoms, isAtomLine l = true) :
    ∃ anum masses,
      Trajectory_init env fs Trajectory_new (openArgs name fmt)
        = (Res.ok (),
            { Trajectory_new with
              type := FileType.XYZ
              fileName := some name
              fd := some ⟨content, 0⟩
              symbols := PyObject.PList (fr.atoms.map (fun l => (strtok l).head?))
              aNumbers := PyObject.IntArray anum
              masses := PyObject.Array ⟨[(n : Int)], masses⟩
              nAtoms := (n : Int) }, fs) := by
  have hrest : (FILE.mk content 0).rest = fr.text ++ tail := by
    simp [FILE.rest, hcontent]
  have htopo := fun s => read_topo_from_xyz_ok env s ⟨content, 0⟩ fr tail n hcount hparse
    hcomment hlen hl hrest
  -- the stages of the open, last one first
  have hrouter : ∀ (s : Trajectory) (v : InitVars), s.type = FileType.XYZ →
      s.fd = some ⟨content, 0⟩ →
      ∃ anum masses, Trajectory_init_router env fs s v
        = (Res.ok (),
            { s with
              fd := some ⟨content, 0⟩
              symbols := PyObject.PList (fr.atoms.map (fun l => (strtok l).head?))
              aNumbers := PyObject.IntArray anum
              masses := PyObject.Array ⟨[(n : Int)], masses⟩
              nAtoms := (n : Int) }) := by
    intro s v hty hfd
    obtain ⟨f1, anum, masses, h1, hc1⟩ := htopo s
    refine ⟨anum, masses, ?_⟩
    unfold Trajectory_init_router
    simp only [hty, hfd, h1, Option.map_some']
    have : f1.rewind = ⟨content, 0⟩ := by
      obtain ⟨c, p⟩ := f1
      have hc : c = content := hc1
      subst hc
      rfl
    rw [this]
  have hguess : ∀ (s : Trajectory) (v : InitVars), s.type = FileType.XYZ → s.mode = 'r' →
      v.filename = name → v.units = none → v.py_sym = none → v.py_resid = none →
      v.py_resn = none →
      ∃ anum masses, Trajectory_init_units env fs s v
        = (Res.ok (),
            { s with
              units := Units.ANGS
              fd := some ⟨content, 0⟩
              symbols := PyObject.PList (fr.atoms.map (fun l => (strtok l).head?))
              aNumbers := PyObject.IntArray anum
              masses := PyObject.Array ⟨[(n : Int)], masses⟩
              nAtoms := (n : Int) }, fs) := by
    intro s v hty hmode hfn hu hsym hrid hrn
    obtain ⟨ty, un, mo, fn, fd, xd, p1, p2, ms, na, lf, sy, an, ri, rn, ma, sect⟩ := s
    simp only at hty hmode
    subst hty
    subst hmode
    obtain ⟨anum, masses, h⟩ := hrouter
      ⟨FileType.XYZ, Units.ANGS, 'r', fn, some ⟨content, 0⟩, xd, p1, p2, ms, na, lf, sy, an,
        ri, rn, ma, sect⟩ v rfl rfl
    refine ⟨anum, masses, ?_⟩
    unfold Trajectory_init_units Trajectory_init_lists Trajectory_init_open
    simp only [hu, hsym, hrid, hrn, hfn, fopen_r, hfile, Option.isSome_none,
      Bool.false_eq_true, false_and, if_false, Option.getD_none]
    have hwa : ¬ (('r' : Char) = 'w' ∨ ('r' : Char) = 'a') := by decide
    simp only [hwa, if_false]
    rw [h]
  unfold Trajectory_init openArgs
  rcases hfmt with hf | ⟨hf, hext⟩
  · subst hf
    have hx : NUL ∉ "XYZ".toList := by decide
    simp only [Trajectory_init_args, parse_s, parse_O, hname, hx, if_false]
    obtain ⟨anum, masses, h⟩ := hguess
      { Trajectory_new with fileName := some name, mode := 'r', type := FileType.XYZ }
      ⟨name, none, none, none, none, some "XYZ".toList, none⟩ rfl rfl rfl rfl rfl rfl rfl
    refine ⟨anum, masses, ?_⟩
    simp only [Option.isSome_none, Bool.false_eq_true, false_and, if_false, Option.isNone_none,
      if_true, Trajectory_init_guess]
    exact h
  · subst hf
    simp only [Trajectory_init_args, parse_s, parse_O, hname, if_false]
    obtain ⟨anum, masses, h⟩ := hguess
      { Trajectory_new with fileName := some name, mode := 'r', type := FileType.XYZ }
      ⟨name, none, none, none, none, none, none⟩ rfl rfl rfl rfl rfl rfl rfl
    refine ⟨anum, masses, ?_⟩
    simp only [Option.isSome_none, Bool.false_eq_true, false_and, if_false, Option.isNone_none,
      if_true, Trajectory_init_guess, hext]
    exact h

end MDArray

namespace MDArray

/-! ### Reading a whole generic-format file -/

theorem wellFormed_iff (n : Nat) (fr : XyzFrameLines) :
    fr.wellFormed n = true ↔
      isLine fr.count = true ∧ sscanf_d (fr.count ++ ['\n']) = some (n : Int) ∧
      isLine fr.comment = true ∧ fr.atoms.length = n ∧ (∀ l ∈ fr.atoms, isAtomLine l = true) ∧
      fr.atoms.all (fun l => hasExtra l == hasExtra (fr.atoms.headD [])) = true := by
  unfold XyzFrameLines.wellFormed
  simp only [Bool.and_eq_true, beq_iff_eq, List.all_eq_true]
  tauto

theorem xyzLineStored_length (factor : ARRAY_REAL) (w : Bool) (box : List ARRAY_REAL)
    (l : List Char) : (xyzLineStored factor w box l).length = 3 := by
  unfold xyzLineStored
  split
  · simp [wrapPBCsingle]
  · simp [xyzLineCoords]

theorem flatten_map_length {α β : Type} (f : α → List β) (k : Nat)
    (h : ∀ a, (f a).length = k) : ∀ l : List α, (l.map f).flatten.length = k * l.length := by
  intro l
  induction l with
  | nil => simp
  | cons a l ih => simp [h a, ih]; ring

theorem xyzFrameOf_shape (factor : ARRAY_REAL) (w : Bool) (box : List ARRAY_REAL) (n : Nat)
    (fr : XyzFrameLines) (hlen : fr.atoms.length = n) :
    ∃ arr, (xyzFrameOf factor w box (n : Int) fr).coordinates = some arr ∧
      arr.hasShape2 (n : Int) 3 := by
  refine ⟨_, rfl, by omega, rfl, ?_⟩
  show ((fr.atoms.map (xyzLineStored factor w box)).flatten).length = 3 * (n : Int).toNat
  rw [flatten_map_length _ 3 (xyzLineStored_length factor w box), hlen]
  simp

/-- Successive reads on a generic-format session that stands in front of well-formed
frames of `n` atoms, with nothing behind the last one: one frame per read, then the end of
the stream; the frame counter has advanced by the number of frames. -/
theorem readMany_xyz (env : Env) (n : Nat) :
    ∀ (frs : List XyzFrameLines) (s : Trajectory) (f : FILE),
      s.mode = 'r' → s.type = FileType.XYZ → s.nAtoms = (n : Int) → s.fd = some f →
      (∀ fr ∈ frs, fr.wellFormed n = true) → f.rest = (frs.map XyzFrameLines.text).flatten →
      (readMany env ⟨false, none⟩ (frs.length + 1) s).1
        = frs.map (fun fr => Res.ok (some (xyzFrameOf (unitFactor env s.units) false []
            (n : Int) fr))) ++ [Res.ok none] ∧
      (readMany env ⟨false, none⟩ (frs.length + 1) s).2.lastFrame
        = s.lastFrame + (frs.length : Int) := by
  intro frs
  induction frs with
  | nil =>
    intro s f hmode hty hn hfd _ hrest
    have h := Trajectory_read_eof env s ⟨false, none⟩ f none hmode (by rw [hty]; decide) hfd rfl
      (by simpa using hrest)
    simp [readMany, h]
  | cons fr frs ih =>
    intro s f hmode hty hn hfd hwf hrest
    obtain ⟨hcount, hparse, hcomment, hlen, hl, hu⟩ := (wellFormed_iff n fr).1 (hwf fr (by simp))
    simp only [List.map_cons, List.flatten_cons] at hrest
    obtain ⟨f1, h1, hr1, hc1⟩ := (Trajectory_read_xyz_frame env s ⟨false, none⟩ f none fr
      ((frs.map XyzFrameLines.text).flatten) hmode hty hfd rfl (by simp) (by omega) hcount
      (by rw [hn]; exact hparse) hcomment (by rw [hn, hlen]) hl hrest).1 hu
    have ih1 := ih { s with fd := some f1, lastFrame := s.lastFrame + 1 } f1 hmode hty hn rfl
      (fun x hx => hwf x (by simp [hx])) hr1
    simp only [List.length_cons]
    rw [readMany]
    simp only [h1, ih1.1, ih1.2, List.map_cons, List.cons_append, Option.getD_none]
    refine ⟨by rw [hn], ?_⟩
    push_cast
    ring

end MDArray

namespace MDArray

/-- C4. For a generic-format file made of `k >= 1` well-formed frames of `n` atoms each and
nothing else, opened for reading (format `XYZ` given or guessed from the extension): the
open succeeds, the first `k` reads return one frame each, the `i`-th with the comment of the
`i`-th frame and a coordinate array of `n` rows and 3 columns, the read after them returns
the end of the stream (not an error), and `lastFrame` is then `k - 1`. -/
theorem C4_frames_then_end_of_stream (env : Env) (fs : FileSystem) (name : List Char)
    (fmt : Option PyObject) (frs : List XyzFrameLines) (n : Nat)
    (hname : NUL ∉ name)
    (hfmt : fmt = some (PyObject.Str "XYZ".toList) ∨
      (fmt = none ∧ extension name = some ".xyz".toList))
    (hne : frs ≠ [])
    (hwf : ∀ fr ∈ frs, fr.wellFormed n = true)
    (hfile : fs.files name = some (frs.map XyzFrameLines.text).flatten) :
    (Trajectory_init env fs Trajectory_new (openArgs name fmt)).1 = Res.ok () ∧
    (∀ (i : Nat) (h : i < frs.length), ∃ frame arr,
      (readMany env ⟨false, none⟩ (frs.length + 1)
          (Trajectory_init env fs Trajectory_new (openArgs name fmt)).2.1).1.get? i
        = some (Res.ok (some frame)) ∧
      frame.comment = some (frs.get ⟨i, h⟩).comment ∧
      frame.coordinates = some arr ∧ arr.hasShape2 (n : Int) 3) ∧
    (readMany env ⟨false, none⟩ (frs.length + 1)
        (Trajectory_init env fs Trajectory_new (openArgs name fmt)).2.1).1.get? frs.length
      = some (Res.ok none) ∧
    (readMany env ⟨false, none⟩ (frs.length + 1)
        (Trajectory_init env fs Trajectory_new (openArgs name fmt)).2.1).1.length
      = frs.length + 1 ∧
    (readMany env ⟨false, none⟩ (frs.length + 1)
        (Trajectory_init env fs Trajectory_new (openArgs name fmt)).2.1).2.lastFrame
      = (frs.length : Int) - 1 := by
  obtain ⟨fr0, rest, rfl⟩ := List.exists_cons_of_ne_nil hne
  obtain ⟨hcount, hparse, hcomment, hlen, hl, _⟩ := (wellFormed_iff n fr0).1 (hwf fr0 (by simp))
  obtain ⟨anum, masses, hinit⟩ := Trajectory_init_read_xyz env fs name fmt _ fr0
    ((rest.map XyzFrameLines.text).flatten) n hname hfmt hfile (by simp) hcount hparse hcomment
    hlen hl
  have hmany := readMany_xyz env n (fr0 :: rest)
    (Trajectory_init env fs Trajectory_new (openArgs name fmt)).2.1
    ⟨((fr0 :: rest).map XyzFrameLines.text).flatten, 0⟩
    (by rw [hinit]; rfl) (by rw [hinit]) (by rw [hinit]) (by rw [hinit]) hwf (by simp [FILE.rest])
  have hlast : (Trajectory_init env fs Trajectory_new (openArgs name fmt)).2.1.lastFrame = -1 := by
    rw [hinit]; rfl
  rw [hmany.1, hmany.2, hlast]
  generalize (Trajectory_init env fs Trajectory_new (openArgs name fmt)).2.1.units = u
  refine ⟨by rw [hinit], ?_, ?_, ?_, ?_⟩
  · intro i h
    have hi : i < ((fr0 :: rest).map (fun fr => (Res.ok (some (xyzFrameOf
        (unitFactor env u) false [] (n : Int) fr)) : Res (Option Frame)))).length := by
      simpa using h
    obtain ⟨arr, harr, hshape⟩ := xyzFrameOf_shape (unitFactor env u) false [] n
      ((fr0 :: rest).get ⟨i, h⟩)
      ((wellFormed_iff n _).1 (hwf _ (List.get_mem _ _ _))).2.2.2.1
    refine ⟨_, arr, ?_, rfl, harr, hshape⟩
    rw [List.get?_eq_getElem?, List.getElem?_append_left hi, List.getElem?_map]
    simp [List.getElem?_eq_getElem h]
  · rw [List.get?_eq_getElem?, List.getElem?_append_right (by simp)]
    simp
  · simp
  · ring

/-- C4, witness: the concrete scenario: the three-atom file `water.xyz` with the comment
`frame0`; one frame of three rows is read, the second read returns the end of the stream. -/
theorem C4_frames_then_end_of_stream_witness :
    (∃ frame arr,
      (readMany exampleEnv ⟨false, none⟩ 2 exampleReadSession).1.get? 0
        = some (Res.ok (some frame)) ∧
      frame.comment = some "frame0".toList ∧
      frame.coordinates = some arr ∧ arr.hasShape2 3 3) ∧
    (readMany exampleEnv ⟨false, none⟩ 2 exampleReadSession).1.get? 1 = some (Res.ok none) ∧
    (readMany exampleEnv ⟨false, none⟩ 2 exampleReadSession).2.lastFrame = 0 :=
  have h := C4_frames_then_end_of_stream exampleEnv exampleFs "water.xyz".toList none
    [exampleXyzFrame] 3 (by decide) (Or.inr ⟨rfl, by decide⟩) (by decide) (by decide) (by decide)
  ⟨h.2.1 0 (by decide), h.2.2.1, h.2.2.2.2⟩

end MDArray

namespace MDArray

/-! ### The optional fourth number of the generic format -/

/-- C7 (as amended). For a generic-format frame of `nAtoms >= 1` atom lines that each carry
a symbol and at least three coordinate tokens, `read_frame_from_xyz` returns a frame with an
`extra` array (of `nAtoms` numbers) iff every atom line has a fourth number, returns a frame
without `extra` iff no atom line has one, and fails with the parse error (IOError) whenever
some lines have it and others do not, the case where only the last atom has it included. -/
theorem C7_extra_is_all_or_nothing (env : Env) (s : Trajectory) (f : FILE) (w : Bool)
    (b : Option (List ARRAY_REAL)) (fr : XyzFrameLines) (tail : List Char)
    (hty : s.type = FileType.XYZ) (hwb : ¬ (w = true ∧ b.isNone = true))
    (hpos : 0 < s.nAtoms)
    (hcount : isLine fr.count = true) (hparse : sscanf_d (fr.count ++ ['\n']) = some s.nAtoms)
    (hcomment : isLine fr.comment = true) (hlen : (fr.atoms.length : Int) = s.nAtoms)
    (hl : ∀ l ∈ fr.atoms, isAtomLine l = true) (hrest : f.rest = fr.text ++ tail) :
    ((∃ frame f1 arr, read_frame_from_xyz env s f w b = (Res.ok frame, f1) ∧
        frame.extra = some arr ∧ arr.dims = [s.nAtoms] ∧ (arr.data.length : Int) = s.nAtoms)
      ↔ ∀ l ∈ fr.atoms, hasExtra l = true) ∧
    ((∃ frame f1, read_frame_from_xyz env s f w b = (Res.ok frame, f1) ∧ frame.extra = none)
      ↔ ∀ l ∈ fr.atoms, hasExtra l = false) ∧
    (((∃ l ∈ fr.atoms, hasExtra l = true) ∧ (∃ l ∈ fr.atoms, hasExtra l = false)) →
      ∃ f1, read_frame_from_xyz env s f w b = (Res.error (some PyExc.IOError), f1)) ∧
    ((∀ l ∈ fr.atoms.dropLast, hasExtra l = false) → 2 ≤ fr.atoms.length →
      (∀ l, fr.atoms.getLast? = some l → hasExtra l = true) →
      ∃ f1, read_frame_from_xyz env s f w b = (Res.error (some PyExc.IOError), f1)) := by
  have hframe := read_frame_from_xyz_frame env s f w b fr tail hty hwb (by omega) hcount hparse
    hcomment hlen hl hrest
  obtain ⟨l0, ls, hcons⟩ : ∃ l0 ls, fr.atoms = l0 :: ls := by
    cases h : fr.atoms with
    | nil => rw [h] at hlen; simp at hlen; omega
    | cons a t => exact ⟨a, t, rfl⟩
  have hne : (!fr.atoms.isEmpty) = true := by rw [hcons]; rfl
  have hhead : fr.atoms.headD [] = l0 := by rw [hcons]; rfl
  have hmem0 : l0 ∈ fr.atoms := by rw [hcons]; simp
  rw [hhead] at hframe
  -- uniformity of the lines in terms of the two extreme cases
  have huni : fr.atoms.all (fun l => hasExtra l == hasExtra l0) = true ↔
      ((∀ l ∈ fr.atoms, hasExtra l = true) ∨ (∀ l ∈ fr.atoms, hasExtra l = false)) := by
    simp only [List.all_eq_true, beq_iff_eq]
    constructor
    · intro h
      cases h0 : hasExtra l0
      · right; intro l hl; rw [h l hl, h0]
      · left; intro l hl; rw [h l hl, h0]
    · rintro (h | h) l hl
      · rw [h l hl, h l0 hmem0]
      · rw [h l hl, h l0 hmem0]
  have hmixed : ((∃ l ∈ fr.atoms, hasExtra l = true) ∧ (∃ l ∈ fr.atoms, hasExtra l = false)) →
      ∃ f1, read_frame_from_xyz env s f w b = (Res.error (some PyExc.IOError), f1) := by
    rintro ⟨⟨l1, hl1, he1⟩, ⟨l2, hl2, he2⟩⟩
    apply hframe.2
    by_contra hcon
    have hu : fr.atoms.all (fun l => hasExtra l == hasExtra l0) = true := by simpa using hcon
    rcases huni.1 hu with h | h
    · rw [h l2 hl2] at he2; simp at he2
    · rw [h l1 hl1] at he1; simp at he1
  have hok : ∀ frame f1, read_frame_from_xyz env s f w b = (Res.ok frame, f1) →
      fr.atoms.all (fun l => hasExtra l == hasExtra l0) = true ∧
      frame = xyzFrameOf (unitFactor env s.units) w (b.getD []) s.nAtoms fr := by
    intro frame f1 h
    by_cases hu : fr.atoms.all (fun l => hasExtra l == hasExtra l0) = true
    · obtain ⟨f2, h2, _⟩ := hframe.1 hu
      rw [h2] at h
      simp only [Prod.mk.injEq, Res.ok.injEq] at h
      exact ⟨hu, h.1.symm⟩
    · obtain ⟨f2, h2⟩ := hframe.2 (by simpa using hu)
      rw [h2] at h
      simp at h
  refine ⟨⟨?_, ?_⟩, ⟨?_, ?_⟩, hmixed, ?_⟩
  · rintro ⟨frame, f1, arr, h, hextra, _, _⟩
    obtain ⟨hu, rfl⟩ := hok frame f1 h
    have h0 : hasExtra l0 = true := by
      by_contra hc
      simp [xyzFrameOf, hcons, hc] at hextra
    rcases huni.1 hu with h | h
    · exact h
    · rw [h l0 hmem0] at h0; simp at h0
  · intro hall
    obtain ⟨f1, h1, _⟩ := hframe.1 (huni.2 (Or.inl hall))
    refine ⟨_, f1, ⟨[s.nAtoms], fr.atoms.map xyzLineExtra⟩, h1, ?_, rfl, ?_⟩
    · simp only [xyzFrameOf, hhead, hne, hall l0 hmem0, Bool.and_self, if_true]
    · simpa using hlen
  · rintro ⟨frame, f1, h, hextra⟩
    obtain ⟨hu, rfl⟩ := hok frame f1 h
    have h0 : hasExtra l0 = false := by
      cases hc : hasExtra l0
      · rfl
      · simp [xyzFrameOf, hcons, hc] at hextra
    rcases huni.1 hu with h | h
    · rw [h l0 hmem0] at h0; simp at h0
    · exact h
  · intro hnone
    obtain ⟨f1, h1, _⟩ := hframe.1 (huni.2 (Or.inr hnone))
    refine ⟨_, f1, h1, ?_⟩
    simp only [xyzFrameOf, hhead, hnone l0 hmem0, Bool.and_false, Bool.false_eq_true, if_false]
  · intro hfirst h2 hlast
    apply hmixed
    have hlast_mem : ∃ l, fr.atoms.getLast? = some l := by
      cases h : fr.atoms.getLast? with
      | none => rw [List.getLast?_eq_none_iff] at h; rw [h] at hcons; simp at hcons
      | some l => exact ⟨l, rfl⟩
    obtain ⟨ll, hll⟩ := hlast_mem
    refine ⟨⟨ll, List.mem_of_getLast?_eq_some hll, hlast ll hll⟩, ⟨l0, hmem0, ?_⟩⟩
    apply hfirst
    rw [hcons]
    cases ls with
    | nil => rw [hcons] at h2; simp at h2
    | cons a t => simp [List.dropLast]

end MDArray

namespace MDArray

/-- C7, witness: the three-atom session of `water.xyz` positioned at a frame whose three
atom lines all carry a fourth number gets a frame with an `extra` array of three numbers. -/
theorem C7_extra_is_all_or_nothing_witness :
    ∃ frame f1 arr,
      read_frame_from_xyz exampleEnv exampleReadSession ⟨exampleChargesFrame.text, 0⟩ false none
        = (Res.ok frame, f1) ∧
      frame.extra = some arr ∧ arr.dims = [exampleReadSession.nAtoms] ∧
      (arr.data.length : Int) = exampleReadSession.nAtoms :=
  (C7_extra_is_all_or_nothing exampleEnv exampleReadSession ⟨exampleChargesFrame.text, 0⟩ false
    none exampleChargesFrame [] (by decide) (by decide) (by decide) (by decide) (by decide)
    (by decide) (by decide) (by decide) (by decide)).1.2 (by decide)

/-- C7 as written fails for a frame of no atoms: in the file `0`, empty comment, every atom
line (there is none) has a fourth number, yet the frame is returned without `extra`. -/
theorem C7_counterexample :
    exampleEmptySession.type = FileType.XYZ ∧ exampleEmptySession.nAtoms = 0 ∧
    exampleEmptySession.fd = some ⟨exampleEmptyXyzFile, 0⟩ ∧
    exampleEmptyXyzFile = exampleEmptyFrame.text ∧
    (exampleEmptyFrame.atoms.length : Int) = exampleEmptySession.nAtoms ∧
    (∀ l ∈ exampleEmptyFrame.atoms, isAtomLine l = true ∧ hasExtra l = true) ∧
    (read_frame_from_xyz exampleEnv exampleEmptySession ⟨exampleEmptyXyzFile, 0⟩ false none).1
      = Res.ok { PyDict_New with comment := some [], coordinates := some ⟨[0, 3], []⟩ } ∧
    ({ PyDict_New with comment := some [], coordinates := some ⟨[0, 3], []⟩ } : Frame).extra
      = none := by
  decide

end MDArray

namespace MDArray

/-- C5, witness: the session of `mismatch.xyz` (one atom) after its first read stands before
the count line `2`; the next read gives an error and the frame counter stays at 0. -/
theorem C5_atom_count_mismatch_witness :
    (∀ o, (Trajectory_read exampleEnv exampleMismatchSession ⟨false, none⟩).1 ≠ Res.ok o) ∧
    (Trajectory_read exampleEnv exampleMismatchSession ⟨false, none⟩).2.lastFrame = 0 ∧
    (∃ e, (Trajectory_read exampleEnv exampleMismatchSession ⟨false, none⟩).1 = Res.error e) :=
  have h := C5_atom_count_mismatch exampleEnv exampleMismatchSession ⟨false, none⟩
    ⟨exampleMismatchXyzFile, 16⟩ "2\n".toList 2 (by decide) (by decide)
    (Or.inl ⟨Or.inl (by decide), ⟨⟨exampleMismatchXyzFile, 18⟩, by decide⟩⟩)
    (by decide) (by decide)
  ⟨h.1, h.2.1, h.2.2 rfl⟩

end MDArray

namespace MDArray

/-! ### Decimal numerals: printing and parsing -/

theorem digitChar_toNat (d : Nat) (h : d < 10) : (digitChar d).toNat = 48 + d := by
  interval_cases d <;> rfl

theorem digitChar_isdigit (d : Nat) : isdigit (digitChar d) = true := by
  by_cases h : d < 10
  · interval_cases d <;> rfl
  · have : digitChar d = '9' := by
      unfold digitChar
      split <;> first | omega | rfl
    rw [this]; rfl

theorem digitsToNat_append (a b : List Char) :
    digitsToNat (a ++ b)
      = b.foldl (fun a c => 10 * a + (c.toNat - 48)) (digitsToNat a) := by
  simp [digitsToNat, List.foldl_append]

theorem digitsToNat_snoc (a : List Char) (c : Char) :
    digitsToNat (a ++ [c]) = 10 * digitsToNat a + (c.toNat - 48) := by
  simp [digitsToNat, List.foldl_append]

theorem foldl_digits_acc (b : List Char) :
    ∀ k : Nat, b.foldl (fun a c => 10 * a + (c.toNat - 48)) k
      = k * 10 ^ b.length + digitsToNat b := by
  induction b using List.reverseRecOn with
  | nil => intro k; simp [digitsToNat]
  | append_singleton b c ih =>
    intro k
    rw [List.foldl_append, List.foldl_cons, List.foldl_nil, ih, digitsToNat_snoc,
      List.length_append, List.length_singleton, pow_succ]
    ring

/-- The value of a digit string that is made of two parts. -/
theorem digitsToNat_append_value (a b : List Char) :
    digitsToNat (a ++ b) = digitsToNat a * 10 ^ b.length + digitsToNat b := by
  rw [digitsToNat_append, foldl_digits_acc]

theorem digitsToNat_replicate_zero (k : Nat) : digitsToNat (List.replicate k '0') = 0 := by
  induction k with
  | zero => rfl
  | succ k ih =>
    rw [List.replicate_succ', digitsToNat_snoc, ih]
    rfl

/-- The digits `natDigitsAux` puts in front of the accumulator: a non-empty string of
digits whose value is `n` and which has no more places than `n` needs. -/
theorem natDigitsAux_spec : ∀ (fuel n : Nat) (acc : List Char), n < fuel →
    ∃ D : List Char, natDigitsAux fuel n acc = D ++ acc ∧ D ≠ [] ∧
      (∀ c ∈ D, isdigit c = true) ∧ digitsToNat D = n ∧
      (∀ p, 1 ≤ p → n < 10 ^ p → D.length ≤ p) := by
  intro fuel
  induction fuel with
  | zero => intro n acc h; omega
  | succ fuel ih =>
    intro n acc h
    unfold natDigitsAux
    by_cases h10 : n < 10
    · rw [if_pos h10]
      refine ⟨[digitChar n], rfl, by simp, ?_, ?_, ?_⟩
      · intro c hc
        simp only [List.mem_singleton] at hc
        rw [hc]; exact digitChar_isdigit n
      · simp [digitsToNat, digitChar_toNat n h10]
      · intro p hp _; simpa using hp
    · rw [if_neg h10]
      have hlt : n / 10 < fuel := by omega
      obtain ⟨D, hD, hne, hdig, hval, hlen⟩ := ih (n / 10) (digitChar (n % 10) :: acc) hlt
      refine ⟨D ++ [digitChar (n % 10)], ?_, by simp, ?_, ?_, ?_⟩
      · rw [hD]; simp
      · intro c hc
        rcases List.mem_append.1 hc with h1 | h1
        · exact hdig c h1
        · simp only [List.mem_singleton] at h1
          rw [h1]; exact digitChar_isdigit _
      · rw [digitsToNat_snoc, hval, digitChar_toNat _ (Nat.mod_lt _ (by norm_num))]
        omega
      · intro p hp hn
        have hp2 : 2 ≤ p := by
          by_contra hc
          have : p = 1 := by omega
          rw [this] at hn
          omega
        obtain ⟨q, rfl⟩ : ∃ q, p = q + 1 := ⟨p - 1, by omega⟩
        have hq : n / 10 < 10 ^ q := by
          rw [pow_succ] at hn
          exact Nat.div_lt_of_lt_mul (by rw [Nat.mul_comm]; exact hn)
        have := hlen q (by omega) hq
        simp only [List.length_append, List.length_singleton]
        omega

/-- The numeral of a natural number: non-empty, all digits, and it reads back as `n`. -/
theorem natToDec_spec (n : Nat) :
    natToDec n ≠ [] ∧ (∀ c ∈ natToDec n, isdigit c = true) ∧ digitsToNat (natToDec n) = n ∧
      (∀ p, 1 ≤ p → n < 10 ^ p → (natToDec n).length ≤ p) := by
  obtain ⟨D, hD, hne, hdig, hval, hlen⟩ := natDigitsAux_spec (n + 1) n [] (by omega)
  have : natToDec n = D := by unfold natToDec; rw [hD]; simp
  rw [this]
  exact ⟨hne, hdig, hval, hlen⟩

/-- The fraction digits of `%.Pf`: exactly `p` digits whose value is `m`. -/
theorem padLeft_zero_spec (p m : Nat) (hp : 1 ≤ p) (hm : m < 10 ^ p) :
    (padLeft '0' p (natToDec m)).length = p ∧
    (∀ c ∈ padLeft '0' p (natToDec m), isdigit c = true) ∧
    digitsToNat (padLeft '0' p (natToDec m)) = m := by
  obtain ⟨_, hdig, hval, hlen⟩ := natToDec_spec m
  have hl := hlen p hp hm
  refine ⟨?_, ?_, ?_⟩
  · simp only [padLeft, List.length_append, List.length_replicate]; omega
  · intro c hc
    simp only [padLeft, List.mem_append, List.mem_replicate] at hc
    rcases hc with ⟨_, h⟩ | h
    · rw [h]; rfl
    · exact hdig c h
  · simp only [padLeft]
    rw [digitsToNat_append_value, digitsToNat_replicate_zero, hval]
    simp

end MDArray

namespace MDArray

theorem takeWhile_all {p : Char → Bool} (a : List Char) (h : ∀ c ∈ a, p c = true) :
    a.takeWhile p = a ∧ a.dropWhile p = [] := by
  induction a with
  | nil => simp
  | cons x a ih =>
    have hx := h x (by simp)
    have := ih (fun c hc => h c (by simp [hc]))
    simp [List.takeWhile, List.dropWhile, hx, this.1, this.2]

theorem takeWhile_stop {p : Char → Bool} (a b : List Char) (c : Char)
    (h : ∀ x ∈ a, p x = true) (hc : p c = false) :
    (a ++ c :: b).takeWhile p = a ∧ (a ++ c :: b).dropWhile p = c :: b := by
  induction a with
  | nil => simp [List.takeWhile, List.dropWhile, hc]
  | cons x a ih =>
    have hx := h x (by simp)
    have := ih (fun c hc => h c (by simp [hc]))
    simp [List.takeWhile, List.dropWhile, hx, this.1, this.2]

theorem dropWhile_replicate_blank (k : Nat) (t : List Char)
    (h : ∀ c, t.head? = some c → isspace c = false) :
    (List.replicate k ' ' ++ t).dropWhile isspace = t := by
  induction k with
  | zero =>
    cases t with
    | nil => rfl
    | cons c t => simp [List.dropWhile, h c rfl]
  | succ k ih =>
    rw [List.replicate_succ, List.cons_append, List.dropWhile_cons]
    simpa [isspace] using ih

theorem isdigit_ne_nul (c : Char) (h : isdigit c = true) : c ≠ NUL := by
  rintro rfl
  revert h; decide

theorem takeSign_digit (c : Char) (r : List Char) (h : isdigit c = true) :
    takeSign (c :: r) = (false, c :: r) := by
  unfold takeSign
  split
  · rename_i heq
    simp only [List.cons.injEq] at heq
    rw [heq.1] at h; exact absurd h (by decide)
  · rename_i heq
    simp only [List.cons.injEq] at heq
    rw [heq.1] at h; exact absurd h (by decide)
  · rfl

theorem cstr_all (s : List Char) (h : ∀ c ∈ s, c ≠ NUL) : cstr s = s := by
  unfold cstr
  exact (takeWhile_all s (fun c hc => by simpa using h c hc)).1

/-- The conversion `atof` on an optional minus sign, digits, a radix point and digits,
behind any number of blanks: the digits taken as one number over the power of ten of the
fraction. -/
theorem atof_numeral (k : Nat) (neg : Bool) (ip fp : List Char) (hip : ip ≠ [])
    (hi : ∀ c ∈ ip, isdigit c = true) (hf : ∀ c ∈ fp, isdigit c = true) :
    atof (List.replicate k ' ' ++ ((if neg = true then ['-'] else []) ++ ip ++ '.' :: fp))
      = ⟨if neg = true then -((digitsToNat (ip ++ fp) : Nat) : Int)
          else ((digitsToNat (ip ++ fp) : Nat) : Int), 10 ^ fp.length⟩ := by
  obtain ⟨d, ds, rfl⟩ : ∃ d ds, ip = d :: ds := by
    cases ip with
    | nil => exact absurd rfl hip
    | cons d ds => exact ⟨d, ds, rfl⟩
  have hd := hi d (by simp)
  have hnul : ∀ c ∈ List.replicate k ' ' ++
      ((if neg = true then ['-'] else []) ++ (d :: ds) ++ '.' :: fp), c ≠ NUL := by
    intro c hc
    simp only [List.mem_append, List.mem_replicate, List.mem_cons] at hc
    rcases hc with ⟨_, h⟩ | (h | h) | h
    · rw [h]; decide
    · cases neg
      · simp at h
      · simp only [if_true, List.mem_singleton] at h
        rw [h]; decide
    · rcases h with h | h
      · rw [h]; exact isdigit_ne_nul d hd
      · exact isdigit_ne_nul c (hi c (by simp [h]))
    · rcases h with h | h
      · rw [h]; decide
      · exact isdigit_ne_nul c (hf c h)
  have hdot : isdigit '.' = false := by decide
  have htw := takeWhile_stop (d :: ds) fp '.' hi hdot
  have hfw := takeWhile_all fp hf
  unfold atof
  rw [cstr_all _ hnul]
  cases neg with
  | false =>
    have hdw : (List.replicate k ' ' ++ (([] : List Char) ++ (d :: ds) ++ '.' :: fp)).dropWhile
        isspace = (d :: ds) ++ '.' :: fp := by
      rw [List.nil_append]
      apply dropWhile_replicate_blank
      intro c hc
      simp only [List.cons_append, List.head?_cons, Option.some.injEq] at hc
      rw [← hc]
      revert hd
      generalize d = e
      intro he
      unfold isdigit at he
      simp only [Bool.and_eq_true, decide_eq_true_eq] at he
      unfold isspace
      have h1 : e ≠ ' ' := by rintro rfl; revert he; decide
      have h2 : e ≠ '\t' := by rintro rfl; revert he; decide
      have h3 : e ≠ '\n' := by rintro rfl; revert he; decide
      have h4 : e ≠ Char.ofNat 11 := by rintro rfl; revert he; decide
      have h5 : e ≠ Char.ofNat 12 := by rintro rfl; revert he; decide
      have h6 : e ≠ '\r' := by rintro rfl; revert he; decide
      simp [h1, h2, h3, h4, h5, h6]
    simp only [Bool.false_eq_true, if_false]
    rw [hdw, List.cons_append, takeSign_digit d _ hd]
    simp only []
    rw [← List.cons_append, htw.1, htw.2]
    simp only [hfw.1, hfw.2, takeExponent]
    simp
  | true =>
    have hdw : (List.replicate k ' ' ++ (['-'] ++ (d :: ds) ++ '.' :: fp)).dropWhile
        isspace = '-' :: ((d :: ds) ++ '.' :: fp) := by
      have := dropWhile_replicate_blank k ('-' :: ((d :: ds) ++ '.' :: fp))
        (by intro c hc; simp only [List.head?_cons, Option.some.injEq] at hc; rw [← hc]; decide)
      simpa using this
    simp only [if_true]
    rw [hdw]
    simp only [takeSign]
    rw [htw.1, htw.2]
    simp only [hfw.1, hfw.2, takeExponent]
    simp

end MDArray

namespace MDArray

/-- A character of a printed numeral: a digit, the radix point or the minus sign. -/
theorem printedNumeral_chars (prec : Nat) (x : ARRAY_REAL) (hp : 1 ≤ prec) :
    ∀ c ∈ printedNumeral prec x, isdigit c = true ∨ c = '.' ∨ c = '-' := by
  intro c hc
  have hmod : printedDigits prec x % 10 ^ prec < 10 ^ prec := Nat.mod_lt _ (by positivity)
  obtain ⟨_, hfd, _⟩ := padLeft_zero_spec prec _ hp hmod
  obtain ⟨_, hid, _, _⟩ := natToDec_spec (printedDigits prec x / 10 ^ prec)
  simp only [printedNumeral, List.mem_append, List.mem_cons] at hc
  rcases hc with (h | h) | h | h
  · right; right
    split at h
    · simpa using h
    · simp at h
  · left; exact hid c h
  · right; left; exact h
  · left; exact hfd c h

/-- The field `%W.Pf` (or `% W.Pf`) of a number: blanks and then its numeral; the field is
as wide as the numeral with its blank for the sign when that is wider than `W`. -/
theorem fmt_f_numeral (space : Bool) (width prec : Nat) (x : ARRAY_REAL) (hp : 1 ≤ prec)
    (hden : x.den ≠ 0) :
    ∃ k, fmt_f space width prec x = List.replicate k ' ' ++ printedNumeral prec x ∧
      k + (printedNumeral prec x).length
        = max width ((printedNumeral prec x).length
            + (if space = true ∧ ¬ x.num < 0 then 1 else 0)) := by
  have hp0 : prec ≠ 0 := by omega
  unfold fmt_f
  simp only [hden, if_false, hp0]
  by_cases hneg : x.num < 0
  · refine ⟨width - (printedNumeral prec x).length, ?_, ?_⟩
    · simp [padLeft, printedNumeral, printedDigits, hneg]
    · simp only [hneg, not_true_eq_false, and_false, if_false]; omega
  · cases space with
    | false =>
      refine ⟨width - (printedNumeral prec x).length, ?_, ?_⟩
      · simp [padLeft, printedNumeral, printedDigits, hneg]
      · simp; omega
    | true =>
      refine ⟨width - ((printedNumeral prec x).length + 1) + 1, ?_, ?_⟩
      · simp only [padLeft, printedNumeral, printedDigits, hneg, if_false, if_true,
          List.nil_append, List.length_append, List.length_cons, List.length_singleton,
          List.singleton_append, List.cons_append]
        rw [List.replicate_succ', List.append_assoc]
        simp only [List.singleton_append]
      · simp only [hneg, not_false_eq_true, and_self, if_true]; omega

/-- Reading a printed numeral back with `atof`, blanks in front or not, gives the printed
value. -/
theorem atof_printedNumeral (k prec : Nat) (x : ARRAY_REAL) (hp : 1 ≤ prec) :
    atof (List.replicate k ' ' ++ printedNumeral prec x) = printedValue prec x := by
  have hmod : printedDigits prec x % 10 ^ prec < 10 ^ prec := Nat.mod_lt _ (by positivity)
  obtain ⟨hfl, hfd, hfv⟩ := padLeft_zero_spec prec _ hp hmod
  obtain ⟨hine, hid, hiv, _⟩ := natToDec_spec (printedDigits prec x / 10 ^ prec)
  have h := atof_numeral k (decide (x.num < 0)) _ _ hine hid hfd
  simp only [decide_eq_true_eq] at h
  unfold printedNumeral printedValue
  rw [h, digitsToNat_append_value, hiv, hfv, hfl, Nat.div_add_mod']

/-- Rounding to the nearest integer is off by at most one half. -/
theorem roundHalfEven_error (N d : Nat) (hd : 0 < d) :
    |((roundHalfEven N d : Nat) : ℚ) - (N : ℚ) / (d : ℚ)| ≤ 1 / 2 := by
  have hdq : (0 : ℚ) < (d : ℚ) := by exact_mod_cast hd
  have hN : (N : ℚ) = (d : ℚ) * ((N / d : Nat) : ℚ) + ((N % d : Nat) : ℚ) := by
    exact_mod_cast (Nat.div_add_mod N d).symm
  have hr : ((N % d : Nat) : ℚ) < (d : ℚ) := by exact_mod_cast Nat.mod_lt N hd
  have hr0 : (0 : ℚ) ≤ ((N % d : Nat) : ℚ) := by positivity
  have hdiv : (N : ℚ) / (d : ℚ) = ((N / d : Nat) : ℚ) + ((N % d : Nat) : ℚ) / (d : ℚ) := by
    rw [hN]; field_simp; ring
  have hfrac : ((N % d : Nat) : ℚ) / (d : ℚ) < 1 := by rw [div_lt_one hdq]; exact hr
  have hfrac0 : 0 ≤ ((N % d : Nat) : ℚ) / (d : ℚ) := by positivity
  unfold roundHalfEven
  simp only []
  by_cases h1 : 2 * (N % d) < d
  · rw [if_pos h1, hdiv]
    have : ((N % d : Nat) : ℚ) / (d : ℚ) ≤ 1 / 2 := by
      rw [div_le_iff₀ hdq]
      have : (2 : ℚ) * ((N % d : Nat) : ℚ) < (d : ℚ) := by exact_mod_cast h1
      linarith
    rw [abs_le]; constructor <;> linarith
  · rw [if_neg h1]
    by_cases h2 : d < 2 * (N % d)
    · rw [if_pos h2, hdiv]
      have : 1 / 2 ≤ ((N % d : Nat) : ℚ) / (d : ℚ) := by
        rw [le_div_iff₀ hdq]
        have : (d : ℚ) < (2 : ℚ) * ((N % d : Nat) : ℚ) := by exact_mod_cast h2
        linarith
      push_cast
      rw [abs_le]; constructor <;> linarith
    · rw [if_neg h2]
      have he : 2 * (N % d) = d := by omega
      have : ((N % d : Nat) : ℚ) / (d : ℚ) = 1 / 2 := by
        rw [div_eq_iff (ne_of_gt hdq)]
        have : (2 : ℚ) * ((N % d : Nat) : ℚ) = (d : ℚ) := by exact_mod_cast he
        linarith
      split
      · rw [hdiv, this, abs_le]; constructor <;> linarith
      · rw [hdiv, this]; push_cast; rw [abs_le]; constructor <;> linarith

/-- The number a printed numeral stands for differs from the number printed by at most half
a unit of the last place. -/
theorem printedValue_error (prec : Nat) (x : ARRAY_REAL) (hden : x.den ≠ 0) :
    |(printedValue prec x).toRat - x.toRat| ≤ 1 / (2 * 10 ^ prec) := by
  have hd : 0 < x.den := Nat.pos_of_ne_zero hden
  have hdq : (0 : ℚ) < (x.den : ℚ) := by exact_mod_cast hd
  have hpow : (0 : ℚ) < (10 : ℚ) ^ prec := by positivity
  have herr := roundHalfEven_error (x.num.natAbs * 10 ^ prec) x.den hd
  have hkey : |((printedDigits prec x : Nat) : ℚ) / (10 : ℚ) ^ prec
      - ((x.num.natAbs : Nat) : ℚ) / (x.den : ℚ)| ≤ 1 / (2 * 10 ^ prec) := by
    have : ((printedDigits prec x : Nat) : ℚ) / (10 : ℚ) ^ prec
        - ((x.num.natAbs : Nat) : ℚ) / (x.den : ℚ)
        = (((printedDigits prec x : Nat) : ℚ)
            - ((x.num.natAbs * 10 ^ prec : Nat) : ℚ) / (x.den : ℚ)) / (10 : ℚ) ^ prec := by
      push_cast; field_simp; ring
    rw [this, abs_div, abs_of_pos hpow, div_le_iff₀ hpow]
    unfold printedDigits
    calc _ ≤ (1 : ℚ) / 2 := herr
      _ = 1 / (2 * 10 ^ prec) * 10 ^ prec := by field_simp
  unfold printedValue ARRAY_REAL.toRat
  by_cases hneg : x.num < 0
  · simp only [hneg, if_true]
    have habs : (x.num : ℚ) = -((x.num.natAbs : Nat) : ℚ) := by
      have h0 : -((x.num.natAbs : Nat) : Int) = x.num := by omega
      calc (x.num : ℚ) = ((-((x.num.natAbs : Nat) : Int) : Int) : ℚ) := by rw [h0]
        _ = -((x.num.natAbs : Nat) : ℚ) := by rw [Int.cast_neg, Int.cast_natCast]
    rw [habs]
    push_cast
    rw [neg_div, neg_div, ← neg_sub', abs_neg]
    simpa using hkey
  · simp only [hneg, if_false]
    have habs : (x.num : ℚ) = ((x.num.natAbs : Nat) : ℚ) := by
      have h0 : ((x.num.natAbs : Nat) : Int) = x.num := by omega
      calc (x.num : ℚ) = ((((x.num.natAbs : Nat) : Int) : Int) : ℚ) := by rw [h0]
        _ = ((x.num.natAbs : Nat) : ℚ) := Int.cast_natCast _
    rw [habs]
    push_cast
    simpa using hkey

end MDArray

namespace MDArray

/-- The number of binary digits, by its two bounds. -/
theorem bitLengthAux_spec : ∀ (fuel n : Nat), n ≤ fuel → 0 < n →
    2 ^ (bitLengthAux fuel n - 1) ≤ n ∧ n < 2 ^ bitLengthAux fuel n := by
  intro fuel
  induction fuel with
  | zero => intro n h1 h2; omega
  | succ f ih =>
    intro n h1 h2
    have hn : ¬ n = 0 := by omega
    unfold bitLengthAux
    rw [if_neg hn]
    by_cases h : n / 2 = 0
    · have hn1 : n = 1 := by omega
      subst hn1
      have : bitLengthAux f (1 / 2) = 0 := by
        cases f with
        | zero => rfl
        | succ g => unfold bitLengthAux; simp
      rw [this]
      simp
    · have hpos : 0 < n / 2 := Nat.pos_of_ne_zero h
      obtain ⟨l, u⟩ := ih (n / 2) (by omega) hpos
      have hb : 1 ≤ bitLengthAux f (n / 2) := by
        by_contra hc
        have h0 : bitLengthAux f (n / 2) = 0 := by omega
        rw [h0] at u
        simp at u
        omega
      constructor
      · have e : bitLengthAux f (n / 2) + 1 - 1 = (bitLengthAux f (n / 2) - 1) + 1 := by omega
        rw [e, pow_succ]
        omega
      · rw [pow_succ]
        omega

/-- The number of binary digits of a positive number. -/
theorem bitLength_spec (n : Nat) (h : 0 < n) :
    2 ^ (bitLength n - 1) ≤ n ∧ n < 2 ^ bitLength n ∧ 1 ≤ bitLength n := by
  obtain ⟨l, u⟩ := bitLengthAux_spec n n (le_refl n) h
  refine ⟨l, u, ?_⟩
  by_contra hc
  have h0 : bitLength n = 0 := by omega
  unfold bitLength at h0
  rw [h0] at u
  simp at u
  omega

/-- A power of two with an integer exponent as a quotient of two powers with natural
exponents. -/
theorem zpow_two_split (z : Int) :
    (2 : ℚ) ^ z = (2 : ℚ) ^ z.toNat / (2 : ℚ) ^ (-z).toNat := by
  rcases le_or_lt 0 z with h | h
  · have h1 : (-z).toNat = 0 := by omega
    have h2 : z = (z.toNat : Int) := by omega
    rw [h1, pow_zero, div_one]
    conv_lhs => rw [h2]
    rw [zpow_natCast]
  · have h1 : z.toNat = 0 := by omega
    have h2 : z = -((-z).toNat : Int) := by omega
    rw [h1, pow_zero]
    conv_lhs => rw [h2]
    rw [zpow_neg, zpow_natCast, one_div]

/-- The binary exponent of a positive fraction is not too large. -/
theorem binaryExponent_le (n d : Nat) (hn : 0 < n) (hd : 0 < d) :
    (2 : ℚ) ^ binaryExponent n d ≤ (n : ℚ) / (d : ℚ) := by
  have hdq : (0 : ℚ) < (d : ℚ) := by exact_mod_cast hd
  unfold binaryExponent
  dsimp only
  split
  · rename_i h
    rw [zpow_two_split, div_le_div_iff₀ (by positivity) hdq]
    have h2 : ((d * 2 ^ ((bitLength n : Int) - (bitLength d : Int)).toNat : Nat) : ℚ)
        ≤ ((n * 2 ^ (-((bitLength n : Int) - (bitLength d : Int))).toNat : Nat) : ℚ) := by
      exact_mod_cast h
    push_cast at h2
    linarith
  · obtain ⟨ln, _, bn⟩ := bitLength_spec n hn
    obtain ⟨_, ud, _⟩ := bitLength_spec d hd
    have e : (bitLength n : Int) - (bitLength d : Int) - 1
        = ((bitLength n - 1 : Nat) : Int) - ((bitLength d : Nat) : Int) := by omega
    rw [e, zpow_sub₀ (by norm_num), zpow_natCast, zpow_natCast,
      div_le_div_iff₀ (by positivity) hdq]
    have l1 : ((2 ^ (bitLength n - 1) : Nat) : ℚ) ≤ (n : ℚ) := by exact_mod_cast ln
    have u1 : ((d : Nat) : ℚ) ≤ ((2 ^ bitLength d : Nat) : ℚ) := by exact_mod_cast le_of_lt ud
    push_cast at l1 u1
    calc (2 : ℚ) ^ (bitLength n - 1) * (d : ℚ) ≤ (n : ℚ) * (d : ℚ) := by
          apply mul_le_mul_of_nonneg_right l1 (le_of_lt hdq)
      _ ≤ (n : ℚ) * (2 : ℚ) ^ bitLength d := by
          apply mul_le_mul_of_nonneg_left u1 (by positivity)

theorem toRat_sign_natAbs (k : Int) (N D : Nat) :
    (ARRAY_REAL.mk (Int.sign k * (N : Int)) D).toRat
      = ((Int.sign k : Int) : ℚ) * ((N : ℚ) / (D : ℚ)) := by
  unfold ARRAY_REAL.toRat
  push_cast
  ring

theorem cast_sign_mul_natAbs (k : Int) :
    ((Int.sign k : Int) : ℚ) * ((k.natAbs : Nat) : ℚ) = (k : ℚ) := by
  have h : Int.sign k * (k.natAbs : Int) = k := Int.sign_mul_natAbs k
  have h2 : ((Int.sign k * (k.natAbs : Int) : Int) : ℚ) = (k : ℚ) := by rw [h]
  rw [Int.cast_mul, Int.cast_natCast] at h2
  exact h2

/-- The rounding error of a conversion that did not overflow: at most half a unit of the last
place, which is at most the fraction `1 / 2 ^ prec` of the number, or `2 ^ (emin - prec)` for
a number below the normal range. -/
theorem roundBinary_error (prec : Nat) (emin emax : Int) (x : ARRAY_REAL)
    (hfin : (roundBinary prec emin emax x).den ≠ 0) :
    x.den ≠ 0 ∧
    |(roundBinary prec emin emax x).toRat - x.toRat|
      ≤ |x.toRat| / 2 ^ prec + (2 : ℚ) ^ (emin - (prec : Int)) := by
  have hpos : (0 : ℚ) ≤ |x.toRat| / 2 ^ prec + (2 : ℚ) ^ (emin - (prec : Int)) := by positivity
  unfold roundBinary at hfin ⊢
  by_cases h0 : x.den = 0 ∨ x.num = 0
  · rw [if_pos h0] at hfin ⊢
    refine ⟨hfin, ?_⟩
    rw [sub_self, abs_zero]
    exact hpos
  · rw [if_neg h0] at hfin ⊢
    push_neg at h0
    obtain ⟨hden, hnum⟩ := h0
    refine ⟨hden, ?_⟩
    dsimp only at hfin ⊢
    generalize hs : max (binaryExponent x.num.natAbs x.den) emin - ((prec : Int) - 1) = s
      at hfin ⊢
    generalize hm : roundHalfEven (x.num.natAbs * 2 ^ (-s).toNat) (x.den * 2 ^ s.toNat) = m
      at hfin ⊢
    by_cases hov : emax + 2 ≤ (bitLength m : Int) + s
    · rw [if_pos hov] at hfin
      exact absurd rfl hfin
    · rw [if_neg hov]
      have hd : 0 < x.den := Nat.pos_of_ne_zero hden
      have hn : 0 < x.num.natAbs := Int.natAbs_pos.2 hnum
      have hdq : (0 : ℚ) < (x.den : ℚ) := by exact_mod_cast hd
      have hD : 0 < x.den * 2 ^ s.toNat := by positivity
      have herr := roundHalfEven_error (x.num.natAbs * 2 ^ (-s).toNat) (x.den * 2 ^ s.toNat) hD
      rw [hm] at herr
      have h2s : (0 : ℚ) < (2 : ℚ) ^ s := by positivity
      have hscaled : ((x.num.natAbs * 2 ^ (-s).toNat : Nat) : ℚ) / ((x.den * 2 ^ s.toNat : Nat) : ℚ)
          = ((x.num.natAbs : Nat) : ℚ) / (x.den : ℚ) / (2 : ℚ) ^ s := by
        rw [zpow_two_split s]
        push_cast
        field_simp
      rw [hscaled] at herr
      have hres : (ARRAY_REAL.mk (Int.sign x.num * ((m * 2 ^ s.toNat : Nat) : Int))
            (2 ^ (-s).toNat)).toRat
          = ((Int.sign x.num : Int) : ℚ) * ((m : ℚ) * (2 : ℚ) ^ s) := by
        rw [toRat_sign_natAbs, zpow_two_split s]
        push_cast
        ring
      have hx : x.toRat = ((Int.sign x.num : Int) : ℚ) * (((x.num.natAbs : Nat) : ℚ) / (x.den : ℚ)) := by
        unfold ARRAY_REAL.toRat
        rw [← mul_div_assoc, cast_sign_mul_natAbs]
      have habsx : |x.toRat| = ((x.num.natAbs : Nat) : ℚ) / (x.den : ℚ) := by
        unfold ARRAY_REAL.toRat
        rw [abs_div, Nat.abs_cast, Nat.cast_natAbs, Int.cast_abs]
      have hsign : |((Int.sign x.num : Int) : ℚ)| = 1 := by
        rcases lt_or_gt_of_ne hnum with h | h
        · rw [Int.sign_eq_neg_one_of_neg h]; norm_num
        · rw [Int.sign_eq_one_of_pos h]; norm_num
      rw [habsx, hres, hx, ← mul_sub, abs_mul, hsign, one_mul]
      set q : ℚ := ((x.num.natAbs : Nat) : ℚ) / (x.den : ℚ) with hq
      have hqe := binaryExponent_le x.num.natAbs x.den hn hd
      rw [← hq] at hqe
      have hhalf : |(m : ℚ) * (2 : ℚ) ^ s - q| ≤ (2 : ℚ) ^ s / 2 := by
        have e1 : (m : ℚ) * (2 : ℚ) ^ s - q = ((m : ℚ) - q / (2 : ℚ) ^ s) * (2 : ℚ) ^ s := by
          field_simp
        rw [e1, abs_mul, abs_of_pos h2s]
        calc |(m : ℚ) - q / (2 : ℚ) ^ s| * (2 : ℚ) ^ s ≤ 1 / 2 * (2 : ℚ) ^ s :=
              mul_le_mul_of_nonneg_right herr (le_of_lt h2s)
          _ = (2 : ℚ) ^ s / 2 := by ring
      refine le_trans hhalf ?_
      have hq0 : (0 : ℚ) ≤ q := by positivity
      rcases le_total emin (binaryExponent x.num.natAbs x.den) with hc | hc
      · have hs2 : s = binaryExponent x.num.natAbs x.den - (prec : Int) + 1 := by
          rw [← hs, max_eq_left hc]; ring
        have e2 : (2 : ℚ) ^ s / 2 = (2 : ℚ) ^ binaryExponent x.num.natAbs x.den / 2 ^ prec := by
          rw [hs2, zpow_add₀ (by norm_num), zpow_sub₀ (by norm_num), zpow_natCast]
          norm_num
        rw [e2]
        have : (2 : ℚ) ^ binaryExponent x.num.natAbs x.den / 2 ^ prec ≤ q / 2 ^ prec :=
          div_le_div_of_nonneg_right hqe (by positivity)
        have h3 : (0 : ℚ) ≤ (2 : ℚ) ^ (emin - (prec : Int)) := by positivity
        linarith
      · have hs2 : s = emin - (prec : Int) + 1 := by
          rw [← hs, max_eq_right hc]; ring
        have e2 : (2 : ℚ) ^ s / 2 = (2 : ℚ) ^ (emin - (prec : Int)) := by
          rw [hs2, zpow_add₀ (by norm_num)]
          norm_num
        rw [e2]
        have : (0 : ℚ) ≤ q / 2 ^ prec := by positivity
        linarith


end MDArray

namespace MDArray

/-! ### The tokens of a written atom line -/

theorem printedNumeral_no_delim (prec : Nat) (x : ARRAY_REAL) (hp : 1 ≤ prec) :
    ∀ c ∈ printedNumeral prec x, isDelim c = false ∧ c ≠ '\n' ∧ c ≠ NUL := by
  intro c hc
  rcases printedNumeral_chars prec x hp c hc with h | h | h
  · refine ⟨?_, ?_, isdigit_ne_nul c h⟩
    · cases hd : isDelim c
      · rfl
      · exfalso
        unfold isDelim at hd
        simp only [Bool.or_eq_true, beq_iff_eq] at hd
        rcases hd with rfl | rfl <;> exact absurd h (by decide)
    · rintro rfl; exact absurd h (by decide)
  · rw [h]; decide
  · rw [h]; decide

theorem contains_false_iff (l : List Char) (a : Char) :
    l.contains a = false ↔ ∀ c ∈ l, c ≠ a := by
  induction l with
  | nil => simp
  | cons x l ih =>
    simp only [List.contains_cons, Bool.or_eq_false_iff, ih, List.mem_cons, forall_eq_or_imp]
    constructor
    · rintro ⟨h1, h2⟩
      exact ⟨fun h => by rw [h] at h1; simp at h1, h2⟩
    · rintro ⟨h1, h2⟩
      refine ⟨?_, h2⟩
      cases hb : (a == x)
      · rfl
      · exact absurd (beq_iff_eq.1 hb).symm h1

theorem isLine_of_chars (l : List Char) (h : ∀ c ∈ l, c ≠ '\n' ∧ c ≠ NUL) : isLine l = true := by
  unfold isLine
  simp only [Bool.and_eq_true, Bool.not_eq_true']
  exact ⟨(contains_false_iff l '\n').2 (fun c hc => (h c hc).1),
    (contains_false_iff l NUL).2 (fun c hc => (h c hc).2)⟩

end MDArray

namespace MDArray

/-! ### The text of a written generic-format frame -/

theorem isspace_of_isdigit (c : Char) (h : isdigit c = true) : isspace c = false := by
  cases hs : isspace c
  · rfl
  · exfalso
    unfold isspace at hs
    simp only [Bool.or_eq_true, beq_iff_eq] at hs
    rcases hs with ((((rfl | rfl) | rfl) | rfl) | rfl) | rfl <;> exact absurd h (by decide)

/-- Element `3 i + j` of the concatenation of triples is element `j` of triple `i`. -/
theorem flatten_triples_get {α β : Type} (g : α → List β) (h3 : ∀ a, (g a).length = 3) :
    ∀ (L : List α) (i j : Nat), j < 3 →
      ((L.map g).flatten).get? (i * 3 + j) = (L.get? i).bind (fun a => (g a).get? j) := by
  intro L
  induction L with
  | nil => intro i j _; simp
  | cons a L ih =>
    intro i j hj
    cases i with
    | zero =>
      simp only [List.map_cons, List.flatten_cons, Nat.zero_mul, Nat.zero_add, List.get?_cons_zero,
        Option.some_bind]
      rw [List.get?_eq_getElem?, List.get?_eq_getElem?, List.getElem?_append_left (by rw [h3 a]; exact hj)]
    | succ i =>
      simp only [List.map_cons, List.flatten_cons, List.get?_cons_succ]
      rw [← ih i j hj, List.get?_eq_getElem?, List.get?_eq_getElem?,
        List.getElem?_append_right (by rw [h3 a]; omega)]
      congr 1
      rw [h3 a]
      omega

end MDArray

namespace MDArray

/-! ### Round trip through the generic format -/

theorem getFromArray2D_shape (a : NDArray) (n : Int) (h : a.hasShape2 n 3) (i j : Nat)
    (hi : i < n.toNat) (hj : j < 3) :
    ∃ x, getFromArray2D (PyObject.Array a) i j = some x ∧ x ∈ a.data ∧
      a.data.get? (i * 3 + j) = some x := by
  obtain ⟨_, hdims, hlen⟩ := h
  have hlt : i * 3 + j < a.data.length := by rw [hlen]; omega
  refine ⟨a.data.get ⟨i * 3 + j, hlt⟩, ?_, List.get_mem _ _ _, List.get?_eq_get hlt⟩
  unfold getFromArray2D
  simp only [hdims]
  have hj3 : ((j : Nat) : Int) < ((3 : Nat) : Int) := by exact_mod_cast hj
  rw [if_pos hj3]
  exact List.get?_eq_get hlt

theorem toRat_mul_one (x : ARRAY_REAL) :
    (ARRAY_REAL.mul x (ARRAY_REAL.ofInt 1)).toRat = x.toRat := by
  simp [ARRAY_REAL.mul, ARRAY_REAL.ofInt, ARRAY_REAL.toRat]

theorem map_range_getD {β : Type} (syms : List (List Char)) (g : List Char → β) :
    (List.range syms.length).map (fun i => g (syms.getD i [])) = syms.map g := by
  apply List.ext_getElem
  · simp
  · intro i h1 h2
    simp only [List.length_map, List.length_range] at h1
    simp [List.getD_eq_getElem?_getD, List.getElem?_eq_getElem h1]

end MDArray

namespace MDArray

end MDArray

namespace MDArray

end MDArray

namespace MDArray

/-! ### Reading a fixed-column frame line by line -/

/-- The atom loop of the fixed-column reader behind the first atom: the flag stays as it
is, every line gives three coordinates and, under the flag, three velocities. -/
theorem read_frame_from_gro_loop_rest :
    ∀ (ls : List (List Char)) (pos : Nat) (f : FILE) (vp : Bool) (xyz vel : List ARRAY_REAL)
      (tail : List Char),
      (∀ l ∈ ls, isLine l = true) → f.rest = linesText ls ++ tail → pos ≠ 0 →
      ∃ f1, read_frame_from_gro_loop ls.length pos f vp xyz vel
          = (Res.ok (vp, xyz ++ (ls.map (fun l => groLineCoords (l ++ ['\n']))).flatten,
              vel ++ (if vp = true then (ls.map (fun l => groLineVel (l ++ ['\n']))).flatten
                else [])), f1)
        ∧ f1.rest = tail ∧ f1.content = f.content := by
  intro ls
  induction ls with
  | nil =>
    intro pos f vp xyz vel tail _ hrest _
    refine ⟨f, ?_, by simpa [linesText] using hrest, rfl⟩
    cases vp <;> simp [read_frame_from_gro_loop]
  | cons l ls ih =>
    intro pos f vp xyz vel tail hl hrest hpos
    rw [linesText_cons, List.append_assoc, List.cons_append] at hrest
    have hline := hl l (by simp)
    obtain ⟨f1, hg, hr1, hc1⟩ := getline_line f l _ ((isLine_iff l).1 hline).1 hrest
    obtain ⟨f2, h2, hr2, hc2⟩ := ih (pos + 1) f1 vp
      (xyz ++ groLineCoords (l ++ ['\n']))
      (vel ++ (if vp = true then groLineVel (l ++ ['\n']) else []))
      tail (fun x hx => hl x (by simp [hx])) hr1 (by omega)
    refine ⟨f2, ?_, hr2, hc2.trans hc1⟩
    simp only [List.length_cons]
    rw [read_frame_from_gro_loop]
    simp only [_getline, hg, hpos, false_and, if_false]
    have hstep : (if vp = true then
        [strPartFloat (l ++ ['\n']) 44 8, strPartFloat (l ++ ['\n']) 52 8,
          strPartFloat (l ++ ['\n']) 60 8] else [])
        = (if vp = true then groLineVel (l ++ ['\n']) else []) := rfl
    rw [hstep]
    have hc : [ARRAY_REAL.mul (strPartFloat (l ++ ['\n']) 20 8) ARRAY_REAL.ten,
        ARRAY_REAL.mul (strPartFloat (l ++ ['\n']) 28 8) ARRAY_REAL.ten,
        ARRAY_REAL.mul (strPartFloat (l ++ ['\n']) 36 8) ARRAY_REAL.ten]
        = groLineCoords (l ++ ['\n']) := rfl
    rw [hc, h2]
    cases vp <;> simp

/-- The atom loop of the fixed-column reader from the first atom on: the flag is set by the
length of the first line. -/
theorem read_frame_from_gro_loop_lines (ls : List (List Char)) (f : FILE) (tail : List Char)
    (hl : ∀ l ∈ ls, isLine l = true) (hrest : f.rest = linesText ls ++ tail) :
    ∃ f1, read_frame_from_gro_loop ls.length 0 f false [] []
        = (Res.ok (groVelPresent ls, (ls.map (fun l => groLineCoords (l ++ ['\n']))).flatten,
            (if groVelPresent ls = true then
              (ls.map (fun l => groLineVel (l ++ ['\n']))).flatten else [])), f1)
      ∧ f1.rest = tail ∧ f1.content = f.content := by
  cases ls with
  | nil =>
    exact ⟨f, by simp [read_frame_from_gro_loop, groVelPresent],
      by simpa [linesText] using hrest, rfl⟩
  | cons l ls =>
    rw [linesText_cons, List.append_assoc, List.cons_append] at hrest
    have hline := hl l (by simp)
    obtain ⟨f1, hg, hr1, hc1⟩ := getline_line f l _ ((isLine_iff l).1 hline).1 hrest
    obtain ⟨f2, h2, hr2, hc2⟩ := read_frame_from_gro_loop_rest ls 1 f1
      (groVelPresent (l :: ls)) (groLineCoords (l ++ ['\n']))
      (if groVelPresent (l :: ls) = true then groLineVel (l ++ ['\n']) else [])
      tail (fun x hx => hl x (by simp [hx])) hr1 (by omega)
    refine ⟨f2, ?_, hr2, hc2.trans hc1⟩
    simp only [List.length_cons]
    rw [read_frame_from_gro_loop]
    have hvp : (if True ∧ 50 < (cstr (l ++ ['\n'])).length then true else false)
        = groVelPresent (l :: ls) := by
      rw [cstr_line l hline]
      simp [groVelPresent]
    simp only [_getline, hg, hvp, List.nil_append]
    have hstep : (if groVelPresent (l :: ls) = true then
        [strPartFloat (l ++ ['\n']) 44 8, strPartFloat (l ++ ['\n']) 52 8,
          strPartFloat (l ++ ['\n']) 60 8] else [])
        = (if groVelPresent (l :: ls) = true then groLineVel (l ++ ['\n']) else []) := rfl
    have hc : [ARRAY_REAL.mul (strPartFloat (l ++ ['\n']) 20 8) ARRAY_REAL.ten,
        ARRAY_REAL.mul (strPartFloat (l ++ ['\n']) 28 8) ARRAY_REAL.ten,
        ARRAY_REAL.mul (strPartFloat (l ++ ['\n']) 36 8) ARRAY_REAL.ten]
        = groLineCoords (l ++ ['\n']) := rfl
    rw [hstep, hc, zero_add, h2]
    cases groVelPresent (l :: ls) <;> simp

/-- The fixed-column reader on a stream that stands in front of a comment line, a count line
that reads as `nAtoms`, `nAtoms` atom lines and at least one more byte (the cell line): it
returns a frame with the coordinates of the atom lines and, when the first atom line is
longer than 50 bytes, their velocities. -/
theorem read_frame_from_gro_frame (s : Trajectory) (f : FILE) (comment count : List Char)
    (atoms : List (List Char)) (tail : List Char)
    (hn0 : 0 ≤ s.nAtoms)
    (hcomment : isLine comment = true)
    (hcount : isLine count = true) (hparse : sscanf_d (count ++ ['\n']) = some s.nAtoms)
    (hlen : (atoms.length : Int) = s.nAtoms)
    (hl : ∀ l ∈ atoms, isLine l = true) (htail : tail ≠ [])
    (hrest : f.rest = linesText (comment :: count :: atoms) ++ tail) :
    ∃ frame f1, read_frame_from_gro s f false none = (Res.ok frame, f1) ∧
      frame.coordinates
        = some ⟨[s.nAtoms, 3], (atoms.map (fun l => groLineCoords (l ++ ['\n']))).flatten⟩ ∧
      frame.velocities
        = (if groVelPresent atoms = true then
            some ⟨[s.nAtoms, 3], (atoms.map (fun l => groLineVel (l ++ ['\n']))).flatten⟩
          else none) := by
  rw [linesText_cons, List.append_assoc, List.cons_append] at hrest
  obtain ⟨f1, hg1, hr1, _⟩ := getline_line f comment _ ((isLine_iff _).1 hcomment).1 hrest
  rw [linesText_cons, List.append_assoc, List.cons_append] at hr1
  obtain ⟨f2, hg2, hr2, _⟩ := getline_line f1 count _ ((isLine_iff _).1 hcount).1 hr1
  obtain ⟨f3, hloop, hr3, _⟩ := read_frame_from_gro_loop_lines atoms f2 tail hl hr2
  have hnat : s.nAtoms.toNat = atoms.length := by rw [← hlen]; simp
  have hg3 : f3.getline ≠ none := by
    unfold FILE.getline
    rw [hr3]
    simp [htail]
  obtain ⟨cell, f4, hg4⟩ : ∃ cell f4, f3.getline = some (cell, f4) := by
    cases h : f3.getline with
    | none => exact absurd h hg3
    | some p => exact ⟨p.1, p.2, rfl⟩
  unfold read_frame_from_gro
  simp only [_getline, hg1, cstr_line comment hcomment, chopLast_line, hg2, hparse, ne_eq,
    not_true_eq_false, if_false, not_lt.2 hn0, hnat, hloop, hg4, Bool.false_eq_true]
  cases hv : groVelPresent atoms
  · exact ⟨_, _, rfl, rfl, by simp [PyDict_New]⟩
  · exact ⟨_, _, rfl, rfl, by simp⟩

end MDArray

namespace MDArray

/-! ### The fields of a written fixed-column line -/

theorem slice_middle (A B C : List Char) (s k : Nat) (hA : A.length = s) (hB : B.length = k) :
    ((A ++ B ++ C).drop s).take k = B := by
  rw [List.append_assoc, ← hA, List.drop_left, ← hB, List.take_left]

/-- A number that fits its field is printed as blanks and its numeral, in exactly the width
of the field. -/
theorem fmt_f_fits (width prec : Nat) (x : ARRAY_REAL) (hp : 1 ≤ prec)
    (hfit : fitsField width prec x = true) :
    (fmt_f false width prec x).length = width ∧
    atof (fmt_f false width prec x) = printedValue prec x ∧
    (∀ c ∈ fmt_f false width prec x, c ≠ '\n' ∧ c ≠ NUL) ∧ x.den ≠ 0 := by
  unfold fitsField at hfit
  simp only [Bool.and_eq_true, decide_eq_true_eq] at hfit
  obtain ⟨k, hk, hlen⟩ := fmt_f_numeral false width prec x hp hfit.1
  simp only [Bool.false_eq_true, false_and, if_false, add_zero] at hlen
  refine ⟨?_, ?_, ?_, hfit.1⟩
  · rw [hk, List.length_append, List.length_replicate, hlen]
    exact max_eq_left hfit.2
  · rw [hk, atof_printedNumeral k prec x hp]
  · intro c hc
    rw [hk] at hc
    simp only [List.mem_append, List.mem_replicate] at hc
    rcases hc with ⟨_, h⟩ | h
    · rw [h]; decide
    · exact (printedNumeral_no_delim prec x hp c h).2

theorem fmt_d_chars (n : Int) : ∀ c ∈ fmt_d n, c ≠ '\n' ∧ c ≠ NUL := by
  intro c hc
  obtain ⟨_, hdig, _, _⟩ := natToDec_spec n.natAbs
  have hd : ∀ c ∈ natToDec n.natAbs, c ≠ '\n' ∧ c ≠ NUL := fun c hc =>
    ⟨by rintro rfl; exact absurd (hdig _ hc) (by decide), isdigit_ne_nul c (hdig c hc)⟩
  unfold fmt_d at hc
  split at hc
  · simp only [List.mem_cons] at hc
    rcases hc with h | h
    · rw [h]; decide
    · exact hd c h
  · exact hd c hc

theorem padLeft_blank (width : Nat) (s : List Char) (hlen : s.length ≤ width)
    (hs : ∀ c ∈ s, c ≠ '\n' ∧ c ≠ NUL) :
    (padLeft ' ' width s).length = width ∧ ∀ c ∈ padLeft ' ' width s, c ≠ '\n' ∧ c ≠ NUL := by
  unfold padLeft
  refine ⟨by simp; omega, ?_⟩
  intro c hc
  simp only [List.mem_append, List.mem_replicate] at hc
  rcases hc with ⟨_, h⟩ | h
  · rw [h]; decide
  · exact hs c h

theorem padRight_blank (width : Nat) (s : List Char) (hlen : s.length ≤ width)
    (hs : ∀ c ∈ s, c ≠ '\n' ∧ c ≠ NUL) :
    (padRight ' ' width s).length = width ∧ ∀ c ∈ padRight ' ' width s, c ≠ '\n' ∧ c ≠ NUL := by
  unfold padRight
  refine ⟨by simp; omega, ?_⟩
  intro c hc
  simp only [List.mem_append, List.mem_replicate] at hc
  rcases hc with h | ⟨_, h⟩
  · exact hs c h
  · rw [h]; decide

theorem isLine_chars (l : List Char) (h : isLine l = true) : ∀ c ∈ l, c ≠ '\n' ∧ c ≠ NUL := by
  rw [isLine_iff] at h
  intro c hc
  exact ⟨fun e => h.1 (e ▸ hc), fun e => h.2 (e ▸ hc)⟩

theorem fmt_d_index_length (i : Nat) (hi : i + 1 ≤ 99999) :
    (fmt_d ((i : Int) + 1)).length ≤ 5 := by
  obtain ⟨_, _, _, hlen⟩ := natToDec_spec (i + 1)
  have h1 : ((i : Int) + 1).natAbs = i + 1 := by omega
  have h2 : ¬ ((i : Int) + 1 < 0) := by omega
  unfold fmt_d
  rw [if_neg h2, h1]
  exact hlen 5 (by norm_num) (by norm_num; omega)

/-- The count line `%5d` of a natural number is a line, and `sscanf` reads the number back
from it. -/
theorem fmt_wd_count (n : Nat) (hint : n < 2147483648) :
    isLine (fmt_wd 5 (n : Int)) = true ∧
      sscanf_d (fmt_wd 5 (n : Int) ++ ['\n']) = some (n : Int) := by
  obtain ⟨hne, hdig, hval, _⟩ := natToDec_spec n
  have hfmt : fmt_d (n : Int) = natToDec n := by
    unfold fmt_d
    simp
  have hchars : ∀ c ∈ fmt_wd 5 (n : Int), c ≠ '\n' ∧ c ≠ NUL := by
    intro c hc
    unfold fmt_wd padLeft at hc
    simp only [List.mem_append, List.mem_replicate] at hc
    rcases hc with ⟨_, h⟩ | h
    · rw [h]; decide
    · exact fmt_d_chars _ c h
  have hline := isLine_of_chars _ hchars
  refine ⟨hline, ?_⟩
  obtain ⟨d, ds, hD⟩ : ∃ d ds, natToDec n = d :: ds := by
    cases h : natToDec n with
    | nil => exact absurd h hne
    | cons d ds => exact ⟨d, ds, rfl⟩
  have hd : isdigit d = true := hdig d (by rw [hD]; simp)
  have htw := takeWhile_stop (natToDec n) [] '\n' hdig (by decide)
  have hscan : scanInt (fmt_wd 5 (n : Int) ++ ['\n']) = some (n : Int) := by
    unfold scanInt
    rw [cstr_line _ hline]
    have hdw : (fmt_wd 5 (n : Int) ++ ['\n']).dropWhile isspace = natToDec n ++ ['\n'] := by
      unfold fmt_wd padLeft
      rw [hfmt, List.append_assoc]
      apply dropWhile_replicate_blank
      intro c hc
      rw [hD] at hc
      simp only [List.cons_append, List.head?_cons, Option.some.injEq] at hc
      rw [← hc]; exact isspace_of_isdigit d hd
    rw [hdw]
    have hts : takeSign (natToDec n ++ ['\n']) = (false, natToDec n ++ ['\n']) := by
      rw [hD, List.cons_append]
      exact takeSign_digit d _ hd
    simp only [hts, htw.1, hne, if_false, hval]
    simp
  unfold sscanf_d
  rw [hscan, Option.map_some', toInt32_clampLong _ (by omega) (by omega)]

end MDArray

namespace MDArray

theorem three_slices (A X Y Z W : List Char) (s : Nat) (hA : A.length = s)
    (hX : X.length = 8) (hY : Y.length = 8) (hZ : Z.length = 8) :
    ((A ++ X ++ Y ++ Z ++ W).drop s).take 8 = X ∧
    ((A ++ X ++ Y ++ Z ++ W).drop (s + 8)).take 8 = Y ∧
    ((A ++ X ++ Y ++ Z ++ W).drop (s + 16)).take 8 = Z := by
  refine ⟨?_, ?_, ?_⟩
  · have := slice_middle A X (Y ++ Z ++ W) s 8 hA hX
    simpa [List.append_assoc] using this
  · have := slice_middle (A ++ X) Y (Z ++ W) (s + 8) 8 (by simp [hA, hX]) hY
    simpa [List.append_assoc] using this
  · have := slice_middle (A ++ X ++ Y) Z W (s + 16) 8 (by simp [hA, hX, hY]) hZ
    simpa [List.append_assoc] using this

/-- The coordinates the fixed-column reader takes from a line whose head is 20 characters
long and whose coordinate fields are 8 characters long each. -/
theorem groLineCoords_fields (A X Y Z W : List Char) (hA : A.length = 20)
    (hX : X.length = 8) (hY : Y.length = 8) (hZ : Z.length = 8)
    (hline : isLine (A ++ X ++ Y ++ Z ++ W) = true) :
    groLineCoords (A ++ X ++ Y ++ Z ++ W ++ ['\n'])
      = [ARRAY_REAL.mul (atof X) ARRAY_REAL.ten, ARRAY_REAL.mul (atof Y) ARRAY_REAL.ten,
          ARRAY_REAL.mul (atof Z) ARRAY_REAL.ten] := by
  obtain ⟨h1, h2, h3⟩ := three_slices A X Y Z (W ++ ['\n']) 20 hA hX hY hZ
  simp only [← List.append_assoc] at h1 h2 h3
  unfold groLineCoords strPartFloat
  rw [cstr_line _ hline, h1, h2, h3]

/-- The velocities the fixed-column reader takes from a line whose head is 20 characters
long and whose six fields are 8 characters long each. -/
theorem groLineVel_fields (A X Y Z VX VY VZ : List Char) (hA : A.length = 20)
    (hX : X.length = 8) (hY : Y.length = 8) (hZ : Z.length = 8)
    (hVX : VX.length = 8) (hVY : VY.length = 8) (hVZ : VZ.length = 8)
    (hline : isLine (A ++ X ++ Y ++ Z ++ (VX ++ VY ++ VZ)) = true) :
    groLineVel (A ++ X ++ Y ++ Z ++ (VX ++ VY ++ VZ) ++ ['\n'])
      = [atof VX, atof VY, atof VZ] := by
  obtain ⟨h1, h2, h3⟩ := three_slices (A ++ X ++ Y ++ Z) VX VY VZ ['\n'] 44
    (by simp [hA, hX, hY, hZ]) hVX hVY hVZ
  have he : A ++ X ++ Y ++ Z ++ (VX ++ VY ++ VZ) ++ ['\n']
      = A ++ X ++ Y ++ Z ++ VX ++ VY ++ VZ ++ ['\n'] := by simp [List.append_assoc]
  unfold groLineVel strPartFloat
  rw [cstr_line _ hline, he, h1, h2, h3]

/-- The head `%5d%-5s%5s%5d` of a written atom line whose topology fits: 20 characters,
none of them a newline or a NUL. -/
theorem groHead_fits (s : Trajectory) (i : Nat) (hhead : groHeadFits s i = true)
    (hi : i + 1 ≤ 99999) :
    ∃ r rn sym, groResid s.resids i = some r ∧ groResName s.resNames i = some rn ∧
      listString s.symbols i = some sym ∧
      (fmt_wd 5 r ++ padRight ' ' 5 rn ++ padLeft ' ' 5 sym ++ fmt_wd 5 ((i : Int) + 1)).length
        = 20 ∧
      ∀ c ∈ fmt_wd 5 r ++ padRight ' ' 5 rn ++ padLeft ' ' 5 sym ++ fmt_wd 5 ((i : Int) + 1),
        c ≠ '\n' ∧ c ≠ NUL := by
  unfold groHeadFits at hhead
  split at hhead
  · rename_i r rn sym hr hrn hsym
    simp only [Bool.and_eq_true, decide_eq_true_eq] at hhead
    obtain ⟨⟨⟨⟨h1, h2⟩, h3⟩, h4⟩, h5⟩ := hhead
    have p1 := padLeft_blank 5 (fmt_d r) h1 (fmt_d_chars r)
    have p2 := padRight_blank 5 rn h2 (isLine_chars rn h3)
    have p3 := padLeft_blank 5 sym h4 (isLine_chars sym h5)
    have p4 := padLeft_blank 5 (fmt_d ((i : Int) + 1)) (fmt_d_index_length i hi) (fmt_d_chars _)
    refine ⟨r, rn, sym, hr, hrn, hsym, ?_, ?_⟩
    · simp only [List.length_append, fmt_wd, p1.1, p2.1, p3.1, p4.1]
    · intro c hc
      simp only [List.mem_append, fmt_wd] at hc
      rcases hc with ((h | h) | h) | h
      · exact p1.2 c h
      · exact p2.2 c h
      · exact p3.2 c h
      · exact p4.2 c h
  · exact absurd hhead (by simp)

end MDArray

namespace MDArray

/-- A written fixed-column atom line whose topology and numbers fit their fields: it is a
line, the reader takes the printed values of the coordinates divided by 10 from it, and with
velocities it is 68 characters long and gives the printed values of the velocities, without
them it is 44 characters long. -/
theorem groWrittenText_read (s : Trajectory) (v : WriteVars) (i : Nat)
    (hhead : groHeadFits s i = true) (hi : i + 1 ≤ 99999) (x y z : ARRAY_REAL)
    (hx : getFromArray2D v.py_coords i 0 = some x)
    (hy : getFromArray2D v.py_coords i 1 = some y)
    (hz : getFromArray2D v.py_coords i 2 = some z)
    (hfx : fitsField 8 3 (groCoord x) = true)
    (hfy : fitsField 8 3 (groCoord y) = true)
    (hfz : fitsField 8 3 (groCoord z) = true)
    (hvel : ∀ vel, v.py_vel = some vel → ∃ vx vy vz,
      getFromArray2D vel i 0 = some vx ∧ getFromArray2D vel i 1 = some vy ∧
      getFromArray2D vel i 2 = some vz ∧ fitsField 8 4 (toFloat vx) = true ∧
      fitsField 8 4 (toFloat vy) = true ∧ fitsField 8 4 (toFloat vz) = true) :
    isLine (groWrittenText s v i) = true ∧ groDefined s v i = true ∧
    groLineCoords (groWrittenText s v i ++ ['\n'])
      = [ARRAY_REAL.mul (printedValue 3 (groCoord x)) ARRAY_REAL.ten,
          ARRAY_REAL.mul (printedValue 3 (groCoord y)) ARRAY_REAL.ten,
          ARRAY_REAL.mul (printedValue 3 (groCoord z)) ARRAY_REAL.ten] ∧
    (v.py_vel = none → (groWrittenText s v i).length = 44) ∧
    (∀ vel, v.py_vel = some vel → (groWrittenText s v i).length = 68 ∧
      ∃ vx vy vz, getFromArray2D vel i 0 = some vx ∧ getFromArray2D vel i 1 = some vy ∧
        getFromArray2D vel i 2 = some vz ∧
        groLineVel (groWrittenText s v i ++ ['\n'])
          = [printedValue 4 (toFloat vx), printedValue 4 (toFloat vy),
              printedValue 4 (toFloat vz)]) := by
  obtain ⟨r, rn, sym, hr, hrn, hsym, hlen, hchars⟩ := groHead_fits s i hhead hi
  obtain ⟨lx, ax, cx, _⟩ := fmt_f_fits 8 3 _ (by norm_num) hfx
  obtain ⟨ly, ay, cy, _⟩ := fmt_f_fits 8 3 _ (by norm_num) hfy
  obtain ⟨lz, az, cz, _⟩ := fmt_f_fits 8 3 _ (by norm_num) hfz
  generalize hH : fmt_wd 5 r ++ padRight ' ' 5 rn ++ padLeft ' ' 5 sym
    ++ fmt_wd 5 ((i : Int) + 1) = H at hlen hchars
  generalize hX : fmt_f false 8 3 (groCoord x) = X at lx ax cx
  generalize hY : fmt_f false 8 3 (groCoord y) = Y at ly ay cy
  generalize hZ : fmt_f false 8 3 (groCoord z) = Z at lz az cz
  have hxyz : xyzDefined s v i = true := by simp [xyzDefined, hsym, hx, hy, hz]
  cases hv : v.py_vel with
  | none =>
    have htext : groWrittenText s v i = H ++ X ++ Y ++ Z ++ [] := by
      simp only [groWrittenText, groAtomHead, hr, hrn, hsym, arrayElem, hx, hy, hz, hv,
        Option.getD_some, hH, hX, hY, hZ]
    have hline : isLine (H ++ X ++ Y ++ Z ++ []) = true := by
      apply isLine_of_chars
      intro c hc
      simp only [List.mem_append, List.append_nil] at hc
      rcases hc with ((h | h) | h) | h
      · exact hchars c h
      · exact cx c h
      · exact cy c h
      · exact cz c h
    rw [htext]
    refine ⟨hline, ?_, ?_, ?_, ?_⟩
    · simp [groDefined, hxyz, hr, hrn, hv]
    · rw [groLineCoords_fields H X Y Z [] hlen lx ly lz hline, ax, ay, az]
    · intro _; simp [hlen, lx, ly, lz]
    · intro vel h; exact absurd h (by simp)
  | some vel =>
    obtain ⟨vx, vy, vz, hvx, hvy, hvz, fvx, fvy, fvz⟩ := hvel vel hv
    obtain ⟨lvx, avx, cvx, _⟩ := fmt_f_fits 8 4 _ (by norm_num) fvx
    obtain ⟨lvy, avy, cvy, _⟩ := fmt_f_fits 8 4 _ (by norm_num) fvy
    obtain ⟨lvz, avz, cvz, _⟩ := fmt_f_fits 8 4 _ (by norm_num) fvz
    have htext : groWrittenText s v i = H ++ X ++ Y ++ Z
        ++ (fmt_f false 8 4 (toFloat vx) ++ fmt_f false 8 4 (toFloat vy)
          ++ fmt_f false 8 4 (toFloat vz)) := by
      simp only [groWrittenText, groAtomHead, hr, hrn, hsym, arrayElem, hx, hy, hz, hv,
        Option.getD_some, hH, hX, hY, hZ, groVelFields, hvx, hvy, hvz]
    have hline : isLine (H ++ X ++ Y ++ Z
        ++ (fmt_f false 8 4 (toFloat vx) ++ fmt_f false 8 4 (toFloat vy)
          ++ fmt_f false 8 4 (toFloat vz))) = true := by
      apply isLine_of_chars
      intro c hc
      simp only [List.mem_append] at hc
      rcases hc with (((h | h) | h) | h) | ((h | h) | h)
      · exact hchars c h
      · exact cx c h
      · exact cy c h
      · exact cz c h
      · exact cvx c h
      · exact cvy c h
      · exact cvz c h
    rw [htext]
    refine ⟨hline, ?_, ?_, ?_, ?_⟩
    · simp [groDefined, hxyz, hr, hrn, hv, groVelFields, hvx, hvy, hvz]
    · rw [groLineCoords_fields H X Y Z _ hlen lx ly lz hline, ax, ay, az]
    · intro h; exact absurd h (by simp)
    · intro vel2 h2
      have hvv : vel = vel2 := Option.some.inj h2
      subst hvv
      refine ⟨by simp [hlen, lx, ly, lz, lvx, lvy, lvz], vx, vy, vz, hvx, hvy, hvz, ?_⟩
      rw [groLineVel_fields H X Y Z _ _ _ hlen lx ly lz lvx lvy lvz hline, avx, avy, avz]

theorem groWrittenLine_text (s : Trajectory) (v : WriteVars) (i : Nat) :
    groWrittenLine s v i = groWrittenText s v i ++ ['\n'] := by
  simp [groWrittenLine, groWrittenText]

theorem groWrittenCell_ne_nil (v : WriteVars) : groWrittenCell v ≠ [] := by
  unfold groWrittenCell
  split
  · unfold groCellLine
    simp only []
    split <;> simp
  · simp

/-- The fixed-column writer, when everything it dereferences exists, appends the comment
line, the count line, the atom lines and the cell line to the stream. -/
theorem write_frame_to_gro_text (s : Trajectory) (v : WriteVars) (f : FILE)
    (hdef : ∀ j, j < s.nAtoms.toNat → groDefined s v j = true)
    (hbox : ∀ b, v.py_box = some b → (groWriteBox b).isSome = true) :
    write_frame_to_gro s f v.py_coords v.py_vel v.py_box v.comment
      = (Res.ok (), f.fprintf (linesText (commentText v.comment :: fmt_wd 5 s.nAtoms ::
          (List.range s.nAtoms.toNat).map (groWrittenText s v)) ++ groWrittenCell v)) := by
  have htext : commentLine v.comment ++ (fmt_wd 5 s.nAtoms ++ ['\n'])
      ++ ((List.range' 0 s.nAtoms.toNat).map (groWrittenLine s v)).flatten
      = linesText (commentText v.comment :: fmt_wd 5 s.nAtoms ::
          (List.range s.nAtoms.toNat).map (groWrittenText s v)) := by
    have hl : linesText ((List.range s.nAtoms.toNat).map (groWrittenText s v))
        = ((List.range' 0 s.nAtoms.toNat).map (groWrittenLine s v)).flatten := by
      unfold linesText
      rw [← List.range_eq_range', List.map_map]
      congr 2
    have hc : commentLine v.comment = commentText v.comment ++ ['\n'] := by
      unfold commentLine commentText
      cases v.comment <;> rfl
    rw [linesText_cons, linesText_cons, hl, hc]
    simp [List.append_assoc]
  unfold write_frame_to_gro
  simp only []
  rw [write_frame_to_gro_loop_ok s v _ 0 _ (fun j _ h => hdef j (by omega)), fprintf_fprintf,
    fprintf_fprintf]
  simp only []
  cases hb : v.py_box with
  | none =>
    simp only [fprintf_fprintf, groWrittenCell, hb]
    rw [← htext]
    simp only [List.append_assoc]
  | some b =>
    have := hbox b hb
    rw [Option.isSome_iff_exists] at this
    obtain ⟨bx, hbx⟩ := this
    simp only [hbx, fprintf_fprintf, groWrittenCell, hb, Option.getD_some]
    rw [← htext]
    simp only [List.append_assoc]

end MDArray

namespace MDArray

/-! ### Round trip through the fixed-column format -/

theorem groVelPresent_range (n : Nat) (g : Nat → List Char) :
    groVelPresent ((List.range n).map g) = (decide (0 < n) && decide (50 < (g 0).length + 1)) := by
  cases n with
  | zero => rfl
  | succ k =>
    rw [List.range_succ_eq_map]
    simp [groVelPresent]

theorem toRat_mul_ten (x : ARRAY_REAL) :
    (ARRAY_REAL.mul x ARRAY_REAL.ten).toRat = x.toRat * 10 := by
  simp only [ARRAY_REAL.mul, ARRAY_REAL.ten, ARRAY_REAL.toRat]
  push_cast
  by_cases h : (x.den : ℚ) = 0
  · simp [h]
  · field_simp

theorem toRat_div_ten (x : ARRAY_REAL) :
    (ARRAY_REAL.div x ARRAY_REAL.ten).toRat = x.toRat / 10 := by
  simp only [ARRAY_REAL.div, ARRAY_REAL.ten, ARRAY_REAL.toRat]
  have h1 : Int.sign 10 = 1 := by decide
  have h2 : Int.natAbs 10 = 10 := by decide
  rw [h1, h2]
  push_cast
  by_cases h : (x.den : ℚ) = 0
  · simp [h]
  · field_simp

theorem div_ten_den (x : ARRAY_REAL) (h : (ARRAY_REAL.div x ARRAY_REAL.ten).den ≠ 0) :
    x.den ≠ 0 := by
  intro h0
  apply h
  simp [ARRAY_REAL.div, h0]

/-- The value `(float)v / 10.0` stored in a `float`, when finite, times ten differs from `v`
by at most three single-precision roundings: the fraction `1 / 2 ^ 22` of `v`, and a
negligible term for values below the normal range. -/
theorem groCoord_error (x : ARRAY_REAL) (hfin : (groCoord x).den ≠ 0) :
    x.den ≠ 0 ∧ |(groCoord x).toRat * 10 - x.toRat| ≤ |x.toRat| / 2 ^ 22 + 1 / 10 ^ 30 := by
  unfold groCoord at hfin ⊢
  unfold toFloat toDouble at hfin ⊢
  obtain ⟨hd, h3⟩ := roundBinary_error 24 (-126) 127 _ hfin
  obtain ⟨hq, h2⟩ := roundBinary_error 53 (-1022) 1023 _ hd
  have hf := div_ten_den _ hq
  obtain ⟨hx, h1⟩ := roundBinary_error 24 (-126) 127 x hf
  refine ⟨hx, ?_⟩
  rw [toRat_div_ten] at h2
  generalize (roundBinary 24 (-126) 127
    (roundBinary 53 (-1022) 1023
      (ARRAY_REAL.div (roundBinary 24 (-126) 127 x) ARRAY_REAL.ten))).toRat = g at h3 ⊢
  generalize (roundBinary 53 (-1022) 1023
      (ARRAY_REAL.div (roundBinary 24 (-126) 127 x) ARRAY_REAL.ten)).toRat = d at h2 h3
  generalize (roundBinary 24 (-126) 127 x).toRat = f at h1 h2
  generalize x.toRat = c at h1 ⊢
  have t1 : (2 : ℚ) ^ ((-126 : Int) - ((24 : Nat) : Int)) ≤ 1 / 10 ^ 40 := by
    rw [show ((-126 : Int) - ((24 : Nat) : Int)) = -(150 : Int) by norm_num, zpow_neg]
    norm_num
  have t2 : (2 : ℚ) ^ ((-1022 : Int) - ((53 : Nat) : Int)) ≤ 1 / 10 ^ 40 := by
    rw [show ((-1022 : Int) - ((53 : Nat) : Int)) = -(1075 : Int) by norm_num, zpow_neg]
    have h150 : (2 : ℚ) ^ (150 : Int) ≤ (2 : ℚ) ^ (1075 : Int) :=
      zpow_le_zpow_right₀ (by norm_num) (by norm_num)
    have hpos : (0 : ℚ) < (2 : ℚ) ^ (150 : Int) := by positivity
    calc ((2 : ℚ) ^ (1075 : Int))⁻¹ ≤ ((2 : ℚ) ^ (150 : Int))⁻¹ := by
          rw [inv_le_inv₀ (by positivity) hpos]; exact h150
      _ ≤ 1 / 10 ^ 40 := by norm_num
  have hF : |f| ≤ |c| + |f - c| := by
    have := abs_sub_abs_le_abs_sub f c
    linarith
  have hD : |d| ≤ |f / 10| + |d - f / 10| := by
    have := abs_sub_abs_le_abs_sub d (f / 10)
    linarith
  have hq10 : |f / 10| = |f| / 10 := by rw [abs_div]; norm_num
  rw [hq10] at h2 hD
  have hsplit : g * 10 - c = 10 * (g - d) + 10 * (d - f / 10) + (f - c) := by ring
  have habs : |g * 10 - c| ≤ 10 * |g - d| + 10 * |d - f / 10| + |f - c| := by
    rw [hsplit]
    refine le_trans (abs_add _ _) ?_
    refine add_le_add (le_trans (abs_add _ _) ?_) le_rfl
    rw [abs_mul, abs_mul]
    norm_num
  have hc0 : 0 ≤ |c| := abs_nonneg c
  norm_num at h1 h2 h3 ⊢
  linarith

/-- A coordinate written as `%8.3f` of its single-precision tenth and read back times ten is
within 0.01 and the single-precision rounding of the original. -/
theorem gro_coordinate_error (x : ARRAY_REAL)
    (hfit : fitsField 8 3 (groCoord x) = true) :
    |(ARRAY_REAL.mul (printedValue 3 (groCoord x)) ARRAY_REAL.ten).toRat
        - x.toRat| ≤ 1 / 100 + |x.toRat| / 2 ^ 22 := by
  unfold fitsField at hfit
  simp only [Bool.and_eq_true, decide_eq_true_eq] at hfit
  have h := printedValue_error 3 _ hfit.1
  obtain ⟨_, hg⟩ := groCoord_error x hfit.1
  rw [toRat_mul_ten]
  have hsplit : (printedValue 3 (groCoord x)).toRat * 10 - x.toRat
      = 10 * ((printedValue 3 (groCoord x)).toRat - (groCoord x).toRat)
        + ((groCoord x).toRat * 10 - x.toRat) := by ring
  rw [hsplit]
  refine le_trans (abs_add _ _) ?_
  rw [abs_mul]
  norm_num at h hg ⊢
  linarith

/-- A velocity written as `%8.4f` of its single-precision value and read back is within
0.0001 and the single-precision rounding of the original. -/
theorem gro_velocity_error (x : ARRAY_REAL) (hfit : fitsField 8 4 (toFloat x) = true) :
    |(printedValue 4 (toFloat x)).toRat - x.toRat| ≤ 1 / 10 ^ 4 + |x.toRat| / 2 ^ 24 := by
  unfold fitsField at hfit
  simp only [Bool.and_eq_true, decide_eq_true_eq] at hfit
  have h := printedValue_error 4 _ hfit.1
  obtain ⟨_, hg⟩ := roundBinary_error 24 (-126) 127 x hfit.1
  have t1 : (2 : ℚ) ^ ((-126 : Int) - ((24 : Nat) : Int)) ≤ 1 / 10 ^ 40 := by
    rw [show ((-126 : Int) - ((24 : Nat) : Int)) = -(150 : Int) by norm_num, zpow_neg]
    norm_num
  have hsplit : (printedValue 4 (toFloat x)).toRat - x.toRat
      = ((printedValue 4 (toFloat x)).toRat - (toFloat x).toRat)
        + ((toFloat x).toRat - x.toRat) := by ring
  rw [hsplit]
  refine le_trans (abs_add _ _) ?_
  unfold toFloat at h ⊢
  norm_num at h hg t1 ⊢
  linarith

theorem commentText_isLine (comment : Option (List Char))
    (hcomment : ∀ c, comment = some c → isLine c = true) :
    isLine (commentText comment) = true := by
  cases comment with
  | none => rfl
  | some c =>
    have h := hcomment c rfl
    unfold commentText
    simp only []
    rw [cstr_of_no_nul c ((isLine_iff c).1 h).2]
    exact h

end MDArray

namespace MDArray

/-- C10 (as amended). Fixed-column round trip: for every session of n <= 99999 atoms whose
residue numbers, residue names and symbols fit their 5-character fields (names free of
newlines), every n x 3 coordinate array whose values, as the writer holds them (converted to
`float`, divided by 10.0, stored in a `float`), fit the field `%8.3f`, every optional n x 3
velocity array whose values converted to `float` fit the field `%8.4f`, every optional 3 x 3
box and every comment without a newline, writing one frame with `write_frame_to_gro` to an
empty file and reading it back with `read_frame_from_gro` (no wrapping) in a session of the
same `nAtoms` succeeds and returns n rows of coordinates, each within `0.01 + |c| / 2 ^ 22`
of the written value `c` (the 0.001 nm of the format, the arrays being in units of 0.1 nm,
and the single-precision roundings of the writer), returns `velocities` within
`1e-4 + |v| / 2 ^ 24` of the written ones when velocities were supplied and n >= 1, and
returns no `velocities` when none were supplied. -/
theorem C10_gro_round_trip (ws rs : Trajectory) (coords : NDArray) (vel : Option NDArray)
    (py_box : Option PyObject) (comment : Option (List Char))
    (hn0 : 0 ≤ ws.nAtoms) (hn5 : ws.nAtoms ≤ 99999) (hrs : rs.nAtoms = ws.nAtoms)
    (hhead : ∀ i, i < ws.nAtoms.toNat → groHeadFits ws i = true)
    (hshape : coords.hasShape2 ws.nAtoms 3)
    (hfit : ∀ x ∈ coords.data, fitsField 8 3 (groCoord x) = true)
    (hvel : ∀ v, vel = some v →
      v.hasShape2 ws.nAtoms 3 ∧ ∀ x ∈ v.data, fitsField 8 4 (toFloat x) = true)
    (hbox : ∀ b, py_box = some b → (groWriteBox b).isSome = true)
    (hcomment : ∀ c, comment = some c → isLine c = true) :
    (write_frame_to_gro ws ⟨[], 0⟩ (PyObject.Array coords) (vel.map PyObject.Array) py_box
      comment).1 = Res.ok () ∧
    ∃ frame arr,
      (read_frame_from_gro rs
        ⟨(write_frame_to_gro ws ⟨[], 0⟩ (PyObject.Array coords) (vel.map PyObject.Array) py_box
          comment).2.content, 0⟩ false none).1 = Res.ok frame ∧
      frame.coordinates = some arr ∧ arr.hasShape2 ws.nAtoms 3 ∧
      (∀ i j, i < ws.nAtoms.toNat → j < 3 →
        ∃ r c0, getFromArray2D (PyObject.Array arr) i j = some r ∧
          getFromArray2D (PyObject.Array coords) i j = some c0 ∧
          |r.toRat - c0.toRat| ≤ 1 / 100 + |c0.toRat| / 2 ^ 22) ∧
      (∀ v, vel = some v → 0 < ws.nAtoms →
        ∃ varr, frame.velocities = some varr ∧ varr.hasShape2 ws.nAtoms 3 ∧
          ∀ i j, i < ws.nAtoms.toNat → j < 3 →
            ∃ r v0, getFromArray2D (PyObject.Array varr) i j = some r ∧
              getFromArray2D (PyObject.Array v) i j = some v0 ∧
              |r.toRat - v0.toRat| ≤ 1 / 10 ^ 4 + |v0.toRat| / 2 ^ 24) ∧
      (vel = none → frame.velocities = none) := by
  obtain ⟨n, hn⟩ : ∃ n : Nat, ws.nAtoms = (n : Int) := ⟨ws.nAtoms.toNat, by omega⟩
  have hnat : ws.nAtoms.toNat = n := by rw [hn]; simp
  rw [hnat] at hhead ⊢
  generalize hv : (⟨PyObject.Array coords, vel.map PyObject.Array, py_box, comment⟩ : WriteVars)
    = v
  have hvc : v.py_coords = PyObject.Array coords := by rw [← hv]
  have hvv : v.py_vel = vel.map PyObject.Array := by rw [← hv]
  have hvb : v.py_box = py_box := by rw [← hv]
  have hvm : v.comment = comment := by rw [← hv]
  -- the facts about every written line
  have hline : ∀ i, i < n → ∃ x y z,
      getFromArray2D (PyObject.Array coords) i 0 = some x ∧
      getFromArray2D (PyObject.Array coords) i 1 = some y ∧
      getFromArray2D (PyObject.Array coords) i 2 = some z ∧
      fitsField 8 3 (groCoord x) = true ∧
      fitsField 8 3 (groCoord y) = true ∧
      fitsField 8 3 (groCoord z) = true ∧
      isLine (groWrittenText ws v i) = true ∧ groDefined ws v i = true ∧
      groLineCoords (groWrittenText ws v i ++ ['\n'])
        = [ARRAY_REAL.mul (printedValue 3 (groCoord x)) ARRAY_REAL.ten,
            ARRAY_REAL.mul (printedValue 3 (groCoord y)) ARRAY_REAL.ten,
            ARRAY_REAL.mul (printedValue 3 (groCoord z)) ARRAY_REAL.ten] ∧
      (vel = none → (groWrittenText ws v i).length = 44) ∧
      (∀ va, vel = some va → (groWrittenText ws v i).length = 68 ∧
        ∃ vx vy vz, getFromArray2D (PyObject.Array va) i 0 = some vx ∧
          getFromArray2D (PyObject.Array va) i 1 = some vy ∧
          getFromArray2D (PyObject.Array va) i 2 = some vz ∧
          fitsField 8 4 (toFloat vx) = true ∧ fitsField 8 4 (toFloat vy) = true ∧
          fitsField 8 4 (toFloat vz) = true ∧
          groLineVel (groWrittenText ws v i ++ ['\n'])
            = [printedValue 4 (toFloat vx), printedValue 4 (toFloat vy),
                printedValue 4 (toFloat vz)]) := by
    intro i hi
    obtain ⟨x, hx, hxm, _⟩ := getFromArray2D_shape coords _ hshape i 0 (by omega) (by norm_num)
    obtain ⟨y, hy, hym, _⟩ := getFromArray2D_shape coords _ hshape i 1 (by omega) (by norm_num)
    obtain ⟨z, hz, hzm, _⟩ := getFromArray2D_shape coords _ hshape i 2 (by omega) (by norm_num)
    have hvel2 : ∀ velo, v.py_vel = some velo → ∃ vx vy vz,
        getFromArray2D velo i 0 = some vx ∧ getFromArray2D velo i 1 = some vy ∧
        getFromArray2D velo i 2 = some vz ∧ fitsField 8 4 (toFloat vx) = true ∧
        fitsField 8 4 (toFloat vy) = true ∧ fitsField 8 4 (toFloat vz) = true := by
      intro velo hvelo
      rw [hvv] at hvelo
      cases hva : vel with
      | none => rw [hva] at hvelo; simp at hvelo
      | some va =>
        rw [hva] at hvelo
        simp only [Option.map_some', Option.some.injEq] at hvelo
        obtain ⟨hs, hf⟩ := hvel va hva
        obtain ⟨vx, hvx, hvxm, _⟩ := getFromArray2D_shape va _ hs i 0 (by omega) (by norm_num)
        obtain ⟨vy, hvy, hvym, _⟩ := getFromArray2D_shape va _ hs i 1 (by omega) (by norm_num)
        obtain ⟨vz, hvz, hvzm, _⟩ := getFromArray2D_shape va _ hs i 2 (by omega) (by norm_num)
        rw [← hvelo]
        exact ⟨vx, vy, vz, hvx, hvy, hvz, hf vx hvxm, hf vy hvym, hf vz hvzm⟩
    obtain ⟨h1, h2, h3, h4, h5⟩ := groWrittenText_read ws v i (hhead i hi) (by omega) x y z
      (by rw [hvc]; exact hx) (by rw [hvc]; exact hy) (by rw [hvc]; exact hz)
      (hfit x hxm) (hfit y hym) (hfit z hzm) hvel2
    refine ⟨x, y, z, hx, hy, hz, hfit x hxm, hfit y hym, hfit z hzm, h1, h2, h3, ?_, ?_⟩
    · intro hnone
      exact h4 (by rw [hvv, hnone]; rfl)
    · intro va hva
      obtain ⟨hl68, vx, vy, vz, hvx, hvy, hvz, hread⟩ := h5 (PyObject.Array va)
        (by rw [hvv, hva]; rfl)
      obtain ⟨hs, hf⟩ := hvel va hva
      obtain ⟨_, _, hxm2, hg0⟩ := getFromArray2D_shape va _ hs i 0 (by omega) (by norm_num)
      obtain ⟨vx2, hvx2, hvxm, _⟩ := getFromArray2D_shape va _ hs i 0 (by omega) (by norm_num)
      obtain ⟨vy2, hvy2, hvym, _⟩ := getFromArray2D_shape va _ hs i 1 (by omega) (by norm_num)
      obtain ⟨vz2, hvz2, hvzm, _⟩ := getFromArray2D_shape va _ hs i 2 (by omega) (by norm_num)
      rw [hvx] at hvx2; rw [hvy] at hvy2; rw [hvz] at hvz2
      rw [← Option.some.inj hvx2] at hvxm
      rw [← Option.some.inj hvy2] at hvym
      rw [← Option.some.inj hvz2] at hvzm
      exact ⟨hl68, vx, vy, vz, hvx, hvy, hvz, hf vx hvxm, hf vy hvym, hf vz hvzm, hread⟩
  -- the writer
  have hwrite := write_frame_to_gro_text ws v ⟨[], 0⟩
    (fun j hj => by
      obtain ⟨_, _, _, _, _, _, _, _, _, _, h, _⟩ := hline j (by omega)
      exact h)
    (by rw [hvb]; exact hbox)
  rw [hvc, hvv, hvb, hvm, hnat] at hwrite
  rw [hwrite]
  refine ⟨rfl, ?_⟩
  generalize hatoms : (List.range n).map (groWrittenText ws v) = atoms at hwrite ⊢
  have hlen : atoms.length = n := by rw [← hatoms]; simp
  have hget : ∀ i, i < n → atoms.get? i = some (groWrittenText ws v i) := by
    intro i hi
    rw [← hatoms, List.get?_eq_getElem?, List.getElem?_map, List.getElem?_range hi]
    rfl
  have hl : ∀ l ∈ atoms, isLine l = true := by
    intro l hl
    rw [← hatoms] at hl
    simp only [List.mem_map, List.mem_range] at hl
    obtain ⟨i, hi, rfl⟩ := hl
    obtain ⟨_, _, _, _, _, _, _, _, _, h, _⟩ := hline i hi
    exact h
  have hcount := fmt_wd_count n (by omega)
  rw [← hn] at hcount
  -- the reader
  obtain ⟨frame, f1, hread, hcoord, hvelo⟩ := read_frame_from_gro_frame rs
    ⟨linesText (commentText comment :: fmt_wd 5 ws.nAtoms :: atoms) ++ groWrittenCell v, 0⟩
    (commentText comment) (fmt_wd 5 ws.nAtoms) atoms (groWrittenCell v)
    (by rw [hrs]; exact hn0) (commentText_isLine comment hcomment) hcount.1
    (by rw [hrs]; exact hcount.2) (by rw [hrs, hn, hlen]) hl (groWrittenCell_ne_nil v)
    (by simp [FILE.rest])
  have hcontent : (FILE.fprintf ⟨[], 0⟩
      (linesText (commentText comment :: fmt_wd 5 ws.nAtoms :: atoms) ++ groWrittenCell v)).content
      = linesText (commentText comment :: fmt_wd 5 ws.nAtoms :: atoms) ++ groWrittenCell v := by
    simp [FILE.fprintf]
  simp only [hcontent]
  rw [hread]
  have h3c : ∀ a : List Char, (groLineCoords (a ++ ['\n'])).length = 3 := fun _ => rfl
  have h3v : ∀ a : List Char, (groLineVel (a ++ ['\n'])).length = 3 := fun _ => rfl
  have hshapeOf : ∀ g : List Char → List ARRAY_REAL, (∀ a, (g a).length = 3) →
      NDArray.hasShape2 ⟨[rs.nAtoms, 3], (atoms.map g).flatten⟩ ws.nAtoms 3 := by
    intro g hg
    refine ⟨hn0, by rw [hrs]; rfl, ?_⟩
    show ((atoms.map g).flatten).length = _
    rw [flatten_map_length g 3 hg, hlen, hnat]
  refine ⟨frame, _, rfl, hcoord, hshapeOf _ h3c, ?_, ?_, ?_⟩
  · intro i j hi hj
    obtain ⟨x, y, z, hx, hy, hz, hfx, hfy, hfz, _, _, hc, _, _⟩ := hline i hi
    obtain ⟨r, hr, _, hrget⟩ := getFromArray2D_shape _ _ (hshapeOf _ h3c) i j
      (by rw [hnat]; exact hi) hj
    have hrget2 : ((atoms.map (fun l => groLineCoords (l ++ ['\n']))).flatten).get? (i * 3 + j)
        = some r := hrget
    rw [flatten_triples_get _ h3c _ i j hj, hget i hi] at hrget2
    simp only [Option.some_bind, hc] at hrget2
    have hj3 : j = 0 ∨ j = 1 ∨ j = 2 := by omega
    rcases hj3 with rfl | rfl | rfl
    · refine ⟨r, x, hr, hx, ?_⟩
      simp only [List.get?_cons_zero, Option.some.injEq] at hrget2
      rw [← hrget2]; exact gro_coordinate_error x hfx
    · refine ⟨r, y, hr, hy, ?_⟩
      simp only [List.get?_cons_succ, List.get?_cons_zero, Option.some.injEq] at hrget2
      rw [← hrget2]; exact gro_coordinate_error y hfy
    · refine ⟨r, z, hr, hz, ?_⟩
      simp only [List.get?_cons_succ, List.get?_cons_zero, Option.some.injEq] at hrget2
      rw [← hrget2]; exact gro_coordinate_error z hfz
  · intro va hva hpos
    have hn1 : 0 < n := by omega
    have hvp : groVelPresent atoms = true := by
      rw [← hatoms, groVelPresent_range]
      obtain ⟨_, _, _, _, _, _, _, _, _, _, _, _, _, h⟩ := hline 0 hn1
      rw [(h va hva).1]
      simp [hn1]
    rw [hvp] at hvelo
    simp only [if_true] at hvelo
    refine ⟨_, hvelo, hshapeOf _ h3v, ?_⟩
    intro i j hi hj
    obtain ⟨_, _, _, _, _, _, _, _, _, _, _, _, _, h⟩ := hline i hi
    obtain ⟨_, vx, vy, vz, hvx, hvy, hvz, hfx, hfy, hfz, hc⟩ := h va hva
    obtain ⟨r, hr, _, hrget⟩ := getFromArray2D_shape _ _ (hshapeOf _ h3v) i j
      (by rw [hnat]; exact hi) hj
    have hrget2 : ((atoms.map (fun l => groLineVel (l ++ ['\n']))).flatten).get? (i * 3 + j)
        = some r := hrget
    rw [flatten_triples_get _ h3v _ i j hj, hget i hi] at hrget2
    simp only [Option.some_bind, hc] at hrget2
    have hj3 : j = 0 ∨ j = 1 ∨ j = 2 := by omega
    rcases hj3 with rfl | rfl | rfl
    · refine ⟨r, vx, hr, hvx, ?_⟩
      simp only [List.get?_cons_zero, Option.some.injEq] at hrget2
      rw [← hrget2]; exact gro_velocity_error vx hfx
    · refine ⟨r, vy, hr, hvy, ?_⟩
      simp only [List.get?_cons_succ, List.get?_cons_zero, Option.some.injEq] at hrget2
      rw [← hrget2]; exact gro_velocity_error vy hfy
    · refine ⟨r, vz, hr, hvz, ?_⟩
      simp only [List.get?_cons_succ, List.get?_cons_zero, Option.some.injEq] at hrget2
      rw [← hrget2]; exact gro_velocity_error vz hfz
  · intro hnone
    have hvp : groVelPresent atoms = false := by
      rw [← hatoms, groVelPresent_range]
      by_cases hn1 : 0 < n
      · obtain ⟨_, _, _, _, _, _, _, _, _, _, _, _, h, _⟩ := hline 0 hn1
        rw [h hnone]
        simp
      · simp [hn1]
    rw [hvp] at hvelo
    simpa using hvelo

end MDArray

namespace MDArray

set_option maxRecDepth 100000 in
/-- C10, witness: three atoms with coordinates such as 1/3 and 123.45 and velocities such as
-1/7, written to a fixed-column file with the comment `frame0` and read back in a session
opened on that file: three rows of coordinates within 0.01 and of velocities within 1e-4. -/
theorem C10_gro_round_trip_witness :
    exampleGroReadSession.nAtoms = exampleGroSession.nAtoms ∧
    (0 : Int) < exampleGroSession.nAtoms ∧
    ∃ frame arr,
      (read_frame_from_gro exampleGroReadSession
        ⟨(write_frame_to_gro exampleGroSession ⟨[], 0⟩ (PyObject.Array exampleGroCoords)
          ((some exampleVelocities).map PyObject.Array) none
          (some "frame0".toList)).2.content, 0⟩ false none).1 = Res.ok frame ∧
      frame.coordinates = some arr ∧ arr.hasShape2 exampleGroSession.nAtoms 3 ∧
      (∀ i j, i < exampleGroSession.nAtoms.toNat → j < 3 →
        ∃ r c0, getFromArray2D (PyObject.Array arr) i j = some r ∧
          getFromArray2D (PyObject.Array exampleGroCoords) i j = some c0 ∧
          |r.toRat - c0.toRat| ≤ 1 / 100 + |c0.toRat| / 2 ^ 22) ∧
      (∀ v, some exampleVelocities = some v → 0 < exampleGroSession.nAtoms →
        ∃ varr, frame.velocities = some varr ∧ varr.hasShape2 exampleGroSession.nAtoms 3 ∧
          ∀ i j, i < exampleGroSession.nAtoms.toNat → j < 3 →
            ∃ r v0, getFromArray2D (PyObject.Array varr) i j = some r ∧
              getFromArray2D (PyObject.Array v) i j = some v0 ∧
              |r.toRat - v0.toRat| ≤ 1 / 10 ^ 4 + |v0.toRat| / 2 ^ 24) ∧
      (some exampleVelocities = none → frame.velocities = none) :=
  ⟨by decide, by decide,
    (C10_gro_round_trip exampleGroSession exampleGroReadSession exampleGroCoords
      (some exampleVelocities) none (some "frame0".toList) (by decide) (by decide) (by decide)
      (by decide) ⟨by decide, by decide, by decide⟩ (by decide)
      (fun v hv => by
        cases hv
        exact ⟨⟨by decide, by decide, by decide⟩, by decide⟩)
      (fun b hb => by cases hb)
      (fun c hc => by
        cases hc
        decide)).2⟩

set_option maxRecDepth 100000 in
/-- C10 as written fails for a coordinate that does not fit its field: one atom at
(100000, 5, 5) is written as `10000.000   0.500   0.500`, nine characters in the field of
eight, and read back at (100000, 0, 0): the second coordinate is off by 5. -/
theorem C10_counterexample :
    exampleGroOne.nAtoms = 1 ∧ exampleGroOne.type = FileType.GRO ∧
    exampleGroOne.symbols = PyObject.PList [some "H".toList] ∧
    exampleBigWritten.1 = Res.ok () ∧
    exampleBigWritten.2.content
      = ("c\n    1\n    1         H    110000.000   0.500   0.500\n" ++
          "   0.00000   0.00000   0.00000\n").toList ∧
    (read_frame_from_gro exampleGroOne ⟨exampleBigWritten.2.content, 0⟩ false none).1
      = Res.ok { PyDict_New with
          comment := some "c".toList
          coordinates := some ⟨[1, 3], [⟨10000000, 100⟩, ⟨0, 1⟩, ⟨0, 1⟩]⟩
          box := some ⟨[3, 3], [⟨0, 100000⟩, ⟨0, 1⟩, ⟨0, 1⟩, ⟨0, 1⟩, ⟨0, 100000⟩, ⟨0, 1⟩,
            ⟨0, 1⟩, ⟨0, 1⟩, ⟨0, 100000⟩]⟩ } ∧
    getFromArray2D (PyObject.Array exampleBig) 0 1 = some ⟨5, 1⟩ ∧
    getFromArray2D (PyObject.Array ⟨[1, 3], [⟨10000000, 100⟩, ⟨0, 1⟩, ⟨0, 1⟩]⟩) 0 1
      = some ⟨0, 1⟩ ∧
    ¬ |(ARRAY_REAL.mk 0 1).toRat - (ARRAY_REAL.mk 5 1).toRat| ≤ 1 / 100 :=
  ⟨by decide, by decide, by decide, by decide, by decide, by decide, by decide, by decide,
    by norm_num [ARRAY_REAL.toRat]⟩

set_option maxRecDepth 100000 in
/-- The single-precision roundings of the writer can exceed the resolution of the format: one
atom at (86657.2774, 0, 0) fits its field, is held as the `float` 8665.728515625, written as
`8665.729` and read back at 86657.29, off by 0.0126. -/
theorem gro_single_precision_example :
    fitsField 8 3 (groCoord ⟨433286387, 5000⟩) = true ∧
    groCoord ⟨433286387, 5000⟩ = ⟨8873706, 1024⟩ ∧
    exampleSingleWritten.1 = Res.ok () ∧
    exampleSingleWritten.2.content
      = ("c\n    1\n    1         H    18665.729   0.000   0.000\n" ++
          "   0.00000   0.00000   0.00000\n").toList ∧
    (∃ frame,
      (read_frame_from_gro exampleGroOne ⟨exampleSingleWritten.2.content, 0⟩ false none).1
        = Res.ok frame ∧
      frame.coordinates = some ⟨[1, 3], [⟨86657290, 1000⟩, ⟨0, 1000⟩, ⟨0, 1000⟩]⟩) ∧
    ¬ |(ARRAY_REAL.mk 86657290 1000).toRat - (ARRAY_REAL.mk 433286387 5000).toRat|
        ≤ 1 / 100 :=
  ⟨by decide, by decide, by decide, by decide, ⟨_, rfl, by decide⟩,
    by norm_num [ARRAY_REAL.toRat, abs_le]⟩

end MDArray

namespace MDArray

/-! ### The format of the session is settled before the units are -/

theorem read_topo_from_xyz_type (env : Env) (s : Trajectory) (f : FILE) :
    (read_topo_from_xyz env s f).2.type = s.type := by
  unfold read_topo_from_xyz
  split
  · rfl
  · split
    · rfl
    · split
      · rfl
      · dsimp only
        split
        · rfl
        · generalize read_topo_from_xyz_loop env _ 0 _ _ [] [] = L
          obtain ⟨r, f3, syms⟩ := L
          rcases r with ⟨f3', syms', anum, masses⟩ | e | _ <;> rfl

theorem molden_section_header_type (s s1 : Trajectory) (line : List Char) (p n : Nat)
    (h : molden_section_header s line p n = some s1) : s1.type = s.type := by
  unfold molden_section_header at h
  split at h
  · simp at h
  · dsimp only at h
    split_ifs at h <;> simp only [Option.some.injEq] at h <;> subst h <;> rfl

theorem read_molden_sections_loop_type (fuel : Nat) :
    ∀ (s : Trajectory) (f : FILE) (p n : Nat),
      (read_molden_sections_loop fuel s f p n).2.1.type = s.type := by
  induction fuel with
  | zero => intro s f p n; rfl
  | succ k ih =>
    intro s f p n
    unfold read_molden_sections_loop
    split
    · rfl
    · dsimp only
      split
      · split
        · rfl
        · rename_i s1 hs
          have := molden_section_header_type _ _ _ _ _ hs
          split
          · exact this
          · rw [ih]; exact this
      · exact ih _ _ _ _

theorem read_molden_sections_type (s : Trajectory) (f : FILE) :
    (read_molden_sections s f).2.type = s.type := by
  unfold read_molden_sections
  dsimp only
  have h := read_molden_sections_loop_type (f.rewind.content.length + 1)
    { s with moldenSect := List.replicate MAX_MOLDEN_SECTIONS ⟨-1, []⟩ } f.rewind f.rewind.ftell 0
  generalize read_molden_sections_loop _ _ _ _ _ = L at h ⊢
  obtain ⟨r, s1, f1⟩ := L
  cases r <;> exact h

theorem read_topo_from_molden_atoms_type (env : Env) (s : Trajectory) (f : FILE) (nat : Nat) :
    (read_topo_from_molden_atoms env s f nat).2.type = s.type := by
  unfold read_topo_from_molden_atoms
  dsimp only
  generalize read_topo_from_molden_loop env _ nat 0 f _ [] = L
  obtain ⟨r, f3, syms⟩ := L
  rcases r with ⟨f3', syms', anum⟩ | e | _ <;> rfl

theorem read_topo_from_molden_type (env : Env) (s : Trajectory) (f : FILE) :
    (read_topo_from_molden env s f).2.type = s.type := by
  unfold read_topo_from_molden
  split
  · rfl
  · dsimp only
    split
    · rfl
    · split
      · rfl
      · rename_i nat self1 hc
        have hs1 : self1.type = s.type := by
          split at hc
          · split at hc
            · simp at hc
            · simp only [Option.some.injEq, Prod.mk.injEq] at hc
              rw [← hc.2]
          · simp only [Option.some.injEq, Prod.mk.injEq] at hc
            rw [← hc.2]
        split
        · exact hs1
        · split
          · split
            · exact hs1
            · generalize hL : read_topo_from_xyz env _ _ = L
              have h2 := congrArg (fun L => L.2.type) hL
              simp only [read_topo_from_xyz_type] at h2
              obtain ⟨r, s3⟩ := L
              rcases r with u | e | _ <;> simpa [hs1] using h2.symm
          · split
            · rw [read_topo_from_molden_atoms_type]; exact hs1
            · split
              · rw [read_topo_from_molden_atoms_type]; exact hs1
              · exact hs1
          · rw [read_topo_from_molden_atoms_type]; exact hs1
          · exact hs1

theorem read_topo_from_gro_type (s : Trajectory) (f : FILE) :
    (read_topo_from_gro s f).2.type = s.type := by
  unfold read_topo_from_gro
  split
  · rfl
  · split
    · rfl
    · split
      · rfl
      · split
        · rfl
        · dsimp only
          split
          · rfl
          · generalize read_topo_from_gro_loop _ 0 _ _ _ [] = L
            obtain ⟨r, f3, syms, resn⟩ := L
            rcases r with ⟨f3', syms', resn', resid⟩ | e | _ <;> rfl

theorem Trajectory_init_router_type (env : Env) (fs : FileSystem) (s : Trajectory)
    (v : InitVars) : (Trajectory_init_router env fs s v).2.type = s.type := by
  unfold Trajectory_init_router
  split
  · split
    · rfl
    · rename_i f _
      have := read_topo_from_xyz_type env s f
      generalize read_topo_from_xyz env s f = L at this ⊢
      obtain ⟨r, s3⟩ := L
      rcases r with u | e | _ <;> simpa using this
  · split
    · rfl
    · rename_i f _
      have := read_topo_from_molden_type env s f
      generalize read_topo_from_molden env s f = L at this ⊢
      obtain ⟨r, s3⟩ := L
      rcases r with u | e | _ <;> simpa using this
  · split
    · rfl
    · rename_i f _
      have := read_topo_from_gro_type s f
      generalize read_topo_from_gro s f = L at this ⊢
      obtain ⟨r, s3⟩ := L
      rcases r with u | e | _ <;> simpa using this
  · split
    · split
      · rfl
      · dsimp only
        split <;> rfl
    · rfl
  · rfl

theorem Trajectory_init_open_type (env : Env) (fs : FileSystem) (s : Trajectory)
    (v : InitVars) : (Trajectory_init_open env fs s v).2.1.type = s.type := by
  unfold Trajectory_init_open
  split
  · split
    · rfl
    · split
      · rfl
      · split
        · rfl
        · dsimp only
          split
          · split <;> rfl
          · split <;> rfl
          · rfl
  · split
    · split
      · rfl
      · dsimp only; rw [Trajectory_init_router_type]
    · split
      · rfl
      · dsimp only; rw [Trajectory_init_router_type]
    · split
      · rfl
      · rename_i f _
        have := read_molden_sections_type { s with fd := some f } f
        generalize read_molden_sections _ f = L at this ⊢
        obtain ⟨r, s3⟩ := L
        rcases r with u | e | _
        · dsimp only at this ⊢
          split
          · exact this
          · dsimp only; rw [Trajectory_init_router_type]; exact this
        · exact this
        · exact this
    · split
      · split
        · rfl
        · dsimp only; rw [Trajectory_init_router_type]
      · rfl
    · rfl

theorem Trajectory_init_lists_type (env : Env) (fs : FileSystem) (s : Trajectory)
    (v : InitVars) : (Trajectory_init_lists env fs s v).2.1.type = s.type := by
  unfold Trajectory_init_lists
  split
  · rfl
  · dsimp only; rw [Trajectory_init_open_type]

theorem Trajectory_init_units_type (env : Env) (fs : FileSystem) (s : Trajectory)
    (v : InitVars) : (Trajectory_init_units env fs s v).2.1.type = s.type := by
  unfold Trajectory_init_units
  repeat' split
  all_goals first | rfl | rw [Trajectory_init_lists_type]

end MDArray

namespace MDArray

/-! ### Guessing the format from the name -/

theorem Trajectory_init_units_str_type (env : Env) (fs : FileSystem) (s : Trajectory)
    (v : InitVars) (t : Option (List Char)) :
    Trajectory_init_units env fs s { v with str_type := t } = Trajectory_init_units env fs s v :=
  rfl

theorem Trajectory_init_guess_resolved (env : Env) (fs : FileSystem) (s : Trajectory)
    (v : InitVars) (h : s.type ≠ FileType.GUESS) :
    Trajectory_init_guess env fs s v = Trajectory_init_units env fs s v := by
  unfold Trajectory_init_guess
  simp only [h, if_false]

theorem Trajectory_init_guess_ext (env : Env) (fs : FileSystem) (s : Trajectory)
    (v : InitVars) (ext : List Char) (ty : FileType) (h : s.type = FileType.GUESS)
    (hext : extension v.filename = some ext)
    (hty : (ext = ".xyz".toList ∧ ty = FileType.XYZ) ∨ (ext = ".gro".toList ∧ ty = FileType.GRO)
      ∨ (ext = ".xtc".toList ∧ ty = FileType.XTC)) :
    Trajectory_init_guess env fs s v = Trajectory_init_units env fs { s with type := ty } v := by
  unfold Trajectory_init_guess
  simp only [h, if_true, hext]
  rcases hty with ⟨rfl, rfl⟩ | ⟨rfl, rfl⟩ | ⟨rfl, rfl⟩
  · simp
  · have : ¬ (".gro".toList = ".xyz".toList) := by decide
    simp [this]
  · have h1 : ¬ (".xtc".toList = ".xyz".toList) := by decide
    have h2 : ¬ (".xtc".toList = ".gro".toList) := by decide
    simp [h1, h2]

/-- The parser of `Trajectory_init` with another string as the format: the same failure, or
the same variables but for `str_type`. -/
theorem Trajectory_init_args_format (a : InitArgs) (t : List Char) (ht : NUL ∉ t)
    (hfmt : a.format = none ∨ ∃ t0, a.format = some (PyObject.Str t0) ∧ NUL ∉ t0) :
    (∃ v, Trajectory_init_args a = Res.ok v ∧
        (∀ name, a.filename = some (PyObject.Str name) → v.filename = name) ∧
        (a.format = none → v.str_type = none) ∧
        (∀ t0, a.format = some (PyObject.Str t0) → v.str_type = some t0) ∧
        Trajectory_init_args { a with format := some (PyObject.Str t) }
          = Res.ok { v with str_type := some t }) ∨
    (∃ e, Trajectory_init_args a = Res.error e ∧
        Trajectory_init_args { a with format := some (PyObject.Str t) } = Res.error e) := by
  have h2 : parse_s (some (PyObject.Str t)) = Res.ok (some t) := by simp [parse_s, ht]
  have h1 : ∃ t1, parse_s a.format = Res.ok t1 ∧ (a.format = none → t1 = none) ∧
      (∀ t0, a.format = some (PyObject.Str t0) → t1 = some t0) := by
    rcases hfmt with h | ⟨t0, h, hn⟩
    · exact ⟨none, by rw [h]; rfl, fun _ => rfl, fun t0 h0 => by rw [h] at h0; simp at h0⟩
    · refine ⟨some t0, by rw [h]; simp [parse_s, hn], fun h0 => by rw [h] at h0; simp at h0, ?_⟩
      intro t1 h1
      rw [h] at h1
      simp only [Option.some.injEq, PyObject.Str.injEq] at h1
      rw [h1]
  obtain ⟨t1, hp1, hn1, hs1⟩ := h1
  unfold Trajectory_init_args
  simp only [hp1, h2]
  rcases hf : parse_s a.filename with (_ | fname) | e | _
  · right; exact ⟨_, rfl, rfl⟩
  · rcases hm : parse_s a.mode with m | e | _
    · rcases hsy : parse_O PyObject.isList a.symbols with sy | e | _
      · rcases hr : parse_O PyObject.isArray a.resids with r | e | _
        · rcases hrn : parse_O PyObject.isList a.resnames with rn | e | _
          · rcases hu : parse_s a.units with u | e | _
            · left
              refine ⟨_, rfl, ?_, hn1, hs1, rfl⟩
              intro name hname
              rw [hname] at hf
              simp only [parse_s] at hf
              split at hf
              · simp at hf
              · simp only [Res.ok.injEq, Option.some.injEq] at hf
                exact hf.symm
            · right; exact ⟨_, rfl, rfl⟩
            · exact absurd hu (parse_s_ne_fault _)
          · right; exact ⟨_, rfl, rfl⟩
          · exact absurd hrn (parse_O_ne_fault _ _)
        · right; exact ⟨_, rfl, rfl⟩
        · exact absurd hr (parse_O_ne_fault _ _)
      · right; exact ⟨_, rfl, rfl⟩
      · exact absurd hsy (parse_O_ne_fault _ _)
    · right; exact ⟨_, rfl, rfl⟩
    · exact absurd hm (parse_s_ne_fault _)
  · right; exact ⟨_, rfl, rfl⟩
  · exact absurd hf (parse_s_ne_fault _)

end MDArray

namespace MDArray

theorem Trajectory_init_guess_as_explicit (env : Env) (fs : FileSystem) (self : Trajectory)
    (a : InitArgs) (name ext t : List Char) (ty : FileType)
    (hname : a.filename = some (PyObject.Str name))
    (hfmt : (a.format = none ∧ self.type = FileType.GUESS) ∨
      a.format = some (PyObject.Str "GUESS".toList))
    (hext : extension name = some ext)
    (hty : (ext = ".xyz".toList ∧ ty = FileType.XYZ ∧ t = "XYZ".toList) ∨
      (ext = ".gro".toList ∧ ty = FileType.GRO ∧ t = "GRO".toList) ∨
      (ext = ".xtc".toList ∧ ty = FileType.XTC ∧ t = "XTC".toList)) :
    Trajectory_init env fs self a
      = Trajectory_init env fs self { a with format := some (PyObject.Str t) } ∧
    (∀ v, Trajectory_init_args a = Res.ok v →
      ¬ (v.mode.isSome ∧ initMode v ≠ 'r' ∧ initMode v ≠ 'w' ∧ initMode v ≠ 'a') →
      Trajectory_init env fs self a
        = Trajectory_init_units env fs
            { self with fileName := some v.filename, mode := initMode v, type := ty } v) := by
  have ht : NUL ∉ t := by
    rcases hty with ⟨_, _, rfl⟩ | ⟨_, _, rfl⟩ | ⟨_, _, rfl⟩ <;> decide
  have hty2 : (ext = ".xyz".toList ∧ ty = FileType.XYZ) ∨ (ext = ".gro".toList ∧ ty = FileType.GRO)
      ∨ (ext = ".xtc".toList ∧ ty = FileType.XTC) := by
    rcases hty with ⟨h1, h2, _⟩ | ⟨h1, h2, _⟩ | ⟨h1, h2, _⟩
    · exact Or.inl ⟨h1, h2⟩
    · exact Or.inr (Or.inl ⟨h1, h2⟩)
    · exact Or.inr (Or.inr ⟨h1, h2⟩)
  have htyne : ty ≠ FileType.GUESS := by
    rcases hty with ⟨_, rfl, _⟩ | ⟨_, rfl, _⟩ | ⟨_, rfl, _⟩ <;> decide
  have hfmt2 : a.format = none ∨ ∃ t0, a.format = some (PyObject.Str t0) ∧ NUL ∉ t0 := by
    rcases hfmt with ⟨h, _⟩ | h
    · exact Or.inl h
    · exact Or.inr ⟨_, h, by decide⟩
  -- the open with the guess, once the arguments are parsed
  have hguess : ∀ v, Trajectory_init_args a = Res.ok v → v.filename = name →
      (a.format = none → v.str_type = none) →
      (∀ t0, a.format = some (PyObject.Str t0) → v.str_type = some t0) →
      ¬ (v.mode.isSome ∧ initMode v ≠ 'r' ∧ initMode v ≠ 'w' ∧ initMode v ≠ 'a') →
      Trajectory_init env fs self a
        = Trajectory_init_units env fs
            { self with fileName := some v.filename, mode := initMode v, type := ty } v := by
    intro v hv hvn hnone hsome hmode
    have hext2 : extension v.filename = some ext := by rw [hvn]; exact hext
    have hmode2 : ¬ (v.mode.isSome = true ∧ ((v.mode.getD []).head?).getD NUL ≠ 'r'
        ∧ ((v.mode.getD []).head?).getD NUL ≠ 'w' ∧ ((v.mode.getD []).head?).getD NUL ≠ 'a') := by
      intro hc
      apply hmode
      have hi : initMode v = ((v.mode.getD []).head?).getD NUL := by
        unfold initMode
        cases hm : v.mode with
        | none => rw [hm] at hc; simp at hc
        | some m => simp
      rw [hi]; exact hc
    unfold Trajectory_init
    simp only [hv, hmode2, if_false]
    rcases hfmt with ⟨h, hfresh⟩ | h
    · rw [hnone h]
      simp only []
      refine (Trajectory_init_guess_ext env fs _ v ext ty ?_ hext2 hty2).trans ?_
      · exact hfresh
      · rfl
    · rw [hsome _ h]
      have e1 : ¬ ("GUESS".toList = "XYZ".toList) := by decide
      have e2 : ¬ ("GUESS".toList = "MOLDEN".toList) := by decide
      have e3 : ¬ ("GUESS".toList = "GRO".toList) := by decide
      have e4 : ¬ ("GUESS".toList = "XTC".toList) := by decide
      simp only [e1, e2, e3, e4, if_false, if_true]
      refine (Trajectory_init_guess_ext env fs _ v ext ty ?_ hext2 hty2).trans ?_
      · rfl
      · rfl
  refine ⟨?_, ?_⟩
  · rcases Trajectory_init_args_format a t ht hfmt2 with
      ⟨v, hv, hvn, hnone, hsome, hv2⟩ | ⟨e, he, he2⟩
    · by_cases hmode : (v.mode.isSome ∧ initMode v ≠ 'r' ∧ initMode v ≠ 'w' ∧ initMode v ≠ 'a')
      · have hmode2 : (v.mode.isSome = true ∧ ((v.mode.getD []).head?).getD NUL ≠ 'r'
            ∧ ((v.mode.getD []).head?).getD NUL ≠ 'w'
            ∧ ((v.mode.getD []).head?).getD NUL ≠ 'a') := by
          have hi : initMode v = ((v.mode.getD []).head?).getD NUL := by
            unfold initMode
            cases hm : v.mode with
            | none => rw [hm] at hmode; simp at hmode
            | some m => simp
          rw [← hi]; exact hmode
        unfold Trajectory_init
        simp only [hv, hv2]
        rw [if_pos hmode2, if_pos hmode2]
      · rw [hguess v hv (hvn name hname) hnone hsome hmode]
        have hmode2 : ¬ (v.mode.isSome = true ∧ ((v.mode.getD []).head?).getD NUL ≠ 'r'
            ∧ ((v.mode.getD []).head?).getD NUL ≠ 'w'
            ∧ ((v.mode.getD []).head?).getD NUL ≠ 'a') := by
          intro hc
          apply hmode
          have hi : initMode v = ((v.mode.getD []).head?).getD NUL := by
            unfold initMode
            cases hm : v.mode with
            | none => rw [hm] at hc; simp at hc
            | some m => simp
          rw [hi]; exact hc
        unfold Trajectory_init
        simp only [hv2, hmode2, if_false]
        rcases hty with ⟨_, rfl, rfl⟩ | ⟨_, rfl, rfl⟩ | ⟨_, rfl, rfl⟩
        · simp only [if_true]
          rw [Trajectory_init_guess_resolved env fs _ _ (by simp), Trajectory_init_units_str_type]
          rfl
        · have e1 : ¬ ("GRO".toList = "XYZ".toList) := by decide
          have e2 : ¬ ("GRO".toList = "MOLDEN".toList) := by decide
          simp only [e1, e2, if_false, if_true]
          rw [Trajectory_init_guess_resolved env fs _ _ (by simp), Trajectory_init_units_str_type]
          rfl
        · have e1 : ¬ ("XTC".toList = "XYZ".toList) := by decide
          have e2 : ¬ ("XTC".toList = "MOLDEN".toList) := by decide
          have e3 : ¬ ("XTC".toList = "GRO".toList) := by decide
          simp only [e1, e2, e3, if_false, if_true]
          rw [Trajectory_init_guess_resolved env fs _ _ (by simp), Trajectory_init_units_str_type]
          rfl
    · unfold Trajectory_init
      simp only [he, he2]
  · intro v hv hmode
    rcases Trajectory_init_args_format a t ht hfmt2 with
      ⟨v1, hv1, hvn, hnone, hsome, _⟩ | ⟨e, he, _⟩
    · rw [hv] at hv1
      have : v = v1 := by simpa using hv1
      subst this
      exact hguess v hv (hvn name hname) hnone hsome hmode
    · rw [hv] at he; simp at he

end MDArray

namespace MDArray

/-- C11. For a file name whose last four characters are `.xyz`, `.gro` or `.xtc`, whatever
the other arguments, `Trajectory_init` with no format (on a session whose format is still
GUESS, as `Trajectory_new` leaves it) or with the format `GUESS` ends exactly as with the
format `XYZ`, `GRO` or `XTC`: the same status, the same session (format and unit included)
and the same file system; and when the arguments pass the parser and the mode check, the
session comes out with that format. -/
theorem C11_guess_matches_explicit (env : Env) (fs : FileSystem) (self : Trajectory)
    (a : InitArgs) (name : List Char)
    (hname : a.filename = some (PyObject.Str name))
    (hfmt : (a.format = none ∧ self.type = FileType.GUESS) ∨
      a.format = some (PyObject.Str "GUESS".toList)) :
    (extension name = some ".xyz".toList →
      Trajectory_init env fs self a
        = Trajectory_init env fs self { a with format := some (PyObject.Str "XYZ".toList) } ∧
      (∀ v, Trajectory_init_args a = Res.ok v →
        ¬ (v.mode.isSome ∧ initMode v ≠ 'r' ∧ initMode v ≠ 'w' ∧ initMode v ≠ 'a') →
        (Trajectory_init env fs self a).2.1.type = FileType.XYZ)) ∧
    (extension name = some ".gro".toList →
      Trajectory_init env fs self a
        = Trajectory_init env fs self { a with format := some (PyObject.Str "GRO".toList) } ∧
      (∀ v, Trajectory_init_args a = Res.ok v →
        ¬ (v.mode.isSome ∧ initMode v ≠ 'r' ∧ initMode v ≠ 'w' ∧ initMode v ≠ 'a') →
        (Trajectory_init env fs self a).2.1.type = FileType.GRO)) ∧
    (extension name = some ".xtc".toList →
      Trajectory_init env fs self a
        = Trajectory_init env fs self { a with format := some (PyObject.Str "XTC".toList) } ∧
      (∀ v, Trajectory_init_args a = Res.ok v →
        ¬ (v.mode.isSome ∧ initMode v ≠ 'r' ∧ initMode v ≠ 'w' ∧ initMode v ≠ 'a') →
        (Trajectory_init env fs self a).2.1.type = FileType.XTC)) := by
  refine ⟨fun hext => ?_, fun hext => ?_, fun hext => ?_⟩
  · obtain ⟨h1, h2⟩ := Trajectory_init_guess_as_explicit env fs self a name _ "XYZ".toList
      FileType.XYZ hname hfmt hext (Or.inl ⟨rfl, rfl, rfl⟩)
    refine ⟨h1, fun v hv hm => ?_⟩
    rw [h2 v hv hm, Trajectory_init_units_type]
  · obtain ⟨h1, h2⟩ := Trajectory_init_guess_as_explicit env fs self a name _ "GRO".toList
      FileType.GRO hname hfmt hext (Or.inr (Or.inl ⟨rfl, rfl, rfl⟩))
    refine ⟨h1, fun v hv hm => ?_⟩
    rw [h2 v hv hm, Trajectory_init_units_type]
  · obtain ⟨h1, h2⟩ := Trajectory_init_guess_as_explicit env fs self a name _ "XTC".toList
      FileType.XTC hname hfmt hext (Or.inr (Or.inr ⟨rfl, rfl, rfl⟩))
    refine ⟨h1, fun v hv hm => ?_⟩
    rw [h2 v hv hm, Trajectory_init_units_type]

/-- C11, witness: `Trajectory('water.xyz')` and `Trajectory('water.xyz', format='XYZ')` on
the file system of the examples end in the same session, of format XYZ. -/
theorem C11_guess_matches_explicit_witness :
    Trajectory_init exampleEnv exampleFs Trajectory_new (openForReading "water.xyz".toList)
      = Trajectory_init exampleEnv exampleFs Trajectory_new
          { openForReading "water.xyz".toList with
            format := some (PyObject.Str "XYZ".toList) } ∧
    (Trajectory_init exampleEnv exampleFs Trajectory_new
      (openForReading "water.xyz".toList)).2.1.type = FileType.XYZ :=
  have h := (C11_guess_matches_explicit exampleEnv exampleFs Trajectory_new
    (openForReading "water.xyz".toList) "water.xyz".toList rfl (Or.inl ⟨rfl, rfl⟩)).1
    (by decide)
  ⟨h.1, h.2 ⟨"water.xyz".toList, none, none, none, none, none, none⟩ (by decide) (by decide)⟩

end MDArray

namespace MDArray

/-! ### Guessing the format from the first line -/

theorem initMode_eq (v : InitVars) (h : v.mode.isSome = true) :
    initMode v = ((v.mode.getD []).head?).getD NUL := by
  unfold initMode
  cases hm : v.mode with
  | none => rw [hm] at h; simp at h
  | some m => simp

theorem initMode_none (v : InitVars) (h : v.mode.isSome = false) : initMode v = 'r' := by
  unfold initMode
  cases hm : v.mode with
  | none => simp
  | some m => rw [hm] at h; simp at h

/-- With no format, or the format `GUESS`, and an acceptable mode, `Trajectory_init` stores
the name and the mode and goes on to guess the format. -/
theorem Trajectory_init_to_guess (env : Env) (fs : FileSystem) (self : Trajectory)
    (a : InitArgs) (v : InitVars) (hargs : Trajectory_init_args a = Res.ok v)
    (hfmt : (v.str_type = none ∧ self.type = FileType.GUESS) ∨
      v.str_type = some "GUESS".toList)
    (hmode : initMode v = 'r' ∨ initMode v = 'w' ∨ initMode v = 'a') :
    Trajectory_init env fs self a
      = Trajectory_init_guess env fs
          { self with fileName := some v.filename, mode := initMode v, type := FileType.GUESS }
          v := by
  have hmode2 : ¬ (v.mode.isSome = true ∧ ((v.mode.getD []).head?).getD NUL ≠ 'r'
      ∧ ((v.mode.getD []).head?).getD NUL ≠ 'w' ∧ ((v.mode.getD []).head?).getD NUL ≠ 'a') := by
    rintro ⟨h0, h1, h2, h3⟩
    rw [initMode_eq v h0] at hmode
    tauto
  unfold Trajectory_init
  simp only [hargs]
  rw [if_neg hmode2]
  rcases hfmt with ⟨h, hfresh⟩ | h
  · rw [h]
    simp only []
    have : self = { self with type := FileType.GUESS } := by
      rw [← hfresh]
    conv_lhs => rw [this]
    rfl
  · rw [h]
    have e1 : ¬ ("GUESS".toList = "XYZ".toList) := by decide
    have e2 : ¬ ("GUESS".toList = "MOLDEN".toList) := by decide
    have e3 : ¬ ("GUESS".toList = "GRO".toList) := by decide
    have e4 : ¬ ("GUESS".toList = "XTC".toList) := by decide
    simp only [e1, e2, e3, e4, if_false, if_true]
    rfl

/-- The guess for a name whose last four characters are none of the known extensions. -/
theorem Trajectory_init_guess_sniff (env : Env) (fs : FileSystem) (s : Trajectory)
    (v : InitVars) (ext : List Char) (h : s.type = FileType.GUESS)
    (hext : extension v.filename = some ext)
    (hx : ext ≠ ".xyz".toList) (hg : ext ≠ ".gro".toList) (ht : ext ≠ ".xtc".toList) :
    (¬ (s.mode = 'r' ∨ s.mode = 'a') →
      Trajectory_init_guess env fs s v = (Res.error (some PyExc.RuntimeError), s, fs)) ∧
    ((s.mode = 'r' ∨ s.mode = 'a') → fopen_r fs v.filename = none →
      Trajectory_init_guess env fs s v = (Res.error (some PyExc.IOError), s, fs)) ∧
    (∀ test, (s.mode = 'r' ∨ s.mode = 'a') → fopen_r fs v.filename = some test →
      _getline test = none →
      Trajectory_init_guess env fs s v = (Res.error (some PyExc.IOError), s, fs)) ∧
    (∀ test raw rest, (s.mode = 'r' ∨ s.mode = 'a') → fopen_r fs v.filename = some test →
      _getline test = some (raw, rest) →
      (stripline (make_lowercase (cstr raw)) = "[molden format]".toList →
        Trajectory_init_guess env fs s v
          = Trajectory_init_units env fs { s with type := FileType.MOLDEN } v) ∧
      (stripline (make_lowercase (cstr raw)) ≠ "[molden format]".toList →
        Trajectory_init_guess env fs s v = (Res.error (some PyExc.RuntimeError), s, fs))) := by
  refine ⟨?_, ?_, ?_, ?_⟩
  · intro hm
    unfold Trajectory_init_guess
    simp only [h, if_true, hext, hx, hg, ht, if_false, hm]
  · intro hm ho
    unfold Trajectory_init_guess
    simp only [h, if_true, hext, hx, hg, ht, if_false, hm, ho]
  · intro test hm ho hl
    unfold Trajectory_init_guess
    simp only [h, if_true, hext, hx, hg, ht, if_false, hm, ho, hl]
  · intro test raw rest hm ho hl
    constructor
    · intro hmark
      unfold Trajectory_init_guess
      simp only [h, if_true, hext, hx, hg, ht, if_false, hm, ho, hl, hmark]
      simp
    · intro hmark
      unfold Trajectory_init_guess
      simp only [h, if_true, hext, hx, hg, ht, if_false, hm, ho, hl, hmark]

end MDArray

namespace MDArray

/-- C12. When no format is given (or the format `GUESS`) and the last four characters of
the name are none of `.xyz`, `.gro`, `.xtc`: in mode `r` or `a`, on a file that has a first
line, the format of the session comes out as MOLDEN iff that line, lowercased and stripped of
surrounding white space, equals `[molden format]`, and otherwise the open fails with the
RuntimeError of the unresolved guess, nothing but the name and the mode stored; in mode `w`
the open fails with the same error without opening the file. -/
theorem C12_content_sniffing (env : Env) (fs : FileSystem) (self : Trajectory) (a : InitArgs)
    (v : InitVars) (ext : List Char)
    (hargs : Trajectory_init_args a = Res.ok v)
    (hfmt : (v.str_type = none ∧ self.type = FileType.GUESS) ∨
      v.str_type = some "GUESS".toList)
    (hext : extension v.filename = some ext)
    (hx : ext ≠ ".xyz".toList) (hg : ext ≠ ".gro".toList) (ht : ext ≠ ".xtc".toList) :
    (∀ test raw rest, (initMode v = 'r' ∨ initMode v = 'a') →
      fopen_r fs v.filename = some test → _getline test = some (raw, rest) →
      ((Trajectory_init env fs self a).2.1.type = FileType.MOLDEN ↔
        stripline (make_lowercase (cstr raw)) = "[molden format]".toList) ∧
      (stripline (make_lowercase (cstr raw)) ≠ "[molden format]".toList →
        Trajectory_init env fs self a
          = (Res.error (some PyExc.RuntimeError),
              { self with fileName := some v.filename, mode := initMode v,
                          type := FileType.GUESS }, fs))) ∧
    (initMode v = 'w' →
      Trajectory_init env fs self a
        = (Res.error (some PyExc.RuntimeError),
            { self with fileName := some v.filename, mode := 'w', type := FileType.GUESS },
            fs)) := by
  constructor
  · intro test raw rest hm ho hl
    have hinit := Trajectory_init_to_guess env fs self a v hargs hfmt (by tauto)
    obtain ⟨_, _, _, h4⟩ := Trajectory_init_guess_sniff env fs
      { self with fileName := some v.filename, mode := initMode v, type := FileType.GUESS }
      v ext rfl hext hx hg ht
    obtain ⟨hyes, hno⟩ := h4 test raw rest hm ho hl
    by_cases hmark : stripline (make_lowercase (cstr raw)) = "[molden format]".toList
    · refine ⟨⟨fun _ => hmark, fun _ => ?_⟩, fun h => absurd hmark h⟩
      rw [hinit, hyes hmark, Trajectory_init_units_type]
    · refine ⟨⟨fun h => ?_, fun h => absurd h hmark⟩, fun _ => ?_⟩
      · rw [hinit, hno hmark] at h
        have h2 : FileType.GUESS = FileType.MOLDEN := h
        exact absurd h2 (by decide)
      · rw [hinit, hno hmark]
  · intro hw
    have hinit := Trajectory_init_to_guess env fs self a v hargs hfmt (by tauto)
    obtain ⟨h1, _⟩ := Trajectory_init_guess_sniff env fs
      { self with fileName := some v.filename, mode := initMode v, type := FileType.GUESS }
      v ext rfl hext hx hg ht
    have hnot : ¬ (initMode v = 'r' ∨ initMode v = 'a') := by
      rw [hw]; decide
    rw [hinit, h1 hnot, hw]

/-- C12, witness: `Trajectory('water.molden')` on a file whose first line is
`[Molden Format]` comes out with the format MOLDEN. -/
theorem C12_content_sniffing_witness :
    (Trajectory_init exampleEnv exampleMoldenFs Trajectory_new
      (openForReading "water.molden".toList)).2.1.type = FileType.MOLDEN :=
  ((C12_content_sniffing exampleEnv exampleMoldenFs Trajectory_new
    (openForReading "water.molden".toList)
    ⟨"water.molden".toList, none, none, none, none, none, none⟩ "lden".toList
    (by decide) (Or.inl ⟨rfl, rfl⟩) (by decide) (by decide) (by decide) (by decide)).1
    ⟨exampleMoldenFile, 0⟩ "[Molden Format]\n".toList ⟨exampleMoldenFile, 16⟩
    (Or.inl (by decide)) (by decide) (by decide)).1.2 (by decide)

end MDArray

namespace MDArray

/-! ### What a failed detection leaves behind -/

end MDArray

namespace MDArray

/-! ### The unit of the session -/

theorem read_topo_from_xyz_units (env : Env) (s : Trajectory) (f : FILE) :
    (read_topo_from_xyz env s f).2.units = s.units := by
  unfold read_topo_from_xyz
  split
  · rfl
  · split
    · rfl
    · split
      · rfl
      · dsimp only
        split
        · rfl
        · generalize read_topo_from_xyz_loop env _ 0 _ _ [] [] = L
          obtain ⟨r, f3, syms⟩ := L
          rcases r with ⟨f3', syms', anum, masses⟩ | e | _ <;> rfl

theorem read_topo_from_gro_units (s : Trajectory) (f : FILE) :
    (read_topo_from_gro s f).2.units = s.units := by
  unfold read_topo_from_gro
  split
  · rfl
  · split
    · rfl
    · split
      · rfl
      · split
        · rfl
        · dsimp only
          split
          · rfl
          · generalize read_topo_from_gro_loop _ 0 _ _ _ [] = L
            obtain ⟨r, f3, syms, resn⟩ := L
            rcases r with ⟨f3', syms', resn', resid⟩ | e | _ <;> rfl

theorem Trajectory_init_router_units (env : Env) (fs : FileSystem) (s : Trajectory)
    (v : InitVars) (hty : s.type ≠ FileType.MOLDEN) :
    (Trajectory_init_router env fs s v).2.units = s.units := by
  unfold Trajectory_init_router
  split
  · split
    · rfl
    · rename_i f _
      have := read_topo_from_xyz_units env s f
      generalize read_topo_from_xyz env s f = L at this ⊢
      obtain ⟨r, s3⟩ := L
      rcases r with u | e | _ <;> simpa using this
  · rename_i h; exact absurd h hty
  · split
    · rfl
    · rename_i f _
      have := read_topo_from_gro_units s f
      generalize read_topo_from_gro s f = L at this ⊢
      obtain ⟨r, s3⟩ := L
      rcases r with u | e | _ <;> simpa using this
  · split
    · split
      · rfl
      · dsimp only
        split <;> rfl
    · rfl
  · rfl

theorem Trajectory_init_open_units (env : Env) (fs : FileSystem) (s : Trajectory)
    (v : InitVars) (hty : s.type ≠ FileType.MOLDEN) :
    (Trajectory_init_open env fs s v).2.1.units = s.units := by
  unfold Trajectory_init_open
  split
  · split
    · rfl
    · split
      · rfl
      · split
        · rfl
        · dsimp only
          split
          · split <;> rfl
          · split <;> rfl
          · rfl
  · split
    · split
      · rfl
      · dsimp only
        rw [Trajectory_init_router_units]
        rename_i h _ _ _; rw [h]; decide
    · split
      · rfl
      · dsimp only
        rw [Trajectory_init_router_units]
        rename_i h _ _ _; rw [h]; decide
    · rename_i h; exact absurd h hty
    · split
      · split
        · rfl
        · dsimp only
          rw [Trajectory_init_router_units]
          rename_i h _ _ _ _; rw [h]; decide
      · rfl
    · rfl

theorem Trajectory_init_lists_units (env : Env) (fs : FileSystem) (s : Trajectory)
    (v : InitVars) (hty : s.type ≠ FileType.MOLDEN) :
    (Trajectory_init_lists env fs s v).2.1.units = s.units := by
  unfold Trajectory_init_lists
  split
  · rfl
  · dsimp only
    rw [Trajectory_init_open_units]
    exact hty

end MDArray

namespace MDArray

/-- A guess that does not end in an error or a fault has handed a session on to the unit
selection. -/
theorem Trajectory_init_guess_units (env : Env) (fs : FileSystem) (s : Trajectory)
    (v : InitVars) :
    (∃ s1, Trajectory_init_guess env fs s v = Trajectory_init_units env fs s1 v) ∨
    (∃ e, (Trajectory_init_guess env fs s v).1 = Res.error e) ∨
    (Trajectory_init_guess env fs s v).1 = Res.fault := by
  have hfin : ∀ s1 : Trajectory,
      (∃ s2, (if s1.type = FileType.GUESS then
            ((Res.error (some PyExc.RuntimeError), s1, fs) : Res Unit × Trajectory × FileSystem)
          else Trajectory_init_units env fs s1 v) = Trajectory_init_units env fs s2 v) ∨
      (∃ e, (if s1.type = FileType.GUESS then
            ((Res.error (some PyExc.RuntimeError), s1, fs) : Res Unit × Trajectory × FileSystem)
          else Trajectory_init_units env fs s1 v).1 = Res.error e) ∨
      (if s1.type = FileType.GUESS then
            ((Res.error (some PyExc.RuntimeError), s1, fs) : Res Unit × Trajectory × FileSystem)
          else Trajectory_init_units env fs s1 v).1 = Res.fault := by
    intro s1
    by_cases h : s1.type = FileType.GUESS
    · rw [if_pos h]; exact Or.inr (Or.inl ⟨_, rfl⟩)
    · rw [if_neg h]; exact Or.inl ⟨_, rfl⟩
  unfold Trajectory_init_guess
  dsimp only
  by_cases h : s.type = FileType.GUESS
  · rw [if_pos h]
    cases hext : extension v.filename with
    | none => exact Or.inr (Or.inr rfl)
    | some ext =>
      dsimp only
      by_cases h1 : ext = ".xyz".toList
      · rw [if_pos h1]; exact hfin { s with type := FileType.XYZ }
      · rw [if_neg h1]
        by_cases h2 : ext = ".gro".toList
        · rw [if_pos h2]; exact hfin { s with type := FileType.GRO }
        · rw [if_neg h2]
          by_cases h3 : ext = ".xtc".toList
          · rw [if_pos h3]; exact hfin { s with type := FileType.XTC }
          · rw [if_neg h3]
            by_cases hm : s.mode = 'r' ∨ s.mode = 'a'
            · rw [if_pos hm]
              cases ho : fopen_r fs v.filename with
              | none => exact Or.inr (Or.inl ⟨_, rfl⟩)
              | some test =>
                dsimp only
                cases hl : _getline test with
                | none => exact Or.inr (Or.inl ⟨_, rfl⟩)
                | some p =>
                  obtain ⟨raw, rest⟩ := p
                  dsimp only
                  by_cases hk : stripline (make_lowercase (cstr raw)) = "[molden format]".toList
                  · rw [if_pos hk]; exact hfin { s with type := FileType.MOLDEN }
                  · rw [if_neg hk]; exact hfin s
            · rw [if_neg hm]; exact hfin s
  · rw [if_neg h]; exact hfin s

/-- An open that does not end in an error or a fault has gone through the unit selection
with the variables the parser filled. -/
theorem Trajectory_init_units_reached (env : Env) (fs : FileSystem) (self : Trajectory)
    (a : InitArgs) (v : InitVars) (hargs : Trajectory_init_args a = Res.ok v) :
    (∃ s1, Trajectory_init env fs self a = Trajectory_init_units env fs s1 v) ∨
    (∃ e, (Trajectory_init env fs self a).1 = Res.error e) ∨
    (Trajectory_init env fs self a).1 = Res.fault := by
  unfold Trajectory_init
  simp only [hargs]
  by_cases hm : (v.mode.isSome = true ∧ ((v.mode.getD []).head?).getD NUL ≠ 'r'
      ∧ ((v.mode.getD []).head?).getD NUL ≠ 'w' ∧ ((v.mode.getD []).head?).getD NUL ≠ 'a')
  · rw [if_pos hm]; exact Or.inr (Or.inl ⟨_, rfl⟩)
  · rw [if_neg hm]
    cases ht : v.str_type with
    | none => exact Trajectory_init_guess_units env fs _ v
    | some t =>
      dsimp only
      by_cases h1 : t = "XYZ".toList
      · rw [if_pos h1]; exact Trajectory_init_guess_units env fs _ v
      · rw [if_neg h1]
        by_cases h2 : t = "MOLDEN".toList
        · rw [if_pos h2]; exact Trajectory_init_guess_units env fs _ v
        · rw [if_neg h2]
          by_cases h3 : t = "GRO".toList
          · rw [if_pos h3]; exact Trajectory_init_guess_units env fs _ v
          · rw [if_neg h3]
            by_cases h4 : t = "XTC".toList
            · rw [if_pos h4]; exact Trajectory_init_guess_units env fs _ v
            · rw [if_neg h4]
              by_cases h5 : t = "GUESS".toList
              · rw [if_pos h5]; exact Trajectory_init_guess_units env fs _ v
              · rw [if_neg h5]; exact Or.inr (Or.inl ⟨_, rfl⟩)

/-- The unit selection of `Trajectory_init`, case by case. -/
theorem Trajectory_init_units_cases (env : Env) (fs : FileSystem) (s : Trajectory)
    (v : InitVars) :
    (v.units = none → (s.type = FileType.XYZ ∨ s.type = FileType.MOLDEN) →
      Trajectory_init_units env fs s v
        = Trajectory_init_lists env fs { s with units := Units.ANGS } v) ∧
    (v.units = none → (s.type = FileType.GRO ∨ s.type = FileType.XTC) →
      Trajectory_init_units env fs s v
        = Trajectory_init_lists env fs { s with units := Units.NM } v) ∧
    (v.units = some "angs".toList →
      Trajectory_init_units env fs s v
        = Trajectory_init_lists env fs { s with units := Units.ANGS } v) ∧
    (v.units = some "bohr".toList →
      Trajectory_init_units env fs s v
        = Trajectory_init_lists env fs { s with units := Units.BOHR } v) ∧
    (v.units = some "nm".toList →
      Trajectory_init_units env fs s v
        = Trajectory_init_lists env fs { s with units := Units.NM } v) ∧
    (∀ u, v.units = some u → u ≠ "angs".toList → u ≠ "bohr".toList → u ≠ "nm".toList →
      Trajectory_init_units env fs s v = (Res.error (some PyExc.ValueError), s, fs)) := by
  refine ⟨?_, ?_, ?_, ?_, ?_, ?_⟩
  · intro hu hty
    unfold Trajectory_init_units
    rw [hu]
    rcases hty with h | h <;> simp only [h]
  · intro hu hty
    unfold Trajectory_init_units
    rw [hu]
    rcases hty with h | h <;> simp only [h]
  · intro hu
    unfold Trajectory_init_units
    rw [hu]
    simp only [if_true]
  · intro hu
    have e1 : ¬ ("bohr".toList = "angs".toList) := by decide
    unfold Trajectory_init_units
    rw [hu]
    simp only [e1, if_false, if_true]
  · intro hu
    have e1 : ¬ ("nm".toList = "angs".toList) := by decide
    have e2 : ¬ ("nm".toList = "bohr".toList) := by decide
    unfold Trajectory_init_units
    rw [hu]
    simp only [e1, e2, if_false, if_true]
  · intro u hu h1 h2 h3
    unfold Trajectory_init_units
    rw [hu]
    simp only [h1, h2, h3, if_false]

end MDArray

namespace MDArray

/-- C14 (as amended). Unit selection in `Trajectory_init`: with no unit hint the session
goes on with ANGS for the formats XYZ and MOLDEN and with NM for GRO and XTC; with a unit
hint the open fails (ValueError at the selection, session untouched by it) unless the hint is
exactly `angs`, `bohr` or `nm`, for which the session goes on with ANGS, BOHR or NM whatever
the format; and an open that succeeds with a format other than MOLDEN ends with the unit so
selected.  For MOLDEN the selected unit is only the value the section scan and the topology
reader start from: they can replace it before the open returns. -/
theorem C14_unit_selection (env : Env) (fs : FileSystem) (self : Trajectory) (a : InitArgs)
    (v : InitVars) (hargs : Trajectory_init_args a = Res.ok v) :
    (∀ s : Trajectory,
      (v.units = none → (s.type = FileType.XYZ ∨ s.type = FileType.MOLDEN) →
        Trajectory_init_units env fs s v
          = Trajectory_init_lists env fs { s with units := Units.ANGS } v) ∧
      (v.units = none → (s.type = FileType.GRO ∨ s.type = FileType.XTC) →
        Trajectory_init_units env fs s v
          = Trajectory_init_lists env fs { s with units := Units.NM } v) ∧
      (v.units = some "angs".toList →
        Trajectory_init_units env fs s v
          = Trajectory_init_lists env fs { s with units := Units.ANGS } v) ∧
      (v.units = some "bohr".toList →
        Trajectory_init_units env fs s v
          = Trajectory_init_lists env fs { s with units := Units.BOHR } v) ∧
      (v.units = some "nm".toList →
        Trajectory_init_units env fs s v
          = Trajectory_init_lists env fs { s with units := Units.NM } v) ∧
      (∀ u, v.units = some u → u ≠ "angs".toList → u ≠ "bohr".toList → u ≠ "nm".toList →
        Trajectory_init_units env fs s v = (Res.error (some PyExc.ValueError), s, fs))) ∧
    (∀ u, v.units = some u → u ≠ "angs".toList → u ≠ "bohr".toList → u ≠ "nm".toList →
      (Trajectory_init env fs self a).1 ≠ Res.ok ()) ∧
    ((Trajectory_init env fs self a).1 = Res.ok () →
      (v.units = none → (Trajectory_init env fs self a).2.1.type = FileType.XYZ →
        (Trajectory_init env fs self a).2.1.units = Units.ANGS) ∧
      (v.units = none →
        ((Trajectory_init env fs self a).2.1.type = FileType.GRO ∨
          (Trajectory_init env fs self a).2.1.type = FileType.XTC) →
        (Trajectory_init env fs self a).2.1.units = Units.NM) ∧
      ((Trajectory_init env fs self a).2.1.type ≠ FileType.MOLDEN →
        (v.units = some "angs".toList →
          (Trajectory_init env fs self a).2.1.units = Units.ANGS) ∧
        (v.units = some "bohr".toList →
          (Trajectory_init env fs self a).2.1.units = Units.BOHR) ∧
        (v.units = some "nm".toList →
          (Trajectory_init env fs self a).2.1.units = Units.NM))) := by
  refine ⟨fun s => Trajectory_init_units_cases env fs s v, ?_, ?_⟩
  · intro u hu h1 h2 h3 hok
    rcases Trajectory_init_units_reached env fs self a v hargs with ⟨s1, hs1⟩ | ⟨e, he⟩ | hf
    · rw [hs1, (Trajectory_init_units_cases env fs s1 v).2.2.2.2.2 u hu h1 h2 h3] at hok
      simp at hok
    · rw [he] at hok; simp at hok
    · rw [hf] at hok; simp at hok
  · intro hok
    rcases Trajectory_init_units_reached env fs self a v hargs with ⟨s1, hs1⟩ | ⟨e, he⟩ | hf
    · have hty : (Trajectory_init env fs self a).2.1.type = s1.type := by
        rw [hs1, Trajectory_init_units_type]
      obtain ⟨c1, c2, c3, c4, c5, _⟩ := Trajectory_init_units_cases env fs s1 v
      have hkeep : ∀ U : Units, s1.type ≠ FileType.MOLDEN →
          Trajectory_init_units env fs s1 v
            = Trajectory_init_lists env fs { s1 with units := U } v →
          (Trajectory_init env fs self a).2.1.units = U := by
        intro U hne heq
        rw [hs1, heq]
        exact Trajectory_init_lists_units env fs { s1 with units := U } v hne
      refine ⟨?_, ?_, ?_⟩
      · intro hu hx
        rw [hty] at hx
        exact hkeep _ (by rw [hx]; decide) (c1 hu (Or.inl hx))
      · intro hu hx
        rw [hty] at hx
        refine hkeep _ ?_ (c2 hu hx)
        rcases hx with h | h <;> rw [h] <;> decide
      · intro hne
        rw [hty] at hne
        exact ⟨fun hu => hkeep _ hne (c3 hu), fun hu => hkeep _ hne (c4 hu),
          fun hu => hkeep _ hne (c5 hu)⟩
    · rw [he] at hok; simp at hok
    · rw [hf] at hok; simp at hok

/-- C14, witness: `Trajectory('water.xyz', units='bohr')` succeeds with the unit BOHR, and
`Trajectory('water.xyz', units='Bohr')` fails. -/
theorem C14_unit_selection_witness :
    (Trajectory_init exampleEnv exampleFs Trajectory_new
      (readArgsFor "water.xyz".toList none (some (PyObject.Str "bohr".toList)))).2.1.units
      = Units.BOHR ∧
    (Trajectory_init exampleEnv exampleFs Trajectory_new
      (readArgsFor "water.xyz".toList none (some (PyObject.Str "Bohr".toList)))).1
      ≠ Res.ok () :=
  ⟨((C14_unit_selection exampleEnv exampleFs Trajectory_new
      (readArgsFor "water.xyz".toList none (some (PyObject.Str "bohr".toList)))
      ⟨"water.xyz".toList, none, none, none, none, none, some "bohr".toList⟩
      (by decide)).2.2 (by decide)).2.2 (by decide) |>.2.1 rfl,
   (C14_unit_selection exampleEnv exampleFs Trajectory_new
      (readArgsFor "water.xyz".toList none (some (PyObject.Str "Bohr".toList)))
      ⟨"water.xyz".toList, none, none, none, none, none, some "Bohr".toList⟩
      (by decide)).2.1 "Bohr".toList rfl (by decide) (by decide) (by decide)⟩

end MDArray

namespace MDArray

/-! ### The section scan -/

theorem foldl_styleStep_geom (names : List (List Char)) :
    names.foldl styleStep MoldenStyle.MLGEOM = MoldenStyle.MLGEOM := by
  induction names with
  | nil => rfl
  | cons a t ih =>
    rw [List.foldl_cons]
    have : styleStep MoldenStyle.MLGEOM a = MoldenStyle.MLGEOM := by
      unfold styleStep
      split <;> simp
    rw [this, ih]

theorem foldl_styleStep_atoms (names : List (List Char)) :
    names.foldl styleStep MoldenStyle.MLATOMS
      = if "geometries".toList ∈ names then MoldenStyle.MLGEOM else MoldenStyle.MLATOMS := by
  induction names with
  | nil => rfl
  | cons a t ih =>
    rw [List.foldl_cons]
    by_cases h : a = "geometries".toList
    · have : styleStep MoldenStyle.MLATOMS a = MoldenStyle.MLGEOM := by
        unfold styleStep; simp [h]
      rw [this, foldl_styleStep_geom, h]
      simp only [List.mem_cons, true_or, if_true]
    · have : styleStep MoldenStyle.MLATOMS a = MoldenStyle.MLATOMS := by
        unfold styleStep
        simp only [h, if_false]
        split <;> simp
      rw [this, ih]
      have h2 : ¬ ("geometries".toList = a) := fun e => h e.symm
      simp only [List.mem_cons, h2, false_or]

theorem foldl_styleStep_freq (names : List (List Char)) :
    names.foldl styleStep MoldenStyle.MLFREQ
      = if "geometries".toList ∈ names then MoldenStyle.MLGEOM
        else if "atoms".toList ∈ names then MoldenStyle.MLATOMS else MoldenStyle.MLFREQ := by
  induction names with
  | nil => rfl
  | cons a t ih =>
    rw [List.foldl_cons]
    by_cases h : a = "geometries".toList
    · have : styleStep MoldenStyle.MLFREQ a = MoldenStyle.MLGEOM := by
        unfold styleStep; simp [h]
      rw [this, foldl_styleStep_geom, h]
      simp only [List.mem_cons, true_or, if_true]
    · have h2 : ¬ ("geometries".toList = a) := fun e => h e.symm
      by_cases ha : a = "atoms".toList
      · have : styleStep MoldenStyle.MLFREQ a = MoldenStyle.MLATOMS := by
          unfold styleStep; simp [h, ha]
        rw [this, foldl_styleStep_atoms, ha]
        have h3 : ¬ ("geometries".toList = "atoms".toList) := by decide
        simp only [List.mem_cons, h3, false_or, true_or, if_true]
      · have h4 : ¬ ("atoms".toList = a) := fun e => ha e.symm
        have : styleStep MoldenStyle.MLFREQ a = MoldenStyle.MLFREQ := by
          unfold styleStep
          simp only [h, ha, if_false, and_false]
          split <;> rfl
        rw [this, ih]
        simp only [List.mem_cons, h2, h4, false_or]

/-- The order of preference of the scan, whatever the order of the sections: from the style
UNKNOWN the names resolve to GEOMETRIES if one of them is `geometries`, otherwise to ATOMS if
one is `atoms`, otherwise to FR-COORD if one is `fr-coord`, otherwise to UNKNOWN. -/
theorem foldl_styleStep_unk (names : List (List Char)) :
    names.foldl styleStep MoldenStyle.MLUNK = resolvedStyle names := by
  unfold resolvedStyle
  induction names with
  | nil => rfl
  | cons a t ih =>
    rw [List.foldl_cons]
    by_cases h : a = "geometries".toList
    · have : styleStep MoldenStyle.MLUNK a = MoldenStyle.MLGEOM := by
        unfold styleStep; simp [h]
      rw [this, foldl_styleStep_geom, h]
      simp only [List.mem_cons, true_or, if_true]
    · have h2 : ¬ ("geometries".toList = a) := fun e => h e.symm
      by_cases ha : a = "atoms".toList
      · have : styleStep MoldenStyle.MLUNK a = MoldenStyle.MLATOMS := by
          unfold styleStep; simp [h, ha]
        rw [this, foldl_styleStep_atoms, ha]
        have h3 : ¬ ("geometries".toList = "atoms".toList) := by decide
        simp only [List.mem_cons, h3, false_or, true_or, if_true]
      · have h4 : ¬ ("atoms".toList = a) := fun e => ha e.symm
        by_cases hf : a = "fr-coord".toList
        · have : styleStep MoldenStyle.MLUNK a = MoldenStyle.MLFREQ := by
            unfold styleStep; simp [h, ha, hf]
          rw [this, foldl_styleStep_freq, hf]
          have h5 : ¬ ("geometries".toList = "fr-coord".toList) := by decide
          have h6 : ¬ ("atoms".toList = "fr-coord".toList) := by decide
          simp only [List.mem_cons, h5, h6, false_or, true_or, if_true]
        · have h7 : ¬ ("fr-coord".toList = a) := fun e => hf e.symm
          have : styleStep MoldenStyle.MLUNK a = MoldenStyle.MLUNK := by
            unfold styleStep
            simp only [h, ha, hf, if_false, and_false]
          rw [this, ih]
          simp only [List.mem_cons, h2, h4, h7, false_or]

end MDArray

namespace MDArray

theorem getline_content (f f1 : FILE) (raw : List Char) (h : f.getline = some (raw, f1)) :
    f1.content = f.content ∧ f1.pos = f.pos + raw.length ∧ raw = FILE.firstLine f.rest := by
  unfold FILE.getline at h
  split at h
  · simp at h
  · simp only [Option.some.injEq, Prod.mk.injEq] at h
    obtain ⟨h1, h2⟩ := h
    rw [← h2, ← h1]
    exact ⟨rfl, rfl, rfl⟩

theorem headersFrom_succ (fuel : Nat) (f f1 : FILE) (raw : List Char)
    (h : f.getline = some (raw, f1)) :
    headersFrom (fuel + 1) f
      = (if isHeader raw = true then [(f.ftell, raw)] else []) ++ headersFrom fuel f1 := by
  unfold headersFrom
  rw [rawLines]
  simp only [h, List.filter_cons]
  split <;> rfl

theorem headersFrom_eof (fuel : Nat) (f : FILE) (h : f.getline = none) :
    headersFrom (fuel + 1) f = [] := by
  unfold headersFrom
  rw [rawLines]
  simp only [h, List.filter_nil]

theorem isHeader_iff (raw : List Char) :
    isHeader raw = true ↔ (make_lowercase (stripline (cstr raw))).head? = some '[' := by
  unfold isHeader moldenLine
  simp

/-- What one header does to the session: the slot `nsec`, inside the table, takes the offset
of the line and the text in the brackets; the style follows the order of preference; the
unit becomes BOHR exactly when the style becomes FR-COORD. -/
theorem molden_section_header_some (s s1 : Trajectory) (line : List Char) (pos nsec : Nat)
    (h : molden_section_header s line pos nsec = some s1) :
    nsec < MAX_MOLDEN_SECTIONS ∧
    (∃ i, indexOfBracket line = some i ∧ i - 1 < 20) ∧
    s1.moldenStyle = styleStep s.moldenStyle (bracketText line) ∧
    s1.moldenSect = s.moldenSect.set nsec ⟨(pos : Int), bracketText line⟩ ∧
    ((s.moldenStyle = MoldenStyle.MLFREQ → s.units = Units.BOHR) →
      (s1.moldenStyle = MoldenStyle.MLFREQ → s1.units = Units.BOHR)) := by
  unfold molden_section_header at h
  cases hi : indexOfBracket line with
  | none => rw [hi] at h; simp at h
  | some i =>
    rw [hi] at h
    dsimp only at h
    have hb : bracketText line = (line.drop 1).take (i - 1) := by
      unfold bracketText
      rw [hi]; rfl
    by_cases hc : 256 ≤ i - 1 ∨ 20 ≤ i - 1 ∨ MAX_MOLDEN_SECTIONS ≤ nsec
    · rw [if_pos hc] at h; simp at h
    · rw [if_neg hc] at h
      have hn : nsec < MAX_MOLDEN_SECTIONS := by omega
      have h20 : i - 1 < 20 := by omega
      refine ⟨hn, ⟨i, rfl, h20⟩, ?_⟩
      rw [hb]
      unfold styleStep
      by_cases h1 : (line.drop 1).take (i - 1) = "geometries".toList
      · rw [if_pos h1] at h
        simp only [Option.some.injEq] at h
        subst h
        rw [if_pos h1]
        refine ⟨rfl, rfl, fun _ hh => ?_⟩
        have hh2 : MoldenStyle.MLGEOM = MoldenStyle.MLFREQ := hh
        exact absurd hh2 (by decide)
      · rw [if_neg h1] at h
        by_cases h2 : s.moldenStyle ≠ MoldenStyle.MLGEOM
            ∧ (line.drop 1).take (i - 1) = "atoms".toList
        · rw [if_pos h2] at h
          simp only [Option.some.injEq] at h
          subst h
          rw [if_neg h1, if_pos h2]
          refine ⟨rfl, rfl, fun _ hh => ?_⟩
          have hh2 : MoldenStyle.MLATOMS = MoldenStyle.MLFREQ := hh
          exact absurd hh2 (by decide)
        · rw [if_neg h2] at h
          by_cases h3 : s.moldenStyle ≠ MoldenStyle.MLGEOM ∧ s.moldenStyle ≠ MoldenStyle.MLATOMS
              ∧ (line.drop 1).take (i - 1) = "fr-coord".toList
          · rw [if_pos h3] at h
            simp only [Option.some.injEq] at h
            subst h
            rw [if_neg h1, if_neg h2, if_pos h3]
            exact ⟨rfl, rfl, fun _ _ => rfl⟩
          · rw [if_neg h3] at h
            simp only [Option.some.injEq] at h
            subst h
            rw [if_neg h1, if_neg h2, if_neg h3]
            exact ⟨rfl, rfl, fun hh => hh⟩

/-- A header with a closing bracket and a name shorter than 20 bytes is recorded when the
table has room. -/
theorem molden_section_header_ok (s : Trajectory) (raw : List Char) (pos nsec : Nat)
    (hok : headerOk raw = true) (hn : nsec < MAX_MOLDEN_SECTIONS) :
    ∃ s1, molden_section_header s (moldenLine raw) pos nsec = some s1 := by
  unfold headerOk at hok
  unfold molden_section_header
  cases hi : indexOfBracket (moldenLine raw) with
  | none => rw [hi] at hok; simp at hok
  | some i =>
    rw [hi] at hok
    simp only [decide_eq_true_eq] at hok
    dsimp only
    have hc : ¬ (256 ≤ i - 1 ∨ 20 ≤ i - 1 ∨ MAX_MOLDEN_SECTIONS ≤ nsec) := by omega
    rw [if_neg hc]
    split
    · exact ⟨_, rfl⟩
    · split
      · exact ⟨_, rfl⟩
      · split
        · exact ⟨_, rfl⟩
        · exact ⟨_, rfl⟩

end MDArray

namespace MDArray

/-- The scanning loop, when it comes to its end without failure: it has counted the headers
from the cursor on, recorded for each, in file order, the offset its line begins at and the
text in its brackets, and folded the names into the style. -/
theorem read_molden_sections_loop_ok (fuel : Nat) :
    ∀ (s : Trajectory) (f : FILE) (nsec n : Nat) (s1 : Trajectory) (f1 : FILE),
      read_molden_sections_loop fuel s f f.ftell nsec = (Res.ok n, s1, f1) →
      nsec ≤ MAX_MOLDEN_SECTIONS →
      n = nsec + (headersFrom fuel f).length ∧ n ≤ MAX_MOLDEN_SECTIONS ∧
      s1.moldenStyle
        = ((headersFrom fuel f).map (fun p => sectionName p.2)).foldl styleStep s.moldenStyle ∧
      s1.moldenSect.length = s.moldenSect.length ∧
      (∀ j, j < nsec → s1.moldenSect.get? j = s.moldenSect.get? j) ∧
      (∀ j, nsec + (headersFrom fuel f).length ≤ j →
        s1.moldenSect.get? j = s.moldenSect.get? j) ∧
      (∀ k p, (headersFrom fuel f).get? k = some p → nsec + k < s.moldenSect.length →
        s1.moldenSect.get? (nsec + k) = some ⟨(p.1 : Int), sectionName p.2⟩) ∧
      f1.content = f.content ∧
      (∀ p ∈ headersFrom fuel f, headerOk p.2 = true) ∧
      ((s.moldenStyle = MoldenStyle.MLFREQ → s.units = Units.BOHR) →
        (s1.moldenStyle = MoldenStyle.MLFREQ → s1.units = Units.BOHR)) := by
  induction fuel with
  | zero =>
    intro s f nsec n s1 f1 h hn
    simp only [read_molden_sections_loop, Prod.mk.injEq, Res.ok.injEq] at h
    obtain ⟨rfl, rfl, rfl⟩ := h
    have he : headersFrom 0 f = [] := rfl
    rw [he]
    exact ⟨rfl, hn, rfl, rfl, fun _ _ => rfl, fun _ _ => rfl,
      fun k p hk => by simp at hk, rfl, fun p hp => by simp at hp, fun h => h⟩
  | succ fuel ih =>
    intro s f nsec n s1 f1 h hn
    rw [read_molden_sections_loop] at h
    cases hg : f.getline with
    | none =>
      rw [hg] at h
      simp only [Prod.mk.injEq, Res.ok.injEq] at h
      obtain ⟨rfl, rfl, rfl⟩ := h
      rw [headersFrom_eof fuel f hg]
      exact ⟨rfl, hn, rfl, rfl, fun _ _ => rfl, fun _ _ => rfl,
        fun k p hk => by simp at hk, rfl, fun p hp => by simp at hp, fun h => h⟩
    | some pr =>
      obtain ⟨raw, g⟩ := pr
      rw [hg] at h
      dsimp only at h
      have hcont := (getline_content f g raw hg).1
      rw [headersFrom_succ fuel f g raw hg]
      by_cases hh : (make_lowercase (stripline (cstr raw))).head? = some '['
      · rw [if_pos hh] at h
        have hH : isHeader raw = true := (isHeader_iff raw).2 hh
        rw [if_pos hH]
        cases hm : molden_section_header s (make_lowercase (stripline (cstr raw))) f.ftell nsec with
        | none => rw [hm] at h; simp at h
        | some s2 =>
          rw [hm] at h
          dsimp only at h
          obtain ⟨hlt, ⟨i, hi, hi20⟩, hstyle, hsect, hunit⟩ :=
            molden_section_header_some s s2 _ f.ftell nsec hm
          have hnot : ¬ (MAX_MOLDEN_SECTIONS < nsec + 1) := by omega
          rw [if_neg hnot] at h
          obtain ⟨c1, c2, c3, c4, c5, c6, c7, c8, c9, c10⟩ := ih s2 g (nsec + 1) n s1 f1 h
            (by omega)
          have hlen2 : s2.moldenSect.length = s.moldenSect.length := by
            rw [hsect]; simp
          have hname : sectionName raw = bracketText (make_lowercase (stripline (cstr raw))) :=
            rfl
          have hok : headerOk raw = true := by
            unfold headerOk moldenLine
            rw [hi]
            simpa using hi20
          refine ⟨?_, c2, ?_, ?_, ?_, ?_, ?_, ?_, ?_, ?_⟩
          · rw [c1]; simp only [List.singleton_append, List.length_cons]; omega
          · rw [c3, hstyle]; rfl
          · rw [c4, hlen2]
          · intro j hj
            rw [c5 j (by omega), hsect, List.get?_eq_getElem?, List.get?_eq_getElem?,
              List.getElem?_set_ne (by omega)]
          · intro j hj
            simp only [List.singleton_append, List.length_cons] at hj
            rw [c6 j (by omega), hsect, List.get?_eq_getElem?, List.get?_eq_getElem?,
              List.getElem?_set_ne (by omega)]
          · intro k p hk hkl
            cases k with
            | zero =>
              simp only [List.singleton_append, List.get?_cons_zero, Option.some.injEq] at hk
              subst hk
              rw [Nat.add_zero, c5 nsec (by omega), hsect, List.get?_eq_getElem?,
                List.getElem?_set_self (by omega)]
              rfl
            | succ k =>
              simp only [List.singleton_append, List.get?_cons_succ] at hk
              have := c7 k p hk (by rw [hlen2]; omega)
              rw [← this]
              congr 1
              omega
          · rw [c8, hcont]
          · intro p hp
            simp only [List.singleton_append, List.mem_cons] at hp
            rcases hp with rfl | hp
            · exact hok
            · exact c9 p hp
          · exact fun h0 => c10 (hunit h0)
      · rw [if_neg hh] at h
        have hH : ¬ (isHeader raw = true) := fun e => hh ((isHeader_iff raw).1 e)
        rw [if_neg hH, List.nil_append]
        obtain ⟨c1, c2, c3, c4, c5, c6, c7, c8, c9, c10⟩ := ih s g nsec n s1 f1 h hn
        exact ⟨c1, c2, c3, c4, c5, c6, c7, by rw [c8, hcont], c9, c10⟩

end MDArray

namespace MDArray

/-- The scanning loop never takes the exit `return -1`: the store into the table that
precedes the test of the count is outside the table when the test would fire. -/
theorem read_molden_sections_loop_no_error (fuel : Nat) :
    ∀ (s : Trajectory) (f : FILE) (p nsec : Nat) (e : Option PyExc),
      (read_molden_sections_loop fuel s f p nsec).1 ≠ Res.error e := by
  induction fuel with
  | zero => intro s f p nsec e; simp [read_molden_sections_loop]
  | succ fuel ih =>
    intro s f p nsec e
    rw [read_molden_sections_loop]
    cases hg : f.getline with
    | none => simp
    | some pr =>
      obtain ⟨raw, g⟩ := pr
      dsimp only
      by_cases hh : (make_lowercase (stripline (cstr raw))).head? = some '['
      · rw [if_pos hh]
        cases hm : molden_section_header s (make_lowercase (stripline (cstr raw))) p nsec with
        | none => simp
        | some s2 =>
          dsimp only
          have hlt := (molden_section_header_some s s2 _ p nsec hm).1
          have hnot : ¬ (MAX_MOLDEN_SECTIONS < nsec + 1) := by omega
          rw [if_neg hnot]
          exact ih _ _ _ _ e
      · rw [if_neg hh]
        exact ih _ _ _ _ e

/-- With more headers ahead than the table has room for, the scanning loop runs into the
store outside the table (or into an earlier undefined store): its result is the fault. -/
theorem read_molden_sections_loop_overflow (fuel : Nat) :
    ∀ (s : Trajectory) (f : FILE) (nsec : Nat), nsec ≤ MAX_MOLDEN_SECTIONS →
      MAX_MOLDEN_SECTIONS < nsec + (headersFrom fuel f).length →
      (read_molden_sections_loop fuel s f f.ftell nsec).1 = Res.fault := by
  induction fuel with
  | zero =>
    intro s f nsec hn hover
    have he : headersFrom 0 f = [] := rfl
    rw [he] at hover
    simp only [List.length_nil] at hover
    omega
  | succ fuel ih =>
    intro s f nsec hn hover
    rw [read_molden_sections_loop]
    cases hg : f.getline with
    | none =>
      rw [headersFrom_eof fuel f hg] at hover
      simp only [List.length_nil] at hover
      omega
    | some pr =>
      obtain ⟨raw, g⟩ := pr
      dsimp only
      rw [headersFrom_succ fuel f g raw hg] at hover
      by_cases hh : (make_lowercase (stripline (cstr raw))).head? = some '['
      · rw [if_pos hh]
        have hH : isHeader raw = true := (isHeader_iff raw).2 hh
        rw [if_pos hH] at hover
        simp only [List.singleton_append, List.length_cons] at hover
        cases hm : molden_section_header s (make_lowercase (stripline (cstr raw))) f.ftell nsec with
        | none => rfl
        | some s2 =>
          dsimp only
          have hlt := (molden_section_header_some s s2 _ f.ftell nsec hm).1
          have hnot : ¬ (MAX_MOLDEN_SECTIONS < nsec + 1) := by omega
          rw [if_neg hnot]
          exact ih s2 g (nsec + 1) (by omega) (by omega)
      · rw [if_neg hh]
        have hH : ¬ (isHeader raw = true) := fun e => hh ((isHeader_iff raw).1 e)
        rw [if_neg hH, List.nil_append] at hover
        exact ih s g nsec hn hover

/-- With no more headers ahead than the table has room for, each with a closing bracket and
a name shorter than 20 bytes, the scanning loop comes to its end. -/
theorem read_molden_sections_loop_succeeds (fuel : Nat) :
    ∀ (s : Trajectory) (f : FILE) (nsec : Nat),
      nsec + (headersFrom fuel f).length ≤ MAX_MOLDEN_SECTIONS →
      (∀ p ∈ headersFrom fuel f, headerOk p.2 = true) →
      ∃ n s1 f1, read_molden_sections_loop fuel s f f.ftell nsec = (Res.ok n, s1, f1) := by
  induction fuel with
  | zero => intro s f nsec _ _; exact ⟨_, _, _, rfl⟩
  | succ fuel ih =>
    intro s f nsec hroom hok
    rw [read_molden_sections_loop]
    cases hg : f.getline with
    | none => exact ⟨_, _, _, rfl⟩
    | some pr =>
      obtain ⟨raw, g⟩ := pr
      dsimp only
      rw [headersFrom_succ fuel f g raw hg] at hroom hok
      by_cases hh : (make_lowercase (stripline (cstr raw))).head? = some '['
      · rw [if_pos hh]
        have hH : isHeader raw = true := (isHeader_iff raw).2 hh
        rw [if_pos hH] at hroom hok
        simp only [List.singleton_append, List.length_cons] at hroom
        obtain ⟨s2, hs2⟩ := molden_section_header_ok s raw f.ftell nsec
          (hok (f.ftell, raw) (by simp)) (by omega)
        have hs3 : molden_section_header s (make_lowercase (stripline (cstr raw))) f.ftell nsec
            = some s2 := hs2
        rw [hs3]
        dsimp only
        have hnot : ¬ (MAX_MOLDEN_SECTIONS < nsec + 1) := by omega
        rw [if_neg hnot]
        exact ih s2 g (nsec + 1) (by omega) (fun p hp => hok p (by simp [hp]))
      · rw [if_neg hh]
        have hH : ¬ (isHeader raw = true) := fun e => hh ((isHeader_iff raw).1 e)
        rw [if_neg hH, List.nil_append] at hroom hok
        exact ih s g nsec hroom hok

end MDArray

namespace MDArray

/-- The section scan, when it succeeds: the count, the style, the table and the stream. -/
theorem read_molden_sections_ok (s : Trajectory) (f : FILE) (n : Nat) (s1 : Trajectory)
    (h : read_molden_sections s f = (Res.ok n, s1)) :
    n = (moldenHeaders f).length ∧ n ≤ MAX_MOLDEN_SECTIONS ∧
    s1.moldenStyle
      = ((moldenHeaders f).map (fun p => sectionName p.2)).foldl styleStep s.moldenStyle ∧
    s1.moldenSect.length = MAX_MOLDEN_SECTIONS ∧
    (∀ k p, (moldenHeaders f).get? k = some p →
      s1.moldenSect.get? k = some ⟨(p.1 : Int), sectionName p.2⟩) ∧
    (∀ j, n ≤ j → j < MAX_MOLDEN_SECTIONS → s1.moldenSect.get? j = some ⟨-1, []⟩) ∧
    s1.fd = some ⟨f.content, 0⟩ ∧
    (∀ p ∈ moldenHeaders f, headerOk p.2 = true) ∧
    ((s.moldenStyle = MoldenStyle.MLFREQ → s.units = Units.BOHR) →
      (s1.moldenStyle = MoldenStyle.MLFREQ → s1.units = Units.BOHR)) := by
  unfold read_molden_sections at h
  dsimp only at h
  generalize hL : read_molden_sections_loop (f.rewind.content.length + 1)
    { s with moldenSect := List.replicate MAX_MOLDEN_SECTIONS ⟨-1, []⟩ } f.rewind
    f.rewind.ftell 0 = L at h
  obtain ⟨r, s2, f2⟩ := L
  rcases r with m | e | _
  · simp only [Prod.mk.injEq, Res.ok.injEq] at h
    obtain ⟨rfl, rfl⟩ := h
    obtain ⟨c1, c2, c3, c4, c5, c6, c7, c8, c9, c10⟩ :=
      read_molden_sections_loop_ok _ _ _ 0 m s2 f2 hL (by decide)
    have hH : headersFrom (f.rewind.content.length + 1) f.rewind = moldenHeaders f := rfl
    rw [hH] at c1 c3 c6 c7 c9
    simp only [Nat.zero_add] at c1 c6 c7
    have hlen : s2.moldenSect.length = MAX_MOLDEN_SECTIONS := by
      rw [c4]; simp
    refine ⟨c1, c2, c3, hlen, ?_, ?_, ?_, c9, c10⟩
    · intro k p hk
      have hkl : k < (moldenHeaders f).length := by
        rw [List.get?_eq_getElem?] at hk
        by_contra hc
        rw [List.getElem?_eq_none (by omega)] at hk
        simp at hk
      exact c7 k p hk (by simp; omega)
    · intro j hj hj2
      rw [c6 j (by omega)]
      simp only [List.get?_eq_getElem?]
      rw [List.getElem?_replicate]
      simp [hj2]
    · show some f2.rewind = _
      rw [FILE.rewind, c8]
      rfl
  · simp at h
  · simp at h

/-- The section scan never returns -1. -/
theorem read_molden_sections_no_error (s : Trajectory) (f : FILE) (e : Option PyExc) :
    (read_molden_sections s f).1 ≠ Res.error e := by
  unfold read_molden_sections
  dsimp only
  have h := read_molden_sections_loop_no_error (f.rewind.content.length + 1)
    { s with moldenSect := List.replicate MAX_MOLDEN_SECTIONS ⟨-1, []⟩ } f.rewind
    f.rewind.ftell 0 e
  generalize read_molden_sections_loop _ _ _ _ _ = L at h ⊢
  obtain ⟨r, s2, f2⟩ := L
  rcases r with m | e2 | _
  · simp
  · exact h
  · simp

/-- On a file with more than 50 section headers the section scan stores past the end of the
table: its result is the fault, not -1. -/
theorem read_molden_sections_overflow (s : Trajectory) (f : FILE)
    (h : MAX_MOLDEN_SECTIONS < (moldenHeaders f).length) :
    (read_molden_sections s f).1 = Res.fault := by
  unfold read_molden_sections
  dsimp only
  have h2 := read_molden_sections_loop_overflow (f.rewind.content.length + 1)
    { s with moldenSect := List.replicate MAX_MOLDEN_SECTIONS ⟨-1, []⟩ } f.rewind 0
    (by decide) (by simpa using h)
  generalize read_molden_sections_loop _ _ _ _ _ = L at h2 ⊢
  obtain ⟨r, s2, f2⟩ := L
  rcases r with m | e2 | _
  · simp at h2
  · simp at h2
  · rfl

/-- On a file with at most 50 section headers, each with a closing bracket and a name
shorter than 20 bytes, the section scan succeeds. -/
theorem read_molden_sections_succeeds (s : Trajectory) (f : FILE)
    (hroom : (moldenHeaders f).length ≤ MAX_MOLDEN_SECTIONS)
    (hok : ∀ p ∈ moldenHeaders f, headerOk p.2 = true) :
    ∃ s1, read_molden_sections s f = (Res.ok (moldenHeaders f).length, s1) := by
  obtain ⟨n, s2, f2, hL⟩ := read_molden_sections_loop_succeeds (f.rewind.content.length + 1)
    { s with moldenSect := List.replicate MAX_MOLDEN_SECTIONS ⟨-1, []⟩ } f.rewind 0
    (by simpa using hroom) hok
  have hr : read_molden_sections s f = (Res.ok n, { s2 with fd := some f2.rewind }) := by
    unfold read_molden_sections
    dsimp only
    rw [hL]
  have := (read_molden_sections_ok s f n _ hr).1
  rw [← this]
  exact ⟨_, hr⟩

/-- The raw line listed at an offset is the line `getline` delivers at that offset, and the
line after it begins where it ends. -/
theorem rawLines_getline (fuel : Nat) :
    ∀ (f : FILE) (p : Nat × List Char), p ∈ rawLines fuel f →
      FILE.getline ⟨f.content, p.1⟩ = some (p.2, ⟨f.content, p.1 + p.2.length⟩) := by
  induction fuel with
  | zero => intro f p hp; simp [rawLines] at hp
  | succ fuel ih =>
    intro f p hp
    rw [rawLines] at hp
    cases hg : f.getline with
    | none => rw [hg] at hp; simp at hp
    | some pr =>
      obtain ⟨raw, g⟩ := pr
      rw [hg] at hp
      simp only [List.mem_cons] at hp
      obtain ⟨hc, hpos, _⟩ := getline_content f g raw hg
      rcases hp with rfl | hp
      · have hf : (⟨f.content, f.ftell⟩ : FILE) = f := rfl
        rw [hf, hg]
        congr 2
        cases g
        simp only [FILE.mk.injEq] at hc hpos ⊢
        exact ⟨hc, hpos⟩
      · have := ih g p hp
        rw [hc] at this
        exact this

end MDArray

namespace MDArray

/-! ### The claims about the section scan -/

/-- C16. After a successful section scan on a session whose style is still UNKNOWN, the
style is GEOMETRIES if a header is recorded under the name `geometries`, otherwise ATOMS if
one is recorded under `atoms`, otherwise FR-COORD if one is recorded under `fr-coord`,
otherwise UNKNOWN, whatever the order of the sections in the file; in particular a file with
an ATOMS and a GEOMETRIES section resolves to GEOMETRIES. -/
theorem C16_style_precedence (s : Trajectory) (f : FILE) (n : Nat) (s1 : Trajectory)
    (hfresh : s.moldenStyle = MoldenStyle.MLUNK)
    (hscan : read_molden_sections s f = (Res.ok n, s1)) :
    s1.moldenStyle
      = (if "geometries".toList ∈ (moldenHeaders f).map (fun p => sectionName p.2) then
          MoldenStyle.MLGEOM
        else if "atoms".toList ∈ (moldenHeaders f).map (fun p => sectionName p.2) then
          MoldenStyle.MLATOMS
        else if "fr-coord".toList ∈ (moldenHeaders f).map (fun p => sectionName p.2) then
          MoldenStyle.MLFREQ
        else MoldenStyle.MLUNK) ∧
    ("atoms".toList ∈ (moldenHeaders f).map (fun p => sectionName p.2) →
      "geometries".toList ∈ (moldenHeaders f).map (fun p => sectionName p.2) →
      s1.moldenStyle = MoldenStyle.MLGEOM) := by
  obtain ⟨_, _, hstyle, _⟩ := read_molden_sections_ok s f n s1 hscan
  rw [hfresh, foldl_styleStep_unk] at hstyle
  refine ⟨hstyle, fun _ hg => ?_⟩
  rw [hstyle]
  unfold resolvedStyle
  rw [if_pos hg]

/-- C16, witness: a file with an ATOMS section in front of a GEOMETRIES section scans to
three headers and the style GEOMETRIES. -/
theorem C16_style_precedence_witness :
    (read_molden_sections Trajectory_new ⟨exampleBothFile, 0⟩).1 = Res.ok 3 ∧
    (read_molden_sections Trajectory_new ⟨exampleBothFile, 0⟩).2.moldenStyle
      = MoldenStyle.MLGEOM :=
  ⟨by decide,
   (C16_style_precedence Trajectory_new ⟨exampleBothFile, 0⟩ 3
      (read_molden_sections Trajectory_new ⟨exampleBothFile, 0⟩).2 rfl (by decide)).2
      (by decide) (by decide)⟩

set_option maxRecDepth 100000 in
/-- On a file of 51 section headers the scan stores the 51st header past the end of the
50-slot table (the fault of the model) before it compares the count with the maximum,
whereas 50 headers are scanned and counted. -/
theorem read_molden_sections_fifty_one :
    (moldenHeaders ⟨exampleSections 51, 0⟩).length = 51 ∧
    (read_molden_sections Trajectory_new ⟨exampleSections 51, 0⟩).1 = Res.fault ∧
    (read_molden_sections Trajectory_new ⟨exampleSections 50, 0⟩).1 = Res.ok 50 :=
  ⟨by decide, read_molden_sections_overflow Trajectory_new ⟨exampleSections 51, 0⟩ (by decide),
    by decide⟩

/-- C18 (as amended). For every section header recorded by a successful section scan, the
stored offset is the byte offset at which the header line itself begins: `getline` at that
offset delivers the header line, and the first line of the body of the section begins at the
offset plus the length of the header line. -/
theorem C18_offset_of_header_line (s : Trajectory) (f : FILE) (n : Nat) (s1 : Trajectory)
    (hscan : read_molden_sections s f = (Res.ok n, s1)) :
    n = (moldenHeaders f).length ∧
    ∀ k p, (moldenHeaders f).get? k = some p →
      ∃ sec, s1.moldenSect.get? k = some sec ∧ sec.offset = (p.1 : Int) ∧
        isHeader p.2 = true ∧
        (f.fseek sec.offset).getline = some (p.2, ⟨f.content, p.1 + p.2.length⟩) := by
  obtain ⟨hn, _, _, _, hrec, _⟩ := read_molden_sections_ok s f n s1 hscan
  refine ⟨hn, fun k p hk => ⟨⟨(p.1 : Int), sectionName p.2⟩, hrec k p hk, rfl, ?_, ?_⟩⟩
  · have hmem : p ∈ moldenHeaders f := List.get?_mem hk
    unfold moldenHeaders headersFrom at hmem
    rw [List.mem_filter] at hmem
    exact hmem.2
  · have hmem : p ∈ moldenHeaders f := List.get?_mem hk
    unfold moldenHeaders headersFrom at hmem
    rw [List.mem_filter] at hmem
    have := rawLines_getline _ f.rewind p hmem.1
    have hseek : f.fseek ((p.1 : Nat) : Int) = ⟨f.content, p.1⟩ := by
      unfold FILE.fseek
      simp
    show (f.fseek ((p.1 : Nat) : Int)).getline = _
    rw [hseek]
    exact this

/-- C18, witness: in the scan of `[Molden Format]`, `[Atoms] Angs` and two atom lines, the
second header is recorded at offset 16, where its own line begins. -/
theorem C18_offset_of_header_line_witness :
    ∃ sec, (read_molden_sections Trajectory_new ⟨exampleMoldenFile, 0⟩).2.moldenSect.get? 1
        = some sec ∧ sec.offset = ((16 : Nat) : Int) ∧
      isHeader "[Atoms] Angs\n".toList = true ∧
      (FILE.fseek ⟨exampleMoldenFile, 0⟩ sec.offset).getline
        = some ("[Atoms] Angs\n".toList, ⟨exampleMoldenFile, 16 + "[Atoms] Angs\n".toList.length⟩) :=
  (C18_offset_of_header_line Trajectory_new ⟨exampleMoldenFile, 0⟩ 2
    (read_molden_sections Trajectory_new ⟨exampleMoldenFile, 0⟩).2 (by decide)).2 1
    (16, "[Atoms] Angs\n".toList) (by decide)

/-- C18 as written fails: for the header `[Atoms] Angs`, which begins at byte 16 and whose
body (the line `H 1 1 0.0 0.0 0.0`) begins at byte 29, the stored offset is 16, not 29. -/
theorem C18_counterexample :
    (read_molden_sections Trajectory_new ⟨exampleMoldenFile, 0⟩).1 = Res.ok 2 ∧
    (read_molden_sections Trajectory_new ⟨exampleMoldenFile, 0⟩).2.moldenSect.get? 1
      = some ⟨16, "atoms".toList⟩ ∧
    (exampleMoldenFile.drop 16).take 13 = "[Atoms] Angs\n".toList ∧
    (exampleMoldenFile.drop 29).take 18 = "H 1 1 0.0 0.0 0.0\n".toList ∧
    (16 : Int) ≠ 29 := by
  decide

end MDArray

namespace MDArray

/-! ### The recorded names -/

theorem tolower_eq_bracket (c : Char) (b : Char) (hb : b = ']' ∨ b = '[') :
    tolower c = b ↔ c = b := by
  unfold tolower
  by_cases h : 65 ≤ c.toNat ∧ c.toNat ≤ 90
  · rw [if_pos h]
    constructor
    · intro heq
      exfalso
      obtain ⟨h1, h2⟩ := h
      generalize c.toNat = k at h1 h2 heq
      rcases hb with rfl | rfl <;> interval_cases k <;> exact absurd heq (by decide)
    · intro heq
      exfalso
      rw [heq] at h
      rcases hb with rfl | rfl <;> exact absurd h (by decide)
  · rw [if_neg h]

theorem indexOfBracket_lowercase (l : List Char) :
    indexOfBracket (make_lowercase l) = indexOfBracket l := by
  unfold make_lowercase
  induction l with
  | nil => rfl
  | cons c cs ih =>
    simp only [List.map_cons, indexOfBracket]
    by_cases h : c = ']'
    · have : tolower c = ']' := (tolower_eq_bracket c ']' (Or.inl rfl)).2 h
      rw [if_pos this, if_pos h]
    · have : ¬ (tolower c = ']') := fun e => h ((tolower_eq_bracket c ']' (Or.inl rfl)).1 e)
      rw [if_neg this, if_neg h, ih]

/-- The text in the brackets of the lowercased line is the lowercased text in the brackets
of the line. -/
theorem bracketText_lowercase (l : List Char) :
    bracketText (make_lowercase l) = make_lowercase (bracketText l) := by
  unfold bracketText
  rw [indexOfBracket_lowercase]
  unfold make_lowercase
  rw [List.map_take, List.map_drop]

theorem head_lowercase_bracket (l : List Char) (h : (make_lowercase l).head? = some '[') :
    l.head? = some '[' := by
  unfold make_lowercase at h
  cases l with
  | nil => simp at h
  | cons c cs =>
    simp only [List.map_cons, List.head?_cons, Option.some.injEq] at h ⊢
    exact (tolower_eq_bracket c '[' (Or.inr rfl)).1 h

/-- C19 (as amended). For every header recorded by a successful section scan (a line that
begins with `[` after stripping the line), the recorded name is the text between that `[`
and the first `]` of the stripped line, converted to lower case and otherwise as it stands:
white space inside the brackets is kept.  Headers whose stripped lines differ only in letter
case are recorded under the same name. -/
theorem C19_recorded_name (s : Trajectory) (f : FILE) (n : Nat) (s1 : Trajectory)
    (hscan : read_molden_sections s f = (Res.ok n, s1)) :
    (∀ k p, (moldenHeaders f).get? k = some p →
      ∃ sec i, s1.moldenSect.get? k = some sec ∧
        (stripline (cstr p.2)).head? = some '[' ∧
        indexOfBracket (stripline (cstr p.2)) = some i ∧
        sec.name = make_lowercase (((stripline (cstr p.2)).drop 1).take (i - 1))) ∧
    (∀ raw1 raw2 : List Char,
      make_lowercase (stripline (cstr raw1)) = make_lowercase (stripline (cstr raw2)) →
      sectionName raw1 = sectionName raw2) := by
  obtain ⟨_, _, _, _, hrec, _, _, hok, _⟩ := read_molden_sections_ok s f n s1 hscan
  constructor
  · intro k p hk
    have hmem : p ∈ moldenHeaders f := List.get?_mem hk
    have hhead : isHeader p.2 = true := by
      unfold moldenHeaders headersFrom at hmem
      rw [List.mem_filter] at hmem
      exact hmem.2
    have hpok := hok p hmem
    unfold headerOk moldenLine at hpok
    rw [indexOfBracket_lowercase] at hpok
    cases hi : indexOfBracket (stripline (cstr p.2)) with
    | none => rw [hi] at hpok; simp at hpok
    | some i =>
      refine ⟨⟨(p.1 : Int), sectionName p.2⟩, i, hrec k p hk,
        head_lowercase_bracket _ ((isHeader_iff p.2).1 hhead), rfl, ?_⟩
      show sectionName p.2 = _
      unfold sectionName moldenLine
      rw [bracketText_lowercase]
      unfold bracketText
      rw [hi]
      rfl
  · intro raw1 raw2 h
    unfold sectionName moldenLine
    rw [h]

/-- C19, witness: the header `[Atoms] Angs` is recorded under the name `atoms`, and the
headers `[Atoms]` and `[ATOMS]` get the same name. -/
theorem C19_recorded_name_witness :
    (∃ sec i, (read_molden_sections Trajectory_new ⟨exampleMoldenFile, 0⟩).2.moldenSect.get? 1
        = some sec ∧
      (stripline (cstr "[Atoms] Angs\n".toList)).head? = some '[' ∧
      indexOfBracket (stripline (cstr "[Atoms] Angs\n".toList)) = some i ∧
      sec.name = make_lowercase (((stripline (cstr "[Atoms] Angs\n".toList)).drop 1).take (i - 1)))
    ∧ sectionName "[Atoms]\n".toList = sectionName "[ATOMS]\n".toList :=
  have h := C19_recorded_name Trajectory_new ⟨exampleMoldenFile, 0⟩ 2
    (read_molden_sections Trajectory_new ⟨exampleMoldenFile, 0⟩).2 (by decide)
  ⟨h.1 1 (16, "[Atoms] Angs\n".toList) (by decide),
    h.2 "[Atoms]\n".toList "[ATOMS]\n".toList (by decide)⟩

/-- C19 as written fails: the header `[ ATOMS ] Angs` is recorded under the name ` atoms `,
blanks included, not under `atoms`, and does not select the style ATOMS, which the header
`[Atoms] Angs` does. -/
theorem C19_counterexample :
    (read_molden_sections Trajectory_new ⟨exampleSpacedFile, 0⟩).1 = Res.ok 2 ∧
    (read_molden_sections Trajectory_new ⟨exampleSpacedFile, 0⟩).2.moldenSect.get? 1
      = some ⟨16, " atoms ".toList⟩ ∧
    (read_molden_sections Trajectory_new ⟨exampleSpacedFile, 0⟩).2.moldenStyle
      = MoldenStyle.MLUNK ∧
    (read_molden_sections Trajectory_new ⟨exampleMoldenFile, 0⟩).2.moldenSect.get? 1
      = some ⟨16, "atoms".toList⟩ ∧
    (read_molden_sections Trajectory_new ⟨exampleMoldenFile, 0⟩).2.moldenStyle
      = MoldenStyle.MLATOMS := by
  decide

end MDArray

namespace MDArray

/-- The shared tail of the topology reader leaves the unit alone. -/
theorem read_topo_from_molden_atoms_units (env : Env) (s : Trajectory) (f : FILE) (nat : Nat) :
    (read_topo_from_molden_atoms env s f nat).2.units = s.units := by
  unfold read_topo_from_molden_atoms
  dsimp only
  generalize read_topo_from_molden_loop env _ nat 0 f _ [] = L
  obtain ⟨r, f3, syms⟩ := L
  rcases r with ⟨f3', syms', anum⟩ | e | _ <;> rfl

/-- A scan that starts with no style and resolves to FR-COORD leaves the unit BOHR, whatever
unit the session had before the scan. -/
theorem read_molden_sections_frcoord_units (s : Trajectory) (f : FILE) (n : Nat)
    (s1 : Trajectory) (hfresh : s.moldenStyle = MoldenStyle.MLUNK)
    (h : read_molden_sections s f = (Res.ok n, s1))
    (hs : s1.moldenStyle = MoldenStyle.MLFREQ) : s1.units = Units.BOHR := by
  obtain ⟨_, _, _, _, _, _, _, _, c⟩ := read_molden_sections_ok s f n s1 h
  refine c ?_ hs
  intro h2
  rw [hfresh] at h2
  have h3 : MoldenStyle.MLUNK = MoldenStyle.MLFREQ := h2
  exact absurd h3 (by decide)

/-- In the style FR-COORD the topology reader leaves the unit alone. -/
theorem read_topo_from_molden_frcoord_units (env : Env) (s : Trajectory) (f : FILE)
    (hs : s.moldenStyle = MoldenStyle.MLFREQ) :
    (read_topo_from_molden env s f).2.units = s.units := by
  unfold read_topo_from_molden
  split
  · rfl
  · dsimp only
    split
    · rfl
    · split
      · rfl
      · rename_i nat self1 hc
        have hs1 : self1.units = s.units ∧ self1.moldenStyle = MoldenStyle.MLFREQ := by
          split at hc
          · split at hc
            · simp at hc
            · simp only [Option.some.injEq, Prod.mk.injEq] at hc
              rw [← hc.2]
              exact ⟨rfl, hs⟩
          · simp only [Option.some.injEq, Prod.mk.injEq] at hc
            rw [← hc.2]
            exact ⟨rfl, hs⟩
        split
        · exact hs1.1
        · split
          · rename_i hm
            have h2 : self1.moldenStyle = MoldenStyle.MLGEOM := hm
            rw [hs1.2] at h2
            exact absurd h2 (by decide)
          · rename_i hm
            have h2 : self1.moldenStyle = MoldenStyle.MLATOMS := hm
            rw [hs1.2] at h2
            exact absurd h2 (by decide)
          · rw [read_topo_from_molden_atoms_units]; exact hs1.1
          · exact hs1.1

/-- C15 as written fails: the file `freq.molden` of the examples has the one coordinate
section FR-COORD.  Opened with the unit hint `angs`, with the hint `nm`, with the hint `bohr`
and with no hint, the open succeeds with the style FR-COORD and the session unit BOHR each
time, not the caller's hint: the assignment of BOHR in the scan of the sections runs after
the unit selection and replaces the unit the caller asked for.  The same hint on a
generic-format file is kept (NM). -/
theorem C15_counterexample :
    ((Trajectory_init exampleEnv exampleSectionedFs Trajectory_new
        (readArgsFor "freq.molden".toList none (some (PyObject.Str "angs".toList)))).1
        = Res.ok () ∧
      (Trajectory_init exampleEnv exampleSectionedFs Trajectory_new
        (readArgsFor "freq.molden".toList none (some (PyObject.Str "angs".toList)))).2.1.moldenStyle
        = MoldenStyle.MLFREQ ∧
      (Trajectory_init exampleEnv exampleSectionedFs Trajectory_new
        (readArgsFor "freq.molden".toList none (some (PyObject.Str "angs".toList)))).2.1.units
        = Units.BOHR) ∧
    ((Trajectory_init exampleEnv exampleSectionedFs Trajectory_new
        (readArgsFor "freq.molden".toList none (some (PyObject.Str "nm".toList)))).1
        = Res.ok () ∧
      (Trajectory_init exampleEnv exampleSectionedFs Trajectory_new
        (readArgsFor "freq.molden".toList none (some (PyObject.Str "nm".toList)))).2.1.units
        = Units.BOHR) ∧
    ((Trajectory_init exampleEnv exampleSectionedFs Trajectory_new
        (readArgsFor "freq.molden".toList none (some (PyObject.Str "bohr".toList)))).1
        = Res.ok () ∧
      (Trajectory_init exampleEnv exampleSectionedFs Trajectory_new
        (readArgsFor "freq.molden".toList none (some (PyObject.Str "bohr".toList)))).2.1.units
        = Units.BOHR) ∧
    ((Trajectory_init exampleEnv exampleSectionedFs Trajectory_new
        (readArgsFor "freq.molden".toList none none)).1 = Res.ok () ∧
      (Trajectory_init exampleEnv exampleSectionedFs Trajectory_new
        (readArgsFor "freq.molden".toList none none)).2.1.units = Units.BOHR) ∧
    ((Trajectory_init exampleEnv exampleSectionedFs Trajectory_new
        (readArgsFor "water.xyz".toList none (some (PyObject.Str "nm".toList)))).1
        = Res.ok () ∧
      (Trajectory_init exampleEnv exampleSectionedFs Trajectory_new
        (readArgsFor "water.xyz".toList none (some (PyObject.Str "nm".toList)))).2.1.units
        = Units.NM) := by
  decide

end MDArray

namespace MDArray

/-- C20. The topology reader in the style ATOMS, on a session whose table has a section
`atoms` and a stream that yields the header line of that section.  The line, stripped and
lowercased, is compared with two whole strings: when it is `[atoms] angs` the atoms are read
with the unit set to ANGS, when it is `[atoms] au` with the unit set to BOHR, whatever the
unit of the session was; any other line, the bare header `[atoms]` among them, ends the call
with RuntimeError and the unit of the session as it was. -/
theorem C20_atoms_unit_token (env : Env) (s : Trajectory) (f : FILE) (idx : Nat)
    (raw : List Char) (f2 : FILE)
    (hstyle : s.moldenStyle = MoldenStyle.MLATOMS)
    (hidx : get_section_idx s "atoms".toList = some idx)
    (hline : _getline (f.fseek (((s.moldenSect.get? idx).map (fun sec => sec.offset)).getD 0))
      = some (raw, f2)) :
    (moldenLine raw = "[atoms] angs".toList →
      read_topo_from_molden env s f
        = read_topo_from_molden_atoms env
            { s with nAtoms := ((molden_count_atoms (f2.content.length + 1) f2 0).1 : Int),
                     fd := some f2, filePosition1 := (f2.ftell : Int), units := Units.ANGS }
            f2 (molden_count_atoms (f2.content.length + 1) f2 0).1 ∧
      (read_topo_from_molden env s f).2.units = Units.ANGS) ∧
    (moldenLine raw = "[atoms] au".toList →
      read_topo_from_molden env s f
        = read_topo_from_molden_atoms env
            { s with nAtoms := ((molden_count_atoms (f2.content.length + 1) f2 0).1 : Int),
                     fd := some f2, filePosition1 := (f2.ftell : Int), units := Units.BOHR }
            f2 (molden_count_atoms (f2.content.length + 1) f2 0).1 ∧
      (read_topo_from_molden env s f).2.units = Units.BOHR) ∧
    (moldenLine raw ≠ "[atoms] angs".toList → moldenLine raw ≠ "[atoms] au".toList →
      (read_topo_from_molden env s f).1 = Res.error (some PyExc.RuntimeError) ∧
      (read_topo_from_molden env s f).2.units = s.units) := by
  have hne : ¬ s.moldenStyle = MoldenStyle.MLUNK := by
    rw [hstyle]; decide
  have hred : read_topo_from_molden env s f
      = (if moldenLine raw = "[atoms] angs".toList then
          read_topo_from_molden_atoms env
            { s with nAtoms := ((molden_count_atoms (f2.content.length + 1) f2 0).1 : Int),
                     fd := some f2, filePosition1 := (f2.ftell : Int), units := Units.ANGS }
            f2 (molden_count_atoms (f2.content.length + 1) f2 0).1
        else if moldenLine raw = "[atoms] au".toList then
          read_topo_from_molden_atoms env
            { s with nAtoms := ((molden_count_atoms (f2.content.length + 1) f2 0).1 : Int),
                     fd := some f2, filePosition1 := (f2.ftell : Int), units := Units.BOHR }
            f2 (molden_count_atoms (f2.content.length + 1) f2 0).1
        else (Res.error (some PyExc.RuntimeError),
            { s with nAtoms := ((molden_count_atoms (f2.content.length + 1) f2 0).1 : Int),
                     fd := some f2, filePosition1 := (f2.ftell : Int) })) := by
    unfold read_topo_from_molden
    rw [if_neg hne]
    simp only [hstyle, hidx, hline, true_or, if_true, moldenLine]
  refine ⟨?_, ?_, ?_⟩
  · intro h
    rw [hred, if_pos h]
    exact ⟨rfl, read_topo_from_molden_atoms_units _ _ _ _⟩
  · intro h
    have h1 : moldenLine raw ≠ "[atoms] angs".toList := by
      rw [h]; decide
    rw [hred, if_neg h1, if_pos h]
    exact ⟨rfl, read_topo_from_molden_atoms_units _ _ _ _⟩
  · intro h1 h2
    rw [hred, if_neg h1, if_neg h2]
    exact ⟨rfl, rfl⟩

/-- The file `au.molden`, scanned with the unit NM: the header `[Atoms] AU` sets BOHR, and
the two atoms are read. -/
theorem C20_atoms_unit_token_witness :
    (read_topo_from_molden exampleEnv exampleAuSession ⟨exampleAuFile, 0⟩).1 = Res.ok () ∧
    (read_topo_from_molden exampleEnv exampleAuSession ⟨exampleAuFile, 0⟩).2.units
      = Units.BOHR :=
  ⟨by decide,
   ((C20_atoms_unit_token exampleEnv exampleAuSession ⟨exampleAuFile, 0⟩ 1
      "[Atoms] AU\n".toList ⟨exampleAuFile, 27⟩ (by decide) (by decide) (by decide)).2.1
      (by decide)).2⟩

/-- The file `nounit.molden` has the header `[Atoms]` with no unit token: the topology
reader fails with RuntimeError and the unit stays as it was, and so the open of the file
fails with RuntimeError. -/
theorem C20_counterexample :
    exampleNoUnitSession.moldenStyle = MoldenStyle.MLATOMS ∧
    (read_topo_from_molden exampleEnv exampleNoUnitSession ⟨exampleNoUnitFile, 0⟩).1
      = Res.error (some PyExc.RuntimeError) ∧
    (read_topo_from_molden exampleEnv exampleNoUnitSession ⟨exampleNoUnitFile, 0⟩).2.units
      = Units.NM ∧
    (Trajectory_init exampleEnv exampleSectionedFs Trajectory_new
      (readArgsFor "nounit.molden".toList none none)).1
      = Res.error (some PyExc.RuntimeError) := by
  decide

end MDArray

namespace MDArray

/-! ### The atoms of a section -/

/-- The counting loop counts the raw lines in front of the next section header. -/
theorem molden_count_atoms_count (fuel : Nat) :
    ∀ (f : FILE) (nat : Nat),
      (molden_count_atoms fuel f nat).1
        = nat + (((rawLines fuel f).map (fun p => p.2)).takeWhile
            (fun raw => !decide ((stripline (cstr raw)).head? = some '['))).length := by
  induction fuel with
  | zero => intro f nat; simp [molden_count_atoms, rawLines]
  | succ fuel ih =>
    intro f nat
    rw [molden_count_atoms, rawLines]
    cases hg : f.getline with
    | none => simp
    | some pr =>
      obtain ⟨raw, f1⟩ := pr
      dsimp only
      by_cases hh : (stripline (cstr raw)).head? = some '['
      · rw [if_pos hh]
        simp [List.takeWhile_cons, hh]
      · rw [if_neg hh, ih]
        simp [List.takeWhile_cons, hh]
        omega

/-- The count of the atoms of a section is the length of its body. -/
theorem molden_count_atoms_body (f : FILE) :
    (molden_count_atoms (f.content.length + 1) f 0).1 = (sectionBody f).length := by
  rw [molden_count_atoms_count, Nat.zero_add]
  rfl

/-- The atom loop of the sectioned topology reader on raw lines that lie ahead in the
stream and have the tokens the style asks for: it records the first token of each line as
the symbol and appends the atomic number of each line. -/
theorem read_topo_from_molden_loop_ok (env : Env) (style : MoldenStyle) :
    ∀ (ls : List (List Char)) (fuel : Nat) (f : FILE) (A : List (Option (List Char)))
      (anum : List Int),
      ls <+: (rawLines fuel f).map (fun p => p.2) →
      (∀ l ∈ ls, moldenAtomLineOk style l = true) →
      read_topo_from_molden_loop env style ls.length A.length f
          (PyObject.PList (A ++ List.replicate ls.length none)) anum
        = (Res.ok (⟨f.content, f.pos + (ls.map List.length).sum⟩,
              PyObject.PList (A ++ ls.map moldenSymbol),
              anum ++ ls.map (moldenNumber env style)),
            ⟨f.content, f.pos + (ls.map List.length).sum⟩,
            PyObject.PList (A ++ ls.map moldenSymbol)) := by
  intro ls
  induction ls with
  | nil =>
    intro fuel f A anum _ _
    simp [read_topo_from_molden_loop]
  | cons l ls ih =>
    intro fuel f A anum hpre hl
    cases fuel with
    | zero => simp [rawLines] at hpre
    | succ fuel =>
      rw [rawLines] at hpre
      cases hg : f.getline with
      | none => rw [hg] at hpre; simp at hpre
      | some pr =>
        obtain ⟨raw, f1⟩ := pr
        rw [hg] at hpre
        simp only [List.map_cons] at hpre
        rw [List.cons_prefix_cons] at hpre
        obtain ⟨rfl, hpre1⟩ := hpre
        obtain ⟨hc1, hp1, _⟩ := getline_content f f1 l hg
        have hal := hl l (by simp)
        unfold moldenAtomLineOk at hal
        simp only [Bool.and_eq_true, decide_eq_true_eq] at hal
        obtain ⟨hlen, htok⟩ := hal
        have hlen2 : ¬ (1000 ≤ (cstr l).length) := by omega
        have hls : ∀ x ∈ ls, moldenAtomLineOk style x = true := fun x hx => hl x (by simp [hx])
        have hset : PyList_SetItem (PyObject.PList (A ++ List.replicate (ls.length + 1) none))
            A.length (strtok (cstr l)).head?
            = PyObject.PList ((A ++ [moldenSymbol l]) ++ List.replicate ls.length none) := by
          show PyObject.PList _ = _
          rw [set_append_replicate, List.append_assoc, List.singleton_append]
          rfl
        have hA : (A ++ [moldenSymbol l]).length = A.length + 1 := by simp
        have hf1 : (⟨f1.content, f1.pos + (ls.map List.length).sum⟩ : FILE)
            = ⟨f.content, f.pos + ((l :: ls).map List.length).sum⟩ := by
          rw [hc1, hp1]
          simp [Nat.add_assoc]
        simp only [List.length_cons]
        rw [read_topo_from_molden_loop]
        simp only [_getline, hg]
        rw [if_neg hlen2]
        simp only [hset]
        by_cases hst : style = MoldenStyle.MLATOMS
        · rw [if_pos hst] at htok ⊢
          cases h2 : (strtok (cstr l)).get? 2 with
          | none => rw [h2] at htok; simp at htok
          | some token =>
            dsimp only
            have h := ih fuel f1 (A ++ [moldenSymbol l]) (anum ++ [atoi token]) hpre1 hls
            rw [hA] at h
            have h3 := h2
            rw [List.get?_eq_getElem?] at h3
            rw [h, hf1]
            simp [moldenNumber, hst, h3]
        · rw [if_neg hst] at htok ⊢
          unfold moldenSymbol at htok
          cases h2 : (strtok (cstr l)).head? with
          | none => rw [h2] at htok; simp at htok
          | some token =>
            dsimp only
            cases hidx : env.getElementIndexBySymbol token with
            | none =>
              dsimp only
              have h := ih fuel f1 (A ++ [moldenSymbol l]) (anum ++ [-1]) hpre1 hls
              rw [hA] at h
              rw [h, hf1]
              simp [moldenNumber, hst, moldenSymbol, h2, tableNumber, hidx]
            | some idx =>
              dsimp only
              have h := ih fuel f1 (A ++ [moldenSymbol l]) (anum ++ [env.element_number idx])
                hpre1 hls
              rw [hA] at h
              rw [h, hf1]
              simp [moldenNumber, hst, moldenSymbol, h2, tableNumber, hidx]

end MDArray

namespace MDArray

/-- The shared tail of the sectioned topology reader leaves the atom count alone. -/
theorem read_topo_from_molden_atoms_nAtoms (env : Env) (s : Trajectory) (f : FILE) (nat : Nat) :
    (read_topo_from_molden_atoms env s f nat).2.nAtoms = s.nAtoms := by
  unfold read_topo_from_molden_atoms
  dsimp only
  generalize read_topo_from_molden_loop env _ nat 0 f _ [] = L
  obtain ⟨r, f3, syms⟩ := L
  rcases r with ⟨f3', syms', anum⟩ | e | _ <;> rfl

/-- The sectioned topology reader in the styles ATOMS and FR-COORD, once the section is
found and its header line is read: the atoms are counted, and the shared tail runs on the
stream behind the header line (in the style ATOMS after the unit of the header is taken). -/
theorem read_topo_from_molden_counted (env : Env) (s : Trajectory) (f : FILE) (idx : Nat)
    (raw : List Char) (f2 : FILE)
    (hstyle : s.moldenStyle = MoldenStyle.MLATOMS ∨ s.moldenStyle = MoldenStyle.MLFREQ)
    (hidx : get_section_idx s (styleSection s.moldenStyle) = some idx)
    (hline : _getline (f.fseek (((s.moldenSect.get? idx).map (fun sec => sec.offset)).getD 0))
      = some (raw, f2)) :
    read_topo_from_molden env s f
      = (if s.moldenStyle = MoldenStyle.MLFREQ then
          read_topo_from_molden_atoms env
            { s with nAtoms := ((sectionBody f2).length : Int),
                     fd := some f2, filePosition1 := (f2.ftell : Int) }
            f2 (sectionBody f2).length
        else if moldenLine raw = "[atoms] angs".toList then
          read_topo_from_molden_atoms env
            { s with nAtoms := ((sectionBody f2).length : Int),
                     fd := some f2, filePosition1 := (f2.ftell : Int), units := Units.ANGS }
            f2 (sectionBody f2).length
        else if moldenLine raw = "[atoms] au".toList then
          read_topo_from_molden_atoms env
            { s with nAtoms := ((sectionBody f2).length : Int),
                     fd := some f2, filePosition1 := (f2.ftell : Int), units := Units.BOHR }
            f2 (sectionBody f2).length
        else (Res.error (some PyExc.RuntimeError),
            { s with nAtoms := ((sectionBody f2).length : Int),
                     fd := some f2, filePosition1 := (f2.ftell : Int) })) := by
  rw [← molden_count_atoms_body]
  rcases hstyle with hst | hst
  · have hne : ¬ s.moldenStyle = MoldenStyle.MLUNK := by rw [hst]; decide
    have hnf : ¬ s.moldenStyle = MoldenStyle.MLFREQ := by rw [hst]; decide
    rw [hst] at hidx
    rw [if_neg hnf]
    unfold read_topo_from_molden
    rw [if_neg hne]
    simp only [styleSection] at hidx
    simp only [hst, hidx, hline, true_or, if_true, moldenLine]
  · have hne : ¬ s.moldenStyle = MoldenStyle.MLUNK := by rw [hst]; decide
    rw [hst] at hidx
    rw [if_pos hst]
    unfold read_topo_from_molden
    rw [if_neg hne]
    simp only [styleSection] at hidx
    simp only [hst, hidx, hline, or_true, if_true]

/-- The shared tail of the sectioned topology reader on a body of atom lines in good order:
one symbol and one atomic number per line, and the stream behind the last of them. -/
theorem read_topo_from_molden_atoms_ok (env : Env) (s : Trajectory) (f : FILE)
    (hl : ∀ l ∈ sectionBody f, moldenAtomLineOk s.moldenStyle l = true) :
    read_topo_from_molden_atoms env s f (sectionBody f).length
      = (Res.ok (),
          { s with
            fd := some ⟨f.content, f.pos + ((sectionBody f).map List.length).sum⟩
            symbols := PyObject.PList ((sectionBody f).map moldenSymbol)
            aNumbers := PyObject.IntArray ((sectionBody f).map (moldenNumber env s.moldenStyle)) })
      := by
  have hpre : sectionBody f <+: (rawLines (f.content.length + 1) f).map (fun p => p.2) :=
    List.takeWhile_prefix _
  have h := read_topo_from_molden_loop_ok env s.moldenStyle (sectionBody f)
    (f.content.length + 1) f [] [] hpre hl
  simp only [List.nil_append, List.length_nil] at h
  unfold read_topo_from_molden_atoms
  simp only [PyList_New, Int.toNat_ofNat]
  have hnn : ¬ (((sectionBody f).length : Int) < 0) := by omega
  rw [if_neg hnn, h]

end MDArray

namespace MDArray

/-- C21. The sectioned topology reader in the styles ATOMS and FR-COORD, on a session whose
table holds the section of the style and a stream that yields its header line.  `nAtoms`
becomes the number of lines of the body of the section: the lines behind the header line up
to (not including) the next line that begins with `[` or the end of the file.  When these
lines have the tokens the style looks at (and, in the style ATOMS, the header names its
unit), the call succeeds, exactly these lines are consumed, `symbols` holds the first token
of each line in order, and `aNumbers` holds for each line, in the style ATOMS the integer in
the second token after the symbol, in the style FR-COORD the number the element table gives
for the symbol, -1 when the table does not hold it. -/
theorem C21_section_atoms_counted_and_parsed (env : Env) (s : Trajectory) (f : FILE)
    (idx : Nat) (raw : List Char) (f2 : FILE)
    (hstyle : s.moldenStyle = MoldenStyle.MLATOMS ∨ s.moldenStyle = MoldenStyle.MLFREQ)
    (hidx : get_section_idx s (styleSection s.moldenStyle) = some idx)
    (hline : _getline (f.fseek (((s.moldenSect.get? idx).map (fun sec => sec.offset)).getD 0))
      = some (raw, f2)) :
    (read_topo_from_molden env s f).2.nAtoms = ((sectionBody f2).length : Int) ∧
    ((s.moldenStyle = MoldenStyle.MLATOMS →
        moldenLine raw = "[atoms] angs".toList ∨ moldenLine raw = "[atoms] au".toList) →
      (∀ l ∈ sectionBody f2, moldenAtomLineOk s.moldenStyle l = true) →
      (read_topo_from_molden env s f).1 = Res.ok () ∧
      (read_topo_from_molden env s f).2.symbols
        = PyObject.PList ((sectionBody f2).map moldenSymbol) ∧
      (read_topo_from_molden env s f).2.aNumbers
        = PyObject.IntArray ((sectionBody f2).map (fun l =>
            if s.moldenStyle = MoldenStyle.MLATOMS then atoi (((strtok (cstr l)).get? 2).getD [])
            else tableNumber env ((moldenSymbol l).getD []))) ∧
      (read_topo_from_molden env s f).2.fd
        = some ⟨f2.content, f2.pos + ((sectionBody f2).map List.length).sum⟩) := by
  have hred := read_topo_from_molden_counted env s f idx raw f2 hstyle hidx hline
  constructor
  · rw [hred]
    split
    · rw [read_topo_from_molden_atoms_nAtoms]
    · split
      · rw [read_topo_from_molden_atoms_nAtoms]
      · split
        · rw [read_topo_from_molden_atoms_nAtoms]
        · rfl
  · intro hunit hl
    have hnum : (fun l => if s.moldenStyle = MoldenStyle.MLATOMS then
          atoi (((strtok (cstr l)).get? 2).getD [])
        else tableNumber env ((moldenSymbol l).getD [])) = moldenNumber env s.moldenStyle := by
      funext l
      rfl
    rw [hnum, hred]
    by_cases hf : s.moldenStyle = MoldenStyle.MLFREQ
    · rw [if_pos hf]
      rw [read_topo_from_molden_atoms_ok env
        { s with nAtoms := ((sectionBody f2).length : Int), fd := some f2,
                   filePosition1 := (f2.ftell : Int) } f2 hl]
      exact ⟨rfl, rfl, rfl, rfl⟩
    · rw [if_neg hf]
      have ha : s.moldenStyle = MoldenStyle.MLATOMS := by tauto
      rcases hunit ha with hu | hu
      · rw [if_pos hu]
        rw [read_topo_from_molden_atoms_ok env
          { s with nAtoms := ((sectionBody f2).length : Int), fd := some f2,
                   filePosition1 := (f2.ftell : Int), units := Units.ANGS } f2 hl]
        exact ⟨rfl, rfl, rfl, rfl⟩
      · have hu2 : ¬ moldenLine raw = "[atoms] angs".toList := by rw [hu]; decide
        rw [if_neg hu2, if_pos hu]
        rw [read_topo_from_molden_atoms_ok env
          { s with nAtoms := ((sectionBody f2).length : Int), fd := some f2,
                   filePosition1 := (f2.ftell : Int), units := Units.BOHR } f2 hl]
        exact ⟨rfl, rfl, rfl, rfl⟩

/-- C21, witness: in the file `au.molden` the section ATOMS has the two atom lines
`H 1 1 ...` and `O 2 8 ...`: two atoms, the symbols H and O, the atomic numbers 1 and 8 as
written in the lines. -/
theorem C21_section_atoms_counted_and_parsed_witness :
    (read_topo_from_molden exampleEnv exampleAuSession ⟨exampleAuFile, 0⟩).2.nAtoms = 2 ∧
    (read_topo_from_molden exampleEnv exampleAuSession ⟨exampleAuFile, 0⟩).1 = Res.ok () ∧
    (read_topo_from_molden exampleEnv exampleAuSession ⟨exampleAuFile, 0⟩).2.symbols
      = PyObject.PList [some "H".toList, some "O".toList] ∧
    (read_topo_from_molden exampleEnv exampleAuSession ⟨exampleAuFile, 0⟩).2.aNumbers
      = PyObject.IntArray [1, 8] :=
  have h := C21_section_atoms_counted_and_parsed exampleEnv exampleAuSession
    ⟨exampleAuFile, 0⟩ 1 "[Atoms] AU\n".toList ⟨exampleAuFile, 27⟩ (Or.inl (by decide))
    (by decide) (by decide)
  have h2 := h.2 (fun _ => Or.inr (by decide)) (by decide)
  ⟨h.1.trans (by decide), h2.1, h2.2.1.trans (by decide), h2.2.2.1.trans (by decide)⟩

end MDArray

namespace MDArray

/-- The router passes on the failure of the topology reader of each format: when the reader
of the format of the session does not return 0, neither does the router. -/
theorem Trajectory_init_router_fails (env : Env) (fs : FileSystem) (s : Trajectory)
    (v : InitVars) (f : FILE) (hfd : s.fd = some f) :
    (s.type = FileType.XYZ → (read_topo_from_xyz env s f).1 ≠ Res.ok () →
      (Trajectory_init_router env fs s v).1 ≠ Res.ok ()) ∧
    (s.type = FileType.GRO → (read_topo_from_gro s f).1 ≠ Res.ok () →
      (Trajectory_init_router env fs s v).1 ≠ Res.ok ()) ∧
    (s.type = FileType.MOLDEN → (read_topo_from_molden env s f).1 ≠ Res.ok () →
      (Trajectory_init_router env fs s v).1 ≠ Res.ok ()) := by
  refine ⟨?_, ?_, ?_⟩
  · intro hty hr
    unfold Trajectory_init_router
    simp only [hty, hfd]
    generalize read_topo_from_xyz env s f = L at hr ⊢
    obtain ⟨r, s1⟩ := L
    rcases r with u | e | _
    · exact absurd rfl hr
    · simp
    · simp
  · intro hty hr
    unfold Trajectory_init_router
    simp only [hty, hfd]
    generalize read_topo_from_gro s f = L at hr ⊢
    obtain ⟨r, s1⟩ := L
    rcases r with u | e | _
    · exact absurd rfl hr
    · simp
    · simp
  · intro hty hr
    unfold Trajectory_init_router
    simp only [hty, hfd]
    generalize read_topo_from_molden env s f = L at hr ⊢
    obtain ⟨r, s1⟩ := L
    rcases r with u | e | _
    · exact absurd rfl hr
    · simp
    · simp

/-- C22, at the failing inputs.  The file `part.molden` has a section GEOMETRIES that
announces two atoms and holds one, the file `bad.molden` one that does not begin with an
atom count.  On both the generic-format topology parse fails, yet `read_topo_from_molden`
returns 0 and so does `Trajectory_init`: the session comes back with `nAtoms` 0 and with
the symbols partly filled (one symbol and one empty slot) or not set at all.  The same two
atom lines in a generic-format file make the open fail. -/
theorem C22_geometries_failure_is_dropped :
    (read_topo_from_xyz exampleEnv examplePartGeomSession ⟨examplePartGeomFile, 33⟩).1
      = Res.error (some PyExc.IOError) ∧
    (read_topo_from_molden exampleEnv examplePartGeomSession ⟨examplePartGeomFile, 0⟩).1
      = Res.ok () ∧
    ((Trajectory_init exampleEnv exampleBrokenFs Trajectory_new
        (readArgsFor "part.molden".toList none none)).1 = Res.ok () ∧
      (Trajectory_init exampleEnv exampleBrokenFs Trajectory_new
        (readArgsFor "part.molden".toList none none)).2.1.moldenStyle = MoldenStyle.MLGEOM ∧
      (Trajectory_init exampleEnv exampleBrokenFs Trajectory_new
        (readArgsFor "part.molden".toList none none)).2.1.nAtoms = 0 ∧
      (Trajectory_init exampleEnv exampleBrokenFs Trajectory_new
        (readArgsFor "part.molden".toList none none)).2.1.symbols
        = PyObject.PList [some "H".toList, none] ∧
      (Trajectory_init exampleEnv exampleBrokenFs Trajectory_new
        (readArgsFor "part.molden".toList none none)).2.1.aNumbers = PyObject.None) ∧
    ((Trajectory_init exampleEnv exampleBrokenFs Trajectory_new
        (readArgsFor "bad.molden".toList none none)).1 = Res.ok () ∧
      (Trajectory_init exampleEnv exampleBrokenFs Trajectory_new
        (readArgsFor "bad.molden".toList none none)).2.1.symbols = PyObject.None) ∧
    (Trajectory_init exampleEnv exampleBrokenFs Trajectory_new
      (readArgsFor "part.xyz".toList none none)).1 = Res.error (some PyExc.IOError) := by
  decide

end MDArray

namespace MDArray

/-! ### The stages of a successful open -/

/-- A successful guess stage went on to the unit stage with a format that is not GUESS. -/
theorem Trajectory_init_guess_ok (env : Env) (fs : FileSystem) (s : Trajectory) (v : InitVars)
    (h : (Trajectory_init_guess env fs s v).1 = Res.ok ()) :
    ∃ ty, ty ≠ FileType.GUESS ∧
      Trajectory_init_guess env fs s v = Trajectory_init_units env fs { s with type := ty } v := by
  have hfin : ∀ s1 : Trajectory,
      (if s1.type = FileType.GUESS then
          ((Res.error (some PyExc.RuntimeError), s1, fs) : Res Unit × Trajectory × FileSystem)
        else Trajectory_init_units env fs s1 v).1 = Res.ok () →
      s1.type ≠ FileType.GUESS ∧
      (if s1.type = FileType.GUESS then
          ((Res.error (some PyExc.RuntimeError), s1, fs) : Res Unit × Trajectory × FileSystem)
        else Trajectory_init_units env fs s1 v) = Trajectory_init_units env fs s1 v := by
    intro s1 h1
    by_cases hg : s1.type = FileType.GUESS
    · rw [if_pos hg] at h1; simp at h1
    · rw [if_neg hg]; exact ⟨hg, rfl⟩
  unfold Trajectory_init_guess at h ⊢
  dsimp only at h ⊢
  by_cases hg : s.type = FileType.GUESS
  · rw [if_pos hg] at h ⊢
    cases hext : extension v.filename with
    | none => rw [hext] at h; simp at h
    | some ext =>
      rw [hext] at h
      dsimp only at h ⊢
      by_cases h1 : ext = ".xyz".toList
      · rw [if_pos h1] at h ⊢
        obtain ⟨_, h3⟩ := hfin { s with type := FileType.XYZ } h
        exact ⟨FileType.XYZ, by decide, h3⟩
      · rw [if_neg h1] at h ⊢
        by_cases h2 : ext = ".gro".toList
        · rw [if_pos h2] at h ⊢
          obtain ⟨_, h3⟩ := hfin { s with type := FileType.GRO } h
          exact ⟨FileType.GRO, by decide, h3⟩
        · rw [if_neg h2] at h ⊢
          by_cases h3 : ext = ".xtc".toList
          · rw [if_pos h3] at h ⊢
            obtain ⟨_, h4⟩ := hfin { s with type := FileType.XTC } h
            exact ⟨FileType.XTC, by decide, h4⟩
          · rw [if_neg h3] at h ⊢
            by_cases hm : s.mode = 'r' ∨ s.mode = 'a'
            · rw [if_pos hm] at h ⊢
              cases ho : fopen_r fs v.filename with
              | none => rw [ho] at h; simp at h
              | some test =>
                rw [ho] at h
                dsimp only at h ⊢
                cases hl : _getline test with
                | none => rw [hl] at h; simp at h
                | some pr =>
                  obtain ⟨raw, rest⟩ := pr
                  rw [hl] at h
                  dsimp only at h ⊢
                  by_cases hmark : stripline (make_lowercase (cstr raw)) = "[molden format]".toList
                  · rw [if_pos hmark] at h ⊢
                    obtain ⟨_, h4⟩ := hfin { s with type := FileType.MOLDEN } h
                    exact ⟨FileType.MOLDEN, by decide, h4⟩
                  · rw [if_neg hmark] at h ⊢
                    obtain ⟨h5, _⟩ := hfin s h
                    exact absurd hg h5
            · rw [if_neg hm] at h ⊢
              obtain ⟨h5, _⟩ := hfin s h
              exact absurd hg h5
  · rw [if_neg hg] at h ⊢
    obtain ⟨h5, h6⟩ := hfin s h
    exact ⟨s.type, hg, h6⟩

/-- A successful unit stage went on to the list stage with some unit. -/
theorem Trajectory_init_units_ok (env : Env) (fs : FileSystem) (s : Trajectory) (v : InitVars)
    (h : (Trajectory_init_units env fs s v).1 = Res.ok ()) :
    ∃ u, Trajectory_init_units env fs s v = Trajectory_init_lists env fs { s with units := u } v
      := by
  unfold Trajectory_init_units at h ⊢
  cases hu : v.units with
  | none =>
    rw [hu] at h
    dsimp only at h ⊢
    cases hty : s.type with
    | GUESS => rw [hty] at h; simp at h
    | XYZ => exact ⟨Units.ANGS, rfl⟩
    | MOLDEN => exact ⟨Units.ANGS, rfl⟩
    | GRO => exact ⟨Units.NM, rfl⟩
    | XTC => exact ⟨Units.NM, rfl⟩
  | some u =>
    rw [hu] at h
    dsimp only at h ⊢
    by_cases h1 : u = "angs".toList
    · rw [if_pos h1]; exact ⟨Units.ANGS, rfl⟩
    · rw [if_neg h1] at h ⊢
      by_cases h2 : u = "bohr".toList
      · rw [if_pos h2]; exact ⟨Units.BOHR, rfl⟩
      · rw [if_neg h2] at h ⊢
        by_cases h3 : u = "nm".toList
        · rw [if_pos h3]; exact ⟨Units.NM, rfl⟩
        · rw [if_neg h3] at h; simp at h

/-- A successful list stage: no symbols came with the mode `r`, and the open stage ran on
the session with the lists of the caller stored. -/
theorem Trajectory_init_lists_ok (env : Env) (fs : FileSystem) (s : Trajectory) (v : InitVars)
    (h : (Trajectory_init_lists env fs s v).1 = Res.ok ()) :
    ¬ (v.py_sym.isSome ∧ s.mode = 'r') ∧
    Trajectory_init_lists env fs s v
      = Trajectory_init_open env fs
          { s with symbols := v.py_sym.getD s.symbols, resids := v.py_resid.getD s.resids,
                   resNames := v.py_resn.getD s.resNames } v := by
  unfold Trajectory_init_lists at h ⊢
  by_cases hc : v.py_sym.isSome = true ∧ s.mode = 'r'
  · rw [if_pos hc] at h; simp at h
  · rw [if_neg hc]
    exact ⟨hc, rfl⟩

end MDArray

namespace MDArray

/-- From the guess stage on: a successful open ends in the open stage, run on the session
with the format resolved, the unit chosen and the lists of the caller stored. -/
theorem Trajectory_init_guess_ok_open (env : Env) (fs : FileSystem) (s : Trajectory)
    (v : InitVars) (h : (Trajectory_init_guess env fs s v).1 = Res.ok ()) :
    ∃ ty u, ty ≠ FileType.GUESS ∧ ¬ (v.py_sym.isSome ∧ s.mode = 'r') ∧
      Trajectory_init_guess env fs s v
        = Trajectory_init_open env fs
            { s with type := ty, units := u, symbols := v.py_sym.getD s.symbols,
                     resids := v.py_resid.getD s.resids,
                     resNames := v.py_resn.getD s.resNames } v := by
  obtain ⟨ty, hty, h1⟩ := Trajectory_init_guess_ok env fs s v h
  rw [h1] at h
  obtain ⟨u, h2⟩ := Trajectory_init_units_ok env fs _ v h
  rw [h2] at h
  obtain ⟨h3, h4⟩ := Trajectory_init_lists_ok env fs _ v h
  exact ⟨ty, u, hty, h3, by rw [h1, h2, h4]⟩

/-- A successful open: the arguments passed the parser, the mode is one of `r`, `w`, `a`, no
symbols came with the mode `r`, and the call ended in the open stage, run on the session of
before with the name, the mode, the resolved format, the unit and the lists of the caller
stored and nothing else changed. -/
theorem Trajectory_init_ok (env : Env) (fs : FileSystem) (self : Trajectory) (a : InitArgs)
    (h : (Trajectory_init env fs self a).1 = Res.ok ()) :
    ∃ v ty u, Trajectory_init_args a = Res.ok v ∧ ty ≠ FileType.GUESS ∧
      (initMode v = 'r' ∨ initMode v = 'w' ∨ initMode v = 'a') ∧
      ¬ (v.py_sym.isSome ∧ initMode v = 'r') ∧
      Trajectory_init env fs self a
        = Trajectory_init_open env fs
            { self with fileName := some v.filename, mode := initMode v, type := ty,
                        units := u, symbols := v.py_sym.getD self.symbols,
                        resids := v.py_resid.getD self.resids,
                        resNames := v.py_resn.getD self.resNames } v := by
  unfold Trajectory_init at h ⊢
  cases hargs : Trajectory_init_args a with
  | error e => rw [hargs] at h; simp at h
  | fault => rw [hargs] at h; simp at h
  | ok v =>
    rw [hargs] at h
    dsimp only at h ⊢
    by_cases hm : (v.mode.isSome = true ∧ ((v.mode.getD []).head?).getD NUL ≠ 'r'
        ∧ ((v.mode.getD []).head?).getD NUL ≠ 'w' ∧ ((v.mode.getD []).head?).getD NUL ≠ 'a')
    · rw [if_pos hm] at h; simp at h
    · rw [if_neg hm] at h ⊢
      have hmode : initMode v = 'r' ∨ initMode v = 'w' ∨ initMode v = 'a' := by
        cases hs : v.mode.isSome with
        | false => exact Or.inl (initMode_none v hs)
        | true =>
          rw [initMode_eq v hs]
          rw [hs] at hm
          by_contra hc
          exact hm ⟨rfl, fun h1 => hc (Or.inl h1), fun h2 => hc (Or.inr (Or.inl h2)),
            fun h3 => hc (Or.inr (Or.inr h3))⟩
      have key : ∀ T : FileType,
          (Trajectory_init_guess env fs
            { self with fileName := some v.filename, mode := initMode v, type := T } v).1
            = Res.ok () →
          ∃ ty u, ty ≠ FileType.GUESS ∧ ¬ (v.py_sym.isSome ∧ initMode v = 'r') ∧
            Trajectory_init_guess env fs
                { self with fileName := some v.filename, mode := initMode v, type := T } v
              = Trajectory_init_open env fs
                  { self with fileName := some v.filename, mode := initMode v, type := ty,
                              units := u, symbols := v.py_sym.getD self.symbols,
                              resids := v.py_resid.getD self.resids,
                              resNames := v.py_resn.getD self.resNames } v := by
        intro T hT
        obtain ⟨ty, u, h1, h2, h3⟩ := Trajectory_init_guess_ok_open env fs _ v hT
        exact ⟨ty, u, h1, h2, h3⟩
      cases ht : v.str_type with
      | none =>
        rw [ht] at h
        obtain ⟨ty, u, h1, h2, h3⟩ := key self.type h
        exact ⟨v, ty, u, rfl, h1, hmode, h2, h3⟩
      | some t =>
        rw [ht] at h
        dsimp only at h ⊢
        by_cases h1 : t = "XYZ".toList
        · rw [if_pos h1] at h ⊢
          obtain ⟨ty, u, k1, k2, k3⟩ := key _ h
          exact ⟨v, ty, u, rfl, k1, hmode, k2, k3⟩
        · rw [if_neg h1] at h ⊢
          by_cases h2 : t = "MOLDEN".toList
          · rw [if_pos h2] at h ⊢
            obtain ⟨ty, u, k1, k2, k3⟩ := key _ h
            exact ⟨v, ty, u, rfl, k1, hmode, k2, k3⟩
          · rw [if_neg h2] at h ⊢
            by_cases h3 : t = "GRO".toList
            · rw [if_pos h3] at h ⊢
              obtain ⟨ty, u, k1, k2, k3⟩ := key _ h
              exact ⟨v, ty, u, rfl, k1, hmode, k2, k3⟩
            · rw [if_neg h3] at h ⊢
              by_cases h4 : t = "XTC".toList
              · rw [if_pos h4] at h ⊢
                obtain ⟨ty, u, k1, k2, k3⟩ := key _ h
                exact ⟨v, ty, u, rfl, k1, hmode, k2, k3⟩
              · rw [if_neg h4] at h ⊢
                by_cases h5 : t = "GUESS".toList
                · rw [if_pos h5] at h ⊢
                  obtain ⟨ty, u, k1, k2, k3⟩ := key _ h
                  exact ⟨v, ty, u, rfl, k1, hmode, k2, k3⟩
                · rw [if_neg h5] at h; simp at h

end MDArray

namespace MDArray

/-! ### What a topology reader that returned 0 has stored -/

/-- The atom loop of the generic-format topology reader, when it comes to its end: one
symbol was stored per atom, with the atomic number and the mass the table gives for it. -/
theorem read_topo_from_xyz_loop_post (env : Env) :
    ∀ (k : Nat) (f : FILE) (A : List (Option (List Char))) (anum : List Int)
      (masses : List ARRAY_REAL) (f1 : FILE) (syms : PyObject) (anum1 : List Int)
      (masses1 : List ARRAY_REAL) (x : FILE) (y : PyObject),
      read_topo_from_xyz_loop env k A.length f (PyObject.PList (A ++ List.replicate k none))
          anum masses = (Res.ok (f1, syms, anum1, masses1), x, y) →
      ∃ toks : List (List Char), toks.length = k ∧
        syms = PyObject.PList (A ++ toks.map some) ∧
        anum1 = anum ++ toks.map (tableNumber env) ∧
        masses1 = masses ++ toks.map (tableMass env) := by
  intro k
  induction k with
  | zero =>
    intro f A anum masses f1 syms anum1 masses1 x y h
    simp only [read_topo_from_xyz_loop, List.replicate_zero, List.append_nil, Prod.mk.injEq,
      Res.ok.injEq] at h
    obtain ⟨⟨_, h2, h3, h4⟩, _, _⟩ := h
    exact ⟨[], rfl, by simp [← h2], by simp [← h3], by simp [← h4]⟩
  | succ k ih =>
    intro f A anum masses f1 syms anum1 masses1 x y h
    rw [read_topo_from_xyz_loop] at h
    cases hg : _getline f with
    | none => rw [hg] at h; simp at h
    | some pr =>
      obtain ⟨buffer, g⟩ := pr
      rw [hg] at h
      dsimp only at h
      cases hc : chopLast (cstr buffer) with
      | none => rw [hc] at h; simp at h
      | some line =>
        rw [hc] at h
        dsimp only at h
        cases ht : (strtok line).head? with
        | none => rw [ht] at h; simp at h
        | some token =>
          rw [ht] at h
          dsimp only at h
          have hset : PyList_SetItem (PyObject.PList (A ++ List.replicate (k + 1) none))
              A.length (some token)
              = PyObject.PList ((A ++ [some token]) ++ List.replicate k none) := by
            show PyObject.PList _ = _
            rw [set_append_replicate, List.append_assoc, List.singleton_append]
          have hA : A.length + 1 = (A ++ [some token]).length := by simp
          rw [hset, hA] at h
          cases hidx : env.getElementIndexBySymbol token with
          | none =>
            rw [hidx] at h
            dsimp only at h
            obtain ⟨toks, h1, h2, h3, h4⟩ := ih g _ _ _ f1 syms anum1 masses1 x y h
            refine ⟨token :: toks, by simp [h1], ?_, ?_, ?_⟩
            · rw [h2]; simp
            · rw [h3]; simp [tableNumber, hidx]
            · rw [h4]; simp [tableMass, hidx]
          | some idx =>
            rw [hidx] at h
            dsimp only at h
            obtain ⟨toks, h1, h2, h3, h4⟩ := ih g _ _ _ f1 syms anum1 masses1 x y h
            refine ⟨token :: toks, by simp [h1], ?_, ?_, ?_⟩
            · rw [h2]; simp
            · rw [h3]; simp [tableNumber, hidx]
            · rw [h4]; simp [tableMass, hidx]

/-- The generic-format topology reader, when it returns 0: the session has the atom count
of the first line, one symbol per atom, and the atomic numbers and masses the table gives
for the symbols; apart from these and the stream it is the session of before. -/
theorem read_topo_from_xyz_post (env : Env) (s : Trajectory) (f : FILE) (s1 : Trajectory)
    (h : read_topo_from_xyz env s f = (Res.ok (), s1)) :
    ∃ (toks : List (List Char)) (f1 : FILE),
      s1 = { s with
             fd := some f1
             symbols := PyObject.PList (toks.map some)
             aNumbers := PyObject.IntArray (toks.map (tableNumber env))
             masses := PyObject.Array ⟨[(toks.length : Int)], toks.map (tableMass env)⟩
             nAtoms := (toks.length : Int) } := by
  unfold read_topo_from_xyz at h
  cases hg : _getline f with
  | none => rw [hg] at h; simp at h
  | some pr =>
    obtain ⟨buffer, g⟩ := pr
    rw [hg] at h
    dsimp only at h
    cases hn : sscanf_d buffer with
    | none => rw [hn] at h; simp at h
    | some n =>
      rw [hn] at h
      dsimp only at h
      cases hg2 : _getline g with
      | none => rw [hg2] at h; simp at h
      | some pr2 =>
        obtain ⟨c, g2⟩ := pr2
        rw [hg2] at h
        dsimp only at h
        by_cases hneg : n < 0
        · rw [if_pos hneg] at h; simp at h
        · rw [if_neg hneg] at h
          have hnew : PyList_New n = PyObject.PList ([] ++ List.replicate n.toNat none) := by
            simp [PyList_New, hneg]
          rw [hnew] at h
          generalize hL : read_topo_from_xyz_loop env n.toNat 0 g2
            (PyObject.PList ([] ++ List.replicate n.toNat none)) [] [] = L at h
          obtain ⟨r, x, y⟩ := L
          rcases r with ⟨f3, syms, anum, masses⟩ | e | _
          · obtain ⟨toks, h1, h2, h3, h4⟩ :=
              read_topo_from_xyz_loop_post env n.toNat g2 [] [] [] f3 syms anum masses x y hL
            simp only [Prod.mk.injEq, true_and] at h
            have hn2 : n = (toks.length : Int) := by omega
            refine ⟨toks, f3, ?_⟩
            rw [← h, h2, h3, h4, hn2]
            simp
          · simp at h
          · simp at h

end MDArray

namespace MDArray

/-- The atom loop of the fixed-column topology reader, when it comes to its end: one atom
name, one residue name and one residue number were stored per atom. -/
theorem read_topo_from_gro_loop_post :
    ∀ (k : Nat) (f : FILE) (A B : List (Option (List Char))) (resid : List Int)
      (f1 : FILE) (syms resn : PyObject) (resid1 : List Int) (x : FILE) (y z : PyObject),
      B.length = A.length →
      read_topo_from_gro_loop k A.length f (PyObject.PList (A ++ List.replicate k none))
          (PyObject.PList (B ++ List.replicate k none)) resid
        = (Res.ok (f1, syms, resn, resid1), x, y, z) →
      ∃ (names rns : List (List Char)) (ids : List Int),
        names.length = k ∧ rns.length = k ∧ ids.length = k ∧
        syms = PyObject.PList (A ++ names.map some) ∧
        resn = PyObject.PList (B ++ rns.map some) ∧
        resid1 = resid ++ ids := by
  intro k
  induction k with
  | zero =>
    intro f A B resid f1 syms resn resid1 x y z _ h
    simp only [read_topo_from_gro_loop, List.replicate_zero, List.append_nil, Prod.mk.injEq,
      Res.ok.injEq] at h
    obtain ⟨⟨_, h2, h3, h4⟩, _, _⟩ := h
    exact ⟨[], [], [], rfl, rfl, rfl, by simp [← h2], by simp [← h3], by simp [← h4]⟩
  | succ k ih =>
    intro f A B resid f1 syms resn resid1 x y z hAB h
    rw [read_topo_from_gro_loop] at h
    cases hg : _getline f with
    | none => rw [hg] at h; simp at h
    | some pr =>
      obtain ⟨raw, g⟩ := pr
      rw [hg] at h
      dsimp only at h
      have hsetA : ∀ t : List Char,
          PyList_SetItem (PyObject.PList (A ++ List.replicate (k + 1) none)) A.length (some t)
            = PyObject.PList ((A ++ [some t]) ++ List.replicate k none) := by
        intro t
        show PyObject.PList _ = _
        rw [set_append_replicate, List.append_assoc, List.singleton_append]
      have hsetB : ∀ t : List Char,
          PyList_SetItem (PyObject.PList (B ++ List.replicate (k + 1) none)) A.length (some t)
            = PyObject.PList ((B ++ [some t]) ++ List.replicate k none) := by
        intro t
        show PyObject.PList _ = _
        rw [← hAB, set_append_replicate, List.append_assoc, List.singleton_append]
      have hA : ∀ t : List Char, A.length + 1 = (A ++ [some t]).length := by
        intro t; simp
      rw [hsetA, hsetB, hA (stripline (List.take 5 (List.drop 10 (cstr raw))))] at h
      obtain ⟨names, rns, ids, h1, h2, h3, h4, h5, h6⟩ :=
        ih g _ _ _ f1 syms resn resid1 x y z (by simp [hAB]) h
      refine ⟨stripline (List.take 5 (List.drop 10 (cstr raw))) :: names,
        stripline (List.take 5 (List.drop 5 (cstr raw))) :: rns,
        atoi (stripline (List.take 5 (cstr raw))) :: ids,
        by simp [h1], by simp [h2], by simp [h3], ?_, ?_, ?_⟩
      · rw [h4]; simp
      · rw [h5]; simp
      · rw [h6]; simp

/-- The fixed-column topology reader, when it returns 0: the session has the atom count of
the second line and one atom name, residue name and residue number per atom; apart from
these and the stream it is the session of before, atomic numbers and masses included. -/
theorem read_topo_from_gro_post (s : Trajectory) (f : FILE) (s1 : Trajectory)
    (h : read_topo_from_gro s f = (Res.ok (), s1)) :
    ∃ (names rns : List (List Char)) (ids : List Int) (f1 : FILE),
      rns.length = names.length ∧ ids.length = names.length ∧
      s1 = { s with
             fd := some f1
             nAtoms := (names.length : Int)
             symbols := PyObject.PList (names.map some)
             resNames := PyObject.PList (rns.map some)
             resids := PyObject.IntArray ids } := by
  unfold read_topo_from_gro at h
  cases hg : _getline f with
  | none => rw [hg] at h; simp at h
  | some pr =>
    obtain ⟨comment, g⟩ := pr
    rw [hg] at h
    dsimp only at h
    cases hc : chopLast (cstr comment) with
    | none => rw [hc] at h; simp at h
    | some c =>
      rw [hc] at h
      dsimp only at h
      cases hg2 : _getline g with
      | none => rw [hg2] at h; simp at h
      | some pr2 =>
        obtain ⟨buffer, g2⟩ := pr2
        rw [hg2] at h
        dsimp only at h
        cases hn : sscanf_d buffer with
        | none => rw [hn] at h; simp at h
        | some n =>
          rw [hn] at h
          dsimp only at h
          by_cases hneg : n < 0
          · rw [if_pos hneg] at h; simp at h
          · rw [if_neg hneg] at h
            have hnew : PyList_New n = PyObject.PList ([] ++ List.replicate n.toNat none) := by
              simp [PyList_New, hneg]
            rw [hnew] at h
            generalize hL : read_topo_from_gro_loop n.toNat 0 g2
              (PyObject.PList ([] ++ List.replicate n.toNat none))
              (PyObject.PList ([] ++ List.replicate n.toNat none)) [] = L at h
            obtain ⟨r, x, y, z⟩ := L
            rcases r with ⟨f3, syms, resn, resid⟩ | e | _
            · obtain ⟨names, rns, ids, h1, h2, h3, h4, h5, h6⟩ :=
                read_topo_from_gro_loop_post n.toNat g2 [] [] [] f3 syms resn resid x y z rfl hL
              simp only [Prod.mk.injEq, true_and] at h
              have hn2 : n = (names.length : Int) := by omega
              refine ⟨names, rns, ids, f3, by omega, by omega, ?_⟩
              rw [← h, h4, h5, h6, hn2]
              simp
            · simp at h
            · simp at h

end MDArray

namespace MDArray

/-- The atom loop of the sectioned topology reader, when it comes to its end: one symbol
and one atomic number were stored per atom, the number being the one the table gives for
the symbol in every style but ATOMS. -/
theorem read_topo_from_molden_loop_post (env : Env) (style : MoldenStyle) :
    ∀ (k : Nat) (f : FILE) (A : List (Option (List Char))) (anum : List Int)
      (f1 : FILE) (syms : PyObject) (anum1 : List Int) (x : FILE) (y : PyObject),
      read_topo_from_molden_loop env style k A.length f
          (PyObject.PList (A ++ List.replicate k none)) anum = (Res.ok (f1, syms, anum1), x, y) →
      ∃ (toks : List (List Char)) (nums : List Int),
        toks.length = k ∧ nums.length = k ∧
        syms = PyObject.PList (A ++ toks.map some) ∧
        anum1 = anum ++ nums ∧
        (style ≠ MoldenStyle.MLATOMS → nums = toks.map (tableNumber env)) := by
  intro k
  induction k with
  | zero =>
    intro f A anum f1 syms anum1 x y h
    simp only [read_topo_from_molden_loop, List.replicate_zero, List.append_nil, Prod.mk.injEq,
      Res.ok.injEq] at h
    obtain ⟨⟨_, h2, h3⟩, _, _⟩ := h
    exact ⟨[], [], rfl, rfl, by simp [← h2], by simp [← h3], fun _ => rfl⟩
  | succ k ih =>
    intro f A anum f1 syms anum1 x y h
    rw [read_topo_from_molden_loop] at h
    cases hg : _getline f with
    | none => rw [hg] at h; simp at h
    | some pr =>
      obtain ⟨line, g⟩ := pr
      rw [hg] at h
      dsimp only at h
      by_cases hlen : 1000 ≤ (cstr line).length
      · rw [if_pos hlen] at h; simp at h
      · rw [if_neg hlen] at h
        have hset : ∀ t : List Char,
            PyList_SetItem (PyObject.PList (A ++ List.replicate (k + 1) none)) A.length (some t)
              = PyObject.PList ((A ++ [some t]) ++ List.replicate k none) := by
          intro t
          show PyObject.PList _ = _
          rw [set_append_replicate, List.append_assoc, List.singleton_append]
        have hA : ∀ t : List Char, A.length + 1 = (A ++ [some t]).length := by
          intro t; simp
        by_cases hst : style = MoldenStyle.MLATOMS
        · rw [if_pos hst] at h
          cases h2 : (strtok (cstr line)).get? 2 with
          | none => rw [h2] at h; simp at h
          | some token =>
            rw [h2] at h
            dsimp only at h
            have hhead : ∃ t, (strtok (cstr line)).head? = some t := by
              cases hl : strtok (cstr line) with
              | nil => rw [hl] at h2; simp at h2
              | cons t ts => exact ⟨t, rfl⟩
            obtain ⟨t, ht⟩ := hhead
            rw [ht, hset, hA t] at h
            obtain ⟨toks, nums, h3, h4, h5, h6, _⟩ := ih g _ _ f1 syms anum1 x y h
            refine ⟨t :: toks, atoi token :: nums, by simp [h3], by simp [h4], ?_, ?_, ?_⟩
            · rw [h5]; simp
            · rw [h6]; simp
            · intro hc; exact absurd hst hc
        · rw [if_neg hst] at h
          cases ht : (strtok (cstr line)).head? with
          | none => rw [ht] at h; simp at h
          | some t =>
            rw [ht] at h
            dsimp only at h
            rw [hset, hA t] at h
            cases hidx : env.getElementIndexBySymbol t with
            | none =>
              rw [hidx] at h
              dsimp only at h
              obtain ⟨toks, nums, h3, h4, h5, h6, h7⟩ := ih g _ _ f1 syms anum1 x y h
              refine ⟨t :: toks, (-1) :: nums, by simp [h3], by simp [h4], ?_, ?_, ?_⟩
              · rw [h5]; simp
              · rw [h6]; simp
              · intro _; rw [h7 hst]; simp [tableNumber, hidx]
            | some idx =>
              rw [hidx] at h
              dsimp only at h
              obtain ⟨toks, nums, h3, h4, h5, h6, h7⟩ := ih g _ _ f1 syms anum1 x y h
              refine ⟨t :: toks, env.element_number idx :: nums, by simp [h3], by simp [h4],
                ?_, ?_, ?_⟩
              · rw [h5]; simp
              · rw [h6]; simp
              · intro _; rw [h7 hst]; simp [tableNumber, hidx]

/-- The shared tail of the sectioned topology reader, when it returns 0. -/
theorem read_topo_from_molden_atoms_post (env : Env) (s : Trajectory) (f : FILE) (nat : Nat)
    (s1 : Trajectory) (h : read_topo_from_molden_atoms env s f nat = (Res.ok (), s1)) :
    ∃ (toks : List (List Char)) (nums : List Int) (f1 : FILE),
      toks.length = nat ∧ nums.length = nat ∧
      s1 = { s with fd := some f1, symbols := PyObject.PList (toks.map some),
                    aNumbers := PyObject.IntArray nums } ∧
      (s.moldenStyle ≠ MoldenStyle.MLATOMS → nums = toks.map (tableNumber env)) := by
  unfold read_topo_from_molden_atoms at h
  dsimp only at h
  have hnew : PyList_New (nat : Int) = PyObject.PList ([] ++ List.replicate nat none) := by
    simp [PyList_New]
  rw [hnew] at h
  generalize hL : read_topo_from_molden_loop env s.moldenStyle nat 0 f
    (PyObject.PList ([] ++ List.replicate nat none)) [] = L at h
  obtain ⟨r, x, y⟩ := L
  rcases r with ⟨f3, syms, anum⟩ | e | _
  · obtain ⟨toks, nums, h1, h2, h3, h4, h5⟩ :=
      read_topo_from_molden_loop_post env s.moldenStyle nat f [] [] f3 syms anum x y hL
    simp only [Prod.mk.injEq, true_and] at h
    refine ⟨toks, nums, f3, h1, h2, ?_, h5⟩
    rw [← h, h3, h4]
    simp
  · simp at h
  · simp at h

end MDArray

namespace MDArray

/-- The sectioned topology reader fails when the table does not hold the section of the
style, and when the header line of the section cannot be read. -/
theorem read_topo_from_molden_no_section (env : Env) (s : Trajectory) (f : FILE)
    (hstyle : s.moldenStyle = MoldenStyle.MLATOMS ∨ s.moldenStyle = MoldenStyle.MLFREQ) :
    (get_section_idx s (styleSection s.moldenStyle) = none →
      (read_topo_from_molden env s f).1 = Res.error (some PyExc.RuntimeError)) ∧
    (∀ idx, get_section_idx s (styleSection s.moldenStyle) = some idx →
      _getline (f.fseek (((s.moldenSect.get? idx).map (fun sec => sec.offset)).getD 0)) = none →
      (read_topo_from_molden env s f).1 = Res.error (some PyExc.IOError)) := by
  have hne : ¬ s.moldenStyle = MoldenStyle.MLUNK := by
    rcases hstyle with hst | hst <;> rw [hst] <;> decide
  constructor
  · intro hidx
    rcases hstyle with hst | hst
    · rw [hst] at hidx
      simp only [styleSection] at hidx
      unfold read_topo_from_molden
      rw [if_neg hne]
      simp only [hst, hidx]
    · rw [hst] at hidx
      simp only [styleSection] at hidx
      unfold read_topo_from_molden
      rw [if_neg hne]
      simp only [hst, hidx]
  · intro idx hidx hline
    rcases hstyle with hst | hst
    · rw [hst] at hidx
      simp only [styleSection] at hidx
      unfold read_topo_from_molden
      rw [if_neg hne]
      simp only [hst, hidx, hline, true_or, if_true]
    · rw [hst] at hidx
      simp only [styleSection] at hidx
      unfold read_topo_from_molden
      rw [if_neg hne]
      simp only [hst, hidx, hline, or_true, if_true]

/-- The sectioned topology reader in the styles ATOMS and FR-COORD, when it returns 0: the
session has the atom count of the body of the section, one symbol and one atomic number per
atom (the number the table gives for the symbol in the style FR-COORD); apart from these,
the stream, the position of the first frame and the unit it is the session of before, the
masses included. -/
theorem read_topo_from_molden_post (env : Env) (s : Trajectory) (f : FILE) (s1 : Trajectory)
    (hstyle : s.moldenStyle = MoldenStyle.MLATOMS ∨ s.moldenStyle = MoldenStyle.MLFREQ)
    (h : read_topo_from_molden env s f = (Res.ok (), s1)) :
    ∃ (toks : List (List Char)) (nums : List Int) (f1 : FILE) (u : Units) (fp : Int),
      nums.length = toks.length ∧
      s1 = { s with fd := some f1, filePosition1 := fp, units := u,
                    nAtoms := (toks.length : Int),
                    symbols := PyObject.PList (toks.map some),
                    aNumbers := PyObject.IntArray nums } ∧
      (s.moldenStyle = MoldenStyle.MLFREQ → nums = toks.map (tableNumber env)) := by
  have hne : ¬ s.moldenStyle = MoldenStyle.MLUNK := by
    rcases hstyle with hst | hst <;> rw [hst] <;> decide
  cases hidx : get_section_idx s (styleSection s.moldenStyle) with
  | none =>
    have h2 := (read_topo_from_molden_no_section env s f hstyle).1 hidx
    rw [h] at h2
    simp at h2
  | some idx =>
    cases hline : _getline
        (f.fseek (((s.moldenSect.get? idx).map (fun sec => sec.offset)).getD 0)) with
    | none =>
      have h2 := (read_topo_from_molden_no_section env s f hstyle).2 idx hidx hline
      rw [h] at h2
      simp at h2
    | some pr =>
      obtain ⟨raw, f2⟩ := pr
      rw [read_topo_from_molden_counted env s f idx raw f2 hstyle hidx hline] at h
      have fin : ∀ (s0 : Trajectory),
          read_topo_from_molden_atoms env s0 f2 (sectionBody f2).length = (Res.ok (), s1) →
          s0.moldenStyle = s.moldenStyle →
          ∃ (toks : List (List Char)) (nums : List Int) (f1 : FILE),
            toks.length = (sectionBody f2).length ∧ nums.length = toks.length ∧
            s1 = { s0 with fd := some f1, symbols := PyObject.PList (toks.map some),
                           aNumbers := PyObject.IntArray nums } ∧
            (s.moldenStyle = MoldenStyle.MLFREQ → nums = toks.map (tableNumber env)) := by
        intro s0 h0 hs0
        obtain ⟨toks, nums, f1, h1, h2, h3, h4⟩ :=
          read_topo_from_molden_atoms_post env s0 f2 _ s1 h0
        refine ⟨toks, nums, f1, h1, by omega, h3, ?_⟩
        intro hf
        apply h4
        rw [hs0, hf]
        decide
      by_cases hf : s.moldenStyle = MoldenStyle.MLFREQ
      · rw [if_pos hf] at h
        obtain ⟨toks, nums, f1, h1, h2, h3, h4⟩ := fin _ h rfl
        refine ⟨toks, nums, f1, s.units, (f2.ftell : Int), h2, ?_, h4⟩
        rw [h3, h1]
      · rw [if_neg hf] at h
        by_cases hu : moldenLine raw = "[atoms] angs".toList
        · rw [if_pos hu] at h
          obtain ⟨toks, nums, f1, h1, h2, h3, h4⟩ := fin _ h rfl
          refine ⟨toks, nums, f1, Units.ANGS, (f2.ftell : Int), h2, ?_, h4⟩
          rw [h3, h1]
        · rw [if_neg hu] at h
          by_cases hu2 : moldenLine raw = "[atoms] au".toList
          · rw [if_pos hu2] at h
            obtain ⟨toks, nums, f1, h1, h2, h3, h4⟩ := fin _ h rfl
            refine ⟨toks, nums, f1, Units.BOHR, (f2.ftell : Int), h2, ?_, h4⟩
            rw [h3, h1]
          · rw [if_neg hu2] at h
            simp at h

end MDArray

namespace MDArray

/-! ### No stage behind the mode check changes the mode -/

theorem read_topo_from_xyz_mode (env : Env) (s : Trajectory) (f : FILE) :
    (read_topo_from_xyz env s f).2.mode = s.mode := by
  unfold read_topo_from_xyz
  split
  · rfl
  · split
    · rfl
    · split
      · rfl
      · dsimp only
        split
        · rfl
        · generalize read_topo_from_xyz_loop env _ 0 _ _ [] [] = L
          obtain ⟨r, f3, syms⟩ := L
          rcases r with ⟨f3', syms', anum, masses⟩ | e | _ <;> rfl

theorem molden_section_header_mode (s s1 : Trajectory) (line : List Char) (p n : Nat)
    (h : molden_section_header s line p n = some s1) : s1.mode = s.mode := by
  unfold molden_section_header at h
  split at h
  · simp at h
  · dsimp only at h
    split_ifs at h <;> simp only [Option.some.injEq] at h <;> subst h <;> rfl

theorem read_molden_sections_loop_mode (fuel : Nat) :
    ∀ (s : Trajectory) (f : FILE) (p n : Nat),
      (read_molden_sections_loop fuel s f p n).2.1.mode = s.mode := by
  induction fuel with
  | zero => intro s f p n; rfl
  | succ k ih =>
    intro s f p n
    unfold read_molden_sections_loop
    split
    · rfl
    · dsimp only
      split
      · split
        · rfl
        · rename_i s1 hs
          have := molden_section_header_mode _ _ _ _ _ hs
          split
          · exact this
          · rw [ih]; exact this
      · exact ih _ _ _ _

theorem read_molden_sections_mode (s : Trajectory) (f : FILE) :
    (read_molden_sections s f).2.mode = s.mode := by
  unfold read_molden_sections
  dsimp only
  have h := read_molden_sections_loop_mode (f.rewind.content.length + 1)
    { s with moldenSect := List.replicate MAX_MOLDEN_SECTIONS ⟨-1, []⟩ } f.rewind f.rewind.ftell 0
  generalize read_molden_sections_loop _ _ _ _ _ = L at h ⊢
  obtain ⟨r, s1, f1⟩ := L
  cases r <;> exact h

theorem read_topo_from_molden_atoms_mode (env : Env) (s : Trajectory) (f : FILE) (nat : Nat) :
    (read_topo_from_molden_atoms env s f nat).2.mode = s.mode := by
  unfold read_topo_from_molden_atoms
  dsimp only
  generalize read_topo_from_molden_loop env _ nat 0 f _ [] = L
  obtain ⟨r, f3, syms⟩ := L
  rcases r with ⟨f3', syms', anum⟩ | e | _ <;> rfl

theorem read_topo_from_molden_mode (env : Env) (s : Trajectory) (f : FILE) :
    (read_topo_from_molden env s f).2.mode = s.mode := by
  unfold read_topo_from_molden
  split
  · rfl
  · dsimp only
    split
    · rfl
    · split
      · rfl
      · rename_i nat self1 hc
        have hs1 : self1.mode = s.mode := by
          split at hc
          · split at hc
            · simp at hc
            · simp only [Option.some.injEq, Prod.mk.injEq] at hc
              rw [← hc.2]
          · simp only [Option.some.injEq, Prod.mk.injEq] at hc
            rw [← hc.2]
        split
        · exact hs1
        · split
          · split
            · exact hs1
            · generalize hL : read_topo_from_xyz env _ _ = L
              have h2 := congrArg (fun L => L.2.mode) hL
              simp only [read_topo_from_xyz_mode] at h2
              obtain ⟨r, s3⟩ := L
              rcases r with u | e | _ <;> simpa [hs1] using h2.symm
          · split
            · rw [read_topo_from_molden_atoms_mode]; exact hs1
            · split
              · rw [read_topo_from_molden_atoms_mode]; exact hs1
              · exact hs1
          · rw [read_topo_from_molden_atoms_mode]; exact hs1
          · exact hs1

theorem read_topo_from_gro_mode (s : Trajectory) (f : FILE) :
    (read_topo_from_gro s f).2.mode = s.mode := by
  unfold read_topo_from_gro
  split
  · rfl
  · split
    · rfl
    · split
      · rfl
      · split
        · rfl
        · dsimp only
          split
          · rfl
          · generalize read_topo_from_gro_loop _ 0 _ _ _ [] = L
            obtain ⟨r, f3, syms, resn⟩ := L
            rcases r with ⟨f3', syms', resn', resid⟩ | e | _ <;> rfl

theorem Trajectory_init_router_mode (env : Env) (fs : FileSystem) (s : Trajectory)
    (v : InitVars) : (Trajectory_init_router env fs s v).2.mode = s.mode := by
  unfold Trajectory_init_router
  split
  · split
    · rfl
    · rename_i f _
      have := read_topo_from_xyz_mode env s f
      generalize read_topo_from_xyz env s f = L at this ⊢
      obtain ⟨r, s3⟩ := L
      rcases r with u | e | _ <;> simpa using this
  · split
    · rfl
    · rename_i f _
      have := read_topo_from_molden_mode env s f
      generalize read_topo_from_molden env s f = L at this ⊢
      obtain ⟨r, s3⟩ := L
      rcases r with u | e | _ <;> simpa using this
  · split
    · rfl
    · rename_i f _
      have := read_topo_from_gro_mode s f
      generalize read_topo_from_gro s f = L at this ⊢
      obtain ⟨r, s3⟩ := L
      rcases r with u | e | _ <;> simpa using this
  · split
    · split
      · rfl
      · dsimp only
        split <;> rfl
    · rfl
  · rfl

theorem Trajectory_init_open_mode (env : Env) (fs : FileSystem) (s : Trajectory)
    (v : InitVars) : (Trajectory_init_open env fs s v).2.1.mode = s.mode := by
  unfold Trajectory_init_open
  split
  · split
    · rfl
    · split
      · rfl
      · split
        · rfl
        · dsimp only
          split
          · split <;> rfl
          · split <;> rfl
          · rfl
  · split
    · split
      · rfl
      · dsimp only; rw [Trajectory_init_router_mode]
    · split
      · rfl
      · dsimp only; rw [Trajectory_init_router_mode]
    · split
      · rfl
      · rename_i f _
        have := read_molden_sections_mode { s with fd := some f } f
        generalize read_molden_sections _ f = L at this ⊢
        obtain ⟨r, s3⟩ := L
        rcases r with u | e | _
        · dsimp only at this ⊢
          split
          · exact this
          · dsimp only; rw [Trajectory_init_router_mode]; exact this
        · exact this
        · exact this
    · split
      · split
        · rfl
        · dsimp only; rw [Trajectory_init_router_mode]
      · rfl
    · rfl


end MDArray

namespace MDArray

/-- One section header changes the table, the style and the unit of the session and nothing
else. -/
theorem molden_section_header_frame (s s1 : Trajectory) (line : List Char) (p n : Nat)
    (h : molden_section_header s line p n = some s1) :
    ∃ sect style u, s1 = { s with moldenSect := sect, moldenStyle := style, units := u } := by
  unfold molden_section_header at h
  split at h
  · simp at h
  · dsimp only at h
    split_ifs at h <;> simp only [Option.some.injEq] at h <;> subst h
    · exact ⟨_, _, _, rfl⟩
    · exact ⟨_, _, _, rfl⟩
    · exact ⟨_, _, _, rfl⟩
    · exact ⟨_, _, _, rfl⟩

/-- The scanning loop changes the table, the style and the unit of the session and nothing
else. -/
theorem read_molden_sections_loop_frame (fuel : Nat) :
    ∀ (s : Trajectory) (f : FILE) (p n : Nat),
      ∃ sect style u, (read_molden_sections_loop fuel s f p n).2.1
        = { s with moldenSect := sect, moldenStyle := style, units := u } := by
  induction fuel with
  | zero => intro s f p n; exact ⟨_, _, _, rfl⟩
  | succ k ih =>
    intro s f p n
    unfold read_molden_sections_loop
    split
    · exact ⟨_, _, _, rfl⟩
    · dsimp only
      split
      · split
        · exact ⟨_, _, _, rfl⟩
        · rename_i s1 hs
          obtain ⟨sect, style, u, h1⟩ := molden_section_header_frame _ _ _ _ _ hs
          split
          · exact ⟨sect, style, u, h1⟩
          · obtain ⟨sect2, style2, u2, h2⟩ := ih s1 _ _ (n + 1)
            rw [h2, h1]
            exact ⟨_, _, _, rfl⟩
      · exact ih _ _ _ _

/-- The section scan changes the table, the style, the unit and the stream of the session
and nothing else. -/
theorem read_molden_sections_frame (s : Trajectory) (f : FILE) :
    ∃ sect style u fd, (read_molden_sections s f).2
      = { s with moldenSect := sect, moldenStyle := style, units := u, fd := fd } := by
  unfold read_molden_sections
  dsimp only
  obtain ⟨sect, style, u, h⟩ := read_molden_sections_loop_frame (f.rewind.content.length + 1)
    { s with moldenSect := List.replicate MAX_MOLDEN_SECTIONS ⟨-1, []⟩ } f.rewind f.rewind.ftell 0
  generalize read_molden_sections_loop _ _ _ _ _ = L at h ⊢
  obtain ⟨r, s1, f1⟩ := L
  have h2 : s1 = _ := h
  cases r <;> exact ⟨sect, style, u, _, by rw [h2]⟩

/-! ### The topology readers keep the style of the session -/

theorem read_topo_from_xyz_moldenStyle (env : Env) (s : Trajectory) (f : FILE) :
    (read_topo_from_xyz env s f).2.moldenStyle = s.moldenStyle := by
  unfold read_topo_from_xyz
  split
  · rfl
  · split
    · rfl
    · split
      · rfl
      · dsimp only
        split
        · rfl
        · generalize read_topo_from_xyz_loop env _ 0 _ _ [] [] = L
          obtain ⟨r, f3, syms⟩ := L
          rcases r with ⟨f3', syms', anum, masses⟩ | e | _ <;> rfl


theorem read_topo_from_molden_atoms_moldenStyle (env : Env) (s : Trajectory) (f : FILE) (nat : Nat) :
    (read_topo_from_molden_atoms env s f nat).2.moldenStyle = s.moldenStyle := by
  unfold read_topo_from_molden_atoms
  dsimp only
  generalize read_topo_from_molden_loop env _ nat 0 f _ [] = L
  obtain ⟨r, f3, syms⟩ := L
  rcases r with ⟨f3', syms', anum⟩ | e | _ <;> rfl

theorem read_topo_from_molden_moldenStyle (env : Env) (s : Trajectory) (f : FILE) :
    (read_topo_from_molden env s f).2.moldenStyle = s.moldenStyle := by
  unfold read_topo_from_molden
  split
  · rfl
  · dsimp only
    split
    · rfl
    · split
      · rfl
      · rename_i nat self1 hc
        have hs1 : self1.moldenStyle = s.moldenStyle := by
          split at hc
          · split at hc
            · simp at hc
            · simp only [Option.some.injEq, Prod.mk.injEq] at hc
              rw [← hc.2]
          · simp only [Option.some.injEq, Prod.mk.injEq] at hc
            rw [← hc.2]
        split
        · exact hs1
        · split
          · split
            · exact hs1
            · generalize hL : read_topo_from_xyz env _ _ = L
              have h2 := congrArg (fun L => L.2.moldenStyle) hL
              simp only [read_topo_from_xyz_moldenStyle] at h2
              obtain ⟨r, s3⟩ := L
              rcases r with u | e | _ <;> simpa [hs1] using h2.symm
          · split
            · rw [read_topo_from_molden_atoms_moldenStyle]; exact hs1
            · split
              · rw [read_topo_from_molden_atoms_moldenStyle]; exact hs1
              · exact hs1
          · rw [read_topo_from_molden_atoms_moldenStyle]; exact hs1
          · exact hs1


end MDArray

namespace MDArray

/-- A router that returns 0 on a text format: the topology reader of the format returned 0,
and the router has only moved the cursor of the session the reader left. -/
theorem Trajectory_init_router_ok (env : Env) (fs : FileSystem) (s : Trajectory)
    (v : InitVars) (f : FILE) (hfd : s.fd = some f)
    (hok : (Trajectory_init_router env fs s v).1 = Res.ok ()) :
    (s.type = FileType.XYZ → ∃ s1, read_topo_from_xyz env s f = (Res.ok (), s1) ∧
      (Trajectory_init_router env fs s v).2 = { s1 with fd := s1.fd.map FILE.rewind }) ∧
    (s.type = FileType.GRO → ∃ s1, read_topo_from_gro s f = (Res.ok (), s1) ∧
      (Trajectory_init_router env fs s v).2 = { s1 with fd := s1.fd.map FILE.rewind }) ∧
    (s.type = FileType.MOLDEN → ∃ s1, read_topo_from_molden env s f = (Res.ok (), s1) ∧
      (Trajectory_init_router env fs s v).2
        = { s1 with fd := s1.fd.map (fun g => g.fseek s1.filePosition1) }) := by
  refine ⟨?_, ?_, ?_⟩
  · intro hty
    unfold Trajectory_init_router at hok ⊢
    simp only [hty, hfd] at hok ⊢
    generalize read_topo_from_xyz env s f = L at hok ⊢
    obtain ⟨r, s1⟩ := L
    rcases r with u | e | _
    · exact ⟨s1, rfl, rfl⟩
    · simp at hok
    · simp at hok
  · intro hty
    unfold Trajectory_init_router at hok ⊢
    simp only [hty, hfd] at hok ⊢
    generalize read_topo_from_gro s f = L at hok ⊢
    obtain ⟨r, s1⟩ := L
    rcases r with u | e | _
    · exact ⟨s1, rfl, rfl⟩
    · simp at hok
    · simp at hok
  · intro hty
    unfold Trajectory_init_router at hok ⊢
    simp only [hty, hfd] at hok ⊢
    generalize read_topo_from_molden env s f = L at hok ⊢
    obtain ⟨r, s1⟩ := L
    rcases r with u | e | _
    · exact ⟨s1, rfl, rfl⟩
    · simp at hok
    · simp at hok

/-- The open stage in the mode `r`, when it returns 0 on a text format: the file was opened,
for the sectioned format its sections were scanned to a style that is not UNKNOWN, and the
router returned 0 on the session with that stream. -/
theorem Trajectory_init_open_read_ok (env : Env) (fs : FileSystem) (s : Trajectory)
    (v : InitVars) (hmode : s.mode = 'r')
    (hok : (Trajectory_init_open env fs s v).1 = Res.ok ()) :
    ((s.type = FileType.XYZ ∨ s.type = FileType.GRO) →
      ∃ f, (Trajectory_init_router env fs { s with fd := some f } v).1 = Res.ok () ∧
        (Trajectory_init_open env fs s v).2.1
          = (Trajectory_init_router env fs { s with fd := some f } v).2) ∧
    (s.type = FileType.MOLDEN →
      ∃ f n s1, read_molden_sections { s with fd := some f } f = (Res.ok n, s1) ∧
        s1.moldenStyle ≠ MoldenStyle.MLUNK ∧
        (Trajectory_init_router env fs s1 v).1 = Res.ok () ∧
        (Trajectory_init_open env fs s v).2.1 = (Trajectory_init_router env fs s1 v).2) := by
  have hm : ¬ (s.mode = 'w' ∨ s.mode = 'a') := by rw [hmode]; decide
  constructor
  · intro hty
    unfold Trajectory_init_open at hok ⊢
    rw [if_neg hm] at hok ⊢
    rcases hty with hty | hty
    · simp only [hty] at hok ⊢
      cases ho : fopen_r fs v.filename with
      | none => rw [ho] at hok; simp at hok
      | some f =>
        rw [ho] at hok
        exact ⟨f, hok, rfl⟩
    · simp only [hty] at hok ⊢
      cases ho : fopen_r fs v.filename with
      | none => rw [ho] at hok; simp at hok
      | some f =>
        rw [ho] at hok
        exact ⟨f, hok, rfl⟩
  · intro hty
    unfold Trajectory_init_open at hok ⊢
    rw [if_neg hm] at hok ⊢
    simp only [hty] at hok ⊢
    cases ho : fopen_r fs v.filename with
    | none => rw [ho] at hok; simp at hok
    | some f =>
      rw [ho] at hok
      dsimp only at hok ⊢
      generalize hL : read_molden_sections { s with type := FileType.MOLDEN, fd := some f } f = L
        at hok ⊢
      obtain ⟨r, s1⟩ := L
      rcases r with n | e | _
      · dsimp only at hok ⊢
        by_cases hu : s1.moldenStyle = MoldenStyle.MLUNK
        · rw [if_pos hu] at hok; simp at hok
        · rw [if_neg hu] at hok ⊢
          exact ⟨f, n, s1, hL, hu, hok, rfl⟩
      · exact absurd hok (by simp)
      · exact absurd hok (by simp)

end MDArray

namespace MDArray

/-- The topology a successful open stage leaves in the mode `r`, format by format. -/
theorem Trajectory_init_open_read_topology (env : Env) (fs : FileSystem) (s : Trajectory)
    (v : InitVars) (hmode : s.mode = 'r')
    (hok : (Trajectory_init_open env fs s v).1 = Res.ok ()) :
    (s.type = FileType.XYZ → ∃ toks : List (List Char),
      (Trajectory_init_open env fs s v).2.1.nAtoms = (toks.length : Int) ∧
      (Trajectory_init_open env fs s v).2.1.symbols = PyObject.PList (toks.map some) ∧
      (Trajectory_init_open env fs s v).2.1.aNumbers
        = PyObject.IntArray (toks.map (tableNumber env)) ∧
      (Trajectory_init_open env fs s v).2.1.masses
        = PyObject.Array ⟨[(toks.length : Int)], toks.map (tableMass env)⟩) ∧
    (s.type = FileType.GRO → ∃ (names rns : List (List Char)) (ids : List Int),
      rns.length = names.length ∧ ids.length = names.length ∧
      (Trajectory_init_open env fs s v).2.1.nAtoms = (names.length : Int) ∧
      (Trajectory_init_open env fs s v).2.1.symbols = PyObject.PList (names.map some) ∧
      (Trajectory_init_open env fs s v).2.1.resNames = PyObject.PList (rns.map some) ∧
      (Trajectory_init_open env fs s v).2.1.resids = PyObject.IntArray ids ∧
      (Trajectory_init_open env fs s v).2.1.aNumbers = s.aNumbers ∧
      (Trajectory_init_open env fs s v).2.1.masses = s.masses) ∧
    (s.type = FileType.MOLDEN →
      ((Trajectory_init_open env fs s v).2.1.moldenStyle = MoldenStyle.MLATOMS ∨
        (Trajectory_init_open env fs s v).2.1.moldenStyle = MoldenStyle.MLFREQ) →
      ∃ (toks : List (List Char)) (nums : List Int),
        nums.length = toks.length ∧
        (Trajectory_init_open env fs s v).2.1.nAtoms = (toks.length : Int) ∧
        (Trajectory_init_open env fs s v).2.1.symbols = PyObject.PList (toks.map some) ∧
        (Trajectory_init_open env fs s v).2.1.aNumbers = PyObject.IntArray nums ∧
        ((Trajectory_init_open env fs s v).2.1.moldenStyle = MoldenStyle.MLFREQ →
          nums = toks.map (tableNumber env)) ∧
        (Trajectory_init_open env fs s v).2.1.masses = s.masses) := by
  obtain ⟨hxg, hmol⟩ := Trajectory_init_open_read_ok env fs s v hmode hok
  refine ⟨?_, ?_, ?_⟩
  · intro hty
    obtain ⟨f, hr, heq⟩ := hxg (Or.inl hty)
    obtain ⟨s1, h1, h2⟩ := (Trajectory_init_router_ok env fs { s with fd := some f } v f rfl hr).1
      hty
    obtain ⟨toks, f1, h3⟩ := read_topo_from_xyz_post env _ f s1 h1
    refine ⟨toks, ?_, ?_, ?_, ?_⟩ <;> rw [heq, h2, h3]
  · intro hty
    obtain ⟨f, hr, heq⟩ := hxg (Or.inr hty)
    obtain ⟨s1, h1, h2⟩ :=
      (Trajectory_init_router_ok env fs { s with fd := some f } v f rfl hr).2.1 hty
    obtain ⟨names, rns, ids, f1, hl1, hl2, h3⟩ := read_topo_from_gro_post _ f s1 h1
    refine ⟨names, rns, ids, hl1, hl2, ?_, ?_, ?_, ?_, ?_, ?_⟩ <;> rw [heq, h2, h3]
  · intro hty hst
    obtain ⟨f, n, s1, hscan, _, hr, heq⟩ := hmol hty
    obtain ⟨sect, style, u, fd, hframe⟩ := read_molden_sections_frame { s with fd := some f } f
    rw [hscan] at hframe
    have hframe2 : s1 = _ := hframe
    have hfd : s1.fd = some ⟨f.content, 0⟩ := (read_molden_sections_ok _ f n s1 hscan).2.2.2.2.2.2.1
    have hty1 : s1.type = FileType.MOLDEN := by rw [hframe2]; exact hty
    obtain ⟨s2, h1, h2⟩ := (Trajectory_init_router_ok env fs s1 v _ hfd hr).2.2 hty1
    have hsty : s2.moldenStyle = s1.moldenStyle := by
      have := read_topo_from_molden_moldenStyle env s1 ⟨f.content, 0⟩
      rw [h1] at this
      exact this
    rw [heq, h2] at hst
    have hst1 : s1.moldenStyle = MoldenStyle.MLATOMS ∨ s1.moldenStyle = MoldenStyle.MLFREQ := by
      rw [← hsty]; exact hst
    obtain ⟨toks, nums, f1, u1, fp, hl, h3, h4⟩ :=
      read_topo_from_molden_post env s1 _ s2 hst1 h1
    refine ⟨toks, nums, hl, ?_, ?_, ?_, ?_, ?_⟩
    · rw [heq, h2, h3]
    · rw [heq, h2, h3]
    · rw [heq, h2, h3]
    · intro hf
      apply h4
      rw [heq, h2] at hf
      rw [← hsty]
      exact hf
    · rw [heq, h2, h3, hframe2]

end MDArray

namespace MDArray

/-- C23 (as amended). After every successful open in read mode: for the generic format,
`symbols`, `aNumbers` and `masses` are sequences of length exactly `nAtoms`, the numbers and
masses being the ones the element table gives for the symbols; for the fixed-column format,
`symbols`, `resNames` and `resids` are sequences of length `nAtoms`, while `aNumbers` and
`masses` are what they were before the open; for the sectioned format in the styles ATOMS
and FR-COORD, `symbols` and `aNumbers` are sequences of length `nAtoms` (in the style
FR-COORD the numbers are the ones the table gives for the symbols), while `masses` is what
it was before the open. -/
theorem C23_topology_lengths (env : Env) (fs : FileSystem) (self : Trajectory) (a : InitArgs)
    (hok : (Trajectory_init env fs self a).1 = Res.ok ())
    (hmode : (Trajectory_init env fs self a).2.1.mode = 'r') :
    ((Trajectory_init env fs self a).2.1.type = FileType.XYZ → ∃ toks : List (List Char),
      (Trajectory_init env fs self a).2.1.nAtoms = (toks.length : Int) ∧
      (Trajectory_init env fs self a).2.1.symbols = PyObject.PList (toks.map some) ∧
      (Trajectory_init env fs self a).2.1.aNumbers
        = PyObject.IntArray (toks.map (tableNumber env)) ∧
      (Trajectory_init env fs self a).2.1.masses
        = PyObject.Array ⟨[(toks.length : Int)], toks.map (tableMass env)⟩) ∧
    ((Trajectory_init env fs self a).2.1.type = FileType.GRO →
      ∃ (names rns : List (List Char)) (ids : List Int),
        rns.length = names.length ∧ ids.length = names.length ∧
        (Trajectory_init env fs self a).2.1.nAtoms = (names.length : Int) ∧
        (Trajectory_init env fs self a).2.1.symbols = PyObject.PList (names.map some) ∧
        (Trajectory_init env fs self a).2.1.resNames = PyObject.PList (rns.map some) ∧
        (Trajectory_init env fs self a).2.1.resids = PyObject.IntArray ids ∧
        (Trajectory_init env fs self a).2.1.aNumbers = self.aNumbers ∧
        (Trajectory_init env fs self a).2.1.masses = self.masses) ∧
    ((Trajectory_init env fs self a).2.1.type = FileType.MOLDEN →
      ((Trajectory_init env fs self a).2.1.moldenStyle = MoldenStyle.MLATOMS ∨
        (Trajectory_init env fs self a).2.1.moldenStyle = MoldenStyle.MLFREQ) →
      ∃ (toks : List (List Char)) (nums : List Int),
        nums.length = toks.length ∧
        (Trajectory_init env fs self a).2.1.nAtoms = (toks.length : Int) ∧
        (Trajectory_init env fs self a).2.1.symbols = PyObject.PList (toks.map some) ∧
        (Trajectory_init env fs self a).2.1.aNumbers = PyObject.IntArray nums ∧
        ((Trajectory_init env fs self a).2.1.moldenStyle = MoldenStyle.MLFREQ →
          nums = toks.map (tableNumber env)) ∧
        (Trajectory_init env fs self a).2.1.masses = self.masses) := by
  obtain ⟨v, ty, u, _, _, _, _, heq⟩ := Trajectory_init_ok env fs self a hok
  rw [heq] at hok hmode ⊢
  rw [Trajectory_init_open_mode] at hmode
  rw [Trajectory_init_open_type]
  exact Trajectory_init_open_read_topology env fs _ v hmode hok

/-- C23, witness: `Trajectory('water.xyz')` has three atoms, the symbols O, H, H, and the
atomic numbers and masses of the table for them. -/
theorem C23_topology_lengths_witness :
    ∃ toks : List (List Char),
      (Trajectory_init exampleEnv exampleFs Trajectory_new
        (openForReading "water.xyz".toList)).2.1.nAtoms = (toks.length : Int) ∧
      (Trajectory_init exampleEnv exampleFs Trajectory_new
        (openForReading "water.xyz".toList)).2.1.symbols = PyObject.PList (toks.map some) ∧
      (Trajectory_init exampleEnv exampleFs Trajectory_new
        (openForReading "water.xyz".toList)).2.1.aNumbers
        = PyObject.IntArray (toks.map (tableNumber exampleEnv)) ∧
      (Trajectory_init exampleEnv exampleFs Trajectory_new
        (openForReading "water.xyz".toList)).2.1.masses
        = PyObject.Array ⟨[(toks.length : Int)], toks.map (tableMass exampleEnv)⟩ :=
  (C23_topology_lengths exampleEnv exampleFs Trajectory_new (openForReading "water.xyz".toList)
    (by decide) (by decide)).1 (by decide)

set_option maxRecDepth 100000 in
/-- C23 as written fails: `Trajectory('out.gro')` on a fixed-column file of three atoms
succeeds in read mode with `nAtoms` 3 and with `aNumbers` and `masses` both None, and
`Trajectory('au.molden')` on a sectioned file of two atoms in the style ATOMS succeeds with
`nAtoms` 2 and `masses` None. -/
theorem C23_counterexample :
    ((Trajectory_init exampleEnv (exampleFs.store "out.gro".toList exampleGroWritten.2.content)
        Trajectory_new (readArgsFor "out.gro".toList none none)).1 = Res.ok () ∧
      exampleGroReadSession.mode = 'r' ∧ exampleGroReadSession.type = FileType.GRO ∧
      exampleGroReadSession.nAtoms = 3 ∧
      exampleGroReadSession.aNumbers = PyObject.None ∧
      exampleGroReadSession.masses = PyObject.None) ∧
    ((Trajectory_init exampleEnv exampleSectionedFs Trajectory_new
        (readArgsFor "au.molden".toList none none)).1 = Res.ok () ∧
      (Trajectory_init exampleEnv exampleSectionedFs Trajectory_new
        (readArgsFor "au.molden".toList none none)).2.1.mode = 'r' ∧
      (Trajectory_init exampleEnv exampleSectionedFs Trajectory_new
        (readArgsFor "au.molden".toList none none)).2.1.nAtoms = 2 ∧
      (Trajectory_init exampleEnv exampleSectionedFs Trajectory_new
        (readArgsFor "au.molden".toList none none)).2.1.masses = PyObject.None) := by
  decide

end MDArray

namespace MDArray

/-- The atom loop of the generic-format topology reader on lines that each carry a symbol:
it stores the first token of every line as the symbol of its atom, with the atomic number
and the mass the table gives for it. -/
theorem read_topo_from_xyz_loop_table (env : Env) :
    ∀ (ls : List (List Char)) (A : List (Option (List Char))) (f : FILE) (anum : List Int)
      (masses : List ARRAY_REAL) (tail : List Char),
      (∀ l ∈ ls, hasSymbol l = true) → f.rest = linesText ls ++ tail →
      ∃ f1,
        read_topo_from_xyz_loop env ls.length A.length f
            (PyObject.PList (A ++ List.replicate ls.length none)) anum masses
          = (Res.ok (f1, PyObject.PList (A ++ ls.map (fun l => some (xyzSymbol l))),
                anum ++ ls.map (fun l => tableNumber env (xyzSymbol l)),
                masses ++ ls.map (fun l => tableMass env (xyzSymbol l))),
              f1, PyObject.PList (A ++ ls.map (fun l => some (xyzSymbol l))))
        ∧ f1.rest = tail ∧ f1.content = f.content := by
  intro ls
  induction ls with
  | nil =>
    intro A f anum masses tail _ hrest
    exact ⟨f, by simp [read_topo_from_xyz_loop], by simpa [linesText] using hrest, rfl⟩
  | cons l ls ih =>
    intro A f anum masses tail hl hrest
    rw [linesText_cons, List.append_assoc, List.cons_append] at hrest
    have hal := hl l (by simp)
    unfold hasSymbol at hal
    simp only [Bool.and_eq_true] at hal
    obtain ⟨hline, htok⟩ := hal
    obtain ⟨f1, hg, hr1, hc1⟩ := getline_line f l _ ((isLine_iff l).1 hline).1 hrest
    cases ht : (strtok l).head? with
    | none => rw [ht] at htok; simp at htok
    | some t =>
      have hsym : xyzSymbol l = t := by simp [xyzSymbol, ht]
      have hls : ∀ x ∈ ls, hasSymbol x = true := fun x hx => hl x (by simp [hx])
      have hset : PyList_SetItem (PyObject.PList (A ++ List.replicate (ls.length + 1) none))
          A.length (some t) = PyObject.PList ((A ++ [some t]) ++ List.replicate ls.length none) := by
        show PyObject.PList _ = _
        rw [set_append_replicate, List.append_assoc, List.singleton_append]
      have hlen : (A ++ [some t]).length = A.length + 1 := by simp
      simp only [List.length_cons]
      rw [read_topo_from_xyz_loop]
      simp only [_getline, hg, cstr_line l hline, chopLast_line, ht, hset]
      cases hidx : env.getElementIndexBySymbol t with
      | none =>
        obtain ⟨f2, h2, hr2, hc2⟩ := ih (A ++ [some t]) f1 (anum ++ [-1])
          (masses ++ [ARRAY_REAL.zero]) tail hls hr1
        rw [hlen] at h2
        refine ⟨f2, ?_, hr2, hc2.trans hc1⟩
        dsimp only
        rw [h2]
        simp [hsym, tableNumber, tableMass, hidx]
      | some idx =>
        obtain ⟨f2, h2, hr2, hc2⟩ := ih (A ++ [some t]) f1
          (anum ++ [env.element_number idx]) (masses ++ [env.element_mass idx]) tail hls hr1
        rw [hlen] at h2
        refine ⟨f2, ?_, hr2, hc2.trans hc1⟩
        dsimp only
        rw [h2]
        simp [hsym, tableNumber, tableMass, hidx]

/-- C24. The generic-format topology reader.  When the first line does not begin with an
integer the call fails with the parse error (IOError, `Incorrect atom number`).  When the
first line reads as the integer `n`, a second line follows, whatever it holds, and `n` lines
with a token each follow that, the call succeeds: `nAtoms` is `n`, the symbol of each atom
is the first token of its line, and its atomic number and mass are the ones the element
table gives for the symbol, -1 and 0 when the table does not hold it; a symbol the table
does not hold never makes the call fail. -/
theorem C24_generic_topology (env : Env) (s : Trajectory) (f : FILE) :
    (∀ buffer f1, _getline f = some (buffer, f1) → sscanf_d buffer = none →
      read_topo_from_xyz env s f = (Res.error (some PyExc.IOError), { s with fd := some f1 })) ∧
    (∀ (fr : XyzFrameLines) (tail : List Char) (n : Nat),
      isLine fr.count = true → sscanf_d (fr.count ++ ['\n']) = some (n : Int) →
      isLine fr.comment = true → fr.atoms.length = n →
      (∀ l ∈ fr.atoms, hasSymbol l = true) → f.rest = fr.text ++ tail →
      ∃ f1, f1.content = f.content ∧ f1.rest = tail ∧
        read_topo_from_xyz env s f
          = (Res.ok (),
              { s with
                fd := some f1
                nAtoms := (n : Int)
                symbols := PyObject.PList (fr.atoms.map (fun l => some (xyzSymbol l)))
                aNumbers := PyObject.IntArray (fr.atoms.map (fun l => tableNumber env (xyzSymbol l)))
                masses := PyObject.Array
                  ⟨[(n : Int)], fr.atoms.map (fun l => tableMass env (xyzSymbol l))⟩ })) := by
  constructor
  · intro buffer f1 hg hn
    unfold read_topo_from_xyz
    simp only [hg, hn]
  · intro fr tail n hcount hparse hcomment hlen hl hrest
    unfold XyzFrameLines.text at hrest
    rw [linesText_cons, linesText_cons, List.append_assoc, List.cons_append, List.append_assoc,
      List.cons_append] at hrest
    obtain ⟨f1, hg1, hr1, hc1⟩ := getline_line f fr.count _ ((isLine_iff _).1 hcount).1 hrest
    obtain ⟨f2, hg2, hr2, hc2⟩ := getline_line f1 fr.comment _ ((isLine_iff _).1 hcomment).1 hr1
    obtain ⟨f3, h3, hr3, hc3⟩ := read_topo_from_xyz_loop_table env fr.atoms [] f2 [] [] tail hl hr2
    refine ⟨f3, by rw [hc3, hc2, hc1], hr3, ?_⟩
    unfold read_topo_from_xyz
    simp only [_getline, hg1, hparse, hg2]
    have hnn : ¬ ((n : Int) < 0) := by omega
    simp only [hnn, if_false, PyList_New, Int.toNat_ofNat]
    simp only [List.nil_append, List.length_nil] at h3
    rw [← hlen, h3]

/-- C24, witness: the file of the examples has three atoms O, H, H; with the table of the
examples their numbers are 8, 1, 1. -/
theorem C24_generic_topology_witness :
    ∃ f1, f1.content = exampleXyzFile ∧ f1.rest = [] ∧
      read_topo_from_xyz exampleEnv Trajectory_new ⟨exampleXyzFile, 0⟩
        = (Res.ok (),
            { Trajectory_new with
              fd := some f1
              nAtoms := ((3 : Nat) : Int)
              symbols := PyObject.PList (exampleXyzFrame.atoms.map (fun l => some (xyzSymbol l)))
              aNumbers := PyObject.IntArray
                (exampleXyzFrame.atoms.map (fun l => tableNumber exampleEnv (xyzSymbol l)))
              masses := PyObject.Array
                ⟨[((3 : Nat) : Int)],
                  exampleXyzFrame.atoms.map (fun l => tableMass exampleEnv (xyzSymbol l))⟩ }) :=
  (C24_generic_topology exampleEnv Trajectory_new ⟨exampleXyzFile, 0⟩).2 exampleXyzFrame [] 3
    (by decide) (by decide) (by decide) (by decide) (by decide) (by decide)

end MDArray

namespace MDArray

/-- The pre-check of a read at the end of the stream and at the head of a section: at the
end of the stream the session is left as it is; a line that begins a section of a
sectioned file ends the call with the cursor behind that line. -/
theorem Trajectory_read_peek_none (env : Env) (s : Trajectory) (w : Bool)
    (b : Option (List ARRAY_REAL)) (f : FILE) (hx : s.type ≠ FileType.XTC)
    (hfd : s.fd = some f) :
    (f.getline = none → Trajectory_read_peek env s w b = (Res.ok none, s)) ∧
    (∀ line f1, f.getline = some (line, f1) → s.type = FileType.MOLDEN →
      (stripline (cstr line)).head? = some '[' →
      Trajectory_read_peek env s w b
        = (Res.ok none, { s with fd := some ⟨f.content, f.pos + line.length⟩ })) := by
  constructor
  · intro hl
    unfold Trajectory_read_peek
    simp only [ne_eq, hx, not_false_eq_true, if_true, hfd, hl]
  · intro line f1 hl hty hh
    obtain ⟨hc, hp, _⟩ := getline_content f f1 line hl
    have hf1 : f1 = ⟨f.content, f.pos + line.length⟩ := by
      cases f1
      simp only [FILE.mk.injEq] at hc hp ⊢
      exact ⟨hc, hp⟩
    subst hf1
    unfold Trajectory_read_peek
    rw [if_pos hx]
    simp only [hfd, hl]
    rw [if_pos ⟨hty, hh⟩]

/-- C25, at the failing input.  The file `two.molden` holds one frame in its section
GEOMETRIES and then the section header `[FREQ]`.  After the first read the cursor stands at
byte 50, in front of the header.  The second read peeks at the header, returns None, and
leaves the cursor at byte 57, behind the header line, not at byte 50.  A third read then
takes the lines behind the header for a frame and returns it. -/
theorem C25_peek_at_section_boundary :
    (afterReads exampleEnv exampleTwoSectionSession 1).fd
      = some ⟨exampleTwoSectionFile, 50⟩ ∧
    (exampleTwoSectionFile.drop 50).take 7 = "[FREQ]\n".toList ∧
    (Trajectory_read exampleEnv (afterReads exampleEnv exampleTwoSectionSession 1)
      ⟨false, none⟩).1 = Res.ok none ∧
    (Trajectory_read exampleEnv (afterReads exampleEnv exampleTwoSectionSession 1)
      ⟨false, none⟩).2.fd = some ⟨exampleTwoSectionFile, 57⟩ ∧
    (match (Trajectory_read exampleEnv (afterReads exampleEnv exampleTwoSectionSession 2)
        ⟨false, none⟩).1 with
      | Res.ok (some fr) => fr.coordinates
      | _ => none)
      = some ⟨[1, 3], [⟨90, 10⟩, ⟨90, 10⟩, ⟨90, 10⟩]⟩ ∧
    (afterReads exampleEnv exampleTwoSectionSession 3).lastFrame = 1 := by
  decide

end MDArray

namespace MDArray

/-! ### Opening for writing -/

/-- The symbols that pass the argument parser are a Python list. -/
theorem Trajectory_init_args_symbols (a : InitArgs) (v : InitVars)
    (h : Trajectory_init_args a = Res.ok v) :
    ∀ o, v.py_sym = some o → ∃ items, o = PyObject.PList items := by
  unfold Trajectory_init_args at h
  rcases hf : parse_s a.filename with (_ | fname) | e | _
  · rw [hf] at h; simp at h
  · rcases hm : parse_s a.mode with m | e | _
    · rcases hsy : parse_O PyObject.isList a.symbols with sy | e | _
      · rcases hr : parse_O PyObject.isArray a.resids with r | e | _
        · rcases hrn : parse_O PyObject.isList a.resnames with rn | e | _
          · rcases ht : parse_s a.format with t | e | _
            · rcases hu : parse_s a.units with u | e | _
              · rw [hf, hm, hsy, hr, hrn, ht, hu] at h
                simp only [Res.ok.injEq] at h
                intro o ho
                rw [← h] at ho
                simp only at ho
                rw [ho] at hsy
                unfold parse_O at hsy
                split at hsy
                · simp at hsy
                · rename_i o1
                  split at hsy
                  · rename_i hl
                    simp only [Res.ok.injEq, Option.some.injEq] at hsy
                    rw [hsy] at hl
                    cases o with
                    | PList items => exact ⟨items, rfl⟩
                    | Null => simp [PyObject.isList] at hl
                    | None => simp [PyObject.isList] at hl
                    | Str s => simp [PyObject.isList] at hl
                    | Array x => simp [PyObject.isList] at hl
                    | IntArray x => simp [PyObject.isList] at hl
                    | Other => simp [PyObject.isList] at hl
                  · simp at hsy
              · rw [hf, hm, hsy, hr, hrn, ht, hu] at h; simp at h
              · rw [hf, hm, hsy, hr, hrn, ht, hu] at h; simp at h
            · rw [hf, hm, hsy, hr, hrn, ht] at h; simp at h
            · rw [hf, hm, hsy, hr, hrn, ht] at h; simp at h
          · rw [hf, hm, hsy, hr, hrn] at h; simp at h
          · rw [hf, hm, hsy, hr, hrn] at h; simp at h
        · rw [hf, hm, hsy, hr] at h; simp at h
        · rw [hf, hm, hsy, hr] at h; simp at h
      · rw [hf, hm, hsy] at h; simp at h
      · rw [hf, hm, hsy] at h; simp at h
    · rw [hf, hm] at h; simp at h
    · rw [hf, hm] at h; simp at h
  · rw [hf] at h; simp at h
  · rw [hf] at h; simp at h

/-- With an explicit format of the known set and an acceptable mode, `Trajectory_init`
stores the name, the mode and the format and goes on to the unit stage. -/
theorem Trajectory_init_explicit (env : Env) (fs : FileSystem) (self : Trajectory)
    (a : InitArgs) (v : InitVars) (t : List Char) (ty : FileType)
    (hargs : Trajectory_init_args a = Res.ok v)
    (hmode : initMode v = 'r' ∨ initMode v = 'w' ∨ initMode v = 'a')
    (hfmt : v.str_type = some t)
    (hty : (t = "XYZ".toList ∧ ty = FileType.XYZ) ∨ (t = "MOLDEN".toList ∧ ty = FileType.MOLDEN)
      ∨ (t = "GRO".toList ∧ ty = FileType.GRO) ∨ (t = "XTC".toList ∧ ty = FileType.XTC)) :
    Trajectory_init env fs self a
      = Trajectory_init_units env fs
          { self with fileName := some v.filename, mode := initMode v, type := ty } v := by
  have hmode2 : ¬ (v.mode.isSome = true ∧ ((v.mode.getD []).head?).getD NUL ≠ 'r'
      ∧ ((v.mode.getD []).head?).getD NUL ≠ 'w' ∧ ((v.mode.getD []).head?).getD NUL ≠ 'a') := by
    rintro ⟨h0, h1, h2, h3⟩
    rw [initMode_eq v h0] at hmode
    tauto
  have hres : ∀ T : FileType, T ≠ FileType.GUESS →
      Trajectory_init_guess env fs
          { self with fileName := some v.filename, mode := initMode v, type := T } v
        = Trajectory_init_units env fs
          { self with fileName := some v.filename, mode := initMode v, type := T } v :=
    fun T hT => Trajectory_init_guess_resolved env fs _ v hT
  unfold Trajectory_init
  simp only [hargs]
  rw [if_neg hmode2, hfmt]
  dsimp only
  rcases hty with ⟨rfl, rfl⟩ | ⟨rfl, rfl⟩ | ⟨rfl, rfl⟩ | ⟨rfl, rfl⟩
  · rw [if_pos rfl]
    exact hres _ (by decide)
  · rw [if_neg (by decide), if_pos rfl]
    exact hres _ (by decide)
  · rw [if_neg (by decide), if_neg (by decide), if_pos rfl]
    exact hres _ (by decide)
  · rw [if_neg (by decide), if_neg (by decide), if_neg (by decide), if_pos rfl]
    exact hres _ (by decide)

end MDArray

namespace MDArray

/-- The open stage in the modes `w` and `a`, check by check. -/
theorem Trajectory_init_open_write (env : Env) (fs : FileSystem) (s : Trajectory)
    (v : InitVars) (hm : s.mode = 'w' ∨ s.mode = 'a') :
    ((s.mode = 'w' ∧ fs.exists_ v.filename = true) →
      Trajectory_init_open env fs s v = (Res.error (some PyExc.FileExistsError), s, fs)) ∧
    (¬ (s.mode = 'w' ∧ fs.exists_ v.filename = true) → s.symbols = PyObject.None →
      Trajectory_init_open env fs s v = (Res.error (some PyExc.ValueError), s, fs)) ∧
    (¬ (s.mode = 'w' ∧ fs.exists_ v.filename = true) →
      ∀ items, s.symbols = PyObject.PList items →
      (s.type = FileType.MOLDEN ∨ s.type = FileType.XTC ∨ s.type = FileType.GUESS) →
      Trajectory_init_open env fs s v
        = (Res.error (some PyExc.NotImplementedError),
            { s with nAtoms := (items.length : Int) }, fs)) ∧
    ((Trajectory_init_open env fs s v).1 = Res.ok () →
      (s.type = FileType.XYZ ∨ s.type = FileType.GRO) ∧ s.symbols ≠ PyObject.None ∧
      (Trajectory_init_open env fs s v).2.1.nAtoms = PyList_Size s.symbols ∧
      (Trajectory_init_open env fs s v).2.1.symbols = s.symbols) := by
  refine ⟨?_, ?_, ?_, ?_⟩
  · intro he
    unfold Trajectory_init_open
    rw [if_pos hm, if_pos he]
  · intro he hs
    unfold Trajectory_init_open
    rw [if_pos hm, if_neg he, if_pos hs]
  · intro he items hs hty
    have h1 : ¬ s.symbols = PyObject.None := by rw [hs]; simp
    have h2 : ¬ s.symbols = PyObject.Null := by rw [hs]; simp
    unfold Trajectory_init_open
    rw [if_pos hm, if_neg he, if_neg h1, if_neg h2]
    rcases hty with hty | hty | hty <;> simp only [hty, hs, PyList_Size]
  · intro hok
    unfold Trajectory_init_open at hok ⊢
    rw [if_pos hm] at hok ⊢
    by_cases he : s.mode = 'w' ∧ fs.exists_ v.filename = true
    · rw [if_pos he] at hok; simp at hok
    · rw [if_neg he] at hok ⊢
      by_cases h1 : s.symbols = PyObject.None
      · rw [if_pos h1] at hok; simp at hok
      · rw [if_neg h1] at hok ⊢
        by_cases h2 : s.symbols = PyObject.Null
        · rw [if_pos h2] at hok; simp at hok
        · rw [if_neg h2] at hok ⊢
          cases hty : s.type with
          | GUESS => simp only [hty] at hok; simp at hok
          | MOLDEN => simp only [hty] at hok; simp at hok
          | XTC => simp only [hty] at hok; simp at hok
          | XYZ =>
            simp only [hty] at hok ⊢
            cases ho : fopen_w fs v.filename s.mode with
            | none => rw [ho] at hok; simp at hok
            | some pr => exact ⟨Or.inl trivial, h1, rfl, rfl⟩
          | GRO =>
            simp only [hty] at hok ⊢
            cases ho : fopen_w fs v.filename s.mode with
            | none => rw [ho] at hok; simp at hok
            | some pr => exact ⟨Or.inr trivial, h1, rfl, rfl⟩

/-- A unit hint that is absent or one of the three tokens passes the unit stage. -/
theorem Trajectory_init_units_valid (env : Env) (fs : FileSystem) (s : Trajectory)
    (v : InitVars) (hty : s.type ≠ FileType.GUESS)
    (hu : v.units = none ∨ v.units = some "angs".toList ∨ v.units = some "bohr".toList
      ∨ v.units = some "nm".toList) :
    ∃ U, Trajectory_init_units env fs s v = Trajectory_init_lists env fs { s with units := U } v
      := by
  obtain ⟨c1, c2, c3, c4, c5, _⟩ := Trajectory_init_units_cases env fs s v
  rcases hu with h | h | h | h
  · have hcases : (s.type = FileType.XYZ ∨ s.type = FileType.MOLDEN) ∨
        (s.type = FileType.GRO ∨ s.type = FileType.XTC) := by
      revert hty
      cases s.type <;> simp
    rcases hcases with ht | ht
    · exact ⟨_, c1 h ht⟩
    · exact ⟨_, c2 h ht⟩
  · exact ⟨_, c3 h⟩
  · exact ⟨_, c4 h⟩
  · exact ⟨_, c5 h⟩

end MDArray

namespace MDArray

/-- An open stage that fails leaves the file system as it is. -/
theorem Trajectory_init_open_fs (env : Env) (fs : FileSystem) (s : Trajectory) (v : InitVars)
    (h : (Trajectory_init_open env fs s v).1 ≠ Res.ok ()) :
    (Trajectory_init_open env fs s v).2.2 = fs := by
  unfold Trajectory_init_open at h ⊢
  by_cases hm : s.mode = 'w' ∨ s.mode = 'a'
  · rw [if_pos hm] at h ⊢
    by_cases he : s.mode = 'w' ∧ fs.exists_ v.filename = true
    · rw [if_pos he]
    · rw [if_neg he] at h ⊢
      by_cases h1 : s.symbols = PyObject.None
      · rw [if_pos h1]
      · rw [if_neg h1] at h ⊢
        by_cases h2 : s.symbols = PyObject.Null
        · rw [if_pos h2]
        · rw [if_neg h2] at h ⊢
          cases hty : s.type with
          | GUESS => simp only [hty]
          | MOLDEN => simp only [hty]
          | XTC => simp only [hty]
          | XYZ =>
            simp only [hty] at h ⊢
            cases ho : fopen_w fs v.filename s.mode with
            | none => rfl
            | some pr => rw [ho] at h; exact absurd rfl h
          | GRO =>
            simp only [hty] at h ⊢
            cases ho : fopen_w fs v.filename s.mode with
            | none => rfl
            | some pr => rw [ho] at h; exact absurd rfl h
  · rw [if_neg hm]
    cases hty : s.type with
    | GUESS => rfl
    | XYZ =>
      dsimp only
      cases fopen_r fs v.filename <;> rfl
    | GRO =>
      dsimp only
      cases fopen_r fs v.filename <;> rfl
    | MOLDEN =>
      dsimp only
      cases fopen_r fs v.filename with
      | none => rfl
      | some f =>
        dsimp only
        generalize read_molden_sections _ f = L
        obtain ⟨r, s1⟩ := L
        rcases r with n | e | _
        · dsimp only
          split <;> rfl
        · rfl
        · rfl
    | XTC =>
      dsimp only
      split
      · cases fs.xtc v.filename <;> rfl
      · rfl

/-- C26 (as amended). An open in the mode `w` or `a` whose format is MOLDEN or XTC never
succeeds, whatever the other arguments and whether or not the target exists, and it never
touches the file system.  With the format given as `MOLDEN` or `XTC` the error is
NotImplementedError once the checks in front of it have passed: the unit hint is absent or
one of `angs`, `bohr`, `nm`; in the mode `w` the target does not exist; and a symbols list
was supplied.  Otherwise the error is the one of the first check that fails: ValueError for
another unit hint, FileExistsError in the mode `w` on a target that exists, ValueError when
no symbols are at hand. -/
theorem C26_unsupported_write_formats (env : Env) (fs : FileSystem) (self : Trajectory)
    (a : InitArgs) :
    ((((Trajectory_init env fs self a).2.1.mode = 'w' ∨
        (Trajectory_init env fs self a).2.1.mode = 'a') ∧
      ((Trajectory_init env fs self a).2.1.type = FileType.MOLDEN ∨
        (Trajectory_init env fs self a).2.1.type = FileType.XTC)) →
      (Trajectory_init env fs self a).1 ≠ Res.ok ()) ∧
    (∀ (v : InitVars) (t : List Char), Trajectory_init_args a = Res.ok v →
      (initMode v = 'w' ∨ initMode v = 'a') → v.str_type = some t →
      (t = "MOLDEN".toList ∨ t = "XTC".toList) →
      (Trajectory_init env fs self a).1 ≠ Res.ok () ∧
      (Trajectory_init env fs self a).2.2 = fs ∧
      (∀ u, v.units = some u → u ≠ "angs".toList → u ≠ "bohr".toList → u ≠ "nm".toList →
        (Trajectory_init env fs self a).1 = Res.error (some PyExc.ValueError)) ∧
      ((v.units = none ∨ v.units = some "angs".toList ∨ v.units = some "bohr".toList
          ∨ v.units = some "nm".toList) →
        ((initMode v = 'w' ∧ fs.exists_ v.filename = true) →
          (Trajectory_init env fs self a).1 = Res.error (some PyExc.FileExistsError)) ∧
        (¬ (initMode v = 'w' ∧ fs.exists_ v.filename = true) →
          v.py_sym = none → self.symbols = PyObject.None →
          (Trajectory_init env fs self a).1 = Res.error (some PyExc.ValueError)) ∧
        (¬ (initMode v = 'w' ∧ fs.exists_ v.filename = true) →
          v.py_sym.isSome = true →
          (Trajectory_init env fs self a).1 = Res.error (some PyExc.NotImplementedError)))) := by
  have hA : (((Trajectory_init env fs self a).2.1.mode = 'w' ∨
        (Trajectory_init env fs self a).2.1.mode = 'a') ∧
      ((Trajectory_init env fs self a).2.1.type = FileType.MOLDEN ∨
        (Trajectory_init env fs self a).2.1.type = FileType.XTC)) →
      (Trajectory_init env fs self a).1 ≠ Res.ok () := by
    rintro ⟨hm, hty⟩ hok
    obtain ⟨v, ty, u, _, _, _, _, heq⟩ := Trajectory_init_ok env fs self a hok
    rw [heq] at hok hm hty
    rw [Trajectory_init_open_mode] at hm
    rw [Trajectory_init_open_type] at hty
    obtain ⟨h1, _, _⟩ := (Trajectory_init_open_write env fs _ v hm).2.2.2 hok
    have h2 : ty = FileType.XYZ ∨ ty = FileType.GRO := h1
    have h3 : ty = FileType.MOLDEN ∨ ty = FileType.XTC := hty
    rcases h2 with rfl | rfl <;> rcases h3 with h | h <;> exact absurd h (by decide)
  refine ⟨hA, ?_⟩
  intro v t hargs hmode hfmt ht
  have hmode3 : initMode v = 'r' ∨ initMode v = 'w' ∨ initMode v = 'a' := Or.inr hmode
  obtain ⟨ty, hty, hty2⟩ : ∃ ty, ((t = "XYZ".toList ∧ ty = FileType.XYZ) ∨
      (t = "MOLDEN".toList ∧ ty = FileType.MOLDEN) ∨ (t = "GRO".toList ∧ ty = FileType.GRO) ∨
      (t = "XTC".toList ∧ ty = FileType.XTC)) ∧ (ty = FileType.MOLDEN ∨ ty = FileType.XTC) := by
    rcases ht with h | h
    · exact ⟨FileType.MOLDEN, Or.inr (Or.inl ⟨h, rfl⟩), Or.inl rfl⟩
    · exact ⟨FileType.XTC, Or.inr (Or.inr (Or.inr ⟨h, rfl⟩)), Or.inr rfl⟩
  have hinit := Trajectory_init_explicit env fs self a v t ty hargs hmode3 hfmt hty
  have htyg : ty ≠ FileType.GUESS := by
    rcases hty2 with rfl | rfl <;> decide
  have hnr : ¬ (v.py_sym.isSome = true ∧ initMode v = 'r') := by
    rintro ⟨_, hr⟩
    rw [hr] at hmode
    rcases hmode with h | h <;> exact absurd h (by decide)
  -- the unit stage with a bad hint
  have hbad : ∀ u, v.units = some u → u ≠ "angs".toList → u ≠ "bohr".toList →
      u ≠ "nm".toList →
      Trajectory_init env fs self a
        = (Res.error (some PyExc.ValueError),
            { self with fileName := some v.filename, mode := initMode v, type := ty }, fs) := by
    intro u hu h1 h2 h3
    rw [hinit]
    exact (Trajectory_init_units_cases env fs _ v).2.2.2.2.2 u hu h1 h2 h3
  -- the open stage with a good hint
  have hgood : (v.units = none ∨ v.units = some "angs".toList ∨ v.units = some "bohr".toList
      ∨ v.units = some "nm".toList) →
      ∃ U, Trajectory_init env fs self a
        = Trajectory_init_open env fs
            { self with fileName := some v.filename, mode := initMode v, type := ty,
                        units := U, symbols := v.py_sym.getD self.symbols,
                        resids := v.py_resid.getD self.resids,
                        resNames := v.py_resn.getD self.resNames } v := by
    intro hu
    obtain ⟨U, hU⟩ := Trajectory_init_units_valid env fs
      { self with fileName := some v.filename, mode := initMode v, type := ty } v htyg hu
    refine ⟨U, ?_⟩
    rw [hinit, hU]
    unfold Trajectory_init_lists
    rw [if_neg hnr]
  have hcases : ∀ U, Trajectory_init env fs self a
        = Trajectory_init_open env fs
            { self with fileName := some v.filename, mode := initMode v, type := ty,
                        units := U, symbols := v.py_sym.getD self.symbols,
                        resids := v.py_resid.getD self.resids,
                        resNames := v.py_resn.getD self.resNames } v →
      ((initMode v = 'w' ∧ fs.exists_ v.filename = true) →
        (Trajectory_init env fs self a).1 = Res.error (some PyExc.FileExistsError) ∧
        (Trajectory_init env fs self a).2.2 = fs) ∧
      (¬ (initMode v = 'w' ∧ fs.exists_ v.filename = true) →
        v.py_sym = none → self.symbols = PyObject.None →
        (Trajectory_init env fs self a).1 = Res.error (some PyExc.ValueError) ∧
        (Trajectory_init env fs self a).2.2 = fs) ∧
      (¬ (initMode v = 'w' ∧ fs.exists_ v.filename = true) →
        v.py_sym.isSome = true →
        (Trajectory_init env fs self a).1 = Res.error (some PyExc.NotImplementedError) ∧
        (Trajectory_init env fs self a).2.2 = fs) := by
    intro U hU
    obtain ⟨w1, w2, w3, _⟩ := Trajectory_init_open_write env fs
      { self with fileName := some v.filename, mode := initMode v, type := ty,
                  units := U, symbols := v.py_sym.getD self.symbols,
                  resids := v.py_resid.getD self.resids,
                  resNames := v.py_resn.getD self.resNames } v hmode
    refine ⟨?_, ?_, ?_⟩
    · intro he
      rw [hU, w1 he]
      exact ⟨rfl, rfl⟩
    · intro he hs hself
      have hsym : v.py_sym.getD self.symbols = PyObject.None := by
        rw [hs]; exact hself
      rw [hU, w2 he hsym]
      exact ⟨rfl, rfl⟩
    · intro he hs
      cases hp : v.py_sym with
      | none => rw [hp] at hs; simp at hs
      | some o =>
        obtain ⟨items, rfl⟩ := Trajectory_init_args_symbols a v hargs o hp
        have hsym : v.py_sym.getD self.symbols = PyObject.PList items := by
          rw [hp]; rfl
        have hty3 : ty = FileType.MOLDEN ∨ ty = FileType.XTC ∨ ty = FileType.GUESS := by
          rcases hty2 with h | h
          · exact Or.inl h
          · exact Or.inr (Or.inl h)
        rw [hU, w3 he items hsym hty3]
        exact ⟨rfl, rfl⟩
  have hfs : (Trajectory_init env fs self a).1 ≠ Res.ok () ∧
      (Trajectory_init env fs self a).2.2 = fs := by
    by_cases hu : (v.units = none ∨ v.units = some "angs".toList ∨ v.units = some "bohr".toList
        ∨ v.units = some "nm".toList)
    · obtain ⟨U, hU⟩ := hgood hu
      have hno : (Trajectory_init env fs self a).1 ≠ Res.ok () := by
        apply hA
        rw [hU, Trajectory_init_open_mode, Trajectory_init_open_type]
        exact ⟨hmode, hty2⟩
      refine ⟨hno, ?_⟩
      rw [hU] at hno ⊢
      exact Trajectory_init_open_fs env fs _ v hno
    · cases hp : v.units with
      | none => exact absurd (Or.inl hp) hu
      | some u =>
        have h := hbad u hp (fun h => hu (Or.inr (Or.inl (by rw [hp, h]))))
          (fun h => hu (Or.inr (Or.inr (Or.inl (by rw [hp, h])))))
          (fun h => hu (Or.inr (Or.inr (Or.inr (by rw [hp, h])))))
        rw [h]
        exact ⟨by simp, rfl⟩
  refine ⟨hfs.1, hfs.2, ?_, ?_⟩
  · intro u hu h1 h2 h3
    rw [hbad u hu h1 h2 h3]
  · intro hu
    obtain ⟨U, hU⟩ := hgood hu
    obtain ⟨k1, k2, k3⟩ := hcases U hU
    exact ⟨fun he => (k1 he).1, fun he hs hself => (k2 he hs hself).1,
      fun he hs => (k3 he hs).1⟩

/-- C26, witness: `Trajectory('new.molden', 'w', symbols=['H'], format='MOLDEN')` on a
path that does not exist fails with NotImplementedError. -/
theorem C26_unsupported_write_formats_witness :
    (Trajectory_init exampleEnv exampleSectionedFs Trajectory_new
      (writeArgsFor "new.molden".toList ["H".toList] (some (PyObject.Str "MOLDEN".toList))
        none)).1 = Res.error (some PyExc.NotImplementedError) :=
  ((C26_unsupported_write_formats exampleEnv exampleSectionedFs Trajectory_new
    (writeArgsFor "new.molden".toList ["H".toList] (some (PyObject.Str "MOLDEN".toList))
      none)).2
    ⟨"new.molden".toList, some "w".toList, some (PyObject.PList [some "H".toList]), none, none,
      some "MOLDEN".toList, none⟩
    "MOLDEN".toList (by decide) (Or.inl (by decide)) rfl (Or.inl rfl)).2.2.2
    (Or.inl rfl) |>.2.2 (by decide) (by decide)

/-- C26 as written fails: `Trajectory('water.molden', 'w', symbols=['H'], format='MOLDEN')`
on a path that exists fails with FileExistsError, and
`Trajectory('new.xtc', 'a', format='XTC')` without symbols fails with ValueError; neither
error is NotImplementedError. -/
theorem C26_counterexample :
    (Trajectory_init exampleEnv exampleSectionedFs Trajectory_new
      (writeArgsFor "water.molden".toList ["H".toList] (some (PyObject.Str "MOLDEN".toList))
        none)).1 = Res.error (some PyExc.FileExistsError) ∧
    (Trajectory_init exampleEnv exampleSectionedFs Trajectory_new
      ⟨some (PyObject.Str "new.xtc".toList), some (PyObject.Str "a".toList), none, none, none,
        some (PyObject.Str "XTC".toList), none⟩).1 = Res.error (some PyExc.ValueError) ∧
    PyExc.FileExistsError ≠ PyExc.NotImplementedError ∧
    PyExc.ValueError ≠ PyExc.NotImplementedError := by
  decide

end MDArray

namespace MDArray

/-- C27. Symbols and mode in `Trajectory_init`, on a session that holds no symbols yet (as
`Trajectory_new` leaves it) and for arguments that pass the parser: in the mode `w` or `a`
without a symbols list the open fails; in the mode `r` with a symbols list the open fails;
and after every successful open in the mode `w` or `a` a symbols list was supplied and
`nAtoms` is its length. -/
theorem C27_symbols_and_mode (env : Env) (fs : FileSystem) (self : Trajectory) (a : InitArgs)
    (v : InitVars) (hargs : Trajectory_init_args a = Res.ok v)
    (hfresh : self.symbols = PyObject.None) :
    ((initMode v = 'w' ∨ initMode v = 'a') → v.py_sym = none →
      (Trajectory_init env fs self a).1 ≠ Res.ok ()) ∧
    (initMode v = 'r' → v.py_sym.isSome = true →
      (Trajectory_init env fs self a).1 ≠ Res.ok ()) ∧
    ((Trajectory_init env fs self a).1 = Res.ok () → (initMode v = 'w' ∨ initMode v = 'a') →
      ∃ items, v.py_sym = some (PyObject.PList items) ∧
        (Trajectory_init env fs self a).2.1.symbols = PyObject.PList items ∧
        (Trajectory_init env fs self a).2.1.nAtoms = (items.length : Int)) := by
  have key : (Trajectory_init env fs self a).1 = Res.ok () →
      ∃ ty u, ¬ (v.py_sym.isSome ∧ initMode v = 'r') ∧
        Trajectory_init env fs self a
          = Trajectory_init_open env fs
              { self with fileName := some v.filename, mode := initMode v, type := ty,
                          units := u, symbols := v.py_sym.getD self.symbols,
                          resids := v.py_resid.getD self.resids,
                          resNames := v.py_resn.getD self.resNames } v := by
    intro hok
    obtain ⟨v1, ty, u, h1, _, _, h4, h5⟩ := Trajectory_init_ok env fs self a hok
    rw [hargs] at h1
    simp only [Res.ok.injEq] at h1
    subst h1
    exact ⟨ty, u, h4, h5⟩
  refine ⟨?_, ?_, ?_⟩
  · intro hm hs hok
    obtain ⟨ty, u, _, heq⟩ := key hok
    rw [heq] at hok
    obtain ⟨_, h2, _⟩ := (Trajectory_init_open_write env fs _ v hm).2.2.2 hok
    apply h2
    show v.py_sym.getD self.symbols = PyObject.None
    rw [hs]
    exact hfresh
  · intro hm hs hok
    obtain ⟨ty, u, h1, _⟩ := key hok
    exact h1 ⟨hs, hm⟩
  · intro hok hm
    obtain ⟨ty, u, _, heq⟩ := key hok
    have hok2 := hok
    rw [heq] at hok2
    obtain ⟨_, h2, h3, h4⟩ := (Trajectory_init_open_write env fs _ v hm).2.2.2 hok2
    cases hp : v.py_sym with
    | none =>
      exfalso
      apply h2
      show v.py_sym.getD self.symbols = PyObject.None
      rw [hp]
      exact hfresh
    | some o =>
      obtain ⟨items, rfl⟩ := Trajectory_init_args_symbols a v hargs o hp
      refine ⟨items, rfl, ?_, ?_⟩
      · rw [heq, h4]
        show v.py_sym.getD self.symbols = _
        rw [hp]
        rfl
      · rw [heq, h3]
        show PyList_Size (v.py_sym.getD self.symbols) = _
        rw [hp]
        rfl

/-- C27, witness: `Trajectory('out.xyz', 'w', symbols=['O', 'H', 'H'])` succeeds with
`nAtoms` 3. -/
theorem C27_symbols_and_mode_witness :
    ∃ items, (some (PyObject.PList (exampleSyms.map some)) : Option PyObject)
        = some (PyObject.PList items) ∧
      (Trajectory_init exampleEnv exampleFs Trajectory_new
        (writeArgsFor "out.xyz".toList exampleSyms none none)).2.1.symbols
        = PyObject.PList items ∧
      (Trajectory_init exampleEnv exampleFs Trajectory_new
        (writeArgsFor "out.xyz".toList exampleSyms none none)).2.1.nAtoms
        = (items.length : Int) :=
  (C27_symbols_and_mode exampleEnv exampleFs Trajectory_new
    (writeArgsFor "out.xyz".toList exampleSyms none none)
    ⟨"out.xyz".toList, some "w".toList, some (PyObject.PList (exampleSyms.map some)), none, none,
      none, none⟩ (by decide) rfl).2.2 (by decide) (Or.inl (by decide))

end MDArray

namespace MDArray

/-! ### The byte columns of a written fixed-column line -/

theorem padLeft_length (c : Char) (width : Nat) (s : List Char) (h : s.length ≤ width) :
    (padLeft c width s).length = width := by
  unfold padLeft
  simp
  omega

theorem padRight_length (c : Char) (width : Nat) (s : List Char) (h : s.length ≤ width) :
    (padRight c width s).length = width := by
  unfold padRight
  simp
  omega

/-- Seven fields of 5, 5, 5, 5, 8, 8 and 8 characters in a row lie in the byte columns of an
atom line. -/
theorem groColumns_fields (A B C D X Y Z W : List Char) (hA : A.length = 5)
    (hB : B.length = 5) (hC : C.length = 5) (hD : D.length = 5) (hX : X.length = 8)
    (hY : Y.length = 8) (hZ : Z.length = 8) :
    groColumns (A ++ B ++ C ++ D ++ X ++ Y ++ Z ++ W) = [A, B, C, D, X, Y, Z] := by
  have h1 := slice_middle [] A (B ++ C ++ D ++ X ++ Y ++ Z ++ W) 0 5 rfl hA
  have h2 := slice_middle A B (C ++ D ++ X ++ Y ++ Z ++ W) 5 5 hA hB
  have h3 := slice_middle (A ++ B) C (D ++ X ++ Y ++ Z ++ W) 10 5 (by simp [hA, hB]) hC
  have h4 := slice_middle (A ++ B ++ C) D (X ++ Y ++ Z ++ W) 15 5 (by simp [hA, hB, hC]) hD
  have h5 := slice_middle (A ++ B ++ C ++ D) X (Y ++ Z ++ W) 20 8 (by simp [hA, hB, hC, hD]) hX
  have h6 := slice_middle (A ++ B ++ C ++ D ++ X) Y (Z ++ W) 28 8
    (by simp [hA, hB, hC, hD, hX]) hY
  have h7 := slice_middle (A ++ B ++ C ++ D ++ X ++ Y) Z W 36 8
    (by simp [hA, hB, hC, hD, hX, hY]) hZ
  simp only [List.append_assoc, List.nil_append, List.drop_zero] at h1 h2 h3 h4 h5 h6 h7
  simp only [groColumns, List.append_assoc, h1, h2, h3, h4, h5, h6, h7]

/-- Three fields of 8 characters behind a line of 44 characters lie in the byte columns of
the velocities. -/
theorem groVelColumns_fields (H VX VY VZ : List Char) (hH : H.length = 44)
    (hVX : VX.length = 8) (hVY : VY.length = 8) (hVZ : VZ.length = 8) :
    groVelColumns (H ++ (VX ++ VY ++ VZ)) = [VX, VY, VZ] := by
  obtain ⟨h1, h2, h3⟩ := three_slices H VX VY VZ [] 44 hH hVX hVY hVZ
  simp only [List.append_nil, List.append_assoc] at h1 h2 h3
  simp only [groVelColumns, List.append_assoc, h1, h2, h3]

end MDArray

namespace MDArray

/-- C28 (as amended). An atom line of `write_frame_to_gro` for an atom whose residue number,
residue name, symbol and index print in at most 5 characters each and whose coordinates and
velocities, as the writer holds them in its `float` variables (the coordinate converted to
`float`, divided by 10.0 and stored in a `float`; the velocity converted to `float`), print
in at most 8 characters each with three and four decimals: the loop emits the line and a
newline, the line has the residue number in the byte columns [0,5), the residue name in
[5,10), the symbol in [10,15), the index of the atom counted from 1 in [15,20), the
coordinates in [20,28), [28,36), [36,44), and is 44 characters long without velocities; with
velocities it is 68 characters long and has them in [44,52), [52,60), [60,68). -/
theorem C28_gro_line_columns (s : Trajectory) (v : WriteVars) (i : Nat) (f : FILE)
    (x y z : ARRAY_REAL) (htop : groTopologyFits s i = true)
    (hx : getFromArray2D v.py_coords i 0 = some x)
    (hy : getFromArray2D v.py_coords i 1 = some y)
    (hz : getFromArray2D v.py_coords i 2 = some z)
    (hfx : fitsField 8 3 (groCoord x) = true)
    (hfy : fitsField 8 3 (groCoord y) = true)
    (hfz : fitsField 8 3 (groCoord z) = true)
    (hvel : ∀ vel, v.py_vel = some vel → ∃ vx vy vz,
      getFromArray2D vel i 0 = some vx ∧ getFromArray2D vel i 1 = some vy ∧
      getFromArray2D vel i 2 = some vz ∧ fitsField 8 4 (toFloat vx) = true ∧
      fitsField 8 4 (toFloat vy) = true ∧ fitsField 8 4 (toFloat vz) = true) :
    ∃ r rn sym, groResid s.resids i = some r ∧ groResName s.resNames i = some rn ∧
      listString s.symbols i = some sym ∧
      write_frame_to_gro_loop s v.py_coords v.py_vel 1 i f
        = (Res.ok (), f.fprintf (groWrittenText s v i ++ ['\n'])) ∧
      groColumns (groWrittenText s v i)
        = [fmt_wd 5 r, padRight ' ' 5 rn, padLeft ' ' 5 sym, fmt_wd 5 ((i : Int) + 1),
            fmt_f false 8 3 (groCoord x),
            fmt_f false 8 3 (groCoord y),
            fmt_f false 8 3 (groCoord z)] ∧
      (v.py_vel = none → (groWrittenText s v i).length = 44) ∧
      (∀ vel vx vy vz, v.py_vel = some vel → getFromArray2D vel i 0 = some vx →
        getFromArray2D vel i 1 = some vy → getFromArray2D vel i 2 = some vz →
        (groWrittenText s v i).length = 68 ∧
        groVelColumns (groWrittenText s v i)
          = [fmt_f false 8 4 (toFloat vx), fmt_f false 8 4 (toFloat vy),
              fmt_f false 8 4 (toFloat vz)]) := by
  unfold groTopologyFits at htop
  split at htop
  · rename_i r rn sym hr hrn hsym
    simp only [Bool.and_eq_true, decide_eq_true_eq] at htop
    obtain ⟨⟨⟨h1, h2⟩, h3⟩, h4⟩ := htop
    have lA : (fmt_wd 5 r).length = 5 := padLeft_length _ _ _ h1
    have lB : (padRight ' ' 5 rn).length = 5 := padRight_length _ _ _ h2
    have lC : (padLeft ' ' 5 sym).length = 5 := padLeft_length _ _ _ h3
    have lD : (fmt_wd 5 ((i : Int) + 1)).length = 5 := padLeft_length _ _ _ h4
    obtain ⟨lx, _, _, _⟩ := fmt_f_fits 8 3 _ (by norm_num) hfx
    obtain ⟨ly, _, _, _⟩ := fmt_f_fits 8 3 _ (by norm_num) hfy
    obtain ⟨lz, _, _, _⟩ := fmt_f_fits 8 3 _ (by norm_num) hfz
    refine ⟨r, rn, sym, hr, hrn, hsym, ?_⟩
    generalize hA : fmt_wd 5 r = A at lA ⊢
    generalize hB : padRight ' ' 5 rn = B at lB ⊢
    generalize hC : padLeft ' ' 5 sym = C at lC ⊢
    generalize hD : fmt_wd 5 ((i : Int) + 1) = D at lD ⊢
    generalize hX : fmt_f false 8 3 (groCoord x) = X at lx ⊢
    generalize hY : fmt_f false 8 3 (groCoord y) = Y at ly ⊢
    generalize hZ : fmt_f false 8 3 (groCoord z) = Z at lz ⊢
    have hxyz : xyzDefined s v i = true := by simp [xyzDefined, hsym, hx, hy, hz]
    have hloop : groDefined s v i = true →
        write_frame_to_gro_loop s v.py_coords v.py_vel 1 i f
          = (Res.ok (), f.fprintf (groWrittenText s v i ++ ['\n'])) := by
      intro hdef
      have h := write_frame_to_gro_loop_ok s v 1 i f (fun j hj1 hj2 => by
        have : j = i := by omega
        rw [this]; exact hdef)
      rw [h]
      simp [groWrittenLine_text]
    cases hv : v.py_vel with
    | none =>
      have htext : groWrittenText s v i = A ++ B ++ C ++ D ++ X ++ Y ++ Z ++ [] := by
        simp only [groWrittenText, groAtomHead, hr, hrn, hsym, arrayElem, hx, hy, hz, hv,
          Option.getD_some, hA, hB, hC, hD, hX, hY, hZ]
      refine ⟨?_, ?_, ?_, ?_⟩
      · rw [← hv]
        apply hloop
        simp [groDefined, hxyz, hr, hrn, hv]
      · rw [htext]
        exact groColumns_fields A B C D X Y Z [] lA lB lC lD lx ly lz
      · intro _
        rw [htext]
        simp [lA, lB, lC, lD, lx, ly, lz]
      · intro vel vx vy vz h
        exact absurd h (by simp)
    | some vel =>
      obtain ⟨vx, vy, vz, hvx, hvy, hvz, fvx, fvy, fvz⟩ := hvel vel hv
      obtain ⟨lvx, _, _, _⟩ := fmt_f_fits 8 4 _ (by norm_num) fvx
      obtain ⟨lvy, _, _, _⟩ := fmt_f_fits 8 4 _ (by norm_num) fvy
      obtain ⟨lvz, _, _, _⟩ := fmt_f_fits 8 4 _ (by norm_num) fvz
      have htext : groWrittenText s v i = A ++ B ++ C ++ D ++ X ++ Y ++ Z
          ++ (fmt_f false 8 4 (toFloat vx) ++ fmt_f false 8 4 (toFloat vy)
            ++ fmt_f false 8 4 (toFloat vz)) := by
        simp only [groWrittenText, groAtomHead, hr, hrn, hsym, arrayElem, hx, hy, hz, hv,
          Option.getD_some, hA, hB, hC, hD, hX, hY, hZ, groVelFields, hvx, hvy, hvz]
      refine ⟨?_, ?_, ?_, ?_⟩
      · rw [← hv]
        apply hloop
        simp [groDefined, hxyz, hr, hrn, hv, groVelFields, hvx, hvy, hvz]
      · rw [htext]
        exact groColumns_fields A B C D X Y Z _ lA lB lC lD lx ly lz
      · intro h
        exact absurd h (by simp)
      · intro vel2 wx wy wz h2 hwx hwy hwz
        have hvv : vel = vel2 := Option.some.inj h2
        subst hvv
        rw [hvx] at hwx
        rw [hvy] at hwy
        rw [hvz] at hwz
        simp only [Option.some.injEq] at hwx hwy hwz
        subst hwx hwy hwz
        rw [htext]
        refine ⟨by simp [lA, lB, lC, lD, lx, ly, lz, lvx, lvy, lvz], ?_⟩
        exact groVelColumns_fields (A ++ B ++ C ++ D ++ X ++ Y ++ Z) _ _ _
          (by simp [lA, lB, lC, lD, lx, ly, lz]) lvx lvy lvz
  · exact absurd htop (by simp)

end MDArray

namespace MDArray

/-- C28, witness: the first atom line of the frame of the examples, written with
velocities, is 68 characters long and has its three velocities in the byte columns
[44,52), [52,60), [60,68). -/
theorem C28_gro_line_columns_witness :
    (groWrittenText exampleGroSession
        ⟨PyObject.Array exampleGroCoords, some (PyObject.Array exampleVelocities), none,
          some "frame0".toList⟩ 0).length = 68 ∧
    groVelColumns (groWrittenText exampleGroSession
        ⟨PyObject.Array exampleGroCoords, some (PyObject.Array exampleVelocities), none,
          some "frame0".toList⟩ 0)
      = [fmt_f false 8 4 (toFloat ⟨1, 3⟩), fmt_f false 8 4 (toFloat ⟨-1, 7⟩),
          fmt_f false 8 4 (toFloat ⟨0, 1⟩)] := by
  obtain ⟨r, rn, sym, _, _, _, _, _, _, h⟩ := C28_gro_line_columns exampleGroSession
    ⟨PyObject.Array exampleGroCoords, some (PyObject.Array exampleVelocities), none,
      some "frame0".toList⟩ 0 ⟨[], 0⟩ ⟨1, 3⟩ ⟨-2, 3⟩ ⟨0, 1⟩ (by decide) (by decide) (by decide)
    (by decide) (by decide) (by decide) (by decide)
    (fun vel hv => by
      cases hv
      exact ⟨⟨1, 3⟩, ⟨-1, 7⟩, ⟨0, 1⟩, by decide, by decide, by decide, by decide, by decide,
        by decide⟩)
  exact h (PyObject.Array exampleVelocities) ⟨1, 3⟩ ⟨-1, 7⟩ ⟨0, 1⟩ rfl (by decide) (by decide)
    (by decide)

set_option maxRecDepth 100000 in
/-- C28 as written fails: the coordinate 100000 prints as `10000.000`, 9 characters in a
field of 8, and the symbol `CARBON` prints in 6 characters in a field of 5; either line is
45 characters long, not 44, and the fields behind the wide one are shifted out of their
byte columns. -/
theorem C28_counterexample :
    (write_frame_to_gro exampleGroOne ⟨[], 0⟩ (PyObject.Array exampleBig) none none
      (some "c".toList)).2.content
      = "c\n    1\n    1         H    110000.000   0.500   0.500\n".toList
          ++ "   0.00000   0.00000   0.00000\n".toList ∧
    (groWrittenText exampleGroOne ⟨PyObject.Array exampleBig, none, none, none⟩ 0).length = 45 ∧
    (groColumns (groWrittenText exampleGroOne ⟨PyObject.Array exampleBig, none, none, none⟩ 0)).get? 5
      = some "0   0.50".toList ∧
    (write_frame_to_gro exampleLongSymbol ⟨[], 0⟩ (PyObject.Array exampleSmall) none none
      none).2.content
      = "\n    1\n    1     CARBON    1   0.100   0.200   0.300\n".toList
          ++ "   0.00000   0.00000   0.00000\n".toList ∧
    (groWrittenText exampleLongSymbol ⟨PyObject.Array exampleSmall, none, none, none⟩ 0).length
      = 45 := by
  decide

set_option maxRecDepth 100000 in
/-- The columns hold the `float` of the writer: the coordinate 0.125 is held as the `float`
nearest to 0.0125, just above it, and printed `0.013`; the coordinate -9999.9949 is held as
-1000.0 and does not fit its field. -/
theorem groCoord_print_example :
    groCoord ⟨1, 8⟩ = ⟨13421773, 1073741824⟩ ∧
    fmt_f false 8 3 (groCoord ⟨1, 8⟩) = "   0.013".toList ∧
    fmt_f false 8 3 (groCoord ⟨-99999949, 10000⟩) = "-1000.000".toList ∧
    fitsField 8 3 (groCoord ⟨-99999949, 10000⟩) = false :=
  ⟨by decide, by decide, by decide, by decide⟩

end MDArray

namespace MDArray

/-! ### The cell line of a written fixed-column frame -/

end MDArray

namespace MDArray

set_option maxRecDepth 100000 in
/-- The test works on the `float` the writer holds: the off-diagonal component 1.00000001e-5
is held, divided by 10, as the `float` 8796093 / 2 ^ 43, which is below the `double` 1e-6,
and the line carries three fields. -/
theorem boxLineFields_single_precision_example :
    groCoord ⟨100000001, 10000000000000⟩ = ⟨8796093, 8796093022208⟩ ∧
    ARRAY_REAL.gt (ARRAY_REAL.fabs ⟨8796093, 8796093022208⟩) boxEpsilon = false ∧
    (boxLineFields (some (PyObject.Array ⟨[3, 3],
      [⟨10, 1⟩, ⟨100000001, 10000000000000⟩, ⟨0, 1⟩, ⟨0, 1⟩, ⟨20, 1⟩, ⟨0, 1⟩, ⟨0, 1⟩, ⟨0, 1⟩,
        ⟨30, 1⟩]⟩))).length = 3 :=
  ⟨by decide, by decide, by decide⟩

end MDArray

namespace MDArray

/-- The velocities the fixed-column reader takes from an atom line are the numbers in the
byte columns [44,52), [52,60), [60,68) of the line. -/
theorem groLineVel_columns (l : List Char) (hl : isLine l = true) :
    groLineVel (l ++ ['\n']) = (groVelColumns (l ++ ['\n'])).map atof := by
  unfold groLineVel strPartFloat groVelColumns
  rw [cstr_line l hl]
  rfl

/-- C30. The fixed-column frame reader on a stream that stands in front of a comment line,
a count line that reads as `nAtoms`, `nAtoms` atom lines and a cell line: the frame it
returns has the key `velocities` iff there is a first atom line and that line, its newline
included, is longer than 50 characters, whatever the lengths of the atom lines behind it;
and then the array holds, for every atom line, the numbers in its byte columns [44,52),
[52,60), [60,68). -/
theorem C30_velocities_by_first_line (s : Trajectory) (f : FILE) (doWrap : Bool)
    (newbox : Option (List ARRAY_REAL)) (comment count : List Char)
    (atoms : List (List Char)) (tail : List Char)
    (hn0 : 0 ≤ s.nAtoms)
    (hcomment : isLine comment = true)
    (hcount : isLine count = true) (hparse : sscanf_d (count ++ ['\n']) = some s.nAtoms)
    (hlen : (atoms.length : Int) = s.nAtoms)
    (hl : ∀ l ∈ atoms, isLine l = true) (htail : tail ≠ [])
    (hrest : f.rest = linesText (comment :: count :: atoms) ++ tail) :
    ∃ frame f1, read_frame_from_gro s f doWrap newbox = (Res.ok frame, f1) ∧
      (frame.velocities.isSome = true ↔
        ∃ l rest, atoms = l :: rest ∧ 50 < (l ++ ['\n']).length) ∧
      (frame.velocities.isSome = true →
        frame.velocities
          = some ⟨[s.nAtoms, 3],
              (atoms.map (fun l => (groVelColumns (l ++ ['\n'])).map atof)).flatten⟩) := by
  have hr0 := hrest
  rw [linesText_cons, List.append_assoc, List.cons_append] at hrest
  obtain ⟨f1, hg1, hr1, _⟩ := getline_line f comment _ ((isLine_iff _).1 hcomment).1 hrest
  rw [linesText_cons, List.append_assoc, List.cons_append] at hr1
  obtain ⟨f2, hg2, hr2, _⟩ := getline_line f1 count _ ((isLine_iff _).1 hcount).1 hr1
  obtain ⟨f3, hloop, hr3, _⟩ := read_frame_from_gro_loop_lines atoms f2 tail hl hr2
  have hnat : s.nAtoms.toNat = atoms.length := by rw [← hlen]; simp
  have hg3 : f3.getline ≠ none := by
    unfold FILE.getline
    rw [hr3]
    simp [htail]
  obtain ⟨cell, f4, hg4⟩ : ∃ cell f4, f3.getline = some (cell, f4) := by
    cases h : f3.getline with
    | none => exact absurd h hg3
    | some p => exact ⟨p.1, p.2, rfl⟩
  have hvel : (atoms.map (fun l => groLineVel (l ++ ['\n'])))
      = atoms.map (fun l => (groVelColumns (l ++ ['\n'])).map atof) := by
    apply List.map_congr_left
    intro l hmem
    exact groLineVel_columns l (hl l hmem)
  have hflag : groVelPresent atoms = true ↔
      ∃ l rest, atoms = l :: rest ∧ 50 < (l ++ ['\n']).length := by
    cases atoms with
    | nil => simp [groVelPresent]
    | cons l rest => simp [groVelPresent]
  unfold read_frame_from_gro
  simp only [_getline, hg1, cstr_line comment hcomment, chopLast_line, hg2, hparse, ne_eq,
    not_true_eq_false, if_false, not_lt.2 hn0, hnat, hloop, hg4, Bool.false_eq_true]
  cases hv : groVelPresent atoms
  · refine ⟨_, _, rfl, ?_, ?_⟩
    · rw [← hflag, hv]
      simp [PyDict_New]
    · intro h
      simp [PyDict_New] at h
  · refine ⟨_, _, rfl, ?_, ?_⟩
    · rw [← hflag, hv]
      simp
    · intro _
      simp only [if_true, hvel]

end MDArray

namespace MDArray

/-- C30, witness: a frame whose first atom line is 68 characters long and whose second is
44 characters long is returned with velocities; with the two lines in the other order it
is returned without. -/
theorem C30_velocities_by_first_line_witness :
    (∃ frame f1, read_frame_from_gro { Trajectory_new with nAtoms := 2 } ⟨exampleMixedGro, 0⟩
        false none = (Res.ok frame, f1) ∧ frame.velocities.isSome = true) ∧
    (∃ frame f1, read_frame_from_gro { Trajectory_new with nAtoms := 2 }
        ⟨exampleMixedGroSwapped, 0⟩ false none = (Res.ok frame, f1) ∧
      frame.velocities.isSome = false) := by
  constructor
  · obtain ⟨frame, f1, h1, h2, _⟩ := C30_velocities_by_first_line
      { Trajectory_new with nAtoms := 2 } ⟨exampleMixedGro, 0⟩ false none "c".toList
      "    2".toList exampleMixedAtoms "   0.00000   0.00000   0.00000\n".toList
      (by decide) (by decide) (by decide) (by decide) (by decide) (by decide) (by decide)
      (by decide)
    exact ⟨frame, f1, h1, h2.2 ⟨_, _, rfl, by decide⟩⟩
  · obtain ⟨frame, f1, h1, h2, _⟩ := C30_velocities_by_first_line
      { Trajectory_new with nAtoms := 2 } ⟨exampleMixedGroSwapped, 0⟩ false none "c".toList
      "    2".toList exampleMixedAtoms.reverse "   0.00000   0.00000   0.00000\n".toList
      (by decide) (by decide) (by decide) (by decide) (by decide) (by decide) (by decide)
      (by decide)
    refine ⟨frame, f1, h1, ?_⟩
    cases hv : frame.velocities.isSome with
    | false => rfl
    | true =>
      obtain ⟨l, rest, hl, hlen⟩ := h2.1 hv
      have hl2 : exampleMixedAtoms.reverse
          = ["    1         H    2   0.014   0.070  -0.040".toList,
            "    1         O    1   0.033  -0.067   0.000  0.3333 -0.1429  0.0000".toList] := by
        decide
      rw [hl2] at hl
      simp only [List.cons.injEq] at hl
      rw [← hl.1] at hlen
      exact absurd hlen (by decide)

end MDArray

namespace MDArray

/-- C31, at the failing inputs.  The compressed file `t.xtc` holds one atom at
(25, 5, -5) Angstrom.  A read with wrap = false does not return these coordinates: every
atom is handed to the wrap operation together with the array `wrapBox`, which is filled only
when wrapping was requested, so the result depends on what the array happens to hold
((5, 5, 5) for 10, 10, 10 and (4, 5, 2) for 7, 7, 7).  On the generic-format file
`water.xyz` a read with wrap = true and no box does not end with an error: it releases the
result dictionary before the dictionary was created, which is undefined.  A read of that
file with wrap = false returns the coordinates of the file. -/
theorem C31_wrap_only_on_request :
    (exampleXtcSession.type = FileType.XTC ∧ exampleXtcSession.nAtoms = 1 ∧
      exampleXtcFile.records.map
          (fun r => r.x.map (fun c => ARRAY_REAL.mul c ARRAY_REAL.ten))
        = [[⟨250, 10⟩, ⟨50, 10⟩, ⟨-50, 10⟩]]) ∧
    frameCoordinates (Trajectory_read exampleXtcEnv exampleXtcSession ⟨false, none⟩).1
      = some [⟨50, 10⟩, ⟨50, 10⟩, ⟨50, 10⟩] ∧
    frameCoordinates (Trajectory_read exampleXtcEnvSeven exampleXtcSession ⟨false, none⟩).1
      = some [⟨40, 10⟩, ⟨50, 10⟩, ⟨20, 10⟩] ∧
    (Trajectory_read exampleEnv exampleReadSession ⟨true, none⟩).1 = Res.fault ∧
    frameCoordinates (Trajectory_read exampleEnv exampleReadSession ⟨false, none⟩).1
      = some [⟨0, 10⟩, ⟨0, 10⟩, ⟨1, 10⟩, ⟨0, 10⟩, ⟨7, 10⟩, ⟨-4, 10⟩, ⟨0, 10⟩, ⟨-7, 10⟩,
          ⟨-4, 10⟩] := by
  decide

end MDArray

namespace MDArray

set_option maxRecDepth 100000 in
/-- C32, at the failing input.  The table of a scanned session has the 50 slots 0..49, and
the store of a header with the running count 50 lies outside it whatever the line is.  The
scan reaches that store: on a file of 52 section headers the count is compared with the
maximum only after the 51st header was stored, so the scan ends in the store past the table
and not in the error return, while a file of 49 headers is scanned and counted. -/
theorem C32_store_past_table :
    (read_molden_sections Trajectory_new ⟨exampleSections 49, 0⟩).2.moldenSect.length = 50 ∧
    (∀ (s : Trajectory) (line : List Char) (filepos : Nat),
      molden_section_header s line filepos MAX_MOLDEN_SECTIONS = none) ∧
    (moldenHeaders ⟨exampleSections 52, 0⟩).length = 52 ∧
    (read_molden_sections Trajectory_new ⟨exampleSections 52, 0⟩).1 = Res.fault ∧
    (read_molden_sections Trajectory_new ⟨exampleSections 52, 0⟩).1 ≠ Res.error none ∧
    (read_molden_sections Trajectory_new ⟨exampleSections 49, 0⟩).1 = Res.ok 49 := by
  have hf := read_molden_sections_overflow Trajectory_new ⟨exampleSections 52, 0⟩ (by decide)
  refine ⟨by decide, ?_, by decide, hf, ?_, by decide⟩
  · intro s line filepos
    unfold molden_section_header
    cases indexOfBracket line with
    | none => rfl
    | some i => simp
  · rw [hf]
    exact fun h => Res.noConfusion h

end MDArray

namespace MDArray

/-- The name of the coordinate section of a style is not empty. -/
theorem styleSection_ne_nil (st : MoldenStyle) : styleSection st ≠ [] := by
  cases st <;> decide

/-- A style other than UNKNOWN is resolved from a set of names that holds the name of its
coordinate section. -/
theorem resolvedStyle_mem (names : List (List Char))
    (h : resolvedStyle names ≠ MoldenStyle.MLUNK) :
    styleSection (resolvedStyle names) ∈ names := by
  unfold resolvedStyle at h ⊢
  by_cases hg : "geometries".toList ∈ names
  · rw [if_pos hg]
    exact hg
  · rw [if_neg hg] at h ⊢
    by_cases ha : "atoms".toList ∈ names
    · rw [if_pos ha]
      exact ha
    · rw [if_neg ha] at h ⊢
      by_cases hq : "fr-coord".toList ∈ names
      · rw [if_pos hq]
        exact hq
      · rw [if_neg hq] at h
        exact absurd rfl h

/-- The search of `get_section_idx` in a table of 50 slots that holds the name: the result
is the first slot with that name. -/
theorem get_section_idx_first (s : Trajectory) (name : List Char)
    (hlen : s.moldenSect.length = MAX_MOLDEN_SECTIONS)
    (hex : ∃ sec ∈ s.moldenSect, sec.name = name) :
    ∃ idx sec, get_section_idx s name = some idx ∧ idx < MAX_MOLDEN_SECTIONS ∧
      s.moldenSect.get? idx = some sec ∧ sec.name = name ∧
      ∀ j sec2, j < idx → s.moldenSect.get? j = some sec2 → sec2.name ≠ name := by
  have htake : s.moldenSect.take MAX_MOLDEN_SECTIONS = s.moldenSect :=
    List.take_of_length_le (le_of_eq hlen)
  obtain ⟨sec0, hmem, hname⟩ := hex
  have hlt : s.moldenSect.findIdx (fun sec => decide (sec.name = name)) < s.moldenSect.length :=
    List.findIdx_lt_length_of_exists ⟨sec0, hmem, by simpa using hname⟩
  refine ⟨s.moldenSect.findIdx (fun sec => decide (sec.name = name)),
    s.moldenSect.get ⟨_, hlt⟩, ?_, ?_, ?_, ?_, ?_⟩
  · unfold get_section_idx
    simp only [htake]
    rw [if_pos hlt]
  · rw [← hlen]
    exact hlt
  · exact List.get?_eq_get hlt
  · have h := List.findIdx_getElem (w := hlt)
    simpa using h
  · intro j sec2 hj hget
    have h := List.not_of_lt_findIdx hj
    rw [List.get?_eq_some] at hget
    obtain ⟨hjl, hj2⟩ := hget
    have h3 : s.moldenSect.get ⟨j, hjl⟩ = s.moldenSect[j] := rfl
    rw [h3] at hj2
    rw [hj2] at h
    simpa using h

/-- C33. After a successful section scan on a fresh session whose resolved style S is not
UNKNOWN, `get_section_idx` with the section name of S (geometries, atoms or fr-coord) does
not return -1: it returns an index below the number of sections, the header of that index
in the file carries the name, the slot of that index holds the offset of that header and
the name, and no slot before it carries the name.  So the branch `Could not find section`
of `read_topo_from_molden` is not taken, and of several sections with the name the first
in the file is used. -/
theorem C33_style_section_found (s : Trajectory) (f : FILE) (n : Nat) (s1 : Trajectory)
    (hfresh : s.moldenStyle = MoldenStyle.MLUNK)
    (hscan : read_molden_sections s f = (Res.ok n, s1))
    (hstyle : s1.moldenStyle ≠ MoldenStyle.MLUNK) :
    ∃ idx p, get_section_idx s1 (styleSection s1.moldenStyle) = some idx ∧ idx < n ∧
      (moldenHeaders f).get? idx = some p ∧
      sectionName p.2 = styleSection s1.moldenStyle ∧
      s1.moldenSect.get? idx = some ⟨(p.1 : Int), styleSection s1.moldenStyle⟩ ∧
      (∀ j q, j < idx → (moldenHeaders f).get? j = some q →
        sectionName q.2 ≠ styleSection s1.moldenStyle) ∧
      (∀ j sec, j < idx → s1.moldenSect.get? j = some sec →
        sec.name ≠ styleSection s1.moldenStyle) := by
  obtain ⟨hn, hn50, hst, hlen, hrec, hrest, _, _, _⟩ := read_molden_sections_ok s f n s1 hscan
  rw [hfresh, foldl_styleStep_unk] at hst
  have hmem : styleSection s1.moldenStyle
      ∈ (moldenHeaders f).map (fun p => sectionName p.2) := by
    rw [hst]
    exact resolvedStyle_mem _ (by rw [← hst]; exact hstyle)
  obtain ⟨p0, hp0, hp0n⟩ := List.mem_map.1 hmem
  obtain ⟨k0, hk0⟩ := List.mem_iff_get?.1 hp0
  have hex : ∃ sec ∈ s1.moldenSect, sec.name = styleSection s1.moldenStyle :=
    ⟨⟨(p0.1 : Int), sectionName p0.2⟩, List.get?_mem (hrec k0 p0 hk0), hp0n⟩
  obtain ⟨idx, sec, hidx, hi50, hget, hname, hfirst⟩ :=
    get_section_idx_first s1 (styleSection s1.moldenStyle) hlen hex
  have hin : idx < n := by
    by_contra hge
    have h2 := hrest idx (Nat.le_of_not_lt hge) hi50
    rw [hget] at h2
    have h3 : sec.name = [] := by
      have := Option.some.inj h2
      rw [this]
    rw [h3] at hname
    exact styleSection_ne_nil _ hname.symm
  have hlt : idx < (moldenHeaders f).length := by rw [← hn]; exact hin
  have hp : (moldenHeaders f).get? idx = some ((moldenHeaders f).get ⟨idx, hlt⟩) :=
    List.get?_eq_get hlt
  have hslot := hrec idx _ hp
  have hsec : sec = ⟨(((moldenHeaders f).get ⟨idx, hlt⟩).1 : Int),
      sectionName ((moldenHeaders f).get ⟨idx, hlt⟩).2⟩ := by
    rw [hget] at hslot
    exact Option.some.inj hslot
  have hpn : sectionName ((moldenHeaders f).get ⟨idx, hlt⟩).2
      = styleSection s1.moldenStyle := by
    rw [hsec] at hname
    exact hname
  refine ⟨idx, (moldenHeaders f).get ⟨idx, hlt⟩, hidx, hin, hp, hpn, ?_, ?_, hfirst⟩
  · rw [hslot, hpn]
  · intro j q hj hq
    exact hfirst j ⟨(q.1 : Int), sectionName q.2⟩ hj (hrec j q hq)

end MDArray

namespace MDArray

/-- C34, at the failing input.  The files `before.molden` and `after.molden` hold the same
section GEOMETRIES (one atom at z = 1.0) and the same section FR-COORD, in the two orders;
both are opened without a unit hint and both resolve to the style GEOMETRIES.  With the
section FR-COORD in front, the scan sets the unit BOHR while the style is still
undecided and the later section GEOMETRIES does not set it back: the session unit is BOHR
and the frame has z = 8878121 / 2 ^ 24 (the constant 0.529177249 held in the `float`
factor, 0.52917725 in print).  With the section FR-COORD behind, the unit stays ANGS and the
frame has z = 1.0.  When the winning section is ATOMS its own header line
sets the unit, and the two orders agree. -/
theorem C34_frcoord_position_changes_unit :
    ((Trajectory_init exampleEnv exampleOrderFs Trajectory_new
        (openForReading "before.molden".toList)).1 = Res.ok () ∧
      (Trajectory_init exampleEnv exampleOrderFs Trajectory_new
        (openForReading "after.molden".toList)).1 = Res.ok ()) ∧
    ((exampleOrderSession "before.molden".toList).moldenStyle = MoldenStyle.MLGEOM ∧
      (exampleOrderSession "after.molden".toList).moldenStyle = MoldenStyle.MLGEOM) ∧
    ((exampleOrderSession "before.molden".toList).units = Units.BOHR ∧
      (exampleOrderSession "after.molden".toList).units = Units.ANGS) ∧
    (frameCoordinates (Trajectory_read exampleEnv (exampleOrderSession "before.molden".toList)
        ⟨false, none⟩).1
        = some [⟨0, 167772160⟩, ⟨0, 167772160⟩, ⟨88781210, 167772160⟩] ∧
      frameCoordinates (Trajectory_read exampleEnv (exampleOrderSession "after.molden".toList)
        ⟨false, none⟩).1 = some [⟨0, 10⟩, ⟨0, 10⟩, ⟨10, 10⟩]) ∧
    ((exampleOrderSession "before_atoms.molden".toList).moldenStyle = MoldenStyle.MLATOMS ∧
      (exampleOrderSession "before_atoms.molden".toList).units = Units.ANGS ∧
      (exampleOrderSession "after_atoms.molden".toList).units = Units.ANGS) := by
  decide

end MDArray

namespace MDArray

set_option maxRecDepth 100000 in
/-- C33, witness: the file with two sections ATOMS scans to three headers and the style
ATOMS, and the search for `atoms` returns the index 1 of the first of them. -/
theorem C33_style_section_found_witness :
    (read_molden_sections Trajectory_new ⟨exampleTwiceFile, 0⟩).1 = Res.ok 3 ∧
    get_section_idx (read_molden_sections Trajectory_new ⟨exampleTwiceFile, 0⟩).2
      "atoms".toList = some 1 ∧
    ∃ idx p,
      get_section_idx (read_molden_sections Trajectory_new ⟨exampleTwiceFile, 0⟩).2
        (styleSection (read_molden_sections Trajectory_new ⟨exampleTwiceFile, 0⟩).2.moldenStyle)
        = some idx ∧ idx < 3 ∧
      (moldenHeaders ⟨exampleTwiceFile, 0⟩).get? idx = some p ∧
      sectionName p.2
        = styleSection (read_molden_sections Trajectory_new ⟨exampleTwiceFile, 0⟩).2.moldenStyle ∧
      (read_molden_sections Trajectory_new ⟨exampleTwiceFile, 0⟩).2.moldenSect.get? idx
        = some ⟨(p.1 : Int),
            styleSection (read_molden_sections Trajectory_new ⟨exampleTwiceFile, 0⟩).2.moldenStyle⟩ ∧
      (∀ j q, j < idx → (moldenHeaders ⟨exampleTwiceFile, 0⟩).get? j = some q →
        sectionName q.2
          ≠ styleSection (read_molden_sections Trajectory_new ⟨exampleTwiceFile, 0⟩).2.moldenStyle) ∧
      (∀ j sec, j < idx →
        (read_molden_sections Trajectory_new ⟨exampleTwiceFile, 0⟩).2.moldenSect.get? j = some sec →
        sec.name
          ≠ styleSection (read_molden_sections Trajectory_new ⟨exampleTwiceFile, 0⟩).2.moldenStyle) :=
  ⟨by decide, by decide,
    C33_style_section_found Trajectory_new ⟨exampleTwiceFile, 0⟩ 3
      (read_molden_sections Trajectory_new ⟨exampleTwiceFile, 0⟩).2 rfl (by decide) (by decide)⟩

end MDArray

namespace MDArray

end MDArray

namespace MDArray

end MDArray

namespace MDArray

end MDArray

namespace MDArray

end MDArray

namespace MDArray

/-- A cell line of at most 31 bytes is read as a box whose six off-diagonal elements
are 0. -/
theorem groBox_short (cell : List Char) (hlen : (cstr cell).length ≤ 31) (i j : Nat)
    (hi : i < 3) (hj : j < 3) (hij : i ≠ j) :
    (groBox cell).get? (3 * i + j) = some ARRAY_REAL.zero := by
  have h1 : ¬ 31 < (cstr cell).length := by omega
  have h2 : ¬ 41 < (cstr cell).length := by omega
  have h3 : ¬ 51 < (cstr cell).length := by omega
  have h4 : ¬ 61 < (cstr cell).length := by omega
  have h5 : ¬ 71 < (cstr cell).length := by omega
  have h6 : ¬ 81 < (cstr cell).length := by omega
  interval_cases i <;> interval_cases j <;> first
    | exact absurd rfl hij
    | simp [groBox, groBoxField, h1, h2, h3, h4, h5, h6]

end MDArray

namespace MDArray

end MDArray

namespace MDArray

end MDArray

namespace MDArray

end MDArray

namespace MDArray

/-- The dispatch of a read on a text format never returns the end of the stream: that is
decided by the pre-check alone. -/
theorem Trajectory_read_frame_text (env : Env) (s : Trajectory) (w : Bool)
    (b : Option (List ARRAY_REAL))
    (hty : s.type = FileType.XYZ ∨ s.type = FileType.GRO ∨ s.type = FileType.MOLDEN) :
    (Trajectory_read_frame env s w b).1 ≠ Res.ok none := by
  unfold Trajectory_read_frame
  rcases hty with h | h | h
  · simp only [h]
    cases s.fd with
    | none => simp
    | some f =>
      dsimp only
      generalize read_frame_from_xyz env s f w b = L
      obtain ⟨r, f1⟩ := L
      rcases r with fr | e | _ <;> simp
  · simp only [h]
    cases s.fd with
    | none => simp
    | some f =>
      dsimp only
      generalize read_frame_from_gro s f w b = L
      obtain ⟨r, f1⟩ := L
      rcases r with fr | e | _ <;> simp
  · simp only [h]
    cases s.fd with
    | none => simp
    | some f =>
      dsimp only
      generalize read_frame_from_xyz env s f w b = L
      obtain ⟨r, f1⟩ := L
      rcases r with fr | e | _ <;> simp

/-- On a generic-format or fixed-column session a read that returns the end of the stream
leaves the whole session as it was, so the same read returns the end of the stream
again. -/
theorem Trajectory_read_eos_stable (env : Env) (s : Trajectory) (a : ReadArgs)
    (hty : s.type = FileType.XYZ ∨ s.type = FileType.GRO)
    (h : (Trajectory_read env s a).1 = Res.ok none) :
    Trajectory_read env s a = (Res.ok none, s) := by
  have hx : s.type ≠ FileType.XTC := by
    rcases hty with e | e <;> rw [e] <;> decide
  have hm : ¬ s.type = FileType.MOLDEN := by
    rcases hty with e | e <;> rw [e] <;> decide
  unfold Trajectory_read at h ⊢
  by_cases hmode : s.mode ≠ 'r'
  · rw [if_pos hmode] at h
    simp at h
  · rw [if_neg hmode] at h ⊢
    cases hargs : Trajectory_read_args a with
    | error e => rw [hargs] at h; simp at h
    | fault => rw [hargs] at h; simp at h
    | ok boxptr =>
      rw [hargs] at h
      dsimp only at h ⊢
      unfold Trajectory_read_peek at h ⊢
      rw [if_pos hx] at h ⊢
      cases hfd : s.fd with
      | none => rw [hfd] at h; simp at h
      | some f =>
        rw [hfd] at h
        dsimp only at h ⊢
        cases hl : f.getline with
        | none => rfl
        | some p =>
          obtain ⟨buffer, f1⟩ := p
          rw [hl] at h
          dsimp only at h
          rw [if_neg (fun hc => hm hc.1)] at h
          exact absurd h (Trajectory_read_frame_text env _ a.wrap boxptr
            (by rcases hty with e | e
                · exact Or.inl e
                · exact Or.inr (Or.inl e)))

set_option maxRecDepth 100000 in
/-- C37, at the failing input.  The file `two.molden` holds one frame in its section
GEOMETRIES and then the section `[FREQ]` with three more lines.  The first read returns the
frame, the second returns the end of the stream, and the third read does not: it returns a
frame made of the lines of the section `[FREQ]` (the atom at 9, 9, 9) and moves the frame
counter from 0 to 1; the fourth read returns the end of the stream again.  On the
generic-format file `water.xyz` the reads behind the one frame all return the end of the
stream and the frame counter stays at 0. -/
theorem C37_end_of_stream_not_stable :
    (readMany exampleEnv ⟨false, none⟩ 4 exampleTwoSectionSession).1.map readOutcome
      = [some true, some false, some true, some false] ∧
    ((afterReads exampleEnv exampleTwoSectionSession 1).lastFrame = 0 ∧
      (afterReads exampleEnv exampleTwoSectionSession 2).lastFrame = 0 ∧
      (afterReads exampleEnv exampleTwoSectionSession 3).lastFrame = 1) ∧
    frameCoordinates (Trajectory_read exampleEnv
        (afterReads exampleEnv exampleTwoSectionSession 2) ⟨false, none⟩).1
      = some [⟨90, 10⟩, ⟨90, 10⟩, ⟨90, 10⟩] ∧
    (readMany exampleEnv ⟨false, none⟩ 4 exampleReadSession).1.map readOutcome
      = [some true, some false, some false, some false] ∧
    ((afterReads exampleEnv exampleReadSession 1).lastFrame = 0 ∧
      (afterReads exampleEnv exampleReadSession 4).lastFrame = 0) := by
  decide

end MDArray

namespace MDArray

/-- C38, at the failing input.  For the names `ab`, `xyz` and the empty name the address
`filename + strlen(filename) - 4` from which the extension is copied lies before the
first byte of the name, so there is no suffix to compare, and `Trajectory('ab')` runs
into the read before the name instead of falling through to the look at the first line:
it does so when no such file exists and also when `ab` is a sectioned file, which under
the four-character name `abcd` is recognised by its first line.  A name of four characters
or more has its suffix inside the name. -/
theorem C38_short_name_extension :
    (extension "ab".toList = none ∧ extension "xyz".toList = none ∧
      extension [] = none ∧ extension "abcd".toList = some "abcd".toList ∧
      extension "a.xyz".toList = some ".xyz".toList) ∧
    (Trajectory_init exampleEnv exampleFs Trajectory_new (openForReading "ab".toList)).1
      = Res.fault ∧
    (Trajectory_init exampleEnv (exampleFs.store "ab".toList exampleMoldenFile) Trajectory_new
      (openForReading "ab".toList)).1 = Res.fault ∧
    ((Trajectory_init exampleEnv (exampleFs.store "abcd".toList exampleMoldenFile)
        Trajectory_new (openForReading "abcd".toList)).1 = Res.ok () ∧
      (Trajectory_init exampleEnv (exampleFs.store "abcd".toList exampleMoldenFile)
        Trajectory_new (openForReading "abcd".toList)).2.1.type = FileType.MOLDEN) ∧
    (Trajectory_init exampleEnv exampleFs Trajectory_new (openForReading "abcd".toList)).1
      = Res.error (some PyExc.IOError) := by
  decide

end MDArray

namespace MDArray

/-- C39, at the failing input.  The reader of the generic format drops the last
character of every line it reads, whatever that character is.  On a file whose last line
has no newline the character dropped is a character of the data: the extra value 0.55
reads as 0.5, the coordinate 1.25 reads as 1.2, the line `He 0 0 1` loses its third
coordinate and the read fails where the terminated file gives a frame, and the open of a
file that ends in the symbol `He` records the symbol `H` with the atomic number 1.  The
same files with the newline in place read as written. -/
theorem C39_last_line_without_newline :
    (frameExtra (firstReadOn "1\nc\nH 0.0 0.0 1.25 0.55\n".toList) = some [⟨55, 100⟩] ∧
      frameExtra (firstReadOn "1\nc\nH 0.0 0.0 1.25 0.55".toList) = some [⟨5, 10⟩]) ∧
    (frameCoordinates (firstReadOn "1\nc\nH 0.0 0.0 1.25\n".toList)
        = some [⟨0, 10⟩, ⟨0, 10⟩, ⟨125, 100⟩] ∧
      frameCoordinates (firstReadOn "1\nc\nH 0.0 0.0 1.25".toList)
        = some [⟨0, 10⟩, ⟨0, 10⟩, ⟨12, 10⟩]) ∧
    (readOutcome (firstReadOn "1\nc\nHe 0 0 1\n".toList) = some true ∧
      firstReadOn "1\nc\nHe 0 0 1".toList = Res.error (some PyExc.IOError)) ∧
    ((openOn "1\nc\nHe\n".toList).1 = Res.ok () ∧
      (openOn "1\nc\nHe\n".toList).2.1.symbols = PyObject.PList [some "He".toList] ∧
      (openOn "1\nc\nHe\n".toList).2.1.aNumbers = PyObject.IntArray [2]) ∧
    ((openOn "1\nc\nHe".toList).1 = Res.ok () ∧
      (openOn "1\nc\nHe".toList).2.1.symbols = PyObject.PList [some "H".toList] ∧
      (openOn "1\nc\nHe".toList).2.1.aNumbers = PyObject.IntArray [1]) := by
  decide

end MDArray

namespace MDArray

end MDArray

namespace MDArray

end MDArray

namespace MDArray

/-! ### The section scan with the unchecked store -/

/-- Inside the table the unchecked store is the store of `molden_section_header`. -/
theorem molden_section_header_unchecked_eq (s : Trajectory) (line : List Char) (p nsec : Nat)
    (hn : nsec < MAX_MOLDEN_SECTIONS) :
    molden_section_header_unchecked s line p nsec = molden_section_header s line p nsec := by
  unfold molden_section_header_unchecked molden_section_header
  cases indexOfBracket line with
  | none => rfl
  | some i =>
    dsimp only
    have hiff : (256 ≤ i - 1 ∨ 20 ≤ i - 1 ∨ MAX_MOLDEN_SECTIONS ≤ nsec)
        ↔ (256 ≤ i - 1 ∨ 20 ≤ i - 1) := by
      constructor
      · rintro (h | h | h)
        · exact Or.inl h
        · exact Or.inr h
        · omega
      · rintro (h | h)
        · exact Or.inl h
        · exact Or.inr (Or.inl h)
    simp only [hiff]

/-- A header with a closing bracket and a name shorter than 20 bytes passes the unchecked
store, whatever the running count. -/
theorem molden_section_header_unchecked_ok (s : Trajectory) (raw : List Char) (pos nsec : Nat)
    (hok : headerOk raw = true) :
    ∃ s1, molden_section_header_unchecked s (moldenLine raw) pos nsec = some s1 := by
  unfold headerOk at hok
  unfold molden_section_header_unchecked
  cases hi : indexOfBracket (moldenLine raw) with
  | none => rw [hi] at hok; simp at hok
  | some i =>
    rw [hi] at hok
    simp only [decide_eq_true_eq] at hok
    dsimp only
    have hc : ¬ (256 ≤ i - 1 ∨ 20 ≤ i - 1) := by omega
    rw [if_neg hc]
    split
    · exact ⟨_, rfl⟩
    · split
      · exact ⟨_, rfl⟩
      · split
        · exact ⟨_, rfl⟩
        · exact ⟨_, rfl⟩

/-- A scanning loop that comes to its end with all stores inside the table is the loop with
the unchecked store. -/
theorem read_molden_sections_loop_unchecked_eq (fuel : Nat) :
    ∀ (s : Trajectory) (f : FILE) (p nsec n : Nat) (s1 : Trajectory) (f1 : FILE),
      read_molden_sections_loop fuel s f p nsec = (Res.ok n, s1, f1) →
      read_molden_sections_loop_unchecked fuel s f p nsec = (Res.ok n, s1, f1) := by
  induction fuel with
  | zero =>
    intro s f p nsec n s1 f1 h
    exact h
  | succ fuel ih =>
    intro s f p nsec n s1 f1 h
    rw [read_molden_sections_loop] at h
    rw [read_molden_sections_loop_unchecked]
    cases hg : f.getline with
    | none => rw [hg] at h; exact h
    | some pr =>
      obtain ⟨raw, g⟩ := pr
      rw [hg] at h
      dsimp only at h ⊢
      by_cases hh : (make_lowercase (stripline (cstr raw))).head? = some '['
      · rw [if_pos hh] at h ⊢
        cases hm : molden_section_header s (make_lowercase (stripline (cstr raw))) p nsec with
        | none => rw [hm] at h; simp at h
        | some s2 =>
          rw [hm] at h
          dsimp only at h
          have hlt := (molden_section_header_some s s2 _ p nsec hm).1
          rw [molden_section_header_unchecked_eq s _ p nsec hlt, hm]
          dsimp only
          have hnot : ¬ (MAX_MOLDEN_SECTIONS < nsec + 1) := by omega
          rw [if_neg hnot] at h ⊢
          exact ih _ _ _ _ _ _ _ h
      · rw [if_neg hh] at h ⊢
        exact ih _ _ _ _ _ _ _ h

/-- With more headers ahead than the table has room for, the first of them in good order up
to the one that exceeds the maximum, the loop with the unchecked store returns -1. -/
theorem read_molden_sections_loop_unchecked_overflow (fuel : Nat) :
    ∀ (s : Trajectory) (f : FILE) (nsec : Nat), nsec ≤ MAX_MOLDEN_SECTIONS →
      MAX_MOLDEN_SECTIONS < nsec + (headersFrom fuel f).length →
      (∀ p ∈ (headersFrom fuel f).take (MAX_MOLDEN_SECTIONS + 1 - nsec), headerOk p.2 = true) →
      (read_molden_sections_loop_unchecked fuel s f f.ftell nsec).1 = Res.error none := by
  induction fuel with
  | zero =>
    intro s f nsec hn hover _
    have he : headersFrom 0 f = [] := rfl
    rw [he] at hover
    simp only [List.length_nil] at hover
    omega
  | succ fuel ih =>
    intro s f nsec hn hover hok
    rw [read_molden_sections_loop_unchecked]
    cases hg : f.getline with
    | none =>
      rw [headersFrom_eof fuel f hg] at hover
      simp only [List.length_nil] at hover
      omega
    | some pr =>
      obtain ⟨raw, g⟩ := pr
      dsimp only
      rw [headersFrom_succ fuel f g raw hg] at hover hok
      by_cases hh : (make_lowercase (stripline (cstr raw))).head? = some '['
      · rw [if_pos hh]
        have hH : isHeader raw = true := (isHeader_iff raw).2 hh
        rw [if_pos hH] at hover hok
        simp only [List.singleton_append, List.length_cons] at hover
        obtain ⟨k, hk⟩ : ∃ k, MAX_MOLDEN_SECTIONS + 1 - nsec = k + 1 :=
          ⟨MAX_MOLDEN_SECTIONS - nsec, by omega⟩
        rw [hk] at hok
        simp only [List.singleton_append, List.take_succ_cons, List.mem_cons] at hok
        obtain ⟨s2, hs2⟩ := molden_section_header_unchecked_ok s raw f.ftell nsec
          (hok (f.ftell, raw) (Or.inl rfl))
        have hs3 : molden_section_header_unchecked s (make_lowercase (stripline (cstr raw)))
            f.ftell nsec = some s2 := hs2
        rw [hs3]
        dsimp only
        by_cases hfull : MAX_MOLDEN_SECTIONS < nsec + 1
        · rw [if_pos hfull]
        · rw [if_neg hfull]
          refine ih s2 g (nsec + 1) (by omega) (by omega) ?_
          intro p hp
          have hk2 : MAX_MOLDEN_SECTIONS + 1 - (nsec + 1) = k := by omega
          rw [hk2] at hp
          exact hok p (Or.inr hp)
      · rw [if_neg hh]
        have hH : ¬ (isHeader raw = true) := fun e => hh ((isHeader_iff raw).1 e)
        rw [if_neg hH, List.nil_append] at hover hok
        exact ih s g nsec hn hover hok

/-- A section scan that succeeds with all stores inside the table is the scan with the
unchecked store. -/
theorem read_molden_sections_unchecked_eq (s : Trajectory) (f : FILE) (n : Nat)
    (s1 : Trajectory) (h : read_molden_sections s f = (Res.ok n, s1)) :
    read_molden_sections_unchecked s f = (Res.ok n, s1) := by
  unfold read_molden_sections at h
  unfold read_molden_sections_unchecked
  dsimp only at h ⊢
  generalize hL : read_molden_sections_loop (f.rewind.content.length + 1)
    { s with moldenSect := List.replicate MAX_MOLDEN_SECTIONS ⟨-1, []⟩ } f.rewind
    f.rewind.ftell 0 = L at h
  obtain ⟨r, s2, f2⟩ := L
  rcases r with m | e | _
  · rw [read_molden_sections_loop_unchecked_eq _ _ _ _ _ _ _ _ hL]
    exact h
  · simp at h
  · simp at h

/-- On a file with more than 50 section headers, the first 51 in good order, the scan with
the unchecked store returns -1. -/
theorem read_molden_sections_unchecked_overflow (s : Trajectory) (f : FILE)
    (h : MAX_MOLDEN_SECTIONS < (moldenHeaders f).length)
    (hok : ∀ p ∈ (moldenHeaders f).take (MAX_MOLDEN_SECTIONS + 1), headerOk p.2 = true) :
    (read_molden_sections_unchecked s f).1 = Res.error none := by
  unfold read_molden_sections_unchecked
  dsimp only
  have h2 := read_molden_sections_loop_unchecked_overflow (f.rewind.content.length + 1)
    { s with moldenSect := List.replicate MAX_MOLDEN_SECTIONS ⟨-1, []⟩ } f.rewind 0
    (by decide) (by simpa using h) hok
  generalize read_molden_sections_loop_unchecked _ _ _ _ _ = L at h2 ⊢
  obtain ⟨r, s2, f2⟩ := L
  rcases r with m | e2 | _
  · simp at h2
  · exact h2
  · simp at h2

/-- C17. The value `read_molden_sections` returns, for every session and every file whose
first 51 section headers (lines that begin with `[` after stripping) have a closing bracket
and a name shorter than the 20 bytes of its field.  The scan, run with the store of the
compiled code (`read_molden_sections_unchecked`), returns -1 if and only if the file has
more than `MAX_MOLDEN_SECTIONS` (50) headers.  With at most 50 headers no store leaves the
table, the scan is the scan of `read_molden_sections`, it returns the number of headers, has
recorded in slot `k` of the table the offset and the name of the header number `k` in file
order, and leaves the stream at the start of the file. -/
theorem C17_section_count (s : Trajectory) (f : FILE)
    (hok : ∀ p ∈ (moldenHeaders f).take (MAX_MOLDEN_SECTIONS + 1), headerOk p.2 = true) :
    ((read_molden_sections_unchecked s f).1 = Res.error none
      ↔ MAX_MOLDEN_SECTIONS < (moldenHeaders f).length) ∧
    ((moldenHeaders f).length ≤ MAX_MOLDEN_SECTIONS →
      read_molden_sections_unchecked s f = read_molden_sections s f ∧
      (read_molden_sections_unchecked s f).1 = Res.ok (moldenHeaders f).length ∧
      (∀ k p, (moldenHeaders f).get? k = some p →
        (read_molden_sections_unchecked s f).2.moldenSect.get? k
          = some ⟨(p.1 : Int), sectionName p.2⟩) ∧
      (read_molden_sections_unchecked s f).2.fd = some ⟨f.content, 0⟩) := by
  have hroom : (moldenHeaders f).length ≤ MAX_MOLDEN_SECTIONS →
      ∃ s1, read_molden_sections s f = (Res.ok (moldenHeaders f).length, s1) ∧
        read_molden_sections_unchecked s f = (Res.ok (moldenHeaders f).length, s1) := by
    intro hle
    have hall : ∀ p ∈ moldenHeaders f, headerOk p.2 = true := by
      intro p hp
      apply hok p
      rw [List.take_of_length_le (by omega)]
      exact hp
    obtain ⟨s1, hs1⟩ := read_molden_sections_succeeds s f hle hall
    exact ⟨s1, hs1, read_molden_sections_unchecked_eq s f _ s1 hs1⟩
  refine ⟨⟨?_, fun h => read_molden_sections_unchecked_overflow s f h hok⟩, ?_⟩
  · intro herr
    by_contra hle
    obtain ⟨s1, _, hs1⟩ := hroom (by omega)
    rw [hs1] at herr
    exact absurd herr (by simp)
  · intro hle
    obtain ⟨s1, hfull, hs1⟩ := hroom hle
    obtain ⟨_, _, _, _, c5, _, c7, _⟩ := read_molden_sections_ok s f _ s1 hfull
    rw [hs1, hfull]
    exact ⟨rfl, rfl, c5, c7⟩

set_option maxRecDepth 100000 in
/-- C17, witness: on a file of 51 section headers `[s]` the scan returns -1, and on a file
of 50 it returns 50. -/
theorem C17_section_count_witness :
    (moldenHeaders ⟨exampleSections 51, 0⟩).length = 51 ∧
    (read_molden_sections_unchecked Trajectory_new ⟨exampleSections 51, 0⟩).1
      = Res.error none ∧
    (read_molden_sections_unchecked Trajectory_new ⟨exampleSections 50, 0⟩).1 = Res.ok 50 :=
  ⟨by decide,
    (C17_section_count Trajectory_new ⟨exampleSections 51, 0⟩ (by decide)).1.2 (by decide),
    ((C17_section_count Trajectory_new ⟨exampleSections 50, 0⟩ (by decide)).2
      (by decide)).2.1.trans (by decide)⟩

end MDArray

namespace MDArray

/-! ### The unit of a sectioned session after the open -/

/-- The open stage does not return 0 on the sectioned format in the modes `w` and `a`. -/
theorem Trajectory_init_open_molden_mode (env : Env) (fs : FileSystem) (s : Trajectory)
    (v : InitVars) (hty : s.type = FileType.MOLDEN)
    (hmode : s.mode = 'r' ∨ s.mode = 'w' ∨ s.mode = 'a')
    (hok : (Trajectory_init_open env fs s v).1 = Res.ok ()) : s.mode = 'r' := by
  by_contra hr
  have hwa : s.mode = 'w' ∨ s.mode = 'a' := by
    rcases hmode with h | h | h
    · exact absurd h hr
    · exact Or.inl h
    · exact Or.inr h
  unfold Trajectory_init_open at hok
  rw [if_pos hwa] at hok
  split at hok
  · simp at hok
  · split at hok
    · simp at hok
    · split at hok
      · simp at hok
      · simp only [hty] at hok
        simp at hok

/-- A successful open of a sectioned file: the sections were scanned from the session the
open stage started with, the topology reader returned 0 on the scanned session, and style
and unit of the session are those the topology reader left. -/
theorem Trajectory_init_molden_stages (env : Env) (fs : FileSystem) (self : Trajectory)
    (a : InitArgs) (hok : (Trajectory_init env fs self a).1 = Res.ok ())
    (hty : (Trajectory_init env fs self a).2.1.type = FileType.MOLDEN) :
    ∃ (s0 : Trajectory) (f g : FILE) (n : Nat) (s1 s2 : Trajectory),
      s0.moldenStyle = self.moldenStyle ∧
      read_molden_sections s0 f = (Res.ok n, s1) ∧
      s1.moldenStyle ≠ MoldenStyle.MLUNK ∧
      read_topo_from_molden env s1 g = (Res.ok (), s2) ∧
      (Trajectory_init env fs self a).2.1.moldenStyle = s2.moldenStyle ∧
      (Trajectory_init env fs self a).2.1.units = s2.units := by
  obtain ⟨v, ty, u, _, _, hmode, _, hinit⟩ := Trajectory_init_ok env fs self a hok
  rw [hinit] at hok hty ⊢
  rw [Trajectory_init_open_type] at hty
  have hty2 : ty = FileType.MOLDEN := hty
  subst hty2
  have hr := Trajectory_init_open_molden_mode env fs _ v rfl hmode hok
  obtain ⟨f, n, s1, hscan, hunk, hrouter, hres⟩ :=
    (Trajectory_init_open_read_ok env fs _ v hr hok).2 rfl
  have hfd := (read_molden_sections_ok _ f n s1 hscan).2.2.2.2.2.2.1
  have hty1 : s1.type = FileType.MOLDEN := by
    have h := read_molden_sections_type
      { self with fileName := some v.filename, mode := initMode v, type := FileType.MOLDEN,
                  units := u, symbols := v.py_sym.getD self.symbols,
                  resids := v.py_resid.getD self.resids,
                  resNames := v.py_resn.getD self.resNames, fd := some f } f
    rw [hscan] at h
    exact h
  obtain ⟨s2, htopo, hres2⟩ := (Trajectory_init_router_ok env fs s1 v _ hfd hrouter).2.2 hty1
  refine ⟨_, f, _, n, s1, s2, ?_, hscan, hunk, htopo, ?_, ?_⟩
  · rfl
  · rw [hres, hres2]
  · rw [hres, hres2]

/-- C15 (as amended). For every sectioned file whose resolved style is FR-COORD the unit
BOHR is forced: after a successful open of a fresh session (style still UNKNOWN, as
`Trajectory_new` leaves it) that ends with the format MOLDEN and the style FR-COORD, the
session unit is BOHR, whatever unit hint the caller gave and also when none was given. -/
theorem C15_frcoord_forces_bohr (env : Env) (fs : FileSystem) (self : Trajectory)
    (a : InitArgs) (hfresh : self.moldenStyle = MoldenStyle.MLUNK)
    (hok : (Trajectory_init env fs self a).1 = Res.ok ())
    (hty : (Trajectory_init env fs self a).2.1.type = FileType.MOLDEN)
    (hstyle : (Trajectory_init env fs self a).2.1.moldenStyle = MoldenStyle.MLFREQ) :
    (Trajectory_init env fs self a).2.1.units = Units.BOHR := by
  obtain ⟨s0, f, g, n, s1, s2, h0, hscan, _, htopo, hst, hun⟩ :=
    Trajectory_init_molden_stages env fs self a hok hty
  have hs2 : s2 = (read_topo_from_molden env s1 g).2 := by rw [htopo]
  have hst1 : s1.moldenStyle = MoldenStyle.MLFREQ := by
    rw [← read_topo_from_molden_moldenStyle env s1 g, ← hs2, ← hst]
    exact hstyle
  have hu1 : s1.units = Units.BOHR :=
    read_molden_sections_frcoord_units s0 f n s1 (by rw [h0]; exact hfresh) hscan hst1
  rw [hun, hs2, read_topo_from_molden_frcoord_units env s1 g hst1]
  exact hu1

/-- C15, witness: `Trajectory('freq.molden', units='nm')` on the file of the examples, whose
one coordinate section is FR-COORD, succeeds with the unit BOHR. -/
theorem C15_frcoord_forces_bohr_witness :
    Trajectory_new.moldenStyle = MoldenStyle.MLUNK ∧
    (Trajectory_init exampleEnv exampleSectionedFs Trajectory_new
      (readArgsFor "freq.molden".toList none (some (PyObject.Str "nm".toList)))).1
      = Res.ok () ∧
    (Trajectory_init exampleEnv exampleSectionedFs Trajectory_new
      (readArgsFor "freq.molden".toList none (some (PyObject.Str "nm".toList)))).2.1.units
      = Units.BOHR :=
  ⟨rfl, by decide,
    C15_frcoord_forces_bohr exampleEnv exampleSectionedFs Trajectory_new
      (readArgsFor "freq.molden".toList none (some (PyObject.Str "nm".toList))) rfl
      (by decide) (by decide) (by decide)⟩

/-- C14 as written fails for the sectioned format: `Trajectory('au.molden', units='nm')` on a
file whose section header is `[Atoms] AU` succeeds, the unit selected in the open is NM, and
the session unit after the open is BOHR; opened with no unit hint the selected unit is ANGS
and the session unit after the open is BOHR as well. -/
theorem C14_counterexample :
    (Trajectory_init exampleEnv exampleSectionedFs Trajectory_new
      (readArgsFor "au.molden".toList none (some (PyObject.Str "nm".toList)))).1
      = Res.ok () ∧
    (Trajectory_init exampleEnv exampleSectionedFs Trajectory_new
      (readArgsFor "au.molden".toList none (some (PyObject.Str "nm".toList)))).2.1.type
      = FileType.MOLDEN ∧
    (Trajectory_init exampleEnv exampleSectionedFs Trajectory_new
      (readArgsFor "au.molden".toList none (some (PyObject.Str "nm".toList)))).2.1.units
      = Units.BOHR ∧
    Units.BOHR ≠ Units.NM ∧
    (Trajectory_init exampleEnv exampleSectionedFs Trajectory_new
      (readArgsFor "au.molden".toList none none)).1 = Res.ok () ∧
    (Trajectory_init exampleEnv exampleSectionedFs Trajectory_new
      (readArgsFor "au.molden".toList none none)).2.1.units = Units.BOHR ∧
    Units.BOHR ≠ Units.ANGS := by
  decide

end MDArray
